import Mathlib

/-!
# NDID smart contract: the handlers of `abci/app/v1/common.go`

A shallow embedding of the query handlers and the two mutations of
`common.go`, and theorems about them.

Modelling conventions.

* Go `string` and `[]byte` are both byte strings and are converted into each
  other freely by the source (`[]byte(key)`, `string(refGroupCodeFromDB)`);
  both are `String` here and the conversions are the identity.
* A `[]byte` result that may be `nil` (`state.Get`, the `value` argument of
  `ReturnQuery`) is an `Option`; `none` is `nil`.
* `float64` levels (IAL, AAL) are `ℚ`. Levels reach the ledger and the
  handlers through JSON numbers only, which are finite, and the handlers only
  compare them; the comparison of finite `float64` values is the order of the
  rationals they denote.
* `int32` and `int64` values are `Int`; the handlers only copy and compare
  them.
* `proto.Unmarshal` and `json.Unmarshal` belong to external libraries and are
  parameters, collected in `Codec`. `json.Marshal` of a result record is kept
  symbolic: the body of a response is the record itself (`QueryValue.json`).
  The result records hold strings, booleans, finite numbers and slices of
  these, on which `json.Marshal` does not fail, so the `err != nil` branch
  after each `json.Marshal` has no counterpart.
* A `for ... range` loop is a fold of its body over the list (`rangeAppend`);
  a body that can also `return` from the handler yields a `LoopStep` and is
  run by `forRange`.
* A slice of a result record that the source may leave nil, and that JSON
  then writes as `null`, is an `Option (List _)`; a slice the source always
  allocates, and the repeated fields of decoded records, are a `List`.
* Where the source hands a `[]byte` to `proto.Unmarshal` without testing it
  for nil first (`setMqAddresses`, `getMqAddresses`), the nil slice is the
  input of length zero: the decoder is applied to `bytesOf value`, which is
  `""` for `nil`.
* A mutation (`setMqAddresses`, `updateNode`) returns its result together
  with the application after the call.
-/

namespace NDID

/-! ## Constants (lines 47-71) -/

def idpListKeyBytes : String := "IdPList"

def keySeparator : String := "|"

def nodeIDKeyPrefix : String := "NodeID"

def refGroupCodeKeyPrefix : String := "RefGroupCode"

def identityToRefCodeKeyPrefix : String := "identityToRefCodeKey"

def allNamespaceKeyBytes : String := "AllNamespace"

def serviceKeyPrefix : String := "Service"

def serviceDestinationKeyPrefix : String := "ServiceDestination"

def approvedServiceKeyPrefix : String := "ApproveKey"

def providedServicesKeyPrefix : String := "ProvideService"

def requestKeyPrefix : String := "Request"

def initStateKeyBytes : String := "InitState"

def accessorToRefCodeKeyPrefix : String := "accessorToRefCodeKey"

def dataSignatureKeyPrefix : String := "SignData"

/-! ## Stored records (package `data`, used through their fields) -/

/-- The record `data.MQ`: one messaging address. -/
structure MQ where
  Ip : String
  Port : Int
  deriving DecidableEq, Repr

/-- The record `data.NodeDetail`, with the fields `common.go` reads or writes. -/
structure NodeDetail where
  PublicKey : String
  MasterPublicKey : String
  NodeName : String
  Role : String
  MaxIal : ℚ
  MaxAal : ℚ
  Mq : List MQ
  Active : Bool
  ProxyNodeId : String
  ProxyConfig : String
  SupportedRequestMessageDataUrlTypeList : List String
  deriving DecidableEq, Repr

/-- The record `data.IdPList`: the IdP role directory. -/
structure IdPList where
  NodeId : List String
  deriving DecidableEq, Repr

/-- The record `data.Accessor`. -/
structure Accessor where
  AccessorId : String
  AccessorPublicKey : String
  Active : Bool
  deriving DecidableEq, Repr

/-- The record `data.IdentityInRefGroup`. -/
structure IdentityInRefGroup where
  Namespace : String
  IdentifierHash : String
  deriving DecidableEq, Repr

/-- The record `data.IdPInRefGroup`: the association of one IdP with a group. -/
structure IdPInRefGroup where
  NodeId : String
  Mode : List Int
  Accessors : List Accessor
  Ial : ℚ
  Active : Bool
  deriving DecidableEq, Repr

/-- The record `data.ReferenceGroup`. -/
structure ReferenceGroup where
  Identities : List IdentityInRefGroup
  Idps : List IdPInRefGroup
  deriving DecidableEq, Repr

/-- The record `data.ASNode`: one entry of a service destination list. -/
structure data.ASNode where
  NodeId : String
  MinIal : ℚ
  MinAal : ℚ
  SupportedNamespaceList : List String
  Active : Bool
  deriving DecidableEq, Repr

/-- The record `data.ServiceDesList`. -/
structure ServiceDesList where
  Node : List data.ASNode
  deriving DecidableEq, Repr

/-- The record `data.ServiceDetail`, with the fields of the service catalog
entry. -/
structure ServiceDetail where
  ServiceId : String
  ServiceName : String
  Active : Bool
  deriving DecidableEq, Repr

/-- The record `data.ApproveService`. -/
structure ApproveService where
  Active : Bool
  deriving DecidableEq, Repr

/-- The record `data.Service`: one entry of the list of services an AS
provides. -/
structure data.Service where
  ServiceId : String
  MinIal : ℚ
  MinAal : ℚ
  Active : Bool
  Suspended : Bool
  SupportedNamespaceList : List String
  deriving DecidableEq, Repr

/-- The record `data.ServiceList`. -/
structure ServiceList where
  Services : List data.Service
  deriving DecidableEq, Repr

/-- The record `data.AllowedModeList`. -/
structure AllowedModeList where
  Mode : List Int
  deriving DecidableEq, Repr

/-- The record `data.Namespace`, with the fields `common.go` reads. -/
structure Namespace where
  Namespace : String
  Active : Bool
  AllowedIdentifierCountInReferenceGroup : Int
  deriving DecidableEq, Repr

/-- The record `data.NamespaceList`. -/
structure NamespaceList where
  Namespaces : List Namespace
  deriving DecidableEq, Repr

/-- The record `data.DataRequest`. -/
structure data.DataRequest where
  ServiceId : String
  AsIdList : List String
  MinAs : Int
  AnsweredAsIdList : List String
  ReceivedDataFromList : List String
  RequestParamsHash : String
  deriving DecidableEq, Repr

/-- The record `data.Response`. `ValidIal` and `ValidSignature` are stored as
strings. -/
structure data.Response where
  Ial : ℚ
  Aal : ℚ
  Status : String
  Signature : String
  IdpId : String
  ValidIal : String
  ValidSignature : String
  deriving DecidableEq, Repr

/-- The record `data.Request`, with the fields `common.go` reads. -/
structure data.Request where
  RequestId : String
  MinIdp : Int
  MinAal : ℚ
  MinIal : ℚ
  RequestTimeout : Int
  IdpIdList : List String
  DataRequestList : List data.DataRequest
  RequestMessageHash : String
  ResponseList : List data.Response
  Closed : Bool
  TimedOut : Bool
  Mode : Int
  Purpose : String
  Owner : String
  CreationBlockHeight : Int
  ChainId : String
  deriving DecidableEq, Repr

/-- The record `data.RPList`: the RP role directory. -/
structure RPList where
  NodeId : List String
  deriving DecidableEq, Repr

/-- The record `data.ASList`: the AS role directory. -/
structure ASList where
  NodeId : List String
  deriving DecidableEq, Repr

/-- The record `data.AllList`: the directory of all nodes. -/
structure AllList where
  NodeId : List String
  deriving DecidableEq, Repr

/-- The record `data.ServiceDetailList`: the service catalog. -/
structure ServiceDetailList where
  Services : List ServiceDetail
  deriving DecidableEq, Repr

/-- The record `data.BehindNodeList`: the nodes behind one proxy. -/
structure BehindNodeList where
  Nodes : List String
  deriving DecidableEq, Repr

/-- The record `data.AllowedMinIalForRegisterIdentityAtFirstIdp`. -/
structure AllowedMinIalForRegisterIdentityAtFirstIdp where
  MinIal : ℚ
  deriving DecidableEq, Repr

/-! ## Parameters and results of the handlers -/

/-- The parameter record `GetIdpNodesParam`. -/
structure GetIdpNodesParam where
  ReferenceGroupCode : String
  IdentityNamespace : String
  IdentityIdentifierHash : String
  MinAal : ℚ
  MinIal : ℚ
  NodeIDList : List String
  SupportedRequestMessageDataUrlTypeList : List String
  ModeList : List Int
  deriving DecidableEq, Repr

/-- The parameter record `GetNodeInfoParam`. -/
structure GetNodeInfoParam where
  NodeID : String
  deriving DecidableEq, Repr

/-- The result record `MsqDestinationNode`. -/
structure MsqDestinationNode where
  ID : String
  Name : String
  MaxIal : ℚ
  MaxAal : ℚ
  SupportedRequestMessageDataUrlTypeList : List String
  deriving DecidableEq, Repr

/-- The result record `MsqDestinationNodeWithModeList`. -/
structure MsqDestinationNodeWithModeList where
  ID : String
  Name : String
  MaxIal : ℚ
  MaxAal : ℚ
  Ial : ℚ
  ModeList : List Int
  SupportedRequestMessageDataUrlTypeList : List String
  deriving DecidableEq, Repr

/-- An element of `GetIdpNodesResult.Node`, a `[]interface{}` that holds the
two record types `getIdpNodes` appends. -/
inductive IdpNodesEntry where
  | plain (n : MsqDestinationNode)
  | withModeList (n : MsqDestinationNodeWithModeList)
  deriving DecidableEq, Repr

/-- The node ID an entry of `GetIdpNodesResult.Node` carries. -/
def IdpNodesEntry.ID : IdpNodesEntry → String
  | .plain n => n.ID
  | .withModeList n => n.ID

/-- The result record `GetIdpNodesResult`. `Node` is created with
`make([]interface{}, 0)`, so it is never the nil slice. -/
structure GetIdpNodesResult where
  Node : List IdpNodesEntry
  deriving DecidableEq, Repr

/-- The result record `MsqAddress`. -/
structure MsqAddress where
  IP : String
  Port : Int
  deriving DecidableEq, Repr

/-- The `Proxy` part of `IdpNodeBehindProxy` and
`IdpNodeBehindProxyWithModeList`. -/
structure IdpProxy where
  NodeID : String
  PublicKey : String
  Mq : Option (List MsqAddress)
  Config : String
  deriving DecidableEq, Repr

/-- The result record `IdpNode`. -/
structure IdpNode where
  NodeID : String
  Name : String
  MaxIal : ℚ
  MaxAal : ℚ
  PublicKey : String
  SupportedRequestMessageDataUrlTypeList : List String
  Mq : Option (List MsqAddress)
  deriving DecidableEq, Repr

/-- The result record `IdpNodeBehindProxy`. -/
structure IdpNodeBehindProxy where
  NodeID : String
  Name : String
  MaxIal : ℚ
  MaxAal : ℚ
  PublicKey : String
  SupportedRequestMessageDataUrlTypeList : List String
  Proxy : IdpProxy
  deriving DecidableEq, Repr

/-- The result record `IdpNodeWithModeList`. -/
structure IdpNodeWithModeList where
  NodeID : String
  Name : String
  MaxIal : ℚ
  MaxAal : ℚ
  PublicKey : String
  SupportedRequestMessageDataUrlTypeList : List String
  Mq : Option (List MsqAddress)
  Ial : ℚ
  ModeList : List Int
  deriving DecidableEq, Repr

/-- The result record `IdpNodeBehindProxyWithModeList`, with the fields
`getIdpNodesInfo` assigns. -/
structure IdpNodeBehindProxyWithModeList where
  NodeID : String
  Name : String
  MaxIal : ℚ
  MaxAal : ℚ
  PublicKey : String
  SupportedRequestMessageDataUrlTypeList : List String
  Proxy : IdpProxy
  ModeList : List Int
  deriving DecidableEq, Repr

/-- An element of `GetIdpNodesInfoResult.Node`, a `[]interface{}` that holds
the four record types `getIdpNodesInfo` appends. -/
inductive IdpNodesInfoEntry where
  | node (n : IdpNode)
  | behindProxy (n : IdpNodeBehindProxy)
  | withModeList (n : IdpNodeWithModeList)
  | behindProxyWithModeList (n : IdpNodeBehindProxyWithModeList)
  deriving DecidableEq, Repr

/-- The node ID an entry of `GetIdpNodesInfoResult.Node` carries. -/
def IdpNodesInfoEntry.NodeID : IdpNodesInfoEntry → String
  | .node n => n.NodeID
  | .behindProxy n => n.NodeID
  | .withModeList n => n.NodeID
  | .behindProxyWithModeList n => n.NodeID

/-- The result record `GetIdpNodesInfoResult`. `Node` is created with
`make([]interface{}, 0)`, so it is never the nil slice. -/
structure GetIdpNodesInfoResult where
  Node : List IdpNodesInfoEntry
  deriving DecidableEq, Repr

/-- The `Proxy` part of the two behind-proxy results of `getNodeInfo`. -/
structure NodeInfoProxy where
  NodeID : String
  NodeName : String
  PublicKey : String
  MasterPublicKey : String
  Mq : Option (List MsqAddress)
  Config : String
  deriving DecidableEq, Repr

/-- The result record `GetNodeInfoResultIdPandASBehindProxy`. -/
structure GetNodeInfoResultIdPandASBehindProxy where
  PublicKey : String
  MasterPublicKey : String
  NodeName : String
  Role : String
  MaxIal : ℚ
  MaxAal : ℚ
  SupportedRequestMessageDataUrlTypeList : List String
  Proxy : NodeInfoProxy
  Active : Bool
  deriving DecidableEq, Repr

/-- The result record `GetNodeInfoResultRPandASBehindProxy`. -/
structure GetNodeInfoResultRPandASBehindProxy where
  PublicKey : String
  MasterPublicKey : String
  NodeName : String
  Role : String
  Proxy : NodeInfoProxy
  Active : Bool
  deriving DecidableEq, Repr

/-- The result record `GetNodeInfoIdPResult`. -/
structure GetNodeInfoIdPResult where
  PublicKey : String
  MasterPublicKey : String
  NodeName : String
  Role : String
  MaxIal : ℚ
  MaxAal : ℚ
  SupportedRequestMessageDataUrlTypeList : List String
  Mq : Option (List MsqAddress)
  Active : Bool
  deriving DecidableEq, Repr

/-- The result record `GetNodeInfoResult`. -/
structure GetNodeInfoResult where
  PublicKey : String
  MasterPublicKey : String
  NodeName : String
  Role : String
  Mq : Option (List MsqAddress)
  Active : Bool
  deriving DecidableEq, Repr

/-- The four record types `getNodeInfo` encodes as its body. -/
inductive NodeInfo where
  | idpBehindProxy (r : GetNodeInfoResultIdPandASBehindProxy)
  | behindProxy (r : GetNodeInfoResultRPandASBehindProxy)
  | idp (r : GetNodeInfoIdPResult)
  | plain (r : GetNodeInfoResult)
  deriving DecidableEq, Repr

/-- The parameter record `GetAsNodesByServiceIdParam`, shared by
`getAsNodesByServiceId` and `getAsNodesInfoByServiceId`. -/
structure GetAsNodesByServiceIdParam where
  ServiceID : String
  NodeIDList : List String
  deriving DecidableEq, Repr

/-- The result record `ASNode`, declared outside `common.go`, which only
allocates empty slices of it; only its node ID is kept. -/
structure ASNode where
  ID : String
  deriving DecidableEq, Repr

/-- The result record `GetAsNodesByServiceIdResult`. -/
structure GetAsNodesByServiceIdResult where
  Node : List ASNode
  deriving DecidableEq, Repr

/-- The result record `ASNodeResult`. The source fills it by position (lines
438-444): node ID, node name, min IAL, min AAL, supported namespaces. -/
structure ASNodeResult where
  ID : String
  Name : String
  MinIal : ℚ
  MinAal : ℚ
  SupportedNamespaceList : List String
  deriving DecidableEq, Repr

/-- The result record `GetAsNodesByServiceIdWithNameResult`. -/
structure GetAsNodesByServiceIdWithNameResult where
  Node : List ASNodeResult
  deriving DecidableEq, Repr

/-- The two record types `getAsNodesByServiceId` encodes as its body. -/
inductive AsNodesBody where
  | basic (r : GetAsNodesByServiceIdResult)
  | withName (r : GetAsNodesByServiceIdWithNameResult)
  deriving DecidableEq, Repr

/-- The node IDs of the AS descriptors of a `getAsNodesByServiceId` body. -/
def AsNodesBody.nodeIDs : AsNodesBody → List String
  | .basic r => r.Node.map (fun n => n.ID)
  | .withName r => r.Node.map (fun n => n.ID)

/-- The result record `ASWithMqNode`. The source fills it by position (lines
1601-1609): node ID, node name, min IAL, min AAL, public key, addresses,
supported namespaces. -/
structure ASWithMqNode where
  ID : String
  Name : String
  MinIal : ℚ
  MinAal : ℚ
  PublicKey : String
  Mq : Option (List MsqAddress)
  SupportedNamespaceList : List String
  deriving DecidableEq, Repr

/-- The `Proxy` part of `ASWithMqNodeBehindProxy`. -/
structure ASProxy where
  NodeID : String
  PublicKey : String
  Mq : Option (List MsqAddress)
  Config : String
  deriving DecidableEq, Repr

/-- The result record `ASWithMqNodeBehindProxy`. -/
structure ASWithMqNodeBehindProxy where
  NodeID : String
  Name : String
  MinIal : ℚ
  MinAal : ℚ
  PublicKey : String
  SupportedNamespaceList : List String
  Proxy : ASProxy
  deriving DecidableEq, Repr

/-- An element of `GetAsNodesInfoByServiceIdResult.Node`, a `[]interface{}`
that holds the two record types `getAsNodesInfoByServiceId` appends. -/
inductive AsNodesInfoEntry where
  | node (n : ASWithMqNode)
  | behindProxy (n : ASWithMqNodeBehindProxy)
  deriving DecidableEq, Repr

/-- The node ID an entry of `GetAsNodesInfoByServiceIdResult.Node` carries. -/
def AsNodesInfoEntry.NodeID : AsNodesInfoEntry → String
  | .node n => n.ID
  | .behindProxy n => n.NodeID

/-- The result record `GetAsNodesInfoByServiceIdResult`. -/
structure GetAsNodesInfoByServiceIdResult where
  Node : List AsNodesInfoEntry
  deriving DecidableEq, Repr

/-- The two record types `getAsNodesInfoByServiceId` encodes as its body: its
own result, and `GetAsNodesByServiceIdResult` at lines 1483-1489 and
1497-1503. -/
inductive AsNodesInfoBody where
  | info (r : GetAsNodesInfoByServiceIdResult)
  | basic (r : GetAsNodesByServiceIdResult)
  deriving DecidableEq, Repr

/-- The node IDs of the AS descriptors of a `getAsNodesInfoByServiceId` body. -/
def AsNodesInfoBody.nodeIDs : AsNodesInfoBody → List String
  | .info r => r.Node.map AsNodesInfoEntry.NodeID
  | .basic r => r.Node.map (fun n => n.ID)

/-- The parameter record `GetServicesByAsIDParam`. -/
structure GetServicesByAsIDParam where
  AsID : String
  deriving DecidableEq, Repr

/-- The result record `Service`: one row of `GetServicesByAsIDResult`. -/
structure Service where
  Active : Bool
  MinAal : ℚ
  MinIal : ℚ
  ServiceID : String
  Suspended : Bool
  SupportedNamespaceList : List String
  deriving DecidableEq, Repr

/-- The result record `GetServicesByAsIDResult`. `Services` is created with
`make([]Service, 0)`, so it is never the nil slice. -/
structure GetServicesByAsIDResult where
  Services : List Service
  deriving DecidableEq, Repr

/-- The parameter record `GetRequestParam`. -/
structure GetRequestParam where
  RequestID : String
  deriving DecidableEq, Repr

/-- The result record `DataRequest`: one row of the data-request list of
`GetRequestDetailResult`. -/
structure DataRequest where
  ServiceID : String
  As : Option (List String)
  Count : Int
  AnsweredAsIdList : Option (List String)
  ReceivedDataFromList : Option (List String)
  RequestParamsHash : String
  deriving DecidableEq, Repr

/-- The result record `Response`: one row of the response list of
`GetRequestDetailResult`. `ValidIal` and `ValidSignature` are `*bool`; `none`
is the nil pointer. -/
structure Response where
  Ial : ℚ
  Aal : ℚ
  Status : String
  Signature : String
  IdpID : String
  ValidIal : Option Bool
  ValidSignature : Option Bool
  deriving DecidableEq, Repr

/-- The result record `GetRequestDetailResult`. -/
structure GetRequestDetailResult where
  RequestID : String
  MinIdp : Int
  MinAal : ℚ
  MinIal : ℚ
  Timeout : Int
  IdPIDList : Option (List String)
  DataRequestList : Option (List DataRequest)
  MessageHash : String
  Responses : Option (List Response)
  IsClosed : Bool
  IsTimedOut : Bool
  Mode : Int
  Purpose : String
  RequesterNodeID : String
  CreationBlockHeight : Int
  CreationChainID : String
  deriving DecidableEq, Repr

/-- The parameter record `UpdateNodeParam`. The type list is a slice that
`updateNode` compares with nil; `none` is the nil slice. -/
structure UpdateNodeParam where
  MasterPublicKey : String
  PublicKey : String
  SupportedRequestMessageDataUrlTypeList : Option (List String)
  deriving DecidableEq, Repr

/-- The parameter record `SetMqAddressesParam`. -/
structure SetMqAddressesParam where
  Addresses : List MsqAddress
  deriving DecidableEq, Repr

/-- The parameter record `GetNodeMasterPublicKeyParam`. -/
structure GetNodeMasterPublicKeyParam where
  NodeID : String
  deriving DecidableEq, Repr

/-- The result record `GetNodeMasterPublicKeyResult`. -/
structure GetNodeMasterPublicKeyResult where
  MasterPublicKey : String
  deriving DecidableEq, Repr

/-- The parameter record `GetNodePublicKeyParam`. -/
structure GetNodePublicKeyParam where
  NodeID : String
  deriving DecidableEq, Repr

/-- The result record `GetNodePublicKeyResult`. -/
structure GetNodePublicKeyResult where
  PublicKey : String
  deriving DecidableEq, Repr

/-- The parameter record `GetMqAddressesParam`. -/
structure GetMqAddressesParam where
  NodeID : String
  deriving DecidableEq, Repr

/-- The result type `GetMqAddressesResult`, a slice of `MsqAddress` that
`getMqAddresses` declares without allocating it: `none` is the nil slice. -/
abbrev GetMqAddressesResult : Type := Option (List MsqAddress)

/-- The result record `GetRequestResult`. -/
structure GetRequestResult where
  IsClosed : Bool
  IsTimedOut : Bool
  MessageHash : String
  Mode : Int
  deriving DecidableEq, Repr

/-- The parameter record `GetServiceDetailParam`. -/
structure GetServiceDetailParam where
  ServiceID : String
  deriving DecidableEq, Repr

/-- The parameter record `CheckExistingIdentityParam`. -/
structure CheckExistingIdentityParam where
  ReferenceGroupCode : String
  IdentityNamespace : String
  IdentityIdentifierHash : String
  deriving DecidableEq, Repr

/-- The result record `CheckExistingIdentityResult`. -/
structure CheckExistingIdentityResult where
  Exist : Bool
  deriving DecidableEq, Repr

/-- The parameter record `GetAccessorKeyParam`. -/
structure GetAccessorKeyParam where
  AccessorID : String
  deriving DecidableEq, Repr

/-- The result record `GetAccessorKeyResult`. -/
structure GetAccessorKeyResult where
  AccessorPublicKey : String
  Active : Bool
  deriving DecidableEq, Repr

/-- The parameter record `CheckExistingAccessorIDParam`. -/
structure CheckExistingAccessorIDParam where
  AccessorID : String
  deriving DecidableEq, Repr

/-- The result record `CheckExistingResult`. -/
structure CheckExistingResult where
  Exist : Bool
  deriving DecidableEq, Repr

/-- The parameter record `GetIdentityInfoParam`. -/
structure GetIdentityInfoParam where
  ReferenceGroupCode : String
  IdentityNamespace : String
  IdentityIdentifierHash : String
  NodeID : String
  deriving DecidableEq, Repr

/-- The result record `GetIdentityInfoResult`. `ModeList` is a slice the handler
leaves nil unless it copies a stored mode list into it. -/
structure GetIdentityInfoResult where
  Ial : ℚ
  ModeList : Option (List Int)
  deriving DecidableEq, Repr

/-- The parameter record `GetDataSignatureParam`. -/
structure GetDataSignatureParam where
  NodeID : String
  ServiceID : String
  RequestID : String
  deriving DecidableEq, Repr

/-- The result record `GetDataSignatureResult`. -/
structure GetDataSignatureResult where
  Signature : String
  deriving DecidableEq, Repr

/-- The parameter record `GetNodesBehindProxyNodeParam`. -/
structure GetNodesBehindProxyNodeParam where
  ProxyNodeID : String
  deriving DecidableEq, Repr

/-- The result record `IdPBehindProxy`. -/
structure IdPBehindProxy where
  NodeID : String
  NodeName : String
  Role : String
  PublicKey : String
  MasterPublicKey : String
  MaxIal : ℚ
  MaxAal : ℚ
  Config : String
  SupportedRequestMessageDataUrlTypeList : List String
  deriving DecidableEq, Repr

/-- The result record `ASorRPBehindProxy`. -/
structure ASorRPBehindProxy where
  NodeID : String
  NodeName : String
  Role : String
  PublicKey : String
  MasterPublicKey : String
  Config : String
  deriving DecidableEq, Repr

/-- An element of `GetNodesBehindProxyNodeResult.Nodes`, a `[]interface{}` that
holds the two record types `getNodesBehindProxyNode` appends. -/
inductive BehindProxyEntry where
  | idp (row : IdPBehindProxy)
  | asOrRp (row : ASorRPBehindProxy)
  deriving DecidableEq, Repr

/-- The result record `GetNodesBehindProxyNodeResult`. -/
structure GetNodesBehindProxyNodeResult where
  Nodes : List BehindProxyEntry
  deriving DecidableEq, Repr

/-- The parameter record `GetNodeIDListParam`. -/
structure GetNodeIDListParam where
  Role : String
  deriving DecidableEq, Repr

/-- The result record `GetNodeIDListResult`; `getNodeIDList` allocates the list
before it fills it. -/
structure GetNodeIDListResult where
  NodeIDList : List String
  deriving DecidableEq, Repr

/-- The parameter record `GetAccessorOwnerParam`. -/
structure GetAccessorOwnerParam where
  AccessorID : String
  deriving DecidableEq, Repr

/-- The result record `GetAccessorOwnerResult`. -/
structure GetAccessorOwnerResult where
  NodeID : String
  deriving DecidableEq, Repr

/-- The result record `IsInitEndedResult`. -/
structure IsInitEndedResult where
  InitEnded : Bool
  deriving DecidableEq, Repr

/-- The parameter record `GetReferenceGroupCodeParam`. -/
structure GetReferenceGroupCodeParam where
  IdentityNamespace : String
  IdentityIdentifierHash : String
  deriving DecidableEq, Repr

/-- The parameter record `GetReferenceGroupCodeByAccessorIDParam`. -/
structure GetReferenceGroupCodeByAccessorIDParam where
  AccessorID : String
  deriving DecidableEq, Repr

/-- The result record `GetReferenceGroupCodeResult`. -/
structure GetReferenceGroupCodeResult where
  ReferenceGroupCode : String
  deriving DecidableEq, Repr

/-- The parameter record `GetAllowedModeListParam`. -/
structure GetAllowedModeListParam where
  Purpose : String
  deriving DecidableEq, Repr

/-- The result record `GetAllowedModeListResult`. -/
structure GetAllowedModeListResult where
  AllowedModeList : List Int
  deriving DecidableEq, Repr

/-- The result record `GetAllowedMinIalForRegisterIdentityAtFirstIdpResult`. -/
structure GetAllowedMinIalForRegisterIdentityAtFirstIdpResult where
  MinIal : ℚ
  deriving DecidableEq, Repr

/-! ## External collaborators -/

/-- The decoders of the external libraries: `proto.Unmarshal` at each record
type and `json.Unmarshal` at each parameter type. An `error` carries the text
of `err.Error()`. `marshalNodeDetail` is `utils.ProtoDeterministicMarshal` at
the record type `data.NodeDetail`, and `ToLower` is `strings.ToLower`. -/
structure Codec where
  unmarshalNodeDetail : String → Except String NodeDetail
  unmarshalIdPList : String → Except String IdPList
  unmarshalReferenceGroup : String → Except String ReferenceGroup
  unmarshalGetIdpNodesParam : String → Except String GetIdpNodesParam
  unmarshalGetNodeInfoParam : String → Except String GetNodeInfoParam
  unmarshalServiceDesList : String → Except String ServiceDesList
  unmarshalServiceDetail : String → Except String ServiceDetail
  unmarshalApproveService : String → Except String ApproveService
  unmarshalServiceList : String → Except String ServiceList
  unmarshalAllowedModeList : String → Except String AllowedModeList
  unmarshalNamespaceList : String → Except String NamespaceList
  unmarshalRequest : String → Except String data.Request
  unmarshalGetAsNodesByServiceIdParam : String → Except String GetAsNodesByServiceIdParam
  unmarshalGetServicesByAsIDParam : String → Except String GetServicesByAsIDParam
  unmarshalGetRequestParam : String → Except String GetRequestParam
  unmarshalUpdateNodeParam : String → Except String UpdateNodeParam
  marshalNodeDetail : NodeDetail → Except String String
  unmarshalRPList : String → Except String RPList
  unmarshalASList : String → Except String ASList
  unmarshalAllList : String → Except String AllList
  unmarshalServiceDetailList : String → Except String ServiceDetailList
  unmarshalBehindNodeList : String → Except String BehindNodeList
  unmarshalAllowedMinIal : String → Except String AllowedMinIalForRegisterIdentityAtFirstIdp
  unmarshalSetMqAddressesParam : String → Except String SetMqAddressesParam
  unmarshalGetNodeMasterPublicKeyParam : String → Except String GetNodeMasterPublicKeyParam
  unmarshalGetNodePublicKeyParam : String → Except String GetNodePublicKeyParam
  unmarshalGetMqAddressesParam : String → Except String GetMqAddressesParam
  unmarshalGetServiceDetailParam : String → Except String GetServiceDetailParam
  unmarshalCheckExistingIdentityParam : String → Except String CheckExistingIdentityParam
  unmarshalGetAccessorKeyParam : String → Except String GetAccessorKeyParam
  unmarshalCheckExistingAccessorIDParam : String → Except String CheckExistingAccessorIDParam
  unmarshalGetIdentityInfoParam : String → Except String GetIdentityInfoParam
  unmarshalGetDataSignatureParam : String → Except String GetDataSignatureParam
  unmarshalGetNodesBehindProxyNodeParam : String → Except String GetNodesBehindProxyNodeParam
  unmarshalGetNodeIDListParam : String → Except String GetNodeIDListParam
  unmarshalGetAccessorOwnerParam : String → Except String GetAccessorOwnerParam
  unmarshalGetReferenceGroupCodeParam : String → Except String GetReferenceGroupCodeParam
  unmarshalGetReferenceGroupCodeByAccessorIDParam :
    String → Except String GetReferenceGroupCodeByAccessorIDParam
  unmarshalGetAllowedModeListParam : String → Except String GetAllowedModeListParam
  ToLower : String → String

/-- Modelled from the spec: the versioned state store behind `app.state`,
whose code is not in `common.go`. `committed` is the state of the last
finalized block, `pending` the writes of the unit of work in progress,
`Height` the ledger height, and `versions h` the finalized state as of the
height `h`. -/
structure State where
  committed : String → Option String
  pending : String → Option String
  Height : Int
  versions : Int → String → Option String := fun _ => committed

/-- Modelled from the spec: `state.Get(key, committed)`. With
`committed = true` only the last finalized block is read; with
`committed = false` the pending writes are overlaid on it. An absent key
gives `none` (the nil slice), never an error. -/
def State.Get (s : State) (key : String) (committed : Bool) : Option String :=
  if committed then s.committed key
  else
    match s.pending key with
    | some v => some v
    | none => s.committed key

/-- Modelled from the spec: `state.GetVersioned(key, height, committed)`, the
read of the state as of a historical height. With `committed = false` the
pending writes are overlaid on it. -/
def State.GetVersioned (s : State) (key : String) (height : Int) (committed : Bool) :
    Option String :=
  if committed then s.versions height key
  else
    match s.pending key with
    | some v => some v
    | none => s.versions height key

/-- Modelled from the spec: `state.Set(key, value)`. The write joins the
pending writes of the unit of work in progress and replaces the whole record
under `key`. -/
def State.Set (s : State) (key value : String) : State :=
  { s with pending := fun k => if k = key then some value else s.pending k }

/-- The application object `ABCIApplication`, with the field the handlers use. -/
structure ABCIApplication where
  state : State

/-- The `Value` of a query response: either a literal byte string written in
the source, such as `[]byte("{}")`, or the JSON encoding of a result record. -/
inductive QueryValue (α : Type) where
  | raw (bytes : String) : QueryValue α
  | json (result : α) : QueryValue α
  deriving DecidableEq, Repr

/-- The record `types.ResponseQuery`, with the three fields `ReturnQuery`
sets. `Value = none` is the nil body. -/
structure ResponseQuery (α : Type) where
  Value : Option (QueryValue α)
  Log : String
  Height : Int
  deriving DecidableEq, Repr

/-- Modelled from the spec: `app.ReturnQuery(value, log, height)`, whose code
is not in `common.go`; it builds the response `(result, statusMessage,
ledgerHeight)`. -/
def ABCIApplication.ReturnQuery {α : Type} (_app : ABCIApplication)
    (value : Option (QueryValue α)) (log : String) (height : Int) : ResponseQuery α :=
  { Value := value, Log := log, Height := height }

/-! ## Loops -/

/-- What one iteration of a `for ... range` body does: `continue` without
appending, append one element to the result list, or `return` from the
handler. -/
inductive LoopStep (ρ ε : Type) where
  | skip : LoopStep ρ ε
  | append (e : ε) : LoopStep ρ ε
  | ret (r : ρ) : LoopStep ρ ε

/-- Run a `for ... range` loop whose body is `body`, starting from the result
list `acc`; `Except.error r` is a `return r` from inside the loop. -/
def forRange {ρ ε ι : Type} (body : ι → LoopStep ρ ε) : List ι → List ε → Except ρ (List ε)
  | [], acc => .ok acc
  | i :: rest, acc =>
    match body i with
    | .skip => forRange body rest acc
    | .append e => forRange body rest (acc ++ [e])
    | .ret r => .error r

/-- Run a `for ... range` loop whose body either continues (`none`) or appends
one element (`some e`) to the result list `acc`. -/
def rangeAppend {ε ι : Type} (body : ι → Option ε) (l : List ι) (acc : List ε) : List ε :=
  l.foldl (fun acc i =>
    match body i with
    | none => acc
    | some e => acc ++ [e]) acc

/-- The loop `for _, x := range xs { s = append(s, f x) }` on a slice `s` that
may be nil (`none`): the slice stays nil when `xs` is empty. -/
def appendEach {α β : Type} (f : α → β) (xs : List α) (s : Option (List β)) :
    Option (List β) :=
  xs.foldl (fun s x => some (s.getD [] ++ [f x])) s

/-! ## `contains` and `containsInt32` (lines 1871-1887) -/

def contains (a : String) : List String → Bool
  | [] => false
  | b :: list => if b = a then true else contains a list

def containsInt32 (a : Int) : List Int → Bool
  | [] => false
  | b :: list => if b = a then true else containsInt32 a list

/-! ## `getIdpNodes` (lines 179-344) -/

/-- The counting loop of lines 225-230 (and 303-308): the number of the
node's supported types that occur in the requested list. -/
def supportedCount (nodeTypes requested : List String) : Nat :=
  nodeTypes.foldl (fun count supportedType =>
    if contains supportedType requested then count + 1 else count) 0

/-- The counting loop of lines 315-320: the number of the association's modes
that occur in the requested mode list. -/
def supportedModeCount (modes requested : List Int) : Nat :=
  modes.foldl (fun count mode =>
    if containsInt32 mode requested then count + 1 else count) 0

/-- Body of the loop over the IdP directory, lines 196-242. `none` is
`continue`, `some n` appends `n` to `returnNodes.Node`. -/
def getIdpNodesDirectoryBody (c : Codec) (app : ABCIApplication)
    (funcParam : GetIdpNodesParam) (idp : String) : Option IdpNodesEntry :=
  let nodeDetailKey := nodeIDKeyPrefix ++ keySeparator ++ idp
  match app.state.Get nodeDetailKey true with
  | none => none
  | some nodeDetailValue =>
    match c.unmarshalNodeDetail nodeDetailValue with
    | .error _ => none
    | .ok nodeDetail =>
      if !nodeDetail.Active then none
      else if ¬ (nodeDetail.MaxIal ≥ funcParam.MinIal ∧
          nodeDetail.MaxAal ≥ funcParam.MinAal) then none
      else if funcParam.NodeIDList.length > 0 ∧
          !contains idp funcParam.NodeIDList then none
      else if funcParam.SupportedRequestMessageDataUrlTypeList.length > 0 ∧
          supportedCount nodeDetail.SupportedRequestMessageDataUrlTypeList
            funcParam.SupportedRequestMessageDataUrlTypeList
            < funcParam.SupportedRequestMessageDataUrlTypeList.length then none
      else
        some (.plain
          { ID := idp
            Name := nodeDetail.NodeName
            MaxIal := nodeDetail.MaxIal
            MaxAal := nodeDetail.MaxAal
            SupportedRequestMessageDataUrlTypeList :=
              nodeDetail.SupportedRequestMessageDataUrlTypeList })

/-- Body of the loop over the associations of the reference group, lines
266-334. -/
def getIdpNodesGroupBody (c : Codec) (app : ABCIApplication)
    (funcParam : GetIdpNodesParam) (idp : IdPInRefGroup) : Option IdpNodesEntry :=
  let nodeDetailKey := nodeIDKeyPrefix ++ keySeparator ++ idp.NodeId
  match app.state.Get nodeDetailKey true with
  | none => none
  | some nodeDetailValue =>
    match c.unmarshalNodeDetail nodeDetailValue with
    | .error _ => none
    | .ok nodeDetail =>
      if !nodeDetail.Active then none
      else if ¬ (nodeDetail.MaxIal ≥ funcParam.MinIal ∧
          nodeDetail.MaxAal ≥ funcParam.MinAal) then none
      else if !idp.Active then none
      else if idp.Ial < funcParam.MinIal then none
      else if funcParam.NodeIDList.length > 0 ∧
          !contains idp.NodeId funcParam.NodeIDList then none
      else if funcParam.SupportedRequestMessageDataUrlTypeList.length > 0 ∧
          supportedCount nodeDetail.SupportedRequestMessageDataUrlTypeList
            funcParam.SupportedRequestMessageDataUrlTypeList
            < funcParam.SupportedRequestMessageDataUrlTypeList.length then none
      else if funcParam.ModeList.length > 0 ∧
          supportedModeCount idp.Mode funcParam.ModeList
            < funcParam.ModeList.length then none
      else
        some (.withModeList
          { ID := idp.NodeId
            Name := nodeDetail.NodeName
            MaxIal := nodeDetail.MaxIal
            MaxAal := nodeDetail.MaxAal
            Ial := idp.Ial
            ModeList := idp.Mode
            SupportedRequestMessageDataUrlTypeList :=
              nodeDetail.SupportedRequestMessageDataUrlTypeList })

/-- The tail of `getIdpNodes`, lines 336-343: encode the result and choose the
status by the length of the node list. -/
def getIdpNodesFinish (app : ABCIApplication) (returnNodes : GetIdpNodesResult) :
    ResponseQuery GetIdpNodesResult :=
  let value := QueryValue.json returnNodes
  if returnNodes.Node.length = 0 then
    app.ReturnQuery (some value) "not found" app.state.Height
  else
    app.ReturnQuery (some value) "success" app.state.Height

/-- The handler `getIdpNodes`. -/
def getIdpNodes (c : Codec) (app : ABCIApplication) (param : String) :
    ResponseQuery GetIdpNodesResult :=
  match c.unmarshalGetIdpNodesParam param with
  | .error err => app.ReturnQuery none err app.state.Height
  | .ok funcParam =>
    let returnNodes : GetIdpNodesResult := { Node := [] }
    if funcParam.ReferenceGroupCode = "" ∧ funcParam.IdentityNamespace = "" ∧
        funcParam.IdentityIdentifierHash = "" then
      match app.state.Get idpListKeyBytes true with
      | none => getIdpNodesFinish app returnNodes
      | some idpsValue =>
        match c.unmarshalIdPList idpsValue with
        | .error err => app.ReturnQuery none err app.state.Height
        | .ok idpsList =>
          getIdpNodesFinish app
            { Node := rangeAppend (getIdpNodesDirectoryBody c app funcParam)
                idpsList.NodeId returnNodes.Node }
    else
      let refGroupCode : Option String :=
        if funcParam.ReferenceGroupCode ≠ "" then some funcParam.ReferenceGroupCode
        else
          app.state.Get (identityToRefCodeKeyPrefix ++ keySeparator ++
            funcParam.IdentityNamespace ++ keySeparator ++
            funcParam.IdentityIdentifierHash) true
      match refGroupCode with
      | none => app.ReturnQuery none "not found" app.state.Height
      | some refGroupCode =>
        let refGroupKey := refGroupCodeKeyPrefix ++ keySeparator ++ refGroupCode
        match app.state.Get refGroupKey true with
        | none => app.ReturnQuery none "not found" app.state.Height
        | some refGroupValue =>
          match c.unmarshalReferenceGroup refGroupValue with
          | .error err => app.ReturnQuery none err app.state.Height
          | .ok refGroup =>
            getIdpNodesFinish app
              { Node := rangeAppend (getIdpNodesGroupBody c app funcParam)
                  refGroup.Idps returnNodes.Node }

/-! ## `getNodeInfo` (lines 902-1032) -/

/-- The conversion of one `data.MQ` into a `MsqAddress`, as every address
loop of the file does it. -/
def toMsqAddress (mq : MQ) : MsqAddress :=
  { IP := mq.Ip, Port := mq.Port }

/-- The handler `getNodeInfo`. -/
def getNodeInfo (c : Codec) (app : ABCIApplication) (param : String) :
    ResponseQuery NodeInfo :=
  match c.unmarshalGetNodeInfoParam param with
  | .error err => app.ReturnQuery none err app.state.Height
  | .ok funcParam =>
    let nodeDetailKey := nodeIDKeyPrefix ++ keySeparator ++ funcParam.NodeID
    match app.state.Get nodeDetailKey true with
    | none => app.ReturnQuery (some (.raw "{}")) "not found" app.state.Height
    | some nodeDetailValue =>
      match c.unmarshalNodeDetail nodeDetailValue with
      | .error err => app.ReturnQuery none err app.state.Height
      | .ok nodeDetail =>
        if nodeDetail.ProxyNodeId ≠ "" then
          let proxyNodeID := nodeDetail.ProxyNodeId
          let proxyNodeDetailKey := nodeIDKeyPrefix ++ keySeparator ++ proxyNodeID
          match app.state.Get proxyNodeDetailKey true with
          | none => app.ReturnQuery (some (.raw "{}")) "not found" app.state.Height
          | some proxyNodeDetailValue =>
            match c.unmarshalNodeDetail proxyNodeDetailValue with
            | .error err => app.ReturnQuery none err app.state.Height
            | .ok proxyNode =>
              if nodeDetail.Role = "IdP" then
                let result : GetNodeInfoResultIdPandASBehindProxy :=
                  { PublicKey := nodeDetail.PublicKey
                    MasterPublicKey := nodeDetail.MasterPublicKey
                    NodeName := nodeDetail.NodeName
                    Role := nodeDetail.Role
                    MaxIal := nodeDetail.MaxIal
                    MaxAal := nodeDetail.MaxAal
                    SupportedRequestMessageDataUrlTypeList :=
                      nodeDetail.SupportedRequestMessageDataUrlTypeList
                    Proxy :=
                      { NodeID := proxyNodeID
                        NodeName := proxyNode.NodeName
                        PublicKey := proxyNode.PublicKey
                        MasterPublicKey := proxyNode.MasterPublicKey
                        Mq := appendEach toMsqAddress proxyNode.Mq none
                        Config := nodeDetail.ProxyConfig }
                    Active := nodeDetail.Active }
                app.ReturnQuery (some (.json (.idpBehindProxy result))) "success"
                  app.state.Height
              else
                let result : GetNodeInfoResultRPandASBehindProxy :=
                  { PublicKey := nodeDetail.PublicKey
                    MasterPublicKey := nodeDetail.MasterPublicKey
                    NodeName := nodeDetail.NodeName
                    Role := nodeDetail.Role
                    Proxy :=
                      { NodeID := proxyNodeID
                        NodeName := proxyNode.NodeName
                        PublicKey := proxyNode.PublicKey
                        MasterPublicKey := proxyNode.MasterPublicKey
                        Mq := appendEach toMsqAddress proxyNode.Mq none
                        Config := nodeDetail.ProxyConfig }
                    Active := nodeDetail.Active }
                app.ReturnQuery (some (.json (.behindProxy result))) "success"
                  app.state.Height
        else if nodeDetail.Role = "IdP" then
          let result : GetNodeInfoIdPResult :=
            { PublicKey := nodeDetail.PublicKey
              MasterPublicKey := nodeDetail.MasterPublicKey
              NodeName := nodeDetail.NodeName
              Role := nodeDetail.Role
              MaxIal := nodeDetail.MaxIal
              MaxAal := nodeDetail.MaxAal
              SupportedRequestMessageDataUrlTypeList :=
                nodeDetail.SupportedRequestMessageDataUrlTypeList
              Mq := appendEach toMsqAddress nodeDetail.Mq none
              Active := nodeDetail.Active }
          app.ReturnQuery (some (.json (.idp result))) "success" app.state.Height
        else
          let result : GetNodeInfoResult :=
            { PublicKey := nodeDetail.PublicKey
              MasterPublicKey := nodeDetail.MasterPublicKey
              NodeName := nodeDetail.NodeName
              Role := nodeDetail.Role
              Mq := appendEach toMsqAddress nodeDetail.Mq none
              Active := nodeDetail.Active }
          app.ReturnQuery (some (.json (.plain result))) "success" app.state.Height

/-! ## `getIdpNodesInfo` (lines 1197-1459) -/

/-- Body of the loop over the IdP directory, lines 1214-1308. -/
def getIdpNodesInfoDirectoryBody (c : Codec) (app : ABCIApplication)
    (funcParam : GetIdpNodesParam) (idp : String) :
    LoopStep (ResponseQuery GetIdpNodesInfoResult) IdpNodesInfoEntry :=
  let nodeDetailKey := nodeIDKeyPrefix ++ keySeparator ++ idp
  match app.state.Get nodeDetailKey true with
  | none => .skip
  | some nodeDetailValue =>
    match c.unmarshalNodeDetail nodeDetailValue with
    | .error _ => .skip
    | .ok nodeDetail =>
      if !nodeDetail.Active then .skip
      else if ¬ (nodeDetail.MaxIal ≥ funcParam.MinIal ∧
          nodeDetail.MaxAal ≥ funcParam.MinAal) then .skip
      else if funcParam.NodeIDList.length > 0 ∧
          !contains idp funcParam.NodeIDList then .skip
      else if funcParam.SupportedRequestMessageDataUrlTypeList.length > 0 ∧
          supportedCount nodeDetail.SupportedRequestMessageDataUrlTypeList
            funcParam.SupportedRequestMessageDataUrlTypeList
            < funcParam.SupportedRequestMessageDataUrlTypeList.length then .skip
      else if nodeDetail.ProxyNodeId ≠ "" then
        let proxyNodeID := nodeDetail.ProxyNodeId
        let proxyNodeDetailKey := nodeIDKeyPrefix ++ keySeparator ++ proxyNodeID
        match app.state.Get proxyNodeDetailKey true with
        | none => .ret (app.ReturnQuery (some (.raw "{}")) "not found" app.state.Height)
        | some proxyNodeDetailValue =>
          match c.unmarshalNodeDetail proxyNodeDetailValue with
          | .error err => .ret (app.ReturnQuery none err app.state.Height)
          | .ok proxyNode =>
            if !proxyNode.Active then .skip
            else
              .append (.behindProxy
                { NodeID := idp
                  Name := nodeDetail.NodeName
                  MaxIal := nodeDetail.MaxIal
                  MaxAal := nodeDetail.MaxAal
                  PublicKey := nodeDetail.PublicKey
                  SupportedRequestMessageDataUrlTypeList :=
                    nodeDetail.SupportedRequestMessageDataUrlTypeList
                  Proxy :=
                    { NodeID := proxyNodeID
                      PublicKey := proxyNode.PublicKey
                      Mq := appendEach toMsqAddress proxyNode.Mq none
                      Config := nodeDetail.ProxyConfig } })
      else
        .append (.node
          { NodeID := idp
            Name := nodeDetail.NodeName
            MaxIal := nodeDetail.MaxIal
            MaxAal := nodeDetail.MaxAal
            PublicKey := nodeDetail.PublicKey
            SupportedRequestMessageDataUrlTypeList :=
              nodeDetail.SupportedRequestMessageDataUrlTypeList
            Mq := appendEach toMsqAddress nodeDetail.Mq none })

/-- Body of the loop over the associations of the reference group, lines
1332-1449. -/
def getIdpNodesInfoGroupBody (c : Codec) (app : ABCIApplication)
    (funcParam : GetIdpNodesParam) (idp : IdPInRefGroup) :
    LoopStep (ResponseQuery GetIdpNodesInfoResult) IdpNodesInfoEntry :=
  let nodeDetailKey := nodeIDKeyPrefix ++ keySeparator ++ idp.NodeId
  match app.state.Get nodeDetailKey true with
  | none => .skip
  | some nodeDetailValue =>
    match c.unmarshalNodeDetail nodeDetailValue with
    | .error _ => .skip
    | .ok nodeDetail =>
      if !nodeDetail.Active then .skip
      else if ¬ (nodeDetail.MaxIal ≥ funcParam.MinIal ∧
          nodeDetail.MaxAal ≥ funcParam.MinAal) then .skip
      else if !idp.Active then .skip
      else if idp.Ial < funcParam.MinIal then .skip
      else if funcParam.NodeIDList.length > 0 ∧
          !contains idp.NodeId funcParam.NodeIDList then .skip
      else if funcParam.SupportedRequestMessageDataUrlTypeList.length > 0 ∧
          supportedCount nodeDetail.SupportedRequestMessageDataUrlTypeList
            funcParam.SupportedRequestMessageDataUrlTypeList
            < funcParam.SupportedRequestMessageDataUrlTypeList.length then .skip
      else if funcParam.ModeList.length > 0 ∧
          supportedModeCount idp.Mode funcParam.ModeList
            < funcParam.ModeList.length then .skip
      else if nodeDetail.ProxyNodeId ≠ "" then
        let proxyNodeID := nodeDetail.ProxyNodeId
        let proxyNodeDetailKey := nodeIDKeyPrefix ++ keySeparator ++ proxyNodeID
        match app.state.Get proxyNodeDetailKey true with
        | none => .ret (app.ReturnQuery (some (.raw "{}")) "not found" app.state.Height)
        | some proxyNodeDetailValue =>
          match c.unmarshalNodeDetail proxyNodeDetailValue with
          | .error err => .ret (app.ReturnQuery none err app.state.Height)
          | .ok proxyNode =>
            if !proxyNode.Active then .skip
            else
              .append (.behindProxyWithModeList
                { NodeID := idp.NodeId
                  Name := nodeDetail.NodeName
                  MaxIal := nodeDetail.MaxIal
                  MaxAal := nodeDetail.MaxAal
                  PublicKey := nodeDetail.PublicKey
                  SupportedRequestMessageDataUrlTypeList :=
                    nodeDetail.SupportedRequestMessageDataUrlTypeList
                  Proxy :=
                    { NodeID := proxyNodeID
                      PublicKey := proxyNode.PublicKey
                      Mq := appendEach toMsqAddress proxyNode.Mq none
                      Config := nodeDetail.ProxyConfig }
                  ModeList := idp.Mode })
      else
        .append (.withModeList
          { NodeID := idp.NodeId
            Name := nodeDetail.NodeName
            MaxIal := nodeDetail.MaxIal
            MaxAal := nodeDetail.MaxAal
            PublicKey := nodeDetail.PublicKey
            SupportedRequestMessageDataUrlTypeList :=
              nodeDetail.SupportedRequestMessageDataUrlTypeList
            Mq := appendEach toMsqAddress nodeDetail.Mq none
            Ial := idp.Ial
            ModeList := idp.Mode })

/-- The tail of `getIdpNodesInfo`, lines 1451-1458. -/
def getIdpNodesInfoFinish (app : ABCIApplication) (returnNodes : GetIdpNodesInfoResult) :
    ResponseQuery GetIdpNodesInfoResult :=
  let value := QueryValue.json returnNodes
  if returnNodes.Node.length = 0 then
    app.ReturnQuery (some value) "not found" app.state.Height
  else
    app.ReturnQuery (some value) "success" app.state.Height

/-- The handler `getIdpNodesInfo`. -/
def getIdpNodesInfo (c : Codec) (app : ABCIApplication) (param : String) :
    ResponseQuery GetIdpNodesInfoResult :=
  match c.unmarshalGetIdpNodesParam param with
  | .error err => app.ReturnQuery none err app.state.Height
  | .ok funcParam =>
    let returnNodes : GetIdpNodesInfoResult := { Node := [] }
    if funcParam.ReferenceGroupCode = "" ∧ funcParam.IdentityNamespace = "" ∧
        funcParam.IdentityIdentifierHash = "" then
      match app.state.Get idpListKeyBytes true with
      | none => getIdpNodesInfoFinish app returnNodes
      | some idpsValue =>
        match c.unmarshalIdPList idpsValue with
        | .error err => app.ReturnQuery none err app.state.Height
        | .ok idpsList =>
          match forRange (getIdpNodesInfoDirectoryBody c app funcParam)
              idpsList.NodeId returnNodes.Node with
          | .error response => response
          | .ok nodes => getIdpNodesInfoFinish app { Node := nodes }
    else
      let refGroupCode : Option String :=
        if funcParam.ReferenceGroupCode ≠ "" then some funcParam.ReferenceGroupCode
        else
          app.state.Get (identityToRefCodeKeyPrefix ++ keySeparator ++
            funcParam.IdentityNamespace ++ keySeparator ++
            funcParam.IdentityIdentifierHash) true
      match refGroupCode with
      | none => app.ReturnQuery none "not found" app.state.Height
      | some refGroupCode =>
        let refGroupKey := refGroupCodeKeyPrefix ++ keySeparator ++ refGroupCode
        match app.state.Get refGroupKey true with
        | none => app.ReturnQuery none "not found" app.state.Height
        | some refGroupValue =>
          match c.unmarshalReferenceGroup refGroupValue with
          | .error err => app.ReturnQuery none err app.state.Height
          | .ok refGroup =>
            match forRange (getIdpNodesInfoGroupBody c app funcParam)
                refGroup.Idps returnNodes.Node with
            | .error response => response
            | .ok nodes => getIdpNodesInfoFinish app { Node := nodes }

/-! ## Vocabulary of the statements -/

/-- The element an iteration appends, if it appends one. -/
def LoopStep.appended {ρ ε : Type} : LoopStep ρ ε → Option ε
  | .append e => some e
  | _ => none

/-- The node `id` has a stored record that decodes to `nd`. -/
def nodeRecord (c : Codec) (app : ABCIApplication) (id : String) (nd : NodeDetail) : Prop :=
  ∃ v, app.state.Get (nodeIDKeyPrefix ++ keySeparator ++ id) true = some v ∧
    c.unmarshalNodeDetail v = .ok nd

/-- The filters of the discovery loops that look at the node record: active,
levels, allow list, supported types. -/
def passesNode (p : GetIdpNodesParam) (id : String) (nd : NodeDetail) : Prop :=
  nd.Active = true ∧ nd.MaxIal ≥ p.MinIal ∧ nd.MaxAal ≥ p.MinAal ∧
  (p.NodeIDList ≠ [] → id ∈ p.NodeIDList) ∧
  (p.SupportedRequestMessageDataUrlTypeList ≠ [] →
    p.SupportedRequestMessageDataUrlTypeList.length ≤
      supportedCount nd.SupportedRequestMessageDataUrlTypeList
        p.SupportedRequestMessageDataUrlTypeList)

instance (p : GetIdpNodesParam) (id : String) (nd : NodeDetail) :
    Decidable (passesNode p id nd) := by
  unfold passesNode; infer_instance

/-- The filters of the identity-scoped loops that look at the association:
active, IAL, modes. -/
def passesAssoc (p : GetIdpNodesParam) (idp : IdPInRefGroup) : Prop :=
  idp.Active = true ∧ p.MinIal ≤ idp.Ial ∧
  (p.ModeList ≠ [] →
    p.ModeList.length ≤ supportedModeCount idp.Mode p.ModeList)

instance (p : GetIdpNodesParam) (idp : IdPInRefGroup) : Decidable (passesAssoc p idp) := by
  unfold passesAssoc; infer_instance

/-- The entry `getIdpNodes` appends in the directory branch. -/
def plainEntry (id : String) (nd : NodeDetail) : IdpNodesEntry :=
  .plain
    { ID := id, Name := nd.NodeName, MaxIal := nd.MaxIal, MaxAal := nd.MaxAal,
      SupportedRequestMessageDataUrlTypeList := nd.SupportedRequestMessageDataUrlTypeList }

/-- The entry `getIdpNodes` appends in the identity-scoped branch. -/
def modeListEntry (idp : IdPInRefGroup) (nd : NodeDetail) : IdpNodesEntry :=
  .withModeList
    { ID := idp.NodeId, Name := nd.NodeName, MaxIal := nd.MaxIal, MaxAal := nd.MaxAal,
      Ial := idp.Ial, ModeList := idp.Mode,
      SupportedRequestMessageDataUrlTypeList := nd.SupportedRequestMessageDataUrlTypeList }

/-- The `Proxy` part `getIdpNodesInfo` builds for a node behind a proxy. -/
def idpProxyOf (nd proxyNode : NodeDetail) : IdpProxy :=
  { NodeID := nd.ProxyNodeId, PublicKey := proxyNode.PublicKey,
    Mq := appendEach toMsqAddress proxyNode.Mq none, Config := nd.ProxyConfig }

/-- The entry `getIdpNodesInfo` appends in the directory branch for a node
that is not behind a proxy. -/
def infoNodeEntry (id : String) (nd : NodeDetail) : IdpNodesInfoEntry :=
  .node
    { NodeID := id, Name := nd.NodeName, MaxIal := nd.MaxIal, MaxAal := nd.MaxAal,
      PublicKey := nd.PublicKey,
      SupportedRequestMessageDataUrlTypeList := nd.SupportedRequestMessageDataUrlTypeList,
      Mq := appendEach toMsqAddress nd.Mq none }

/-- The entry `getIdpNodesInfo` appends in the directory branch for a node
behind a proxy. -/
def infoBehindProxyEntry (id : String) (nd proxyNode : NodeDetail) : IdpNodesInfoEntry :=
  .behindProxy
    { NodeID := id, Name := nd.NodeName, MaxIal := nd.MaxIal, MaxAal := nd.MaxAal,
      PublicKey := nd.PublicKey,
      SupportedRequestMessageDataUrlTypeList := nd.SupportedRequestMessageDataUrlTypeList,
      Proxy := idpProxyOf nd proxyNode }

/-- The entry `getIdpNodesInfo` appends in the identity-scoped branch for a
node that is not behind a proxy. -/
def infoModeListEntry (idp : IdPInRefGroup) (nd : NodeDetail) : IdpNodesInfoEntry :=
  .withModeList
    { NodeID := idp.NodeId, Name := nd.NodeName, MaxIal := nd.MaxIal, MaxAal := nd.MaxAal,
      PublicKey := nd.PublicKey,
      SupportedRequestMessageDataUrlTypeList := nd.SupportedRequestMessageDataUrlTypeList,
      Mq := appendEach toMsqAddress nd.Mq none, Ial := idp.Ial, ModeList := idp.Mode }

/-- The entry `getIdpNodesInfo` appends in the identity-scoped branch for a
node behind a proxy. -/
def infoBehindProxyModeListEntry (idp : IdPInRefGroup) (nd proxyNode : NodeDetail) :
    IdpNodesInfoEntry :=
  .behindProxyWithModeList
    { NodeID := idp.NodeId, Name := nd.NodeName, MaxIal := nd.MaxIal, MaxAal := nd.MaxAal,
      PublicKey := nd.PublicKey,
      SupportedRequestMessageDataUrlTypeList := nd.SupportedRequestMessageDataUrlTypeList,
      Proxy := idpProxyOf nd proxyNode, ModeList := idp.Mode }

/-- What a candidate that passed the filters contributes in `getIdpNodesInfo`,
lines 1253-1307 and 1391-1448: its own entry `own` when it is not behind a
proxy; else a `return` when the proxy record is absent or does not decode,
nothing when the proxy is inactive, and the entry `proxied` otherwise. -/
def proxyOutcome (c : Codec) (app : ABCIApplication) (nd : NodeDetail)
    (own : IdpNodesInfoEntry) (proxied : NodeDetail → IdpNodesInfoEntry) :
    LoopStep (ResponseQuery GetIdpNodesInfoResult) IdpNodesInfoEntry :=
  if nd.ProxyNodeId ≠ "" then
    match app.state.Get (nodeIDKeyPrefix ++ keySeparator ++ nd.ProxyNodeId) true with
    | none => .ret { Value := some (.raw "{}"), Log := "not found", Height := app.state.Height }
    | some v =>
      match c.unmarshalNodeDetail v with
      | .error err => .ret { Value := none, Log := err, Height := app.state.Height }
      | .ok proxyNode => if !proxyNode.Active then .skip else .append (proxied proxyNode)
  else .append own

/-- The response of the `return` at lines 1260 and 1398: the proxy record is
absent. -/
def proxyMissingResponse (app : ABCIApplication) : ResponseQuery GetIdpNodesInfoResult :=
  { Value := some (.raw "{}"), Log := "not found", Height := app.state.Height }

/-- The reference group code an identity-scoped query resolves to, lines
245-255 and 1311-1321: the code given, else the entry of the identity reverse
index. -/
def resolvesTo (app : ABCIApplication) (p : GetIdpNodesParam) (code : String) : Prop :=
  (p.ReferenceGroupCode ≠ "" ∧ code = p.ReferenceGroupCode) ∨
  (p.ReferenceGroupCode = "" ∧
    app.state.Get (identityToRefCodeKeyPrefix ++ keySeparator ++ p.IdentityNamespace ++
      keySeparator ++ p.IdentityIdentifierHash) true = some code)

/-- The top-level `public_key` of a `getNodeInfo` result. -/
def NodeInfo.PublicKey : NodeInfo → String
  | .idpBehindProxy r => r.PublicKey
  | .behindProxy r => r.PublicKey
  | .idp r => r.PublicKey
  | .plain r => r.PublicKey

/-- The top-level `master_public_key` of a `getNodeInfo` result. -/
def NodeInfo.MasterPublicKey : NodeInfo → String
  | .idpBehindProxy r => r.MasterPublicKey
  | .behindProxy r => r.MasterPublicKey
  | .idp r => r.MasterPublicKey
  | .plain r => r.MasterPublicKey

/-- The `proxy` part of a `getNodeInfo` result. Only the two behind-proxy
records have one, and they have no address list of their own. -/
def NodeInfo.Proxy : NodeInfo → Option NodeInfoProxy
  | .idpBehindProxy r => some r.Proxy
  | .behindProxy r => some r.Proxy
  | .idp _ => none
  | .plain _ => none

/-- The IdP role directory lists `ids`, lines 189-196: no directory is stored
and `ids` is empty, or the stored directory decodes to `ids`. -/
def idpDirectory (c : Codec) (app : ABCIApplication) (ids : List String) : Prop :=
  (app.state.Get idpListKeyBytes true = none ∧ ids = []) ∨
  (∃ v l, app.state.Get idpListKeyBytes true = some v ∧ c.unmarshalIdPList v = .ok l ∧
    ids = l.NodeId)

/-- The query is identity-scoped: one of the three identity parameters is not
empty. -/
def identityScoped (p : GetIdpNodesParam) : Prop :=
  ¬ (p.ReferenceGroupCode = "" ∧ p.IdentityNamespace = "" ∧ p.IdentityIdentifierHash = "")

/-- The reference group `g` is stored under `code` and decodes. -/
def groupRecord (c : Codec) (app : ABCIApplication) (code : String) (g : ReferenceGroup) :
    Prop :=
  ∃ v, app.state.Get (refGroupCodeKeyPrefix ++ keySeparator ++ code) true = some v ∧
    c.unmarshalReferenceGroup v = .ok g

/-! ## A small ledger, used to instantiate the statements

The directory lists `idp1`, `idp2`, `idp3`. `idp1` supports the type `A`;
`idp2` is behind the proxy `proxy9`, which has no record; `idp3` lists the type
`A` twice. `rp1` is behind the proxy `proxy1`, which has a record. The group
`g1` has the single association of `idp1`, and the identity
`(citizen_id, h1)` maps to `g1`. -/

def demoIdp1 : NodeDetail :=
  { PublicKey := "pk-idp1", MasterPublicKey := "mpk-idp1", NodeName := "IdP 1", Role := "IdP",
    MaxIal := 3, MaxAal := 3, Mq := [{ Ip := "10.0.0.1", Port := 5555 }], Active := true,
    ProxyNodeId := "", ProxyConfig := "", SupportedRequestMessageDataUrlTypeList := ["A"] }

def demoIdp2 : NodeDetail :=
  { PublicKey := "pk-idp2", MasterPublicKey := "mpk-idp2", NodeName := "IdP 2", Role := "IdP",
    MaxIal := 3, MaxAal := 3, Mq := [], Active := true,
    ProxyNodeId := "proxy9", ProxyConfig := "KEY_ONLY",
    SupportedRequestMessageDataUrlTypeList := [] }

def demoIdp3 : NodeDetail :=
  { PublicKey := "pk-idp3", MasterPublicKey := "mpk-idp3", NodeName := "IdP 3", Role := "IdP",
    MaxIal := 3, MaxAal := 3, Mq := [{ Ip := "10.0.0.3", Port := 5555 }], Active := true,
    ProxyNodeId := "", ProxyConfig := "",
    SupportedRequestMessageDataUrlTypeList := ["A", "A"] }

def demoRp1 : NodeDetail :=
  { PublicKey := "pk-rp1", MasterPublicKey := "mpk-rp1", NodeName := "RP 1", Role := "RP",
    MaxIal := 0, MaxAal := 0, Mq := [{ Ip := "10.0.0.7", Port := 7000 }], Active := true,
    ProxyNodeId := "proxy1", ProxyConfig := "KEY_ONLY",
    SupportedRequestMessageDataUrlTypeList := [] }

def demoProxy1 : NodeDetail :=
  { PublicKey := "pk-proxy1", MasterPublicKey := "mpk-proxy1", NodeName := "Proxy 1",
    Role := "Proxy", MaxIal := 0, MaxAal := 0, Mq := [{ Ip := "10.0.0.9", Port := 9000 }],
    Active := true, ProxyNodeId := "", ProxyConfig := "",
    SupportedRequestMessageDataUrlTypeList := [] }

def demoAssociation : IdPInRefGroup :=
  { NodeId := "idp1", Mode := [2, 3], Accessors := [], Ial := 2.3, Active := true }

def demoGroup : ReferenceGroup :=
  { Identities := [{ Namespace := "citizen_id", IdentifierHash := "h1" }],
    Idps := [demoAssociation] }

def demoAs1 : NodeDetail :=
  { PublicKey := "pk-as1", MasterPublicKey := "mpk-as1", NodeName := "AS 1", Role := "AS",
    MaxIal := 0, MaxAal := 0, Mq := [{ Ip := "10.0.1.1", Port := 6000 }], Active := true,
    ProxyNodeId := "", ProxyConfig := "", SupportedRequestMessageDataUrlTypeList := [] }

def demoAs2 : NodeDetail :=
  { PublicKey := "pk-as2", MasterPublicKey := "mpk-as2", NodeName := "AS 2", Role := "AS",
    MaxIal := 0, MaxAal := 0, Mq := [{ Ip := "10.0.1.2", Port := 6000 }], Active := true,
    ProxyNodeId := "", ProxyConfig := "", SupportedRequestMessageDataUrlTypeList := [] }

/-- The record of `idp1` after its public key was replaced. -/
def demoIdp1NewKey : NodeDetail :=
  { demoIdp1 with PublicKey := "pk-idp1-new" }

/-- The destination list of the service `svc1`: `as1` and `as2` are active
entries, `as3` is an inactive entry. -/
def demoDestinations : List data.ASNode :=
  [{ NodeId := "as1", MinIal := 1, MinAal := 1, SupportedNamespaceList := ["citizen_id"],
     Active := true },
   { NodeId := "as2", MinIal := 2, MinAal := 2, SupportedNamespaceList := ["citizen_id"],
     Active := true },
   { NodeId := "as3", MinIal := 1, MinAal := 1, SupportedNamespaceList := ["citizen_id"],
     Active := false }]

/-- The services `as1` provides: `svc1`, approved, and `svc3`, which is active
but whose approval is inactive, and `svc4`, which has no approval record. -/
def demoProvided : List data.Service :=
  [{ ServiceId := "svc1", MinIal := 1, MinAal := 1, Active := true, Suspended := false,
     SupportedNamespaceList := ["citizen_id"] },
   { ServiceId := "svc3", MinIal := 1, MinAal := 1, Active := true, Suspended := false,
     SupportedNamespaceList := [] },
   { ServiceId := "svc4", MinIal := 1, MinAal := 1, Active := true, Suspended := false,
     SupportedNamespaceList := [] }]

def demoNamespaces : List Namespace :=
  [{ Namespace := "citizen_id", Active := true, AllowedIdentifierCountInReferenceGroup := -1 },
   { Namespace := "passport", Active := true, AllowedIdentifierCountInReferenceGroup := 2 },
   { Namespace := "old_id", Active := false, AllowedIdentifierCountInReferenceGroup := 1 }]

/-- A request with three responses: one not yet verified, one verified as
valid, one verified as invalid. -/
def demoRequest : data.Request :=
  { RequestId := "request1", MinIdp := 1, MinAal := 1, MinIal := 1, RequestTimeout := 3600,
    IdpIdList := ["idp1"], DataRequestList := [], RequestMessageHash := "hash",
    ResponseList :=
      [{ Ial := 2, Aal := 2, Status := "accept", Signature := "sig-a", IdpId := "idp1",
         ValidIal := "", ValidSignature := "" },
       { Ial := 2, Aal := 2, Status := "accept", Signature := "sig-b", IdpId := "idp2",
         ValidIal := "true", ValidSignature := "true" },
       { Ial := 2, Aal := 2, Status := "accept", Signature := "sig-c", IdpId := "idp3",
         ValidIal := "false", ValidSignature := "false" }],
    Closed := false, TimedOut := false, Mode := 2, Purpose := "", Owner := "rp1",
    CreationBlockHeight := 5, ChainId := "ndid" }

/-- The record `data.NodeDetail` with every field at its zero value, which is
what a proto3 decoder makes of the input of length zero. -/
def zeroNodeDetail : NodeDetail :=
  { PublicKey := "", MasterPublicKey := "", NodeName := "", Role := "", MaxIal := 0,
    MaxAal := 0, Mq := [], Active := false, ProxyNodeId := "", ProxyConfig := "",
    SupportedRequestMessageDataUrlTypeList := [] }

def demoMqOnly : NodeDetail :=
  { zeroNodeDetail with Mq := [{ Ip := "10.9.9.9", Port := 1234 }] }

def demoIdp1NewMq : NodeDetail :=
  { demoIdp1 with Mq := [{ Ip := "10.9.9.9", Port := 1234 }] }

def demoRp2 : NodeDetail :=
  { PublicKey := "pk-rp2", MasterPublicKey := "mpk-rp2", NodeName := "RP 2", Role := "RP",
    MaxIal := 0, MaxAal := 0, Mq := [], Active := false, ProxyNodeId := "", ProxyConfig := "",
    SupportedRequestMessageDataUrlTypeList := [] }

def demoGroup2 : ReferenceGroup :=
  { Identities := [{ Namespace := "citizen_id", IdentifierHash := "h2" }],
    Idps :=
      [{ NodeId := "idp1", Mode := [2],
         Accessors := [{ AccessorId := "acc1", AccessorPublicKey := "pk-acc1", Active := true }],
         Ial := 2, Active := true },
       { NodeId := "idp3", Mode := [3],
         Accessors := [{ AccessorId := "acc3", AccessorPublicKey := "pk-acc3", Active := false }],
         Ial := 3, Active := true }] }

def demoIdp4 : NodeDetail :=
  { PublicKey := "pk-idp4", MasterPublicKey := "mpk-idp4", NodeName := "IdP 4", Role := "IdP",
    MaxIal := 3, MaxAal := 3, Mq := [], Active := true,
    ProxyNodeId := "proxy2", ProxyConfig := "KEY_ONLY",
    SupportedRequestMessageDataUrlTypeList := [] }

def demoProxy2 : NodeDetail :=
  { PublicKey := "pk-proxy2", MasterPublicKey := "mpk-proxy2", NodeName := "Proxy 2",
    Role := "Proxy", MaxIal := 0, MaxAal := 0, Mq := [{ Ip := "10.0.0.8", Port := 9000 }],
    Active := false, ProxyNodeId := "", ProxyConfig := "",
    SupportedRequestMessageDataUrlTypeList := [] }

def demoGroup3 : ReferenceGroup :=
  { Identities := [{ Namespace := "citizen_id", IdentifierHash := "h3" }],
    Idps :=
      [{ NodeId := "idp1", Mode := [2],
         Accessors := [{ AccessorId := "acc5", AccessorPublicKey := "pk-acc5", Active := true }],
         Ial := 2, Active := true },
       { NodeId := "idp3", Mode := [3],
         Accessors := [{ AccessorId := "acc5", AccessorPublicKey := "pk-acc5", Active := true }],
         Ial := 3, Active := true }] }

def demoRequestFresh : data.Request :=
  { RequestId := "request2", MinIdp := 1, MinAal := 1, MinIal := 1, RequestTimeout := 3600,
    IdpIdList := [],
    DataRequestList :=
      [{ ServiceId := "svc1", AsIdList := [], MinAs := 1, AnsweredAsIdList := [],
         ReceivedDataFromList := [], RequestParamsHash := "params-hash" }],
    RequestMessageHash := "message-hash", ResponseList := [],
    Closed := false, TimedOut := false, Mode := 2, Purpose := "", Owner := "rp1",
    CreationBlockHeight := 12, ChainId := "ndid" }

/-- The parameter with no identity and no filter, and the levels `minIal`,
`minAal = 1`. -/
def demoParam (minIal : ℚ) : GetIdpNodesParam :=
  { ReferenceGroupCode := "", IdentityNamespace := "", IdentityIdentifierHash := "",
    MinAal := 1, MinIal := minIal, NodeIDList := [],
    SupportedRequestMessageDataUrlTypeList := [], ModeList := [] }

/-- A decoder that knows the byte strings of the small ledgers and the
parameter strings used below, decodes the input of length zero to the zero
node record as proto3 does, and fails on every other input. `ToLower` lowers
the letters `A` to `Z`. -/
def demoCodec : Codec where
  unmarshalNodeDetail v :=
    if v = "bytes-idp1" then .ok demoIdp1
    else if v = "bytes-idp2" then .ok demoIdp2
    else if v = "bytes-idp3" then .ok demoIdp3
    else if v = "bytes-rp1" then .ok demoRp1
    else if v = "bytes-proxy1" then .ok demoProxy1
    else if v = "bytes-as1" then .ok demoAs1
    else if v = "bytes-as2" then .ok demoAs2
    else if v = "bytes-idp1-new" then .ok demoIdp1NewKey
    else if v = "bytes-idp1-new-mq" then .ok demoIdp1NewMq
    else if v = "bytes-rp2" then .ok demoRp2
    else if v = "bytes-mq-only" then .ok demoMqOnly
    else if v = "" then .ok zeroNodeDetail
    else if v = "bytes-idp4" then .ok demoIdp4
    else if v = "bytes-proxy2" then .ok demoProxy2
    else .error "proto: cannot parse invalid wire-format data"
  unmarshalIdPList v :=
    if v = "bytes-directory" then .ok { NodeId := ["idp1", "idp2", "idp3"] }
    else if v = "bytes-directory-2" then .ok { NodeId := ["idp4", "idp1"] }
    else .error "proto: cannot parse invalid wire-format data"
  unmarshalReferenceGroup v :=
    if v = "bytes-g1" then .ok demoGroup
    else if v = "bytes-g2" then .ok demoGroup2
    else if v = "bytes-g3" then .ok demoGroup3
    else .error "proto: cannot parse invalid wire-format data"
  unmarshalGetIdpNodesParam param :=
    if param = "all" then .ok (demoParam 1)
    else if param = "types A B" then
      .ok { demoParam 1 with SupportedRequestMessageDataUrlTypeList := ["A", "B"] }
    else if param = "only idp1" then .ok { demoParam 1 with NodeIDList := ["idp1"] }
    else if param = "group g1, mode 2" then
      .ok { demoParam 2 with ReferenceGroupCode := "g1", ModeList := [2] }
    else if param = "group g1, modes 2 4" then
      .ok { demoParam 2 with ReferenceGroupCode := "g1", ModeList := [2, 4] }
    else if param = "group g0" then .ok { demoParam 1 with ReferenceGroupCode := "g0" }
    else if param = "group g1, mode 2, identity h9" then
      .ok { demoParam 2 with ReferenceGroupCode := "g1", ModeList := [2],
                             IdentityNamespace := "citizen_id", IdentityIdentifierHash := "h9" }
    else if param = "all, levels 4" then .ok { demoParam 1 with MinIal := 4, MinAal := 4 }
    else .error "unexpected end of JSON input"
  unmarshalGetNodeInfoParam param :=
    if param = "rp1" then .ok { NodeID := "rp1" }
    else if param = "idp2" then .ok { NodeID := "idp2" }
    else .error "unexpected end of JSON input"
  unmarshalServiceDesList v :=
    if v = "bytes-destinations-svc1" then .ok { Node := demoDestinations }
    else .error "proto: cannot parse invalid wire-format data"
  unmarshalServiceDetail v :=
    if v = "bytes-svc1" then .ok { ServiceId := "svc1", ServiceName := "Service 1", Active := true }
    else if v = "bytes-svc2" then
      .ok { ServiceId := "svc2", ServiceName := "Service 2", Active := false }
    else .error "proto: cannot parse invalid wire-format data"
  unmarshalApproveService v :=
    if v = "bytes-approved" then .ok { Active := true }
    else if v = "bytes-not-approved" then .ok { Active := false }
    else .error "proto: cannot parse invalid wire-format data"
  unmarshalServiceList v :=
    if v = "bytes-services-as1" then .ok { Services := demoProvided }
    else .error "proto: cannot parse invalid wire-format data"
  unmarshalAllowedModeList v :=
    if v = "bytes-modes-3" then .ok { Mode := [3] }
    else .error "proto: cannot parse invalid wire-format data"
  unmarshalNamespaceList v :=
    if v = "bytes-namespaces" then .ok { Namespaces := demoNamespaces }
    else .error "proto: cannot parse invalid wire-format data"
  unmarshalRequest v :=
    if v = "bytes-request1" then .ok demoRequest
    else if v = "bytes-request2" then .ok demoRequestFresh
    else .error "proto: cannot parse invalid wire-format data"
  unmarshalGetAsNodesByServiceIdParam param :=
    if param = "svc1" then .ok { ServiceID := "svc1", NodeIDList := [] }
    else if param = "svc1, only as1" then .ok { ServiceID := "svc1", NodeIDList := ["as1"] }
    else if param = "svc2" then .ok { ServiceID := "svc2", NodeIDList := [] }
    else .error "unexpected end of JSON input"
  unmarshalGetServicesByAsIDParam param :=
    if param = "as1" then .ok { AsID := "as1" }
    else .error "unexpected end of JSON input"
  unmarshalGetRequestParam param :=
    if param = "request1" then .ok { RequestID := "request1" }
    else if param = "request2" then .ok { RequestID := "request2" }
    else .error "unexpected end of JSON input"
  unmarshalUpdateNodeParam param :=
    if param = "new key" then
      .ok { MasterPublicKey := "", PublicKey := "pk-idp1-new",
            SupportedRequestMessageDataUrlTypeList := none }
    else if param = "types only" then
      .ok { MasterPublicKey := "", PublicKey := "",
            SupportedRequestMessageDataUrlTypeList := some ["text/plain"] }
    else if param = "nothing" then
      .ok { MasterPublicKey := "", PublicKey := "",
            SupportedRequestMessageDataUrlTypeList := none }
    else .error "unexpected end of JSON input"
  marshalNodeDetail nd :=
    if nd = demoIdp1 then .ok "bytes-idp1"
    else if nd = demoIdp2 then .ok "bytes-idp2"
    else if nd = demoIdp3 then .ok "bytes-idp3"
    else if nd = demoRp1 then .ok "bytes-rp1"
    else if nd = demoProxy1 then .ok "bytes-proxy1"
    else if nd = demoAs1 then .ok "bytes-as1"
    else if nd = demoAs2 then .ok "bytes-as2"
    else if nd = demoIdp1NewKey then .ok "bytes-idp1-new"
    else if nd = demoIdp1NewMq then .ok "bytes-idp1-new-mq"
    else if nd = demoRp2 then .ok "bytes-rp2"
    else if nd = demoMqOnly then .ok "bytes-mq-only"
    else if nd = zeroNodeDetail then .ok ""
    else .error "proto: required field not set"
  unmarshalRPList v :=
    if v = "bytes-rp-directory" then .ok { NodeId := ["rp1", "rp2", "rp3"] }
    else .error "proto: cannot parse invalid wire-format data"
  unmarshalASList v :=
    if v = "bytes-as-directory" then .ok { NodeId := ["as1", "as2"] }
    else .error "proto: cannot parse invalid wire-format data"
  unmarshalAllList v :=
    if v = "bytes-all-directory" then .ok { NodeId := ["idp1", "rp1", "rp2"] }
    else .error "proto: cannot parse invalid wire-format data"
  unmarshalServiceDetailList v :=
    if v = "bytes-catalog" then
      .ok { Services := [{ ServiceId := "svc1", ServiceName := "Service 1", Active := true },
                         { ServiceId := "svc2", ServiceName := "Service 2", Active := false }] }
    else .error "proto: cannot parse invalid wire-format data"
  unmarshalBehindNodeList v :=
    if v = "bytes-behind-proxy1" then .ok { Nodes := ["rp1"] }
    else .error "proto: cannot parse invalid wire-format data"
  unmarshalAllowedMinIal v :=
    if v = "bytes-min-ial" then .ok { MinIal := 2 }
    else .error "proto: cannot parse invalid wire-format data"
  unmarshalSetMqAddressesParam param :=
    if param = "one address" then .ok { Addresses := [{ IP := "10.9.9.9", Port := 1234 }] }
    else .error "unexpected end of JSON input"
  unmarshalGetNodeMasterPublicKeyParam param :=
    if param = "idp1" then .ok { NodeID := "idp1" }
    else .error "unexpected end of JSON input"
  unmarshalGetNodePublicKeyParam param :=
    if param = "idp1" then .ok { NodeID := "idp1" }
    else .error "unexpected end of JSON input"
  unmarshalGetMqAddressesParam param :=
    if param = "idp1" then .ok { NodeID := "idp1" }
    else if param = "idp2" then .ok { NodeID := "idp2" }
    else if param = "ghost" then .ok { NodeID := "ghost" }
    else .error "unexpected end of JSON input"
  unmarshalGetServiceDetailParam param :=
    if param = "svc1" then .ok { ServiceID := "svc1" }
    else .error "unexpected end of JSON input"
  unmarshalCheckExistingIdentityParam param :=
    if param = "group g1 and identity h2" then
      .ok { ReferenceGroupCode := "g1", IdentityNamespace := "citizen_id",
            IdentityIdentifierHash := "h2" }
    else if param = "group g1" then
      .ok { ReferenceGroupCode := "g1", IdentityNamespace := "", IdentityIdentifierHash := "" }
    else .error "unexpected end of JSON input"
  unmarshalGetAccessorKeyParam param :=
    if param ∈ ["acc1", "acc3", "acc5", "acc8", "acc9"] then .ok { AccessorID := param }
    else .error "unexpected end of JSON input"
  unmarshalCheckExistingAccessorIDParam param :=
    if param ∈ ["acc1", "acc3", "acc5", "acc8", "acc9"] then .ok { AccessorID := param }
    else .error "unexpected end of JSON input"
  unmarshalGetIdentityInfoParam param :=
    if param = "group g1 and identity h2" then
      .ok { ReferenceGroupCode := "g1", IdentityNamespace := "citizen_id",
            IdentityIdentifierHash := "h2", NodeID := "idp1" }
    else if param = "group g2, idp1" then
      .ok { ReferenceGroupCode := "g2", IdentityNamespace := "", IdentityIdentifierHash := "",
            NodeID := "idp1" }
    else .error "unexpected end of JSON input"
  unmarshalGetDataSignatureParam param :=
    if param = "as1, svc1, request1" then
      .ok { NodeID := "as1", ServiceID := "svc1", RequestID := "request1" }
    else .error "unexpected end of JSON input"
  unmarshalGetNodesBehindProxyNodeParam param :=
    if param = "proxy1" then .ok { ProxyNodeID := "proxy1" }
    else .error "unexpected end of JSON input"
  unmarshalGetNodeIDListParam param :=
    if param = "role IdP" then .ok { Role := "IdP" }
    else if param = "role idp" then .ok { Role := "idp" }
    else if param = "role RP" then .ok { Role := "RP" }
    else if param = "role as" then .ok { Role := "as" }
    else if param = "no role" then .ok { Role := "" }
    else .error "unexpected end of JSON input"
  unmarshalGetAccessorOwnerParam param :=
    if param ∈ ["acc1", "acc3", "acc5", "acc8", "acc9"] then .ok { AccessorID := param }
    else .error "unexpected end of JSON input"
  unmarshalGetReferenceGroupCodeParam param :=
    if param = "citizen_id, h1" then
      .ok { IdentityNamespace := "citizen_id", IdentityIdentifierHash := "h1" }
    else .error "unexpected end of JSON input"
  unmarshalGetReferenceGroupCodeByAccessorIDParam param :=
    if param ∈ ["acc1", "acc3", "acc5", "acc8", "acc9"] then .ok { AccessorID := param }
    else .error "unexpected end of JSON input"
  unmarshalGetAllowedModeListParam param :=
    if param = "custom" then .ok { Purpose := "custom" }
    else .error "unexpected end of JSON input"
  ToLower s := String.mk (s.data.map Char.toLower)

def demoLedger (key : String) : Option String :=
  if key = "IdPList" then some "bytes-directory"
  else if key = "NodeID|idp1" then some "bytes-idp1"
  else if key = "NodeID|idp2" then some "bytes-idp2"
  else if key = "NodeID|idp3" then some "bytes-idp3"
  else if key = "NodeID|rp1" then some "bytes-rp1"
  else if key = "NodeID|proxy1" then some "bytes-proxy1"
  else if key = "RefGroupCode|g1" then some "bytes-g1"
  else if key = "identityToRefCodeKey|citizen_id|h1" then some "g1"
  else none

def demoApp : ABCIApplication :=
  { state := { committed := demoLedger, pending := fun _ => none, Height := 7 } }

/-- A second small ledger, for the service directory, the policies, the
requests and the node update. The service `svc1` is active and lists the
destinations `as1`, `as2` (active entries, approved) and `as3` (inactive
entry, approved); the service `svc2` is inactive; `as1` provides `svc1`,
`svc3` and `svc4`. -/
def demoServiceLedger (key : String) : Option String :=
  if key = "NodeID|as1" then some "bytes-as1"
  else if key = "NodeID|as2" then some "bytes-as2"
  else if key = "NodeID|idp1" then some "bytes-idp1"
  else if key = "NodeID|idp2" then some "bytes-idp2"
  else if key = "ServiceDestination|svc1" then some "bytes-destinations-svc1"
  else if key = "ServiceDestination|svc2" then some "bytes-destinations-svc1"
  else if key = "Service|svc1" then some "bytes-svc1"
  else if key = "Service|svc2" then some "bytes-svc2"
  else if key = "Service|svc3" then some "bytes-svc1"
  else if key = "Service|svc4" then some "bytes-svc1"
  else if key = "ApproveKey|svc1|as1" then some "bytes-approved"
  else if key = "ApproveKey|svc1|as2" then some "bytes-approved"
  else if key = "ApproveKey|svc1|as3" then some "bytes-approved"
  else if key = "ApproveKey|svc2|as1" then some "bytes-approved"
  else if key = "ApproveKey|svc3|as1" then some "bytes-not-approved"
  else if key = "ProvideService|as1" then some "bytes-services-as1"
  else if key = "AllowedModeList|custom" then some "bytes-modes-3"
  else if key = "AllNamespace" then some "bytes-namespaces"
  else if key = "Request|request1" then some "bytes-request1"
  else none

def demoServiceApp : ABCIApplication :=
  { state := { committed := demoServiceLedger, pending := fun _ => none, Height := 9 } }

/-- A third small ledger, for the role directories and the accessors. The RP
directory lists `rp1` (active), `rp2` (inactive) and `rp3` (no record); there
is no AS directory. The group `g2` has the associations of `idp1`, with the
accessor `acc1`, and of `idp3`, with the accessor `acc3`. The accessor `acc9`
is indexed to the group `g9`, which has no record, and `acc8` to the group
`g8`, whose record does not decode. -/
def demoIdentityLedger (key : String) : Option String :=
  if key = "rpList" then some "bytes-rp-directory"
  else if key = "IdPList" then some "bytes-directory"
  else if key = "NodeID|rp1" then some "bytes-rp1"
  else if key = "NodeID|rp2" then some "bytes-rp2"
  else if key = "NodeID|idp1" then some "bytes-idp1"
  else if key = "NodeID|idp3" then some "bytes-idp3"
  else if key = "accessorToRefCodeKey|acc1" then some "g2"
  else if key = "accessorToRefCodeKey|acc3" then some "g2"
  else if key = "accessorToRefCodeKey|acc8" then some "g8"
  else if key = "accessorToRefCodeKey|acc9" then some "g9"
  else if key = "RefGroupCode|g2" then some "bytes-g2"
  else if key = "RefGroupCode|g8" then some "not a reference group"
  else none

def demoIdentityApp : ABCIApplication :=
  { state := { committed := demoIdentityLedger, pending := fun _ => none, Height := 11 } }

/-- The empty ledger. -/
def emptyApp : ABCIApplication :=
  { state := { committed := fun _ => none, pending := fun _ => none, Height := 0 } }

/-- The second small ledger in the middle of a unit of work that has written
the request `request1` anew. -/
def demoPendingApp : ABCIApplication :=
  { state := { committed := demoServiceLedger,
               pending := fun k => if k = "Request|request1" then some "rewritten" else none,
               Height := 9 } }

/-- A fourth small ledger. The IdP directory lists `idp4`, which is behind the
proxy `proxy2`, whose record is inactive, and `idp1`. The request `request2`
has one data request and no response. The accessor `acc5` is indexed to the
group `g3`, where it is in the accessor lists of the associations of `idp1`
and of `idp3`. -/
def demoLateLedger (key : String) : Option String :=
  if key = "IdPList" then some "bytes-directory-2"
  else if key = "NodeID|idp1" then some "bytes-idp1"
  else if key = "NodeID|idp4" then some "bytes-idp4"
  else if key = "NodeID|proxy2" then some "bytes-proxy2"
  else if key = "Request|request2" then some "bytes-request2"
  else if key = "accessorToRefCodeKey|acc5" then some "g3"
  else if key = "RefGroupCode|g3" then some "bytes-g3"
  else none

def demoLateApp : ABCIApplication :=
  { state := { committed := demoLateLedger, pending := fun _ => none, Height := 13 } }

/-! ## Go maps -/

/-- A Go map with string keys, as the list of its keys with their values; a
key occurs once. The order of the list is not observable through `get?` and
`len`. -/
structure GoMap (β : Type) where
  entries : List (String × β)
  deriving Repr

/-- The empty map, `map[string]T{}` or `make(map[string]T, 0)`. -/
def GoMap.empty {β : Type} : GoMap β :=
  { entries := [] }

/-- The assignment `m[key] = value`. -/
def GoMap.set {β : Type} (m : GoMap β) (key : String) (value : β) : GoMap β :=
  { entries := (key, value) :: m.entries.filter (fun e => decide (e.1 ≠ key)) }

/-- The lookup `v, ok := m[key]`. -/
def GoMap.get? {β : Type} (m : GoMap β) (key : String) : Option β :=
  (m.entries.find? (fun e => decide (e.1 = key))).map (fun e => e.2)

/-- The value of `len(m)`. -/
def GoMap.len {β : Type} (m : GoMap β) : Nat :=
  m.entries.length

/-- The expression `m[key]` on a `map[string]bool`: `false` when the key is
absent. -/
def GoMap.index (m : GoMap Bool) (key : String) : Bool :=
  (m.get? key).getD false

/-! ## `getAsNodesByServiceId` (lines 346-455) -/

/-- Body of the loop over the destination list, lines 401-446. `none` is
`continue`, `some row` appends `row` to `result.Node`. -/
def getAsNodesByServiceIdBody (c : Codec) (app : ABCIApplication)
    (funcParam : GetAsNodesByServiceIdParam) (node : data.ASNode) : Option ASNodeResult :=
  if !node.Active then none
  else
    let approveServiceKey := approvedServiceKeyPrefix ++ keySeparator ++ funcParam.ServiceID ++
      keySeparator ++ node.NodeId
    match app.state.Get approveServiceKey true with
    | none => none
    | some approveServiceJSON =>
      match c.unmarshalApproveService approveServiceJSON with
      | .error _ => none
      | .ok approveService =>
        if !approveService.Active then none
        else
          let nodeDetailKey := nodeIDKeyPrefix ++ keySeparator ++ node.NodeId
          match app.state.Get nodeDetailKey true with
          | none => none
          | some nodeDetailValue =>
            match c.unmarshalNodeDetail nodeDetailValue with
            | .error _ => none
            | .ok nodeDetail =>
              if !nodeDetail.Active then none
              else
                some
                  { ID := node.NodeId
                    Name := nodeDetail.NodeName
                    MinIal := node.MinIal
                    MinAal := node.MinAal
                    SupportedNamespaceList := node.SupportedNamespaceList }

/-- The handler `getAsNodesByServiceId`. -/
def getAsNodesByServiceId (c : Codec) (app : ABCIApplication) (param : String) :
    ResponseQuery AsNodesBody :=
  match c.unmarshalGetAsNodesByServiceIdParam param with
  | .error err => app.ReturnQuery none err app.state.Height
  | .ok funcParam =>
    let key := serviceDestinationKeyPrefix ++ keySeparator ++ funcParam.ServiceID
    match app.state.Get key true with
    | none =>
      let result : GetAsNodesByServiceIdResult := { Node := [] }
      app.ReturnQuery (some (.json (.basic result))) "not found" app.state.Height
    | some value =>
      let serviceKey := serviceKeyPrefix ++ keySeparator ++ funcParam.ServiceID
      match app.state.Get serviceKey true with
      | none =>
        let result : GetAsNodesByServiceIdResult := { Node := [] }
        app.ReturnQuery (some (.json (.basic result))) "not found" app.state.Height
      | some serviceValue =>
        match c.unmarshalServiceDetail serviceValue with
        | .error err => app.ReturnQuery none err app.state.Height
        | .ok service =>
          if service.Active = false then
            let result : GetAsNodesByServiceIdResult := { Node := [] }
            app.ReturnQuery (some (.json (.basic result))) "service is not active"
              app.state.Height
          else
            match c.unmarshalServiceDesList value with
            | .error err => app.ReturnQuery none err app.state.Height
            | .ok storedData =>
              let result : GetAsNodesByServiceIdWithNameResult :=
                { Node := rangeAppend (getAsNodesByServiceIdBody c app funcParam)
                    storedData.Node [] }
              if result.Node.length = 0 then
                app.ReturnQuery (some (.json (.withName result))) "not found" app.state.Height
              else
                app.ReturnQuery (some (.json (.withName result))) "success" app.state.Height

/-! ## `getAsNodesInfoByServiceId` (lines 1461-1618) -/

/-- The loop of lines 1511-1514 that turns the node-ID list of the parameter
into the map `mapNodeIDList`. -/
def makeMapNodeIDList (nodeIDList : List String) : GoMap Bool :=
  nodeIDList.foldl (fun mapNodeIDList nodeID => mapNodeIDList.set nodeID true) GoMap.empty

/-- Body of the loop over the destination list, lines 1517-1612. -/
def getAsNodesInfoByServiceIdBody (c : Codec) (app : ABCIApplication)
    (funcParam : GetAsNodesByServiceIdParam) (mapNodeIDList : GoMap Bool)
    (node : data.ASNode) :
    LoopStep (ResponseQuery AsNodesInfoBody) AsNodesInfoEntry :=
  if mapNodeIDList.len > 0 ∧ mapNodeIDList.index node.NodeId = false then .skip
  else if !node.Active then .skip
  else
    let approveServiceKey := approvedServiceKeyPrefix ++ keySeparator ++ funcParam.ServiceID ++
      keySeparator ++ node.NodeId
    match app.state.Get approveServiceKey true with
    | none => .skip
    | some approveServiceJSON =>
      match c.unmarshalApproveService approveServiceJSON with
      | .error _ => .skip
      | .ok approveService =>
        if !approveService.Active then .skip
        else
          let nodeDetailKey := nodeIDKeyPrefix ++ keySeparator ++ node.NodeId
          match app.state.Get nodeDetailKey true with
          | none => .skip
          | some nodeDetailValue =>
            match c.unmarshalNodeDetail nodeDetailValue with
            | .error _ => .skip
            | .ok nodeDetail =>
              if !nodeDetail.Active then .skip
              else if nodeDetail.ProxyNodeId ≠ "" then
                let proxyNodeID := nodeDetail.ProxyNodeId
                let proxyNodeDetailKey := nodeIDKeyPrefix ++ keySeparator ++ proxyNodeID
                match app.state.Get proxyNodeDetailKey true with
                | none =>
                  .ret (app.ReturnQuery (some (.raw "{}")) "not found" app.state.Height)
                | some proxyNodeDetailValue =>
                  match c.unmarshalNodeDetail proxyNodeDetailValue with
                  | .error err => .ret (app.ReturnQuery none err app.state.Height)
                  | .ok proxyNode =>
                    if !proxyNode.Active then .skip
                    else
                      .append (.behindProxy
                        { NodeID := node.NodeId
                          Name := nodeDetail.NodeName
                          MinIal := node.MinIal
                          MinAal := node.MinAal
                          PublicKey := nodeDetail.PublicKey
                          SupportedNamespaceList := node.SupportedNamespaceList
                          Proxy :=
                            { NodeID := proxyNodeID
                              PublicKey := proxyNode.PublicKey
                              Mq := appendEach toMsqAddress proxyNode.Mq none
                              Config := nodeDetail.ProxyConfig } })
              else
                .append (.node
                  { ID := node.NodeId
                    Name := nodeDetail.NodeName
                    MinIal := node.MinIal
                    MinAal := node.MinAal
                    PublicKey := nodeDetail.PublicKey
                    Mq := appendEach toMsqAddress nodeDetail.Mq none
                    SupportedNamespaceList := node.SupportedNamespaceList })

/-- The handler `getAsNodesInfoByServiceId`. Its last return has the status
`success` whatever the length of the node list. -/
def getAsNodesInfoByServiceId (c : Codec) (app : ABCIApplication) (param : String) :
    ResponseQuery AsNodesInfoBody :=
  match c.unmarshalGetAsNodesByServiceIdParam param with
  | .error err => app.ReturnQuery none err app.state.Height
  | .ok funcParam =>
    let key := serviceDestinationKeyPrefix ++ keySeparator ++ funcParam.ServiceID
    match app.state.Get key true with
    | none =>
      let result : GetAsNodesInfoByServiceIdResult := { Node := [] }
      app.ReturnQuery (some (.json (.info result))) "not found" app.state.Height
    | some value =>
      let serviceKey := serviceKeyPrefix ++ keySeparator ++ funcParam.ServiceID
      match app.state.Get serviceKey true with
      | none =>
        let result : GetAsNodesByServiceIdResult := { Node := [] }
        app.ReturnQuery (some (.json (.basic result))) "not found" app.state.Height
      | some serviceValue =>
        match c.unmarshalServiceDetail serviceValue with
        | .error err => app.ReturnQuery none err app.state.Height
        | .ok service =>
          if service.Active = false then
            let result : GetAsNodesByServiceIdResult := { Node := [] }
            app.ReturnQuery (some (.json (.basic result))) "service is not active"
              app.state.Height
          else
            match c.unmarshalServiceDesList value with
            | .error err => app.ReturnQuery none err app.state.Height
            | .ok storedData =>
              let mapNodeIDList := makeMapNodeIDList funcParam.NodeIDList
              match forRange (getAsNodesInfoByServiceIdBody c app funcParam mapNodeIDList)
                  storedData.Node [] with
              | .error response => response
              | .ok nodes =>
                let result : GetAsNodesInfoByServiceIdResult := { Node := nodes }
                app.ReturnQuery (some (.json (.info result))) "success" app.state.Height

/-! ## `getServicesByAsID` (lines 1117-1195) -/

/-- Body of the loop over the services the AS provides, lines 1154-1186. The
assignment to `services.Services[index].Suspended` at line 1175 is the update
of the entry the row is then copied from. -/
def getServicesByAsIDBody (c : Codec) (app : ABCIApplication)
    (funcParam : GetServicesByAsIDParam) (nodeDetail : NodeDetail)
    (provideService : data.Service) :
    LoopStep (ResponseQuery GetServicesByAsIDResult) Service :=
  let serviceKey := serviceKeyPrefix ++ keySeparator ++ provideService.ServiceId
  match app.state.Get serviceKey true with
  | none => .skip
  | some serviceValue =>
    match c.unmarshalServiceDetail serviceValue with
    | .error err => .ret (app.ReturnQuery none err app.state.Height)
    | .ok service =>
      if nodeDetail.Active ∧ service.Active then
        let approveServiceKey := approvedServiceKeyPrefix ++ keySeparator ++
          provideService.ServiceId ++ keySeparator ++ funcParam.AsID
        match app.state.Get approveServiceKey true with
        | none => .skip
        | some approveServiceJSON =>
          let entry : data.Service :=
            match c.unmarshalApproveService approveServiceJSON with
            | .ok approveService => { provideService with Suspended := !approveService.Active }
            | .error _ => provideService
          .append
            { Active := entry.Active
              MinAal := entry.MinAal
              MinIal := entry.MinIal
              ServiceID := entry.ServiceId
              Suspended := entry.Suspended
              SupportedNamespaceList := entry.SupportedNamespaceList }
      else .skip

/-- The handler `getServicesByAsID`. -/
def getServicesByAsID (c : Codec) (app : ABCIApplication) (param : String) :
    ResponseQuery GetServicesByAsIDResult :=
  match c.unmarshalGetServicesByAsIDParam param with
  | .error err => app.ReturnQuery none err app.state.Height
  | .ok funcParam =>
    let result : GetServicesByAsIDResult := { Services := [] }
    let provideServiceKey := providedServicesKeyPrefix ++ keySeparator ++ funcParam.AsID
    match app.state.Get provideServiceKey true with
    | none => app.ReturnQuery (some (.json result)) "not found" app.state.Height
    | some provideServiceValue =>
      match c.unmarshalServiceList provideServiceValue with
      | .error err => app.ReturnQuery none err app.state.Height
      | .ok services =>
        let nodeDetailKey := nodeIDKeyPrefix ++ keySeparator ++ funcParam.AsID
        match app.state.Get nodeDetailKey true with
        | none => app.ReturnQuery (some (.json result)) "not found" app.state.Height
        | some nodeDetailValue =>
          match c.unmarshalNodeDetail nodeDetailValue with
          | .error err => app.ReturnQuery none err app.state.Height
          | .ok nodeDetail =>
            match forRange (getServicesByAsIDBody c app funcParam nodeDetail)
                services.Services result.Services with
            | .error response => response
            | .ok rows =>
              let result : GetServicesByAsIDResult := { Services := rows }
              if result.Services.length = 0 then
                app.ReturnQuery (some (.json result)) "not found" app.state.Height
              else
                app.ReturnQuery (some (.json result)) "success" app.state.Height

/-! ## `GetAllowedModeFromStateDB` (lines 1950-1969) -/

/-- The table `modeFunctionMap`, lines 37-45. -/
def modeFunctionMap : GoMap Bool :=
  { entries :=
      [("RegisterIdentity", true),
       ("AddIdentity", true),
       ("AddAccessor", true),
       ("RevokeAccessor", true),
       ("RevokeIdentityAssociation", true),
       ("UpdateIdentityModeList", true),
       ("RevokeAndAddAccessor", true)] }

/-- The function `GetAllowedModeFromStateDB`. Its result is a slice; the nil
slice and the empty slice are both `[]`. -/
def GetAllowedModeFromStateDB (c : Codec) (app : ABCIApplication) (purpose : String)
    (committedState : Bool) : List Int :=
  let allowedModeKey := "AllowedModeList" ++ keySeparator ++ purpose
  match app.state.Get allowedModeKey committedState with
  | none =>
    let result : List Int := []
    let result := if !modeFunctionMap.index purpose then result ++ [1] else result
    let result := result ++ [2]
    let result := result ++ [3]
    result
  | some allowedModeValue =>
    match c.unmarshalAllowedModeList allowedModeValue with
    | .error _ => []
    | .ok allowedModeList => allowedModeList.Mode

/-! ## `GetNamespaceAllowedIdentifierCountMap` (lines 1990-2011) -/

/-- The function `GetNamespaceAllowedIdentifierCountMap`. -/
def GetNamespaceAllowedIdentifierCountMap (c : Codec) (app : ABCIApplication)
    (committedState : Bool) : GoMap Int :=
  let result : GoMap Int := GoMap.empty
  match app.state.Get allNamespaceKeyBytes committedState with
  | none => result
  | some allNamespaceValue =>
    match c.unmarshalNamespaceList allNamespaceValue with
    | .error _ => result
    | .ok namespaces =>
      namespaces.Namespaces.foldl (fun result ns =>
        if ns.Active then
          if ns.AllowedIdentifierCountInReferenceGroup = -1 then
            result.set ns.Namespace 0
          else
            result.set ns.Namespace ns.AllowedIdentifierCountInReferenceGroup
        else result) result

/-! ## `getRequestDetail` (lines 525-631) -/

/-- A repeated field of a decoded record, seen as a Go slice: the nil slice
when it has no element. -/
def ofRepeated {α : Type} (l : List α) : Option (List α) :=
  if l.isEmpty then none else some l

/-- The statement `if s == nil { s = make([]T, 0) }`. -/
def orEmpty {α : Type} (s : Option (List α)) : Option (List α) :=
  match s with
  | none => some []
  | some l => some l

/-- The conversion of a stored validity string into a `*bool`, lines 581-589
for `ValidIal` and lines 590-598 for `ValidSignature`. -/
def validFlag (stored : String) : Option Bool :=
  if stored ≠ "" then
    if stored = "true" then some true else some false
  else none

/-- The row built for one stored data request, lines 555-570. -/
def dataRequestRow (dataRequest : data.DataRequest) : DataRequest :=
  { ServiceID := dataRequest.ServiceId
    As := orEmpty (ofRepeated dataRequest.AsIdList)
    Count := dataRequest.MinAs
    AnsweredAsIdList := orEmpty (ofRepeated dataRequest.AnsweredAsIdList)
    ReceivedDataFromList := orEmpty (ofRepeated dataRequest.ReceivedDataFromList)
    RequestParamsHash := dataRequest.RequestParamsHash }

/-- The row built for one stored response, lines 575-598. -/
def responseRow (response : data.Response) : Response :=
  { Ial := response.Ial
    Aal := response.Aal
    Status := response.Status
    Signature := response.Signature
    IdpID := response.IdpId
    ValidIal := validFlag response.ValidIal
    ValidSignature := validFlag response.ValidSignature }

/-- The handler `getRequestDetail`. -/
def getRequestDetail (c : Codec) (app : ABCIApplication) (param : String) (height : Int)
    (committedState : Bool) : ResponseQuery GetRequestDetailResult :=
  match c.unmarshalGetRequestParam param with
  | .error err => app.ReturnQuery none err app.state.Height
  | .ok funcParam =>
    let key := requestKeyPrefix ++ keySeparator ++ funcParam.RequestID
    match app.state.GetVersioned key height committedState with
    | none => app.ReturnQuery (some (.raw "{}")) "not found" app.state.Height
    | some value =>
      match c.unmarshalRequest value with
      | .error err => app.ReturnQuery (some (.raw "")) err app.state.Height
      | .ok request =>
        let result : GetRequestDetailResult :=
          { RequestID := request.RequestId
            MinIdp := request.MinIdp
            MinAal := request.MinAal
            MinIal := request.MinIal
            Timeout := request.RequestTimeout
            IdPIDList := orEmpty (ofRepeated request.IdpIdList)
            DataRequestList := orEmpty (appendEach dataRequestRow request.DataRequestList none)
            MessageHash := request.RequestMessageHash
            Responses := appendEach responseRow request.ResponseList none
            IsClosed := request.Closed
            IsTimedOut := request.TimedOut
            Mode := request.Mode
            Purpose := request.Purpose
            RequesterNodeID := request.Owner
            CreationBlockHeight := request.CreationBlockHeight
            CreationChainID := request.ChainId }
        app.ReturnQuery (some (.json result)) "success" app.state.Height

/-! ## `updateNode` (lines 685-720) -/

/-- Modelled from the spec: the result codes of package `code`, which is
declared outside `common.go`. Only the codes `common.go` names in the
handlers below are listed; they are distinct values. -/
inductive code where
  | OK
  | UnmarshalError
  | MarshalError
  | NodeIDNotFound
  deriving DecidableEq, Repr

/-- The record `types.ResponseDeliverTx`, with the fields
`ReturnDeliverTxLog` is given. -/
structure ResponseDeliverTx where
  Code : code
  Log : String
  Data : String
  deriving DecidableEq, Repr

/-- Modelled from the spec: `app.ReturnDeliverTxLog(code, log, extraData)`,
whose code is not in `common.go`; it builds the result of a mutation from the
status code and the message. -/
def ABCIApplication.ReturnDeliverTxLog (_app : ABCIApplication) (code : code) (log : String)
    (extraData : String) : ResponseDeliverTx :=
  { Code := code, Log := log, Data := extraData }

/-- Modelled from the spec: `app.getRoleFromNodeID(nodeID)`, whose code is not
in `common.go`: the role of the node in its stored `NodeDetail` record, read
in the state the mutation works on, and the nil slice (`""` after the
conversion to a string) when the record is absent or does not decode. -/
def ABCIApplication.getRoleFromNodeID (c : Codec) (app : ABCIApplication) (nodeID : String) :
    String :=
  match app.state.Get (nodeIDKeyPrefix ++ keySeparator ++ nodeID) false with
  | none => ""
  | some nodeDetailValue =>
    match c.unmarshalNodeDetail nodeDetailValue with
    | .error _ => ""
    | .ok nodeDetail => nodeDetail.Role

/-- The handler `updateNode`. It returns its result and the application
after the call: the same application on every failure, and the application
with the new record written on success. -/
def updateNode (c : Codec) (app : ABCIApplication) (param : String) (nodeID : String) :
    ResponseDeliverTx × ABCIApplication :=
  match c.unmarshalUpdateNodeParam param with
  | .error err => (app.ReturnDeliverTxLog code.UnmarshalError err "", app)
  | .ok funcParam =>
    let key := nodeIDKeyPrefix ++ keySeparator ++ nodeID
    match app.state.Get key false with
    | none => (app.ReturnDeliverTxLog code.NodeIDNotFound "Node ID not found" "", app)
    | some value =>
      match c.unmarshalNodeDetail value with
      | .error err => (app.ReturnDeliverTxLog code.UnmarshalError err "", app)
      | .ok nodeDetail =>
        let nodeDetail :=
          if funcParam.MasterPublicKey ≠ "" then
            { nodeDetail with MasterPublicKey := funcParam.MasterPublicKey }
          else nodeDetail
        let nodeDetail :=
          if funcParam.PublicKey ≠ "" then
            { nodeDetail with PublicKey := funcParam.PublicKey }
          else nodeDetail
        let nodeDetail :=
          match funcParam.SupportedRequestMessageDataUrlTypeList with
          | some typeList =>
            if app.getRoleFromNodeID c nodeID = "IdP" then
              { nodeDetail with SupportedRequestMessageDataUrlTypeList := typeList }
            else nodeDetail
          | none => nodeDetail
        match c.marshalNodeDetail nodeDetail with
        | .error err => (app.ReturnDeliverTxLog code.MarshalError err "", app)
        | .ok nodeDetailValue =>
          (app.ReturnDeliverTxLog code.OK "success" "",
            { app with state := app.state.Set key nodeDetailValue })

/-! ## Vocabulary of the statements on services, policies and updates -/

/-- The destination list `l` of the service `serviceID` is stored and decodes. -/
def destinationList (c : Codec) (app : ABCIApplication) (serviceID : String)
    (l : List data.ASNode) : Prop :=
  ∃ v d, app.state.Get (serviceDestinationKeyPrefix ++ keySeparator ++ serviceID) true = some v ∧
    c.unmarshalServiceDesList v = .ok d ∧ l = d.Node

/-- The approval record `a` is stored under the key of `(serviceID, nodeID)`
and decodes. -/
def approvalRecord (c : Codec) (app : ABCIApplication) (serviceID nodeID : String)
    (a : ApproveService) : Prop :=
  ∃ v, app.state.Get (approvedServiceKeyPrefix ++ keySeparator ++ serviceID ++ keySeparator ++
      nodeID) true = some v ∧
    c.unmarshalApproveService v = .ok a

/-- The catalog entry `s` of the service `serviceID` is stored and decodes. -/
def serviceRecord (c : Codec) (app : ABCIApplication) (serviceID : String)
    (s : ServiceDetail) : Prop :=
  ∃ v, app.state.Get (serviceKeyPrefix ++ keySeparator ++ serviceID) true = some v ∧
    c.unmarshalServiceDetail v = .ok s

/-- The conditions under which a destination entry contributes to the result
of AS discovery: the entry is active, its approval is stored, decodes and is
active, and the record of its node is stored, decodes to `nd` and is active. -/
def passesDestination (c : Codec) (app : ABCIApplication) (serviceID : String)
    (node : data.ASNode) (nd : NodeDetail) : Prop :=
  node.Active = true ∧ (∃ a, approvalRecord c app serviceID node.NodeId a ∧ a.Active = true) ∧
  nodeRecord c app node.NodeId nd ∧ nd.Active = true

/-- What a candidate that passed the filters contributes in a handler that
resolves proxies (lines 1556-1611): its own entry `own` when it is not behind
a proxy; else a `return` when the proxy record is absent or does not decode,
nothing when the proxy is inactive, and the entry `proxied` otherwise. -/
def proxyStep {α ε : Type} (c : Codec) (app : ABCIApplication) (nd : NodeDetail)
    (own : ε) (proxied : NodeDetail → ε) : LoopStep (ResponseQuery α) ε :=
  if nd.ProxyNodeId ≠ "" then
    match app.state.Get (nodeIDKeyPrefix ++ keySeparator ++ nd.ProxyNodeId) true with
    | none => .ret { Value := some (.raw "{}"), Log := "not found", Height := app.state.Height }
    | some v =>
      match c.unmarshalNodeDetail v with
      | .error err => .ret { Value := none, Log := err, Height := app.state.Height }
      | .ok proxyNode => if !proxyNode.Active then .skip else .append (proxied proxyNode)
  else .append own

/-- The entry `getAsNodesInfoByServiceId` appends for a node that is not
behind a proxy. -/
def asNodeEntry (node : data.ASNode) (nd : NodeDetail) : AsNodesInfoEntry :=
  .node
    { ID := node.NodeId, Name := nd.NodeName, MinIal := node.MinIal, MinAal := node.MinAal,
      PublicKey := nd.PublicKey, Mq := appendEach toMsqAddress nd.Mq none,
      SupportedNamespaceList := node.SupportedNamespaceList }

/-- The entry `getAsNodesInfoByServiceId` appends for a node behind a proxy. -/
def asBehindProxyEntry (node : data.ASNode) (nd proxyNode : NodeDetail) : AsNodesInfoEntry :=
  .behindProxy
    { NodeID := node.NodeId, Name := nd.NodeName, MinIal := node.MinIal,
      MinAal := node.MinAal, PublicKey := nd.PublicKey,
      SupportedNamespaceList := node.SupportedNamespaceList,
      Proxy :=
        { NodeID := nd.ProxyNodeId, PublicKey := proxyNode.PublicKey,
          Mq := appendEach toMsqAddress proxyNode.Mq none, Config := nd.ProxyConfig } }

/-- The list `l` of the services the AS `asID` provides is stored and decodes. -/
def providedServices (c : Codec) (app : ABCIApplication) (asID : String)
    (l : List data.Service) : Prop :=
  ∃ v s, app.state.Get (providedServicesKeyPrefix ++ keySeparator ++ asID) true = some v ∧
    c.unmarshalServiceList v = .ok s ∧ l = s.Services

/-- The step of the loop of lines 2001-2009, on the result map. -/
def countMapStep (result : GoMap Int) (ns : Namespace) : GoMap Int :=
  if ns.Active then
    if ns.AllowedIdentifierCountInReferenceGroup = -1 then result.set ns.Namespace 0
    else result.set ns.Namespace ns.AllowedIdentifierCountInReferenceGroup
  else result

/-- The three assignments of lines 702-713 on the decoded record, given the
role `getRoleFromNodeID` returns. -/
def patchNode (funcParam : UpdateNodeParam) (role : String) (nodeDetail : NodeDetail) :
    NodeDetail :=
  let nodeDetail :=
    if funcParam.MasterPublicKey ≠ "" then
      { nodeDetail with MasterPublicKey := funcParam.MasterPublicKey }
    else nodeDetail
  let nodeDetail :=
    if funcParam.PublicKey ≠ "" then
      { nodeDetail with PublicKey := funcParam.PublicKey }
    else nodeDetail
  match funcParam.SupportedRequestMessageDataUrlTypeList with
  | some typeList =>
    if role = "IdP" then
      { nodeDetail with SupportedRequestMessageDataUrlTypeList := typeList }
    else nodeDetail
  | none => nodeDetail

/-! ## `setMqAddresses` (lines 73-102) -/

/-- A `[]byte` handed to a decoder or converted to a string without a test
for nil: the nil slice is the input of length zero. -/
def bytesOf (value : Option String) : String :=
  value.getD ""

/-- The stored form of one address, lines 88-91. -/
def toMQ (address : MsqAddress) : MQ :=
  { Ip := address.IP, Port := address.Port }

/-- The handler `setMqAddresses`. The value read at line 81 is decoded at
line 83 without a test for nil. It returns its result and the application
after the call. -/
def setMqAddresses (c : Codec) (app : ABCIApplication) (param : String) (nodeID : String) :
    ResponseDeliverTx × ABCIApplication :=
  match c.unmarshalSetMqAddressesParam param with
  | .error err => (app.ReturnDeliverTxLog code.UnmarshalError err "", app)
  | .ok funcParam =>
    let nodeDetailKey := nodeIDKeyPrefix ++ keySeparator ++ nodeID
    let value := app.state.Get nodeDetailKey false
    match c.unmarshalNodeDetail (bytesOf value) with
    | .error err => (app.ReturnDeliverTxLog code.UnmarshalError err "", app)
    | .ok nodeDetail =>
      let msqAddress := rangeAppend (fun address => some (toMQ address)) funcParam.Addresses []
      let nodeDetail := { nodeDetail with Mq := msqAddress }
      match c.marshalNodeDetail nodeDetail with
      | .error err => (app.ReturnDeliverTxLog code.MarshalError err "", app)
      | .ok nodeDetailByte =>
        (app.ReturnDeliverTxLog code.OK "success" "",
          { app with state := app.state.Set nodeDetailKey nodeDetailByte })

/-! ## `getNodeIDList` (lines 1695-1808) -/

/-- The body of the loop over a role directory, lines 1713-1725 and its
copies at lines 1736-1748, 1760-1772 and 1784-1796: the node ID is appended
when its record is stored, decodes and is active. -/
def getNodeIDListBody (c : Codec) (app : ABCIApplication) (nodeID : String) : Option String :=
  match app.state.Get (nodeIDKeyPrefix ++ keySeparator ++ nodeID) true with
  | none => none
  | some nodeDetailValue =>
    match c.unmarshalNodeDetail nodeDetailValue with
    | .error _ => none
    | .ok nodeDetail => if nodeDetail.Active then some nodeID else none

/-- The end of `getNodeIDList`, lines 1799-1807. -/
def getNodeIDListFinish (app : ABCIApplication) (result : GetNodeIDListResult) :
    ResponseQuery GetNodeIDListResult :=
  if result.NodeIDList.length = 0 then
    app.ReturnQuery (some (.json result)) "not found" app.state.Height
  else
    app.ReturnQuery (some (.json result)) "success" app.state.Height

/-- The handler `getNodeIDList`. -/
def getNodeIDList (c : Codec) (app : ABCIApplication) (param : String) :
    ResponseQuery GetNodeIDListResult :=
  match c.unmarshalGetNodeIDListParam param with
  | .error err => app.ReturnQuery none err app.state.Height
  | .ok funcParam =>
    let result : GetNodeIDListResult := { NodeIDList := [] }
    if c.ToLower funcParam.Role = "rp" then
      match app.state.Get "rpList" true with
      | some rpsValue =>
        match c.unmarshalRPList rpsValue with
        | .error err => app.ReturnQuery none err app.state.Height
        | .ok rpsList =>
          getNodeIDListFinish app
            { NodeIDList := rangeAppend (getNodeIDListBody c app) rpsList.NodeId
                result.NodeIDList }
      | none => getNodeIDListFinish app result
    else if c.ToLower funcParam.Role = "idp" then
      match app.state.Get idpListKeyBytes true with
      | some idpsValue =>
        match c.unmarshalIdPList idpsValue with
        | .error err => app.ReturnQuery none err app.state.Height
        | .ok idpsList =>
          getNodeIDListFinish app
            { NodeIDList := rangeAppend (getNodeIDListBody c app) idpsList.NodeId
                result.NodeIDList }
      | none => getNodeIDListFinish app result
    else if c.ToLower funcParam.Role = "as" then
      match app.state.Get "asList" true with
      | some asValue =>
        match c.unmarshalASList asValue with
        | .error err => app.ReturnQuery none err app.state.Height
        | .ok asList =>
          getNodeIDListFinish app
            { NodeIDList := rangeAppend (getNodeIDListBody c app) asList.NodeId
                result.NodeIDList }
      | none => getNodeIDListFinish app result
    else
      match app.state.Get "allList" true with
      | some allValue =>
        match c.unmarshalAllList allValue with
        | .error err => app.ReturnQuery none err app.state.Height
        | .ok allList =>
          getNodeIDListFinish app
            { NodeIDList := rangeAppend (getNodeIDListBody c app) allList.NodeId
                result.NodeIDList }
      | none => getNodeIDListFinish app result

/-! ## `checkExistingIdentity` (lines 722-776) and `getIdentityInfo` (lines 1034-1097) -/

/-- The handler `checkExistingIdentity`. -/
def checkExistingIdentity (c : Codec) (app : ABCIApplication) (param : String) :
    ResponseQuery CheckExistingIdentityResult :=
  match c.unmarshalCheckExistingIdentityParam param with
  | .error err => app.ReturnQuery none err app.state.Height
  | .ok funcParam =>
    let result : CheckExistingIdentityResult := { Exist := false }
    if funcParam.ReferenceGroupCode ≠ "" ∧ funcParam.IdentityNamespace ≠ "" ∧
        funcParam.IdentityIdentifierHash ≠ "" then
      app.ReturnQuery (some (.json result))
        "Found reference group code and identity detail in parameter" app.state.Height
    else
      let withGroup (refGroupCode : String) : ResponseQuery CheckExistingIdentityResult :=
        match app.state.Get (refGroupCodeKeyPrefix ++ keySeparator ++ refGroupCode) true with
        | none => app.ReturnQuery (some (.json result)) "success" app.state.Height
        | some refGroupValue =>
          match c.unmarshalReferenceGroup refGroupValue with
          | .error _ => app.ReturnQuery (some (.json result)) "success" app.state.Height
          | .ok _ =>
            app.ReturnQuery (some (.json { result with Exist := true })) "success"
              app.state.Height
      if funcParam.ReferenceGroupCode ≠ "" then
        withGroup funcParam.ReferenceGroupCode
      else
        match app.state.Get (identityToRefCodeKeyPrefix ++ keySeparator ++
            funcParam.IdentityNamespace ++ keySeparator ++ funcParam.IdentityIdentifierHash)
            true with
        | none => app.ReturnQuery (some (.json result)) "success" app.state.Height
        | some refGroupCodeFromDB => withGroup refGroupCodeFromDB

/-- The loop of lines 1082-1088: the first association of the node that is
active gives the level and the mode list, and ends the loop. -/
def getIdentityInfoLoop (funcParam : GetIdentityInfoParam) (idps : List IdPInRefGroup)
    (result : GetIdentityInfoResult) : GetIdentityInfoResult :=
  match idps.find? (fun idp => funcParam.NodeID = idp.NodeId ∧ idp.Active = true) with
  | some idp => { result with Ial := idp.Ial, ModeList := ofRepeated idp.Mode }
  | none => result

/-- The handler `getIdentityInfo`. -/
def getIdentityInfo (c : Codec) (app : ABCIApplication) (param : String) :
    ResponseQuery GetIdentityInfoResult :=
  match c.unmarshalGetIdentityInfoParam param with
  | .error err => app.ReturnQuery none err app.state.Height
  | .ok funcParam =>
    let result : GetIdentityInfoResult := { Ial := 0, ModeList := none }
    if funcParam.ReferenceGroupCode ≠ "" ∧ funcParam.IdentityNamespace ≠ "" ∧
        funcParam.IdentityIdentifierHash ≠ "" then
      app.ReturnQuery (some (.json result))
        "Found reference group code and identity detail in parameter" app.state.Height
    else
      let withGroup (refGroupCode : String) : ResponseQuery GetIdentityInfoResult :=
        match app.state.Get (refGroupCodeKeyPrefix ++ keySeparator ++ refGroupCode) true with
        | none =>
          app.ReturnQuery (some (.json result)) "Reference group not found" app.state.Height
        | some refGroupValue =>
          match c.unmarshalReferenceGroup refGroupValue with
          | .error _ =>
            app.ReturnQuery (some (.json result)) "Reference group not found" app.state.Height
          | .ok refGroup =>
            let result := getIdentityInfoLoop funcParam refGroup.Idps result
            if result.Ial ≤ 0 then
              app.ReturnQuery (some (.raw "{}")) "not found" app.state.Height
            else
              app.ReturnQuery (some (.json result)) "success" app.state.Height
      if funcParam.ReferenceGroupCode ≠ "" then
        withGroup funcParam.ReferenceGroupCode
      else
        match app.state.Get (identityToRefCodeKeyPrefix ++ keySeparator ++
            funcParam.IdentityNamespace ++ keySeparator ++ funcParam.IdentityIdentifierHash)
            true with
        | none =>
          app.ReturnQuery (some (.json result)) "Reference group not found" app.state.Height
        | some refGroupCodeFromDB => withGroup refGroupCodeFromDB

/-! ## The accessor queries: `getAccessorKey` (lines 778-816),
`checkExistingAccessorID` (lines 863-900), `getAccessorOwner` (lines 1810-1847) -/

/-- The inner loop of the three accessor queries (lines 803-809, 888-893,
1835-1840): the first accessor of the association with the ID `accessorID`,
at which the loop assigns and breaks. -/
def findAccessor (accessorID : String) (idp : IdPInRefGroup) : Option Accessor :=
  idp.Accessors.find? (fun accessor => accessor.AccessorId = accessorID)

/-- The two reads the accessor queries start with: the reverse index of the
accessor, then the group record it names. `none` is the return of
`[]byte("{}")` with the status `not found` (three places in each handler). -/
def accessorGroup (c : Codec) (app : ABCIApplication) (accessorID : String) :
    Option ReferenceGroup :=
  match app.state.Get (accessorToRefCodeKeyPrefix ++ keySeparator ++ accessorID) true with
  | none => none
  | some refGroupCodeFromDB =>
    match app.state.Get (refGroupCodeKeyPrefix ++ keySeparator ++ refGroupCodeFromDB) true with
    | none => none
    | some refGroupValue =>
      match c.unmarshalReferenceGroup refGroupValue with
      | .error _ => none
      | .ok refGroup => some refGroup

/-- The handler `getAccessorKey`. -/
def getAccessorKey (c : Codec) (app : ABCIApplication) (param : String) :
    ResponseQuery GetAccessorKeyResult :=
  match c.unmarshalGetAccessorKeyParam param with
  | .error err => app.ReturnQuery none err app.state.Height
  | .ok funcParam =>
    let result : GetAccessorKeyResult := { AccessorPublicKey := "", Active := false }
    match accessorGroup c app funcParam.AccessorID with
    | none => app.ReturnQuery (some (.raw "{}")) "not found" app.state.Height
    | some refGroup =>
      let result := refGroup.Idps.foldl (fun result idp =>
        match findAccessor funcParam.AccessorID idp with
        | some accessor =>
          { result with AccessorPublicKey := accessor.AccessorPublicKey,
                        Active := accessor.Active }
        | none => result) result
      app.ReturnQuery (some (.json result)) "success" app.state.Height

/-- The handler `checkExistingAccessorID`. -/
def checkExistingAccessorID (c : Codec) (app : ABCIApplication) (param : String) :
    ResponseQuery CheckExistingResult :=
  match c.unmarshalCheckExistingAccessorIDParam param with
  | .error err => app.ReturnQuery none err app.state.Height
  | .ok funcParam =>
    let result : CheckExistingResult := { Exist := false }
    match accessorGroup c app funcParam.AccessorID with
    | none => app.ReturnQuery (some (.raw "{}")) "not found" app.state.Height
    | some refGroup =>
      let result := refGroup.Idps.foldl (fun result idp =>
        match findAccessor funcParam.AccessorID idp with
        | some _ => { result with Exist := true }
        | none => result) result
      app.ReturnQuery (some (.json result)) "success" app.state.Height

/-- The handler `getAccessorOwner`. -/
def getAccessorOwner (c : Codec) (app : ABCIApplication) (param : String) :
    ResponseQuery GetAccessorOwnerResult :=
  match c.unmarshalGetAccessorOwnerParam param with
  | .error err => app.ReturnQuery none err app.state.Height
  | .ok funcParam =>
    let result : GetAccessorOwnerResult := { NodeID := "" }
    match accessorGroup c app funcParam.AccessorID with
    | none => app.ReturnQuery (some (.raw "{}")) "not found" app.state.Height
    | some refGroup =>
      let result := refGroup.Idps.foldl (fun result idp =>
        match findAccessor funcParam.AccessorID idp with
        | some _ => { result with NodeID := idp.NodeId }
        | none => result) result
      app.ReturnQuery (some (.json result)) "success" app.state.Height

/-! ## The remaining query handlers -/

/-- The handler `getNodeMasterPublicKey` (lines 104-133). -/
def getNodeMasterPublicKey (c : Codec) (app : ABCIApplication) (param : String) :
    ResponseQuery GetNodeMasterPublicKeyResult :=
  match c.unmarshalGetNodeMasterPublicKeyParam param with
  | .error err => app.ReturnQuery none err app.state.Height
  | .ok funcParam =>
    let res : GetNodeMasterPublicKeyResult := { MasterPublicKey := "" }
    match app.state.Get (nodeIDKeyPrefix ++ keySeparator ++ funcParam.NodeID) true with
    | none => app.ReturnQuery (some (.json res)) "not found" app.state.Height
    | some value =>
      match c.unmarshalNodeDetail value with
      | .error err => app.ReturnQuery none err app.state.Height
      | .ok nodeDetail =>
        app.ReturnQuery (some (.json { res with MasterPublicKey := nodeDetail.MasterPublicKey }))
          "success" app.state.Height

/-- The handler `getNodePublicKey` (lines 135-163). -/
def getNodePublicKey (c : Codec) (app : ABCIApplication) (param : String) :
    ResponseQuery GetNodePublicKeyResult :=
  match c.unmarshalGetNodePublicKeyParam param with
  | .error err => app.ReturnQuery none err app.state.Height
  | .ok funcParam =>
    let res : GetNodePublicKeyResult := { PublicKey := "" }
    match app.state.Get (nodeIDKeyPrefix ++ keySeparator ++ funcParam.NodeID) true with
    | none => app.ReturnQuery (some (.json res)) "not found" app.state.Height
    | some value =>
      match c.unmarshalNodeDetail value with
      | .error err => app.ReturnQuery none err app.state.Height
      | .ok nodeDetail =>
        app.ReturnQuery (some (.json { res with PublicKey := nodeDetail.PublicKey }))
          "success" app.state.Height

/-- The handler `getMqAddresses` (lines 457-490). The value is decoded at
line 467 before it is tested for nil at line 471; the result slice is
declared at line 475 without being allocated. -/
def getMqAddresses (c : Codec) (app : ABCIApplication) (param : String) :
    ResponseQuery GetMqAddressesResult :=
  match c.unmarshalGetMqAddressesParam param with
  | .error err => app.ReturnQuery none err app.state.Height
  | .ok funcParam =>
    let value := app.state.Get (nodeIDKeyPrefix ++ keySeparator ++ funcParam.NodeID) true
    match c.unmarshalNodeDetail (bytesOf value) with
    | .error err => app.ReturnQuery none err app.state.Height
    | .ok nodeDetail =>
      match value with
      | none => app.ReturnQuery (some (.raw "[]")) "not found" app.state.Height
      | some _ =>
        let result : GetMqAddressesResult := appendEach toMsqAddress nodeDetail.Mq none
        if (result.getD []).length = 0 then
          app.ReturnQuery (some (.json result)) "not found" app.state.Height
        else
          app.ReturnQuery (some (.json result)) "success" app.state.Height

/-- The handler `getRequest` (lines 492-523). -/
def getRequest (c : Codec) (app : ABCIApplication) (param : String) (height : Int) :
    ResponseQuery GetRequestResult :=
  match c.unmarshalGetRequestParam param with
  | .error err => app.ReturnQuery none err app.state.Height
  | .ok funcParam =>
    match app.state.GetVersioned (requestKeyPrefix ++ keySeparator ++ funcParam.RequestID)
        height true with
    | none => app.ReturnQuery (some (.raw "{}")) "not found" app.state.Height
    | some value =>
      match c.unmarshalRequest value with
      | .error err => app.ReturnQuery none err app.state.Height
      | .ok request =>
        let res : GetRequestResult :=
          { IsClosed := request.Closed, IsTimedOut := request.TimedOut,
            MessageHash := request.RequestMessageHash, Mode := request.Mode }
        app.ReturnQuery (some (.json res)) "success" app.state.Height

/-- The handler `getNamespaceList` (lines 633-658). -/
def getNamespaceList (c : Codec) (app : ABCIApplication) (_param : String) :
    ResponseQuery (List Namespace) :=
  match app.state.Get allNamespaceKeyBytes true with
  | none => app.ReturnQuery (some (.raw "[]")) "not found" app.state.Height
  | some value =>
    match c.unmarshalNamespaceList value with
    | .error err => app.ReturnQuery none err app.state.Height
    | .ok namespaces =>
      let result := rangeAppend
        (fun (ns : Namespace) => if ns.Active then some ns else none)
        namespaces.Namespaces []
      app.ReturnQuery (some (.json result)) "success" app.state.Height

/-- The handler `getServiceDetail` (lines 660-683). -/
def getServiceDetail (c : Codec) (app : ABCIApplication) (param : String) :
    ResponseQuery ServiceDetail :=
  match c.unmarshalGetServiceDetailParam param with
  | .error err => app.ReturnQuery none err app.state.Height
  | .ok funcParam =>
    match app.state.Get (serviceKeyPrefix ++ keySeparator ++ funcParam.ServiceID) true with
    | none => app.ReturnQuery (some (.raw "{}")) "not found" app.state.Height
    | some value =>
      match c.unmarshalServiceDetail value with
      | .error err => app.ReturnQuery none err app.state.Height
      | .ok service => app.ReturnQuery (some (.json service)) "success" app.state.Height

/-- The handler `getServiceList` (lines 818-847). -/
def getServiceList (c : Codec) (app : ABCIApplication) (_param : String) :
    ResponseQuery (List ServiceDetail) :=
  match app.state.Get "AllService" true with
  | none => app.ReturnQuery (some (.json [])) "not found" app.state.Height
  | some value =>
    match c.unmarshalServiceDetailList value with
    | .error err => app.ReturnQuery none err app.state.Height
    | .ok services =>
      let result := rangeAppend
        (fun (service : ServiceDetail) => if service.Active then some service else none)
        services.Services []
      app.ReturnQuery (some (.json result)) "success" app.state.Height

/-- The handler `getDataSignature` (lines 1099-1115). -/
def getDataSignature (c : Codec) (app : ABCIApplication) (param : String) :
    ResponseQuery GetDataSignatureResult :=
  match c.unmarshalGetDataSignatureParam param with
  | .error err => app.ReturnQuery none err app.state.Height
  | .ok funcParam =>
    match app.state.Get (dataSignatureKeyPrefix ++ keySeparator ++ funcParam.NodeID ++
        keySeparator ++ funcParam.ServiceID ++ keySeparator ++ funcParam.RequestID) true with
    | none => app.ReturnQuery (some (.raw "{}")) "not found" app.state.Height
    | some signDataValue =>
      app.ReturnQuery (some (.json { Signature := signDataValue })) "success" app.state.Height

/-- The body of the loop of `getNodesBehindProxyNode`, lines 1645-1683. -/
def getNodesBehindProxyNodeBody (c : Codec) (app : ABCIApplication) (node : String) :
    Option BehindProxyEntry :=
  match app.state.Get (nodeIDKeyPrefix ++ keySeparator ++ node) true with
  | none => none
  | some nodeDetailValue =>
    match c.unmarshalNodeDetail nodeDetailValue with
    | .error _ => none
    | .ok nodeDetail =>
      if nodeDetail.ProxyNodeId = "" then none
      else if nodeDetail.Role = "IdP" then
        some (.idp
          { NodeID := node, NodeName := nodeDetail.NodeName, Role := nodeDetail.Role,
            PublicKey := nodeDetail.PublicKey, MasterPublicKey := nodeDetail.MasterPublicKey,
            MaxIal := nodeDetail.MaxIal, MaxAal := nodeDetail.MaxAal,
            Config := nodeDetail.ProxyConfig,
            SupportedRequestMessageDataUrlTypeList :=
              nodeDetail.SupportedRequestMessageDataUrlTypeList })
      else
        some (.asOrRp
          { NodeID := node, NodeName := nodeDetail.NodeName, Role := nodeDetail.Role,
            PublicKey := nodeDetail.PublicKey, MasterPublicKey := nodeDetail.MasterPublicKey,
            Config := nodeDetail.ProxyConfig })

/-- The handler `getNodesBehindProxyNode` (lines 1620-1693). -/
def getNodesBehindProxyNode (c : Codec) (app : ABCIApplication) (param : String) :
    ResponseQuery GetNodesBehindProxyNodeResult :=
  match c.unmarshalGetNodesBehindProxyNodeParam param with
  | .error err => app.ReturnQuery none err app.state.Height
  | .ok funcParam =>
    let result : GetNodesBehindProxyNodeResult := { Nodes := [] }
    match app.state.Get ("BehindProxyNode" ++ keySeparator ++ funcParam.ProxyNodeID) true with
    | none => app.ReturnQuery (some (.json result)) "not found" app.state.Height
    | some behindProxyNodeValue =>
      match c.unmarshalBehindNodeList behindProxyNodeValue with
      | .error err => app.ReturnQuery none err app.state.Height
      | .ok nodes =>
        let result : GetNodesBehindProxyNodeResult :=
          { Nodes := rangeAppend (getNodesBehindProxyNodeBody c app) nodes.Nodes result.Nodes }
        if result.Nodes.length = 0 then
          app.ReturnQuery (some (.json result)) "not found" app.state.Height
        else
          app.ReturnQuery (some (.json result)) "success" app.state.Height

/-- The handler `isInitEnded` (lines 1849-1862). -/
def isInitEnded (app : ABCIApplication) (_param : String) : ResponseQuery IsInitEndedResult :=
  let value := app.state.Get initStateKeyBytes true
  let result : IsInitEndedResult :=
    if bytesOf value = "false" then { InitEnded := true } else { InitEnded := false }
  app.ReturnQuery (some (.json result)) "success" app.state.Height

/-- The handler `getChainHistory` (lines 1864-1869): the stored bytes are the
body, and no result record is encoded. -/
def getChainHistory (app : ABCIApplication) (_param : String) : ResponseQuery Empty :=
  let value := app.state.Get "ChainHistoryInfo" true
  app.ReturnQuery (value.map QueryValue.raw) "success" app.state.Height

/-- The handler `GetReferenceGroupCode` (lines 1889-1911). -/
def GetReferenceGroupCode (c : Codec) (app : ABCIApplication) (param : String) :
    ResponseQuery GetReferenceGroupCodeResult :=
  match c.unmarshalGetReferenceGroupCodeParam param with
  | .error err => app.ReturnQuery none err app.state.Height
  | .ok funcParam =>
    let refGroupCodeFromDB := bytesOf (app.state.Get (identityToRefCodeKeyPrefix ++
      keySeparator ++ funcParam.IdentityNamespace ++ keySeparator ++
      funcParam.IdentityIdentifierHash) true)
    let result : GetReferenceGroupCodeResult := { ReferenceGroupCode := refGroupCodeFromDB }
    if refGroupCodeFromDB = "" then
      app.ReturnQuery (some (.json result)) "not found" app.state.Height
    else
      app.ReturnQuery (some (.json result)) "success" app.state.Height

/-- The handler `GetReferenceGroupCodeByAccessorID` (lines 1913-1932). -/
def GetReferenceGroupCodeByAccessorID (c : Codec) (app : ABCIApplication) (param : String) :
    ResponseQuery GetReferenceGroupCodeResult :=
  match c.unmarshalGetReferenceGroupCodeByAccessorIDParam param with
  | .error err => app.ReturnQuery none err app.state.Height
  | .ok funcParam =>
    let refGroupCodeFromDB := bytesOf (app.state.Get (accessorToRefCodeKeyPrefix ++
      keySeparator ++ funcParam.AccessorID) true)
    app.ReturnQuery (some (.json { ReferenceGroupCode := refGroupCodeFromDB })) "success"
      app.state.Height

/-- The handler `GetAllowedModeList` (lines 1934-1948). -/
def GetAllowedModeList (c : Codec) (app : ABCIApplication) (param : String) :
    ResponseQuery GetAllowedModeListResult :=
  match c.unmarshalGetAllowedModeListParam param with
  | .error err => app.ReturnQuery none err app.state.Height
  | .ok funcParam =>
    app.ReturnQuery
      (some (.json { AllowedModeList := GetAllowedModeFromStateDB c app funcParam.Purpose true }))
      "success" app.state.Height

/-- The function `GetAllowedMinIalForRegisterIdentityAtFirstIdpFromStateDB`
(lines 2024-2035). -/
def GetAllowedMinIalForRegisterIdentityAtFirstIdpFromStateDB (c : Codec)
    (app : ABCIApplication) (committedState : Bool) : ℚ :=
  match app.state.Get "AllowedMinIalForRegisterIdentityAtFirstIdp" committedState with
  | none => 0
  | some allowedMinIalValue =>
    match c.unmarshalAllowedMinIal allowedMinIalValue with
    | .error _ => 0
    | .ok allowedMinIal => allowedMinIal.MinIal

/-- The handler `GetAllowedMinIalForRegisterIdentityAtFirstIdp` (lines
2013-2022). -/
def GetAllowedMinIalForRegisterIdentityAtFirstIdp (c : Codec) (app : ABCIApplication)
    (_param : String) : ResponseQuery GetAllowedMinIalForRegisterIdentityAtFirstIdpResult :=
  app.ReturnQuery
    (some (.json { MinIal := GetAllowedMinIalForRegisterIdentityAtFirstIdpFromStateDB c app true }))
    "success" app.state.Height

/-! ## Vocabulary of the statements on directories, accessors and state views -/

/-- The node `id` has a stored record that decodes and is active. -/
def isActiveNode (c : Codec) (app : ABCIApplication) (id : String) : Bool :=
  match app.state.Get (nodeIDKeyPrefix ++ keySeparator ++ id) true with
  | none => false
  | some v =>
    match c.unmarshalNodeDetail v with
    | .error _ => false
    | .ok nd => nd.Active

/-- The node IDs of a stored directory: none when the directory is not
stored, and the decoder's error when its record does not decode. -/
def directoryIDs {α : Type} (app : ABCIApplication) (key : String)
    (decoder : String → Except String α) (ids : α → List String) : Except String (List String) :=
  match app.state.Get key true with
  | none => .ok []
  | some v =>
    match decoder v with
    | .error err => .error err
    | .ok l => .ok (ids l)

/-- The role directory a role value selects: the RP, IdP or AS directory for
a role that is `rp`, `idp` or `as` once lowered, and the directory of all
nodes for any other role. -/
def roleDirectory (c : Codec) (app : ABCIApplication) (role : String) :
    Except String (List String) :=
  if c.ToLower role = "rp" then directoryIDs app "rpList" c.unmarshalRPList (fun l => l.NodeId)
  else if c.ToLower role = "idp" then
    directoryIDs app "IdPList" c.unmarshalIdPList (fun l => l.NodeId)
  else if c.ToLower role = "as" then
    directoryIDs app "asList" c.unmarshalASList (fun l => l.NodeId)
  else directoryIDs app "allList" c.unmarshalAllList (fun l => l.NodeId)

/-- The response with the body `{}` and the status `not found`. -/
def notFoundResponse {α : Type} (app : ABCIApplication) : ResponseQuery α :=
  { Value := some (.raw "{}"), Log := "not found", Height := app.state.Height }

/-- The reverse index of the accessor `accessorID` names the group `code`. -/
def accessorIndex (app : ABCIApplication) (accessorID code : String) : Prop :=
  app.state.Get (accessorToRefCodeKeyPrefix ++ keySeparator ++ accessorID) true = some code

/-- The record of the group `code` is absent, or is stored and does not
decode. -/
def groupUnreadable (c : Codec) (app : ABCIApplication) (code : String) : Prop :=
  app.state.Get (refGroupCodeKeyPrefix ++ keySeparator ++ code) true = none ∨
  ∃ v err, app.state.Get (refGroupCodeKeyPrefix ++ keySeparator ++ code) true = some v ∧
    c.unmarshalReferenceGroup v = .error err

/-- Two applications have the same finalized state, at the last block and at
every height, and the same ledger height; their pending writes are free. -/
def sameCommitted (app₁ app₂ : ABCIApplication) : Prop :=
  app₁.state.committed = app₂.state.committed ∧ app₁.state.versions = app₂.state.versions ∧
  app₁.state.Height = app₂.state.Height

/-! ## Vocabulary of the statements on results, candidates and keys -/

/-- The node IDs of the body of a `getIdpNodes` response, in order; a response
without an encoded result has none. -/
def idpNodesIDs (r : ResponseQuery GetIdpNodesResult) : List String :=
  match r.Value with
  | some (.json result) => result.Node.map IdpNodesEntry.ID
  | _ => []

/-- The node IDs of the body of a `getIdpNodesInfo` response, in order; a
response without an encoded result has none. -/
def idpNodesInfoIDs (r : ResponseQuery GetIdpNodesInfoResult) : List String :=
  match r.Value with
  | some (.json result) => result.Node.map IdpNodesInfoEntry.NodeID
  | _ => []

/-- The node `id` is one IdP discovery looks at: it is listed in the IdP
directory, or it is the node of an association of a stored group. -/
def idpCandidate (c : Codec) (app : ABCIApplication) (id : String) : Prop :=
  (∃ ids, idpDirectory c app ids ∧ id ∈ ids) ∨
  ∃ code g idp, groupRecord c app code g ∧ idp ∈ g.Idps ∧ idp.NodeId = id

/-- Two applications hold the same node records, the same group records and
the same IdP directory, and have the same height; their identity reverse
indexes are free. -/
def sameRecords (app₁ app₂ : ABCIApplication) : Prop :=
  (∀ id, app₁.state.Get (nodeIDKeyPrefix ++ keySeparator ++ id) true =
    app₂.state.Get (nodeIDKeyPrefix ++ keySeparator ++ id) true) ∧
  (∀ code, app₁.state.Get (refGroupCodeKeyPrefix ++ keySeparator ++ code) true =
    app₂.state.Get (refGroupCodeKeyPrefix ++ keySeparator ++ code) true) ∧
  app₁.state.Get idpListKeyBytes true = app₂.state.Get idpListKeyBytes true ∧
  app₁.state.Height = app₂.state.Height

/-- The key of the identity reverse index, as lines 249, 741, 1053, 1315 and
1896 build it. -/
def identityToRefCodeKey (identityNamespace identityIdentifierHash : String) : String :=
  identityToRefCodeKeyPrefix ++ keySeparator ++ identityNamespace ++ keySeparator ++
    identityIdentifierHash

/-- The reference group code `getIdentityInfo` resolves its parameter to,
lines 1049-1061: the code given, else the entry of the identity reverse
index. -/
def identityInfoResolvesTo (app : ABCIApplication) (p : GetIdentityInfoParam) (code : String) :
    Prop :=
  (p.ReferenceGroupCode ≠ "" ∧ code = p.ReferenceGroupCode) ∨
  (p.ReferenceGroupCode = "" ∧
    app.state.Get (identityToRefCodeKeyPrefix ++ keySeparator ++ p.IdentityNamespace ++
      keySeparator ++ p.IdentityIdentifierHash) true = some code)

/-- The entry of a `getIdpNodesInfo` result is that of a node behind a proxy
with the proxy node ID `proxyNodeID`. -/
def IdpNodesInfoEntry.behind (e : IdpNodesInfoEntry) (proxyNodeID : String) : Prop :=
  match e with
  | .behindProxy r => r.Proxy.NodeID = proxyNodeID
  | .behindProxyWithModeList r => r.Proxy.NodeID = proxyNodeID
  | _ => False

/-- The entry of a `getAsNodesInfoByServiceId` result is that of a node behind
a proxy with the proxy node ID `proxyNodeID`. -/
def AsNodesInfoEntry.behind (e : AsNodesInfoEntry) (proxyNodeID : String) : Prop :=
  match e with
  | .behindProxy r => r.Proxy.NodeID = proxyNodeID
  | _ => False

/-- The application in which the unit of work of `setMqAddresses` for `idp1`
on the first small ledger has been committed: its finalized state is what the
unit of work read. -/
def demoCommittedApp : ABCIApplication :=
  { state :=
      { committed := fun k =>
          (setMqAddresses demoCodec demoApp "one address" "idp1").2.state.Get k false,
        pending := fun _ => none, Height := 8 } }

/-! ## Lemmas on the loops and the membership tests -/

theorem rangeAppend_eq {ε ι : Type} (body : ι → Option ε) (l : List ι) (acc : List ε) :
    rangeAppend body l acc = acc ++ l.filterMap body := by
  unfold rangeAppend
  induction l generalizing acc with
  | nil => simp
  | cons i rest ih =>
    rw [List.foldl_cons, ih]
    cases h : body i <;> simp [List.filterMap_cons, h]

theorem forRange_ok {ρ ε ι : Type} (body : ι → LoopStep ρ ε) (l : List ι)
    (acc out : List ε) (h : forRange body l acc = .ok out) :
    out = acc ++ l.filterMap (fun i => (body i).appended) := by
  induction l generalizing acc with
  | nil => simp [forRange] at h; simp [h]
  | cons i rest ih =>
    rw [forRange] at h
    cases hb : body i with
    | skip => rw [hb] at h; simp [List.filterMap_cons, hb, LoopStep.appended, ih _ h]
    | append e =>
      rw [hb] at h
      simp [List.filterMap_cons, hb, LoopStep.appended, ih _ h]
    | ret r => rw [hb] at h; simp at h

theorem forRange_error {ρ ε ι : Type} (body : ι → LoopStep ρ ε) (l : List ι)
    (acc : List ε) (r : ρ) (h : forRange body l acc = .error r) :
    ∃ i ∈ l, body i = .ret r := by
  induction l generalizing acc with
  | nil => simp [forRange] at h
  | cons i rest ih =>
    rw [forRange] at h
    cases hb : body i with
    | skip =>
      rw [hb] at h
      obtain ⟨j, hj, hr⟩ := ih _ h
      exact ⟨j, List.mem_cons_of_mem _ hj, hr⟩
    | append e =>
      rw [hb] at h
      obtain ⟨j, hj, hr⟩ := ih _ h
      exact ⟨j, List.mem_cons_of_mem _ hj, hr⟩
    | ret r0 =>
      rw [hb] at h
      simp at h
      exact ⟨i, List.mem_cons_self _ _, by rw [hb, h]⟩

/-- A loop in which every `return` gives the same response `r`, and in which
some iteration returns, returns `r`. -/
theorem forRange_ret {ρ ε ι : Type} (body : ι → LoopStep ρ ε) (l : List ι)
    (acc : List ε) (r : ρ) (hsame : ∀ i ∈ l, ∀ r0, body i = .ret r0 → r0 = r)
    (hex : ∃ i ∈ l, body i = .ret r) : forRange body l acc = .error r := by
  induction l generalizing acc with
  | nil => obtain ⟨i, hi, _⟩ := hex; simp at hi
  | cons i rest ih =>
    rw [forRange]
    have hrest : (∃ j ∈ rest, body j = .ret r) → ∀ acc0, forRange body rest acc0 = .error r :=
      fun hj acc0 => ih acc0 (fun j hj0 r0 h0 => hsame j (List.mem_cons_of_mem _ hj0) r0 h0) hj
    cases hb : body i with
    | ret r0 =>
      simp
      exact hsame i (List.mem_cons_self _ _) r0 hb
    | skip =>
      obtain ⟨j, hj, hr⟩ := hex
      rcases List.mem_cons.1 hj with rfl | hj0
      · rw [hb] at hr; cases hr
      · exact hrest ⟨j, hj0, hr⟩ _
    | append e =>
      obtain ⟨j, hj, hr⟩ := hex
      rcases List.mem_cons.1 hj with rfl | hj0
      · rw [hb] at hr; cases hr
      · exact hrest ⟨j, hj0, hr⟩ _

theorem contains_iff (a : String) (list : List String) :
    contains a list = true ↔ a ∈ list := by
  induction list with
  | nil => simp [contains]
  | cons b rest ih =>
    rw [contains]
    by_cases h : b = a
    · simp [h]
    · simp only [h, if_false, ih, List.mem_cons]
      constructor
      · exact Or.inr
      · rintro (h0 | h0)
        · exact absurd h0.symm h
        · exact h0

theorem containsInt32_iff (a : Int) (list : List Int) :
    containsInt32 a list = true ↔ a ∈ list := by
  induction list with
  | nil => simp [containsInt32]
  | cons b rest ih =>
    rw [containsInt32]
    by_cases h : b = a
    · simp [h]
    · simp only [h, if_false, ih, List.mem_cons]
      constructor
      · exact Or.inr
      · rintro (h0 | h0)
        · exact absurd h0.symm h
        · exact h0

theorem supportedCount_eq (nodeTypes requested : List String) :
    supportedCount nodeTypes requested
      = nodeTypes.countP (fun t => contains t requested) := by
  unfold supportedCount
  suffices h : ∀ n, nodeTypes.foldl (fun count supportedType =>
      if contains supportedType requested then count + 1 else count) n
        = n + nodeTypes.countP (fun t => contains t requested) by
    simpa using h 0
  induction nodeTypes with
  | nil => simp
  | cons t rest ih =>
    intro n
    rw [List.foldl_cons, ih, List.countP_cons]
    by_cases h : contains t requested = true
    · simp [h]; omega
    · simp [h]

theorem supportedModeCount_eq (modes requested : List Int) :
    supportedModeCount modes requested
      = modes.countP (fun m => containsInt32 m requested) := by
  unfold supportedModeCount
  suffices h : ∀ n, modes.foldl (fun count mode =>
      if containsInt32 mode requested then count + 1 else count) n
        = n + modes.countP (fun m => containsInt32 m requested) by
    simpa using h 0
  induction modes with
  | nil => simp
  | cons t rest ih =>
    intro n
    rw [List.foldl_cons, ih, List.countP_cons]
    by_cases h : containsInt32 t requested = true
    · simp [h]; omega
    · simp [h]


/-! ## The loop bodies, case by case -/

theorem getIdpNodesDirectoryBody_eq_some (c : Codec) (app : ABCIApplication)
    (p : GetIdpNodesParam) (idp : String) (e : IdpNodesEntry) :
    getIdpNodesDirectoryBody c app p idp = some e ↔
      ∃ nd, nodeRecord c app idp nd ∧ passesNode p idp nd ∧ e = plainEntry idp nd := by
  unfold getIdpNodesDirectoryBody nodeRecord passesNode plainEntry
  cases hget : app.state.Get (nodeIDKeyPrefix ++ keySeparator ++ idp) true with
  | none => simp [hget]
  | some v =>
    cases hdec : c.unmarshalNodeDetail v with
    | error err => simp [hget, hdec]
    | ok nd =>
      simp only [hget, hdec, Option.some.injEq, exists_eq_left', Except.ok.injEq]
      have hl : ∀ l : List String, l.length > 0 ↔ l ≠ [] := fun l => List.length_pos
      have hc : (!contains idp p.NodeIDList) = true ↔ idp ∉ p.NodeIDList := by
        rw [← contains_iff]; simp
      simp only [hl, hc]
      split_ifs <;> simp_all
      all_goals exact eq_comm

theorem getIdpNodesGroupBody_eq_some (c : Codec) (app : ABCIApplication)
    (p : GetIdpNodesParam) (idp : IdPInRefGroup) (e : IdpNodesEntry) :
    getIdpNodesGroupBody c app p idp = some e ↔
      ∃ nd, nodeRecord c app idp.NodeId nd ∧ passesNode p idp.NodeId nd ∧
        passesAssoc p idp ∧ e = modeListEntry idp nd := by
  unfold getIdpNodesGroupBody nodeRecord passesNode passesAssoc modeListEntry
  cases hget : app.state.Get (nodeIDKeyPrefix ++ keySeparator ++ idp.NodeId) true with
  | none => simp [hget]
  | some v =>
    cases hdec : c.unmarshalNodeDetail v with
    | error err => simp [hget, hdec]
    | ok nd =>
      simp only [hget, hdec, Option.some.injEq, exists_eq_left', Except.ok.injEq]
      have hl : ∀ l : List String, l.length > 0 ↔ l ≠ [] := fun l => List.length_pos
      have hl2 : ∀ l : List Int, l.length > 0 ↔ l ≠ [] := fun l => List.length_pos
      have hc : (!contains idp.NodeId p.NodeIDList) = true ↔ idp.NodeId ∉ p.NodeIDList := by
        rw [← contains_iff]; simp
      simp only [hl, hl2, hc]
      split_ifs <;> simp_all
      all_goals exact eq_comm

theorem getIdpNodesInfoDirectoryBody_eq (c : Codec) (app : ABCIApplication)
    (p : GetIdpNodesParam) (idp : String) :
    getIdpNodesInfoDirectoryBody c app p idp =
      match app.state.Get (nodeIDKeyPrefix ++ keySeparator ++ idp) true with
      | none => .skip
      | some v =>
        match c.unmarshalNodeDetail v with
        | .error _ => .skip
        | .ok nd =>
          if passesNode p idp nd then
            proxyOutcome c app nd (infoNodeEntry idp nd) (infoBehindProxyEntry idp nd)
          else .skip := by
  unfold getIdpNodesInfoDirectoryBody
  cases hget : app.state.Get (nodeIDKeyPrefix ++ keySeparator ++ idp) true with
  | none => simp [hget]
  | some v =>
    cases hdec : c.unmarshalNodeDetail v with
    | error err => simp [hget, hdec]
    | ok nd =>
      simp only [hget, hdec]
      have hl : ∀ l : List String, l.length > 0 ↔ l ≠ [] := fun l => List.length_pos
      have hc : (!contains idp p.NodeIDList) = true ↔ idp ∉ p.NodeIDList := by
        rw [← contains_iff]; simp
      simp only [hl, hc]
      by_cases hp : passesNode p idp nd
      · rw [if_pos hp]
        obtain ⟨h1, h2, h3, h4, h5⟩ := hp
        rw [if_neg (by simp [h1]), if_neg (by simp [h2, h3]),
          if_neg (fun h => h.2 (h4 h.1)),
          if_neg (fun h => absurd (h5 h.1) (by omega))]
        rfl
      · rw [if_neg hp]
        split_ifs with g1 g2 g3 g4 g5 <;> try rfl
        all_goals exfalso
        all_goals apply hp
        all_goals simp only [Bool.not_eq_true', Bool.not_eq_false, not_not, not_and, not_lt,
          Bool.not_eq_true] at g1 g2 g3 g4
        all_goals exact ⟨g1, g2.1, g2.2, g3, g4⟩

theorem getIdpNodesInfoGroupBody_eq (c : Codec) (app : ABCIApplication)
    (p : GetIdpNodesParam) (idp : IdPInRefGroup) :
    getIdpNodesInfoGroupBody c app p idp =
      match app.state.Get (nodeIDKeyPrefix ++ keySeparator ++ idp.NodeId) true with
      | none => .skip
      | some v =>
        match c.unmarshalNodeDetail v with
        | .error _ => .skip
        | .ok nd =>
          if passesNode p idp.NodeId nd ∧ passesAssoc p idp then
            proxyOutcome c app nd (infoModeListEntry idp nd)
              (infoBehindProxyModeListEntry idp nd)
          else .skip := by
  unfold getIdpNodesInfoGroupBody
  cases hget : app.state.Get (nodeIDKeyPrefix ++ keySeparator ++ idp.NodeId) true with
  | none => simp [hget]
  | some v =>
    cases hdec : c.unmarshalNodeDetail v with
    | error err => simp [hget, hdec]
    | ok nd =>
      simp only [hget, hdec]
      have hl : ∀ l : List String, l.length > 0 ↔ l ≠ [] := fun l => List.length_pos
      have hl2 : ∀ l : List Int, l.length > 0 ↔ l ≠ [] := fun l => List.length_pos
      have hc : (!contains idp.NodeId p.NodeIDList) = true ↔ idp.NodeId ∉ p.NodeIDList := by
        rw [← contains_iff]; simp
      simp only [hl, hl2, hc]
      by_cases hp : passesNode p idp.NodeId nd ∧ passesAssoc p idp
      · rw [if_pos hp]
        obtain ⟨⟨h1, h2, h3, h4, h5⟩, h6, h7, h8⟩ := hp
        rw [if_neg (by simp [h1]), if_neg (by simp [h2, h3]), if_neg (by simp [h6]),
          if_neg (not_lt.2 h7),
          if_neg (fun h => h.2 (h4 h.1)),
          if_neg (fun h => absurd (h5 h.1) (by omega)),
          if_neg (fun h => absurd (h8 h.1) (by omega))]
        rfl
      · rw [if_neg hp]
        by_cases g1 : (!nd.Active) = true
        · rw [if_pos g1]
        rw [if_neg g1]
        by_cases g2 : ¬ (nd.MaxIal ≥ p.MinIal ∧ nd.MaxAal ≥ p.MinAal)
        · rw [if_pos g2]
        rw [if_neg g2]
        by_cases g3 : (!idp.Active) = true
        · rw [if_pos g3]
        rw [if_neg g3]
        by_cases g4 : idp.Ial < p.MinIal
        · rw [if_pos g4]
        rw [if_neg g4]
        by_cases g5 : p.NodeIDList ≠ [] ∧ idp.NodeId ∉ p.NodeIDList
        · rw [if_pos g5]
        rw [if_neg g5]
        by_cases g6 : p.SupportedRequestMessageDataUrlTypeList ≠ [] ∧
            supportedCount nd.SupportedRequestMessageDataUrlTypeList
              p.SupportedRequestMessageDataUrlTypeList
              < p.SupportedRequestMessageDataUrlTypeList.length
        · rw [if_pos g6]
        rw [if_neg g6]
        by_cases g7 : p.ModeList ≠ [] ∧
            supportedModeCount idp.Mode p.ModeList < p.ModeList.length
        · rw [if_pos g7]
        exfalso
        apply hp
        have g2 := not_not.1 g2
        simp only [Bool.not_eq_true', Bool.not_eq_false, not_not, not_and, not_lt,
          Bool.not_eq_true] at g1 g3 g4 g5 g6 g7
        exact ⟨⟨g1, g2.1, g2.2, g5, g6⟩, g3, g4, g7⟩

theorem proxyOutcome_append (c : Codec) (app : ABCIApplication) (nd : NodeDetail)
    (own : IdpNodesInfoEntry) (proxied : NodeDetail → IdpNodesInfoEntry)
    (e : IdpNodesInfoEntry) (h : proxyOutcome c app nd own proxied = .append e) :
    (nd.ProxyNodeId = "" ∧ e = own) ∨
    (nd.ProxyNodeId ≠ "" ∧ ∃ proxyNode, nodeRecord c app nd.ProxyNodeId proxyNode ∧
      proxyNode.Active = true ∧ e = proxied proxyNode) := by
  unfold proxyOutcome at h
  by_cases hpx : nd.ProxyNodeId = ""
  · left
    rw [if_neg (not_not.2 hpx)] at h
    cases h
    exact ⟨hpx, rfl⟩
  · right
    rw [if_pos hpx] at h
    refine ⟨hpx, ?_⟩
    cases hget : app.state.Get (nodeIDKeyPrefix ++ keySeparator ++ nd.ProxyNodeId) true with
    | none => simp [hget] at h
    | some v =>
      cases hdec : c.unmarshalNodeDetail v with
      | error err => simp [hget, hdec] at h
      | ok proxyNode =>
        simp only [hget, hdec] at h
        by_cases ha : proxyNode.Active = true
        · simp [ha] at h
          exact ⟨proxyNode, ⟨v, hget, hdec⟩, ha, h.symm⟩
        · simp [ha] at h

theorem proxyOutcome_ret (c : Codec) (app : ABCIApplication) (nd : NodeDetail)
    (own : IdpNodesInfoEntry) (proxied : NodeDetail → IdpNodesInfoEntry)
    (r : ResponseQuery GetIdpNodesInfoResult) (h : proxyOutcome c app nd own proxied = .ret r) :
    nd.ProxyNodeId ≠ "" ∧
    ((app.state.Get (nodeIDKeyPrefix ++ keySeparator ++ nd.ProxyNodeId) true = none ∧
        r = proxyMissingResponse app) ∨
      ∃ v err, app.state.Get (nodeIDKeyPrefix ++ keySeparator ++ nd.ProxyNodeId) true = some v ∧
        c.unmarshalNodeDetail v = .error err ∧
        r = { Value := none, Log := err, Height := app.state.Height }) := by
  unfold proxyOutcome at h
  by_cases hpx : nd.ProxyNodeId = ""
  · rw [if_neg (not_not.2 hpx)] at h
    cases h
  · rw [if_pos hpx] at h
    refine ⟨hpx, ?_⟩
    cases hget : app.state.Get (nodeIDKeyPrefix ++ keySeparator ++ nd.ProxyNodeId) true with
    | none =>
      simp [hget] at h
      exact Or.inl ⟨rfl, h.symm⟩
    | some v =>
      cases hdec : c.unmarshalNodeDetail v with
      | error err =>
        simp [hget, hdec] at h
        exact Or.inr ⟨v, err, rfl, hdec, h.symm⟩
      | ok proxyNode =>
        simp only [hget, hdec] at h
        by_cases ha : proxyNode.Active = true
        · simp [ha] at h
        · simp [ha] at h

theorem proxyOutcome_missing (c : Codec) (app : ABCIApplication) (nd : NodeDetail)
    (own : IdpNodesInfoEntry) (proxied : NodeDetail → IdpNodesInfoEntry)
    (hpx : nd.ProxyNodeId ≠ "")
    (hget : app.state.Get (nodeIDKeyPrefix ++ keySeparator ++ nd.ProxyNodeId) true = none) :
    proxyOutcome c app nd own proxied = .ret (proxyMissingResponse app) := by
  unfold proxyOutcome
  rw [if_pos hpx, hget]
  rfl

/-! ## The handlers, branch by branch -/

theorem resolvesTo_iff (app : ABCIApplication) (p : GetIdpNodesParam) (code : String) :
    resolvesTo app p code ↔
      (if p.ReferenceGroupCode ≠ "" then some p.ReferenceGroupCode
        else app.state.Get (identityToRefCodeKeyPrefix ++ keySeparator ++
          p.IdentityNamespace ++ keySeparator ++ p.IdentityIdentifierHash) true) = some code := by
  unfold resolvesTo
  by_cases h : p.ReferenceGroupCode = ""
  · simp [h]
  · simp [h, eq_comm]

theorem getIdpNodes_directory (c : Codec) (app : ABCIApplication) (param : String)
    (p : GetIdpNodesParam) (ids : List String)
    (hp : c.unmarshalGetIdpNodesParam param = .ok p) (hs : ¬ identityScoped p)
    (hd : idpDirectory c app ids) :
    getIdpNodes c app param =
      getIdpNodesFinish app { Node := ids.filterMap (getIdpNodesDirectoryBody c app p) } := by
  unfold getIdpNodes
  simp only [hp]
  rw [if_pos (not_not.1 hs)]
  rcases hd with ⟨hget, rfl⟩ | ⟨v, l, hget, hdec, rfl⟩
  · simp [hget]
  · simp [hget, hdec, rangeAppend_eq]

theorem getIdpNodes_group (c : Codec) (app : ABCIApplication) (param : String)
    (p : GetIdpNodesParam) (code : String) (g : ReferenceGroup)
    (hp : c.unmarshalGetIdpNodesParam param = .ok p) (hs : identityScoped p)
    (hr : resolvesTo app p code) (hg : groupRecord c app code g) :
    getIdpNodes c app param =
      getIdpNodesFinish app { Node := g.Idps.filterMap (getIdpNodesGroupBody c app p) } := by
  unfold getIdpNodes
  simp only [hp]
  rw [if_neg hs]
  rw [resolvesTo_iff] at hr
  obtain ⟨v, hget, hdec⟩ := hg
  simp [hr, hget, hdec, rangeAppend_eq]

theorem getIdpNodes_unresolved (c : Codec) (app : ABCIApplication) (param : String)
    (p : GetIdpNodesParam)
    (hp : c.unmarshalGetIdpNodesParam param = .ok p) (hs : identityScoped p)
    (hno : ∀ code, resolvesTo app p code →
      app.state.Get (refGroupCodeKeyPrefix ++ keySeparator ++ code) true = none) :
    getIdpNodes c app param =
      { Value := none, Log := "not found", Height := app.state.Height } := by
  unfold getIdpNodes
  simp only [hp]
  rw [if_neg hs]
  simp only [resolvesTo_iff] at hno
  cases hcode : (if p.ReferenceGroupCode ≠ "" then some p.ReferenceGroupCode
        else app.state.Get (identityToRefCodeKeyPrefix ++ keySeparator ++
          p.IdentityNamespace ++ keySeparator ++ p.IdentityIdentifierHash) true) with
  | none => rfl
  | some code =>
    simp only [hno code hcode]
    rfl

theorem getIdpNodesFinish_json (app : ABCIApplication) (n r : GetIdpNodesResult)
    (h : (getIdpNodesFinish app n).Value = some (.json r)) : r = n := by
  unfold getIdpNodesFinish ABCIApplication.ReturnQuery at h
  split_ifs at h <;> simpa [eq_comm] using h

theorem getIdpNodes_json (c : Codec) (app : ABCIApplication) (param : String)
    (p : GetIdpNodesParam) (r : GetIdpNodesResult)
    (hp : c.unmarshalGetIdpNodesParam param = .ok p)
    (hr : (getIdpNodes c app param).Value = some (.json r)) :
    (¬ identityScoped p ∧ ∃ ids, idpDirectory c app ids ∧
      r.Node = ids.filterMap (getIdpNodesDirectoryBody c app p)) ∨
    (identityScoped p ∧ ∃ code g, resolvesTo app p code ∧ groupRecord c app code g ∧
      r.Node = g.Idps.filterMap (getIdpNodesGroupBody c app p)) := by
  by_cases hs : identityScoped p
  · right
    refine ⟨hs, ?_⟩
    cases hcode : (if p.ReferenceGroupCode ≠ "" then some p.ReferenceGroupCode
        else app.state.Get (identityToRefCodeKeyPrefix ++ keySeparator ++
          p.IdentityNamespace ++ keySeparator ++ p.IdentityIdentifierHash) true) with
    | none =>
      rw [getIdpNodes_unresolved c app param p hp hs (fun code hc => by
        rw [resolvesTo_iff, hcode] at hc; cases hc)] at hr
      cases hr
    | some code =>
      have hres : resolvesTo app p code := (resolvesTo_iff app p code).2 hcode
      cases hget : app.state.Get (refGroupCodeKeyPrefix ++ keySeparator ++ code) true with
      | none =>
        rw [getIdpNodes_unresolved c app param p hp hs (fun code0 hc => by
          rw [resolvesTo_iff, hcode] at hc; cases hc; exact hget)] at hr
        cases hr
      | some v =>
        cases hdec : c.unmarshalReferenceGroup v with
        | error err =>
          unfold getIdpNodes at hr
          simp only [hp] at hr
          rw [if_neg hs] at hr
          simp [hcode, hget, hdec, ABCIApplication.ReturnQuery] at hr
        | ok g =>
          have hg : groupRecord c app code g := ⟨v, hget, hdec⟩
          rw [getIdpNodes_group c app param p code g hp hs hres hg] at hr
          have := getIdpNodesFinish_json app _ r hr
          exact ⟨code, g, hres, hg, by rw [this]⟩
  · left
    refine ⟨hs, ?_⟩
    cases hget : app.state.Get idpListKeyBytes true with
    | none =>
      have hd : idpDirectory c app [] := Or.inl ⟨hget, rfl⟩
      rw [getIdpNodes_directory c app param p [] hp hs hd] at hr
      have := getIdpNodesFinish_json app _ r hr
      exact ⟨[], hd, by rw [this]⟩
    | some v =>
      cases hdec : c.unmarshalIdPList v with
      | error err =>
        unfold getIdpNodes at hr
        simp only [hp] at hr
        rw [if_pos (not_not.1 hs)] at hr
        simp [hget, hdec, ABCIApplication.ReturnQuery] at hr
      | ok l =>
        have hd : idpDirectory c app l.NodeId := Or.inr ⟨v, l, hget, hdec, rfl⟩
        rw [getIdpNodes_directory c app param p _ hp hs hd] at hr
        have := getIdpNodesFinish_json app _ r hr
        exact ⟨_, hd, by rw [this]⟩

theorem getIdpNodesInfoDirectoryBody_cases (c : Codec) (app : ABCIApplication)
    (p : GetIdpNodesParam) (idp : String)
    (h : getIdpNodesInfoDirectoryBody c app p idp ≠ .skip) :
    ∃ nd, nodeRecord c app idp nd ∧ passesNode p idp nd ∧
      getIdpNodesInfoDirectoryBody c app p idp =
        proxyOutcome c app nd (infoNodeEntry idp nd) (infoBehindProxyEntry idp nd) := by
  rw [getIdpNodesInfoDirectoryBody_eq] at h ⊢
  cases hget : app.state.Get (nodeIDKeyPrefix ++ keySeparator ++ idp) true with
  | none => simp [hget] at h
  | some v =>
    cases hdec : c.unmarshalNodeDetail v with
    | error err => simp [hget, hdec] at h
    | ok nd =>
      simp only [hget, hdec] at h ⊢
      by_cases hpass : passesNode p idp nd
      · exact ⟨nd, ⟨v, hget, hdec⟩, hpass, by rw [if_pos hpass]⟩
      · rw [if_neg hpass] at h
        exact absurd rfl h

theorem getIdpNodesInfoGroupBody_cases (c : Codec) (app : ABCIApplication)
    (p : GetIdpNodesParam) (idp : IdPInRefGroup)
    (h : getIdpNodesInfoGroupBody c app p idp ≠ .skip) :
    ∃ nd, nodeRecord c app idp.NodeId nd ∧ passesNode p idp.NodeId nd ∧ passesAssoc p idp ∧
      getIdpNodesInfoGroupBody c app p idp =
        proxyOutcome c app nd (infoModeListEntry idp nd)
          (infoBehindProxyModeListEntry idp nd) := by
  rw [getIdpNodesInfoGroupBody_eq] at h ⊢
  cases hget : app.state.Get (nodeIDKeyPrefix ++ keySeparator ++ idp.NodeId) true with
  | none => simp [hget] at h
  | some v =>
    cases hdec : c.unmarshalNodeDetail v with
    | error err => simp [hget, hdec] at h
    | ok nd =>
      simp only [hget, hdec] at h ⊢
      by_cases hpass : passesNode p idp.NodeId nd ∧ passesAssoc p idp
      · exact ⟨nd, ⟨v, hget, hdec⟩, hpass.1, hpass.2, by rw [if_pos hpass]⟩
      · rw [if_neg hpass] at h
        exact absurd rfl h

theorem getIdpNodesInfoDirectoryBody_passes (c : Codec) (app : ABCIApplication)
    (p : GetIdpNodesParam) (idp : String) (nd : NodeDetail)
    (hrec : nodeRecord c app idp nd) (hpass : passesNode p idp nd) :
    getIdpNodesInfoDirectoryBody c app p idp =
      proxyOutcome c app nd (infoNodeEntry idp nd) (infoBehindProxyEntry idp nd) := by
  obtain ⟨v, hget, hdec⟩ := hrec
  rw [getIdpNodesInfoDirectoryBody_eq]
  simp only [hget, hdec]
  rw [if_pos hpass]

theorem getIdpNodesInfoGroupBody_passes (c : Codec) (app : ABCIApplication)
    (p : GetIdpNodesParam) (idp : IdPInRefGroup) (nd : NodeDetail)
    (hrec : nodeRecord c app idp.NodeId nd) (hpass : passesNode p idp.NodeId nd)
    (hassoc : passesAssoc p idp) :
    getIdpNodesInfoGroupBody c app p idp =
      proxyOutcome c app nd (infoModeListEntry idp nd)
        (infoBehindProxyModeListEntry idp nd) := by
  obtain ⟨v, hget, hdec⟩ := hrec
  rw [getIdpNodesInfoGroupBody_eq]
  simp only [hget, hdec]
  rw [if_pos ⟨hpass, hassoc⟩]

theorem proxyOutcome_ret_not_json (c : Codec) (app : ABCIApplication) (nd : NodeDetail)
    (own : IdpNodesInfoEntry) (proxied : NodeDetail → IdpNodesInfoEntry)
    (r : ResponseQuery GetIdpNodesInfoResult) (res : GetIdpNodesInfoResult)
    (h : proxyOutcome c app nd own proxied = .ret r) : r.Value ≠ some (.json res) := by
  obtain ⟨_, ⟨_, rfl⟩ | ⟨v, err, _, _, rfl⟩⟩ := proxyOutcome_ret c app nd own proxied r h
  · simp [proxyMissingResponse]
  · simp

theorem getIdpNodesInfo_directory (c : Codec) (app : ABCIApplication) (param : String)
    (p : GetIdpNodesParam) (ids : List String)
    (hp : c.unmarshalGetIdpNodesParam param = .ok p) (hs : ¬ identityScoped p)
    (hd : idpDirectory c app ids) :
    getIdpNodesInfo c app param =
      match forRange (getIdpNodesInfoDirectoryBody c app p) ids [] with
      | .error response => response
      | .ok nodes => getIdpNodesInfoFinish app { Node := nodes } := by
  unfold getIdpNodesInfo
  simp only [hp]
  rw [if_pos (not_not.1 hs)]
  rcases hd with ⟨hget, rfl⟩ | ⟨v, l, hget, hdec, rfl⟩
  · simp [hget, forRange]
  · simp [hget, hdec]

theorem getIdpNodesInfo_group (c : Codec) (app : ABCIApplication) (param : String)
    (p : GetIdpNodesParam) (code : String) (g : ReferenceGroup)
    (hp : c.unmarshalGetIdpNodesParam param = .ok p) (hs : identityScoped p)
    (hr : resolvesTo app p code) (hg : groupRecord c app code g) :
    getIdpNodesInfo c app param =
      match forRange (getIdpNodesInfoGroupBody c app p) g.Idps [] with
      | .error response => response
      | .ok nodes => getIdpNodesInfoFinish app { Node := nodes } := by
  unfold getIdpNodesInfo
  simp only [hp]
  rw [if_neg hs]
  rw [resolvesTo_iff] at hr
  obtain ⟨v, hget, hdec⟩ := hg
  simp [hr, hget, hdec]

theorem getIdpNodesInfo_unresolved (c : Codec) (app : ABCIApplication) (param : String)
    (p : GetIdpNodesParam)
    (hp : c.unmarshalGetIdpNodesParam param = .ok p) (hs : identityScoped p)
    (hno : ∀ code, resolvesTo app p code →
      app.state.Get (refGroupCodeKeyPrefix ++ keySeparator ++ code) true = none) :
    getIdpNodesInfo c app param =
      { Value := none, Log := "not found", Height := app.state.Height } := by
  unfold getIdpNodesInfo
  simp only [hp]
  rw [if_neg hs]
  simp only [resolvesTo_iff] at hno
  cases hcode : (if p.ReferenceGroupCode ≠ "" then some p.ReferenceGroupCode
        else app.state.Get (identityToRefCodeKeyPrefix ++ keySeparator ++
          p.IdentityNamespace ++ keySeparator ++ p.IdentityIdentifierHash) true) with
  | none => rfl
  | some code =>
    simp only [hno code hcode]
    rfl

theorem getIdpNodesInfoFinish_json (app : ABCIApplication) (n r : GetIdpNodesInfoResult)
    (h : (getIdpNodesInfoFinish app n).Value = some (.json r)) : r = n := by
  unfold getIdpNodesInfoFinish ABCIApplication.ReturnQuery at h
  split_ifs at h <;> simpa [eq_comm] using h

theorem getIdpNodesInfo_json (c : Codec) (app : ABCIApplication) (param : String)
    (p : GetIdpNodesParam) (r : GetIdpNodesInfoResult)
    (hp : c.unmarshalGetIdpNodesParam param = .ok p)
    (hr : (getIdpNodesInfo c app param).Value = some (.json r)) :
    (¬ identityScoped p ∧ ∃ ids, idpDirectory c app ids ∧
      forRange (getIdpNodesInfoDirectoryBody c app p) ids [] = .ok r.Node) ∨
    (identityScoped p ∧ ∃ code g, resolvesTo app p code ∧ groupRecord c app code g ∧
      forRange (getIdpNodesInfoGroupBody c app p) g.Idps [] = .ok r.Node) := by
  by_cases hs : identityScoped p
  · right
    refine ⟨hs, ?_⟩
    cases hcode : (if p.ReferenceGroupCode ≠ "" then some p.ReferenceGroupCode
        else app.state.Get (identityToRefCodeKeyPrefix ++ keySeparator ++
          p.IdentityNamespace ++ keySeparator ++ p.IdentityIdentifierHash) true) with
    | none =>
      rw [getIdpNodesInfo_unresolved c app param p hp hs (fun code hc => by
        rw [resolvesTo_iff, hcode] at hc; cases hc)] at hr
      cases hr
    | some code =>
      have hres : resolvesTo app p code := (resolvesTo_iff app p code).2 hcode
      cases hget : app.state.Get (refGroupCodeKeyPrefix ++ keySeparator ++ code) true with
      | none =>
        rw [getIdpNodesInfo_unresolved c app param p hp hs (fun code0 hc => by
          rw [resolvesTo_iff, hcode] at hc; cases hc; exact hget)] at hr
        cases hr
      | some v =>
        cases hdec : c.unmarshalReferenceGroup v with
        | error err =>
          unfold getIdpNodesInfo at hr
          simp only [hp] at hr
          rw [if_neg hs] at hr
          simp [hcode, hget, hdec, ABCIApplication.ReturnQuery] at hr
        | ok g =>
          have hg : groupRecord c app code g := ⟨v, hget, hdec⟩
          rw [getIdpNodesInfo_group c app param p code g hp hs hres hg] at hr
          refine ⟨code, g, hres, hg, ?_⟩
          cases hloop : forRange (getIdpNodesInfoGroupBody c app p) g.Idps [] with
          | error r0 =>
            rw [hloop] at hr
            obtain ⟨i, _, hi⟩ := forRange_error _ _ _ _ hloop
            obtain ⟨nd, _, _, _, hbody⟩ :=
              getIdpNodesInfoGroupBody_cases c app p i (by rw [hi]; simp)
            rw [hbody] at hi
            exact absurd hr (proxyOutcome_ret_not_json c app nd _ _ r0 r hi)
          | ok nodes =>
            rw [hloop] at hr
            have := getIdpNodesInfoFinish_json app _ r hr
            rw [this]
  · left
    refine ⟨hs, ?_⟩
    have key : ∀ ids, idpDirectory c app ids → ∃ ids, idpDirectory c app ids ∧
        forRange (getIdpNodesInfoDirectoryBody c app p) ids [] = .ok r.Node := by
      intro ids hd
      rw [getIdpNodesInfo_directory c app param p ids hp hs hd] at hr
      refine ⟨ids, hd, ?_⟩
      cases hloop : forRange (getIdpNodesInfoDirectoryBody c app p) ids [] with
      | error r0 =>
        rw [hloop] at hr
        obtain ⟨i, _, hi⟩ := forRange_error _ _ _ _ hloop
        obtain ⟨nd, _, _, hbody⟩ :=
          getIdpNodesInfoDirectoryBody_cases c app p i (by rw [hi]; simp)
        rw [hbody] at hi
        exact absurd hr (proxyOutcome_ret_not_json c app nd _ _ r0 r hi)
      | ok nodes =>
        rw [hloop] at hr
        have := getIdpNodesInfoFinish_json app _ r hr
        rw [this]
    cases hget : app.state.Get idpListKeyBytes true with
    | none => exact key [] (Or.inl ⟨hget, rfl⟩)
    | some v =>
      cases hdec : c.unmarshalIdPList v with
      | error err =>
        unfold getIdpNodesInfo at hr
        simp only [hp] at hr
        rw [if_pos (not_not.1 hs)] at hr
        simp [hget, hdec, ABCIApplication.ReturnQuery] at hr
      | ok l => exact key l.NodeId (Or.inr ⟨v, l, hget, hdec, rfl⟩)

/-! ## The candidates of a result -/

theorem getIdpNodes_entry (c : Codec) (app : ABCIApplication) (param : String)
    (p : GetIdpNodesParam) (r : GetIdpNodesResult) (e : IdpNodesEntry)
    (hp : c.unmarshalGetIdpNodesParam param = .ok p)
    (hr : (getIdpNodes c app param).Value = some (.json r)) (he : e ∈ r.Node) :
    ∃ nd, nodeRecord c app e.ID nd ∧ passesNode p e.ID nd ∧
      ((¬ identityScoped p ∧ e = plainEntry e.ID nd) ∨
        (identityScoped p ∧ ∃ code g idp, resolvesTo app p code ∧ groupRecord c app code g ∧
          idp ∈ g.Idps ∧ idp.NodeId = e.ID ∧ passesAssoc p idp ∧ e = modeListEntry idp nd)) := by
  rcases getIdpNodes_json c app param p r hp hr with
    ⟨hs, ids, _, hn⟩ | ⟨hs, code, g, hres, hg, hn⟩
  · rw [hn] at he
    obtain ⟨idp, _, hb⟩ := List.mem_filterMap.1 he
    obtain ⟨nd, hrec, hpass, rfl⟩ := (getIdpNodesDirectoryBody_eq_some c app p idp e).1 hb
    exact ⟨nd, hrec, hpass, Or.inl ⟨hs, rfl⟩⟩
  · rw [hn] at he
    obtain ⟨idp, hmem, hb⟩ := List.mem_filterMap.1 he
    obtain ⟨nd, hrec, hpass, hassoc, rfl⟩ :=
      (getIdpNodesGroupBody_eq_some c app p idp e).1 hb
    exact ⟨nd, hrec, hpass, Or.inr ⟨hs, code, g, idp, hres, hg, hmem, rfl, hassoc, rfl⟩⟩

theorem proxyOutcome_append_id (c : Codec) (app : ABCIApplication) (nd : NodeDetail)
    (own : IdpNodesInfoEntry) (proxied : NodeDetail → IdpNodesInfoEntry)
    (e : IdpNodesInfoEntry) (id : String) (hown : own.NodeID = id)
    (hproxied : ∀ proxyNode, (proxied proxyNode).NodeID = id)
    (h : proxyOutcome c app nd own proxied = .append e) : e.NodeID = id := by
  rcases proxyOutcome_append c app nd own proxied e h with ⟨_, rfl⟩ | ⟨_, pn, _, _, rfl⟩
  · exact hown
  · exact hproxied pn

theorem getIdpNodesInfo_entry (c : Codec) (app : ABCIApplication) (param : String)
    (p : GetIdpNodesParam) (r : GetIdpNodesInfoResult) (e : IdpNodesInfoEntry)
    (hp : c.unmarshalGetIdpNodesParam param = .ok p)
    (hr : (getIdpNodesInfo c app param).Value = some (.json r)) (he : e ∈ r.Node) :
    ∃ nd, nodeRecord c app e.NodeID nd ∧ passesNode p e.NodeID nd ∧
      (identityScoped p → ∃ code g idp, resolvesTo app p code ∧ groupRecord c app code g ∧
          idp ∈ g.Idps ∧ idp.NodeId = e.NodeID ∧ passesAssoc p idp) := by
  rcases getIdpNodesInfo_json c app param p r hp hr with
    ⟨hs, ids, _, hn⟩ | ⟨hs, code, g, hres, hg, hn⟩
  · have hnode := forRange_ok _ _ _ _ hn
    rw [hnode, List.nil_append] at he
    obtain ⟨idp, _, hb⟩ := List.mem_filterMap.1 he
    have happ : getIdpNodesInfoDirectoryBody c app p idp = .append e := by
      cases hbody : getIdpNodesInfoDirectoryBody c app p idp <;>
        simp [hbody, LoopStep.appended] at hb
      rw [hb]
    obtain ⟨nd, hrec, hpass, hbody⟩ :=
      getIdpNodesInfoDirectoryBody_cases c app p idp (by rw [happ]; simp)
    rw [hbody] at happ
    have hid : e.NodeID = idp :=
      proxyOutcome_append_id c app nd (infoNodeEntry idp nd) (infoBehindProxyEntry idp nd)
        e idp rfl (fun _ => rfl) happ
    rw [hid]
    exact ⟨nd, hrec, hpass, fun h => absurd h hs⟩
  · have hnode := forRange_ok _ _ _ _ hn
    rw [hnode, List.nil_append] at he
    obtain ⟨idp, hmem, hb⟩ := List.mem_filterMap.1 he
    have happ : getIdpNodesInfoGroupBody c app p idp = .append e := by
      cases hbody : getIdpNodesInfoGroupBody c app p idp <;>
        simp [hbody, LoopStep.appended] at hb
      rw [hb]
    obtain ⟨nd, hrec, hpass, hassoc, hbody⟩ :=
      getIdpNodesInfoGroupBody_cases c app p idp (by rw [happ]; simp)
    rw [hbody] at happ
    have hid : e.NodeID = idp.NodeId :=
      proxyOutcome_append_id c app nd (infoModeListEntry idp nd)
        (infoBehindProxyModeListEntry idp nd) e idp.NodeId rfl (fun _ => rfl) happ
    rw [hid]
    exact ⟨nd, hrec, hpass, fun _ => ⟨code, g, idp, hres, hg, hmem, rfl, hassoc⟩⟩

/-! ## Uniqueness of what a query reads -/

theorem idpDirectory_unique (c : Codec) (app : ABCIApplication) (ids ids0 : List String)
    (h : idpDirectory c app ids) (h0 : idpDirectory c app ids0) : ids = ids0 := by
  rcases h with ⟨hget, rfl⟩ | ⟨v, l, hget, hdec, rfl⟩ <;>
    rcases h0 with ⟨hget0, rfl⟩ | ⟨v0, l0, hget0, hdec0, rfl⟩
  · rfl
  · rw [hget] at hget0; cases hget0
  · rw [hget] at hget0; cases hget0
  · rw [hget] at hget0
    cases hget0
    rw [hdec] at hdec0
    cases hdec0
    rfl

theorem resolvesTo_unique (app : ABCIApplication) (p : GetIdpNodesParam) (code code0 : String)
    (h : resolvesTo app p code) (h0 : resolvesTo app p code0) : code = code0 := by
  rw [resolvesTo_iff] at h h0
  rw [h] at h0
  exact Option.some.inj h0

theorem groupRecord_unique (c : Codec) (app : ABCIApplication) (code : String)
    (g g0 : ReferenceGroup) (h : groupRecord c app code g) (h0 : groupRecord c app code g0) :
    g = g0 := by
  obtain ⟨v, hget, hdec⟩ := h
  obtain ⟨v0, hget0, hdec0⟩ := h0
  rw [hget] at hget0
  cases hget0
  rw [hdec] at hdec0
  cases hdec0
  rfl

theorem nodeRecord_unique (c : Codec) (app : ABCIApplication) (id : String)
    (nd nd0 : NodeDetail) (h : nodeRecord c app id nd) (h0 : nodeRecord c app id nd0) :
    nd = nd0 := by
  obtain ⟨v, hget, hdec⟩ := h
  obtain ⟨v0, hget0, hdec0⟩ := h0
  rw [hget] at hget0
  cases hget0
  rw [hdec] at hdec0
  cases hdec0
  rfl

/-! ## The allow list as a filter -/

theorem passesNode_allowList (p : GetIdpNodesParam) (L : List String) (id : String)
    (nd : NodeDetail) (hL : L ≠ []) :
    passesNode { p with NodeIDList := L } id nd ↔
      passesNode { p with NodeIDList := [] } id nd ∧ id ∈ L := by
  unfold passesNode
  simp only [ne_eq, not_true_eq_false, false_implies, true_and]
  constructor
  · rintro ⟨h1, h2, h3, h4, h5⟩
    exact ⟨⟨h1, h2, h3, h5⟩, h4 hL⟩
  · rintro ⟨⟨h1, h2, h3, h5⟩, h4⟩
    exact ⟨h1, h2, h3, fun _ => h4, h5⟩

theorem getIdpNodesDirectoryBody_allowList (c : Codec) (app : ABCIApplication)
    (p : GetIdpNodesParam) (L : List String) (hL : L ≠ []) (idp : String) :
    getIdpNodesDirectoryBody c app { p with NodeIDList := L } idp =
      (getIdpNodesDirectoryBody c app { p with NodeIDList := [] } idp).filter
        (fun e => decide (e.ID ∈ L)) := by
  ext e
  simp only [Option.mem_def, Option.filter_eq_some, getIdpNodesDirectoryBody_eq_some,
    passesNode_allowList p L idp _ hL, decide_eq_true_eq]
  constructor
  · rintro ⟨nd, hrec, ⟨hpass, hmem⟩, rfl⟩
    exact ⟨⟨nd, hrec, hpass, rfl⟩, hmem⟩
  · rintro ⟨⟨nd, hrec, hpass, rfl⟩, hmem⟩
    exact ⟨nd, hrec, ⟨hpass, hmem⟩, rfl⟩

theorem getIdpNodesGroupBody_allowList (c : Codec) (app : ABCIApplication)
    (p : GetIdpNodesParam) (L : List String) (hL : L ≠ []) (idp : IdPInRefGroup) :
    getIdpNodesGroupBody c app { p with NodeIDList := L } idp =
      (getIdpNodesGroupBody c app { p with NodeIDList := [] } idp).filter
        (fun e => decide (e.ID ∈ L)) := by
  ext e
  simp only [Option.mem_def, Option.filter_eq_some, getIdpNodesGroupBody_eq_some,
    passesNode_allowList p L idp.NodeId _ hL, decide_eq_true_eq]
  constructor
  · rintro ⟨nd, hrec, ⟨hpass, hmem⟩, hassoc, rfl⟩
    exact ⟨⟨nd, hrec, hpass, hassoc, rfl⟩, hmem⟩
  · rintro ⟨⟨nd, hrec, hpass, hassoc, rfl⟩, hmem⟩
    exact ⟨nd, hrec, ⟨hpass, hmem⟩, hassoc, rfl⟩

theorem getIdpNodesInfoDirectoryBody_id (c : Codec) (app : ABCIApplication)
    (p : GetIdpNodesParam) (idp : String) (e : IdpNodesInfoEntry)
    (h : (getIdpNodesInfoDirectoryBody c app p idp).appended = some e) : e.NodeID = idp := by
  have happ : getIdpNodesInfoDirectoryBody c app p idp = .append e := by
    cases hbody : getIdpNodesInfoDirectoryBody c app p idp <;>
      simp [hbody, LoopStep.appended] at h
    rw [h]
  obtain ⟨nd, _, _, hbody⟩ :=
    getIdpNodesInfoDirectoryBody_cases c app p idp (by rw [happ]; simp)
  rw [hbody] at happ
  exact proxyOutcome_append_id c app nd (infoNodeEntry idp nd) (infoBehindProxyEntry idp nd)
    e idp rfl (fun _ => rfl) happ

theorem getIdpNodesInfoGroupBody_id (c : Codec) (app : ABCIApplication)
    (p : GetIdpNodesParam) (idp : IdPInRefGroup) (e : IdpNodesInfoEntry)
    (h : (getIdpNodesInfoGroupBody c app p idp).appended = some e) : e.NodeID = idp.NodeId := by
  have happ : getIdpNodesInfoGroupBody c app p idp = .append e := by
    cases hbody : getIdpNodesInfoGroupBody c app p idp <;>
      simp [hbody, LoopStep.appended] at h
    rw [h]
  obtain ⟨nd, _, _, _, hbody⟩ :=
    getIdpNodesInfoGroupBody_cases c app p idp (by rw [happ]; simp)
  rw [hbody] at happ
  exact proxyOutcome_append_id c app nd (infoModeListEntry idp nd)
    (infoBehindProxyModeListEntry idp nd) e idp.NodeId rfl (fun _ => rfl) happ

theorem getIdpNodesInfoDirectoryBody_allowList (c : Codec) (app : ABCIApplication)
    (p : GetIdpNodesParam) (L : List String) (hL : L ≠ []) (idp : String) :
    getIdpNodesInfoDirectoryBody c app { p with NodeIDList := L } idp =
      if idp ∈ L then getIdpNodesInfoDirectoryBody c app { p with NodeIDList := [] } idp
      else .skip := by
  rw [getIdpNodesInfoDirectoryBody_eq, getIdpNodesInfoDirectoryBody_eq]
  cases hget : app.state.Get (nodeIDKeyPrefix ++ keySeparator ++ idp) true with
  | none => simp
  | some v =>
    cases hdec : c.unmarshalNodeDetail v with
    | error err => simp [hdec]
    | ok nd =>
      simp only [hdec, passesNode_allowList p L idp nd hL]
      by_cases hmem : idp ∈ L
      · simp [hmem]
      · simp [hmem]

theorem getIdpNodesInfoGroupBody_allowList (c : Codec) (app : ABCIApplication)
    (p : GetIdpNodesParam) (L : List String) (hL : L ≠ []) (idp : IdPInRefGroup) :
    getIdpNodesInfoGroupBody c app { p with NodeIDList := L } idp =
      if idp.NodeId ∈ L then
        getIdpNodesInfoGroupBody c app { p with NodeIDList := [] } idp
      else .skip := by
  rw [getIdpNodesInfoGroupBody_eq, getIdpNodesInfoGroupBody_eq]
  have hassoc : passesAssoc { p with NodeIDList := L } idp ↔
      passesAssoc { p with NodeIDList := [] } idp := Iff.rfl
  cases hget : app.state.Get (nodeIDKeyPrefix ++ keySeparator ++ idp.NodeId) true with
  | none => simp
  | some v =>
    cases hdec : c.unmarshalNodeDetail v with
    | error err => simp [hdec]
    | ok nd =>
      simp only [hdec, passesNode_allowList p L idp.NodeId nd hL, hassoc]
      by_cases hmem : idp.NodeId ∈ L
      · simp [hmem]
      · simp [hmem]

theorem appended_allowList {ι : Type} (L : List String) (id : ι → String)
    (body0 bodyL : ι → LoopStep (ResponseQuery GetIdpNodesInfoResult) IdpNodesInfoEntry)
    (hid : ∀ i e, (body0 i).appended = some e → e.NodeID = id i)
    (hL : ∀ i, bodyL i = if id i ∈ L then body0 i else .skip) (l : List ι) :
    l.filterMap (fun i => (bodyL i).appended) =
      (l.filterMap (fun i => (body0 i).appended)).filter (fun e => decide (e.NodeID ∈ L)) := by
  rw [List.filter_filterMap]
  congr 1
  funext i
  rw [hL i]
  by_cases hmem : id i ∈ L
  · rw [if_pos hmem]
    cases happ : (body0 i).appended with
    | none => rfl
    | some e =>
      have := hid i e happ
      simp [Option.filter, this, hmem]
  · rw [if_neg hmem]
    cases happ : (body0 i).appended with
    | none => rfl
    | some e =>
      have := hid i e happ
      simp [Option.filter, this, hmem, LoopStep.appended]

/-! ## The status chosen at the end of a handler -/

theorem getIdpNodesFinish_nil (app : ABCIApplication) :
    getIdpNodesFinish app { Node := [] } =
      { Value := some (.json { Node := [] }), Log := "not found",
        Height := app.state.Height } := by
  simp [getIdpNodesFinish, ABCIApplication.ReturnQuery]

theorem getIdpNodesFinish_of_mem (app : ABCIApplication) (n : GetIdpNodesResult)
    (e : IdpNodesEntry) (he : e ∈ n.Node) :
    getIdpNodesFinish app n =
      { Value := some (.json n), Log := "success", Height := app.state.Height } := by
  have hlen : n.Node.length ≠ 0 := by
    intro h
    rw [List.length_eq_zero] at h
    rw [h] at he
    cases he
  simp [getIdpNodesFinish, ABCIApplication.ReturnQuery, hlen]

theorem filterMap_eq_nil_of_forall_none {α β : Type} (f : α → Option β) (l : List α)
    (h : ∀ a ∈ l, f a = none) : l.filterMap f = [] := by
  induction l with
  | nil => rfl
  | cons a rest ih =>
    rw [List.filterMap_cons, h a (List.mem_cons_self _ _)]
    exact ih (fun b hb => h b (List.mem_cons_of_mem _ hb))

/-! ## The small ledger is well formed -/

theorem demoLedger_node_records_decode (id v : String)
    (h : demoApp.state.Get (nodeIDKeyPrefix ++ keySeparator ++ id) true = some v) :
    ∃ nd, demoCodec.unmarshalNodeDetail v = .ok nd := by
  simp only [demoApp, State.Get, demoLedger, if_true] at h
  have hk : ∀ s : String, nodeIDKeyPrefix ++ keySeparator ++ id = s →
      (nodeIDKeyPrefix ++ keySeparator).data <+: s.data := by
    intro s hs
    rw [← hs, String.data_append]
    exact List.prefix_append _ _
  split_ifs at h with h1 h2 h3 h4 h5 h6 h7 h8
  · exact absurd (hk _ h1) (by decide)
  · cases h; exact ⟨_, rfl⟩
  · cases h; exact ⟨_, rfl⟩
  · cases h; exact ⟨_, rfl⟩
  · cases h; exact ⟨_, rfl⟩
  · cases h; exact ⟨_, rfl⟩
  · exact absurd (hk _ h7) (by decide)
  · exact absurd (hk _ h8) (by decide)

/-! ## Address lists -/

theorem appendEach_none {α β : Type} (f : α → β) (xs : List α) :
    appendEach f xs none = if xs.isEmpty then none else some (xs.map f) := by
  have h : ∀ (ys : List α) (acc : List β),
      appendEach f ys (some acc) = some (acc ++ ys.map f) := by
    intro ys
    induction ys with
    | nil => intro acc; simp [appendEach]
    | cons y rest ih =>
      intro acc
      have := ih (acc ++ [f y])
      simp only [appendEach, List.foldl_cons, Option.getD_some] at this ⊢
      rw [this]
      simp
  cases xs with
  | nil => simp [appendEach]
  | cons x rest =>
    have := h rest [f x]
    simp only [appendEach, List.foldl_cons, Option.getD_none, List.nil_append] at this ⊢
    rw [this]
    simp

/-! ## The claims -/

/-- C1: for every ledger state and every decodable parameter, every candidate
returned by IdP discovery, by `getIdpNodes` as by `getIdpNodesInfo` and in
the directory branch as in the identity-scoped branch, has a stored
`NodeDetail` record that decodes, is active, and whose `MaxIal` and `MaxAal`
are at least the requested `MinIal` and `MinAal`. -/
theorem discovery_candidates_active_and_meet_levels (c : Codec) (app : ABCIApplication)
    (param : String) (p : GetIdpNodesParam)
    (hp : c.unmarshalGetIdpNodesParam param = .ok p) :
    (∀ r, (getIdpNodes c app param).Value = some (.json r) → ∀ e ∈ r.Node,
      ∃ v nd, app.state.Get (nodeIDKeyPrefix ++ keySeparator ++ e.ID) true = some v ∧
        c.unmarshalNodeDetail v = .ok nd ∧ nd.Active = true ∧
        nd.MaxIal ≥ p.MinIal ∧ nd.MaxAal ≥ p.MinAal) ∧
    (∀ r, (getIdpNodesInfo c app param).Value = some (.json r) → ∀ e ∈ r.Node,
      ∃ v nd, app.state.Get (nodeIDKeyPrefix ++ keySeparator ++ e.NodeID) true = some v ∧
        c.unmarshalNodeDetail v = .ok nd ∧ nd.Active = true ∧
        nd.MaxIal ≥ p.MinIal ∧ nd.MaxAal ≥ p.MinAal) := by
  constructor
  · intro r hr e he
    obtain ⟨nd, ⟨v, hget, hdec⟩, hpass, _⟩ := getIdpNodes_entry c app param p r e hp hr he
    exact ⟨v, nd, hget, hdec, hpass.1, hpass.2.1, hpass.2.2.1⟩
  · intro r hr e he
    obtain ⟨nd, ⟨v, hget, hdec⟩, hpass, _⟩ := getIdpNodesInfo_entry c app param p r e hp hr he
    exact ⟨v, nd, hget, hdec, hpass.1, hpass.2.1, hpass.2.2.1⟩

theorem discovery_candidates_active_and_meet_levels_witness :
    demoCodec.unmarshalGetIdpNodesParam "all" = .ok (demoParam 1) ∧
    ((∀ r, (getIdpNodes demoCodec demoApp "all").Value = some (.json r) → ∀ e ∈ r.Node,
      ∃ v nd, demoApp.state.Get (nodeIDKeyPrefix ++ keySeparator ++ e.ID) true = some v ∧
        demoCodec.unmarshalNodeDetail v = .ok nd ∧ nd.Active = true ∧
        nd.MaxIal ≥ (demoParam 1).MinIal ∧ nd.MaxAal ≥ (demoParam 1).MinAal) ∧
    (∀ r, (getIdpNodesInfo demoCodec demoApp "all").Value = some (.json r) → ∀ e ∈ r.Node,
      ∃ v nd, demoApp.state.Get (nodeIDKeyPrefix ++ keySeparator ++ e.NodeID) true = some v ∧
        demoCodec.unmarshalNodeDetail v = .ok nd ∧ nd.Active = true ∧
        nd.MaxIal ≥ (demoParam 1).MinIal ∧ nd.MaxAal ≥ (demoParam 1).MinAal)) :=
  ⟨rfl, discovery_candidates_active_and_meet_levels demoCodec demoApp "all" (demoParam 1) rfl⟩

/-- When the stored list of a node has no repeated element, the count test of
lines 225-233 does say that every requested type is supported. -/
theorem supportedCount_superset_of_nodup (nodeTypes requested : List String)
    (hnd : nodeTypes.Nodup) (h : requested.length ≤ supportedCount nodeTypes requested) :
    ∀ t ∈ requested, t ∈ nodeTypes := by
  rw [supportedCount_eq, List.countP_eq_length_filter] at h
  have hsub : nodeTypes.filter (fun t => contains t requested) ⊆ requested := by
    intro t ht
    have := (List.mem_filter.1 ht).2
    exact (contains_iff t requested).1 this
  have hperm := (List.subperm_of_subset (hnd.filter _) hsub).perm_of_length_le h
  intro t ht
  exact (List.mem_filter.1 (hperm.mem_iff.2 ht)).1

/-- C2: the type filter of `getIdpNodes` counts the stored types that occur in
the request and keeps the node when the count reaches the length of the
request. On the small ledger the request for the types `A` and `B` returns
`idp3`, whose stored list is `[A, A]`: the count is 2, yet `B` is not among the
stored types. -/
theorem supported_type_count_passes_repeated_type :
    demoCodec.unmarshalGetIdpNodesParam "types A B" =
      .ok { demoParam 1 with SupportedRequestMessageDataUrlTypeList := ["A", "B"] } ∧
    demoApp.state.Get (nodeIDKeyPrefix ++ keySeparator ++ "idp3") true = some "bytes-idp3" ∧
    demoCodec.unmarshalNodeDetail "bytes-idp3" = .ok demoIdp3 ∧
    demoIdp3.SupportedRequestMessageDataUrlTypeList = ["A", "A"] ∧
    "B" ∉ demoIdp3.SupportedRequestMessageDataUrlTypeList ∧
    getIdpNodes demoCodec demoApp "types A B" =
      { Value := some (.json { Node := [.plain
          { ID := "idp3", Name := "IdP 3", MaxIal := 3, MaxAal := 3,
            SupportedRequestMessageDataUrlTypeList := ["A", "A"] }] }),
        Log := "success", Height := 7 } := by
  refine ⟨rfl, by decide, rfl, rfl, by decide, by decide⟩

/-- C3: an IdP whose stored supported-type list is exactly `[A]` is never
returned by `getIdpNodes` when the requested list is `[A, B]`. The count of
lines 225-230 is at most 1 and the request has length 2; that `A` and `B`
differ is not needed. -/
theorem single_type_node_excluded_by_two_type_request (c : Codec) (app : ABCIApplication)
    (param : String) (p : GetIdpNodesParam) (A B id v : String) (nd : NodeDetail)
    (hp : c.unmarshalGetIdpNodesParam param = .ok p)
    (hreq : p.SupportedRequestMessageDataUrlTypeList = [A, B])
    (hget : app.state.Get (nodeIDKeyPrefix ++ keySeparator ++ id) true = some v)
    (hdec : c.unmarshalNodeDetail v = .ok nd)
    (hsup : nd.SupportedRequestMessageDataUrlTypeList = [A]) :
    ∀ r, (getIdpNodes c app param).Value = some (.json r) → ∀ e ∈ r.Node, e.ID ≠ id := by
  intro r hr e he hid
  obtain ⟨nd0, ⟨v0, hget0, hdec0⟩, hpass, _⟩ := getIdpNodes_entry c app param p r e hp hr he
  rw [hid, hget] at hget0
  cases hget0
  rw [hdec] at hdec0
  cases hdec0
  have hcount := hpass.2.2.2.2 (by rw [hreq]; simp)
  rw [hreq, hsup, supportedCount_eq] at hcount
  have hle := List.countP_le_length (fun t => contains t [A, B]) (l := [A])
  simp only [List.length_cons, List.length_nil] at hcount hle
  omega

theorem single_type_node_excluded_by_two_type_request_witness :
    demoCodec.unmarshalGetIdpNodesParam "types A B" =
      .ok { demoParam 1 with SupportedRequestMessageDataUrlTypeList := ["A", "B"] } ∧
    demoApp.state.Get (nodeIDKeyPrefix ++ keySeparator ++ "idp1") true = some "bytes-idp1" ∧
    demoCodec.unmarshalNodeDetail "bytes-idp1" = .ok demoIdp1 ∧
    demoIdp1.SupportedRequestMessageDataUrlTypeList = ["A"] ∧
    ∀ r, (getIdpNodes demoCodec demoApp "types A B").Value = some (.json r) →
      ∀ e ∈ r.Node, e.ID ≠ "idp1" :=
  ⟨rfl, by decide, rfl, rfl,
    single_type_node_excluded_by_two_type_request demoCodec demoApp "types A B"
      { demoParam 1 with SupportedRequestMessageDataUrlTypeList := ["A", "B"] }
      "A" "B" "idp1" "bytes-idp1" demoIdp1 rfl rfl (by decide) rfl rfl⟩

/-- C4: the scenario of a reference group whose only association is
`idp1`, active, IAL 2.3, modes `[2, 3]`, and an active node `idp1` whose
`MaxIal` and `MaxAal` meet the request. The identity-scoped `getIdpNodes` with
`MinIal = 2.0`, no allow list and no type list returns, for the mode list `[2]`,
exactly the one candidate `idp1` with status `success`, and, for the mode list
`[2, 4]`, an empty node list with status `not found`. -/
theorem scenario_single_association_mode_list (c : Codec) (app : ABCIApplication)
    (param param24 code : String) (p : GetIdpNodesParam) (g : ReferenceGroup)
    (assoc : IdPInRefGroup) (nd : NodeDetail)
    (hp : c.unmarshalGetIdpNodesParam param = .ok p)
    (hp24 : c.unmarshalGetIdpNodesParam param24 = .ok { p with ModeList := [2, 4] })
    (hmode : p.ModeList = [2]) (hial : p.MinIal = 2.0) (hallow : p.NodeIDList = [])
    (htypes : p.SupportedRequestMessageDataUrlTypeList = [])
    (hs : identityScoped p) (hres : resolvesTo app p code)
    (hg : groupRecord c app code g) (hidps : g.Idps = [assoc])
    (hid : assoc.NodeId = "idp1") (hact : assoc.Active = true) (hassial : assoc.Ial = 2.3)
    (hassmode : assoc.Mode = [2, 3])
    (hnode : nodeRecord c app "idp1" nd) (hnact : nd.Active = true)
    (hmaxial : nd.MaxIal ≥ p.MinIal) (hmaxaal : nd.MaxAal ≥ p.MinAal) :
    getIdpNodes c app param =
      { Value := some (.json { Node := [.withModeList
          { ID := "idp1", Name := nd.NodeName, MaxIal := nd.MaxIal, MaxAal := nd.MaxAal,
            Ial := 2.3, ModeList := [2, 3],
            SupportedRequestMessageDataUrlTypeList :=
              nd.SupportedRequestMessageDataUrlTypeList }] }),
        Log := "success", Height := app.state.Height } ∧
    getIdpNodes c app param24 =
      { Value := some (.json { Node := [] }), Log := "not found",
        Height := app.state.Height } := by
  have hnode0 : nodeRecord c app assoc.NodeId nd := by rw [hid]; exact hnode
  constructor
  · rw [getIdpNodes_group c app param p code g hp hs hres hg, hidps]
    have hbody : getIdpNodesGroupBody c app p assoc = some (modeListEntry assoc nd) := by
      rw [getIdpNodesGroupBody_eq_some]
      refine ⟨nd, hnode0, ⟨hnact, hmaxial, hmaxaal, fun h => absurd hallow h,
        fun h => absurd htypes h⟩, ⟨hact, ?_, fun _ => ?_⟩, rfl⟩
      · rw [hial, hassial]; norm_num
      · rw [hmode, hassmode]; decide
    simp only [List.filterMap_cons, hbody, List.filterMap_nil]
    simp [getIdpNodesFinish, ABCIApplication.ReturnQuery, modeListEntry, hid, hassial,
      hassmode]
  · have hs24 : identityScoped { p with ModeList := [2, 4] } := hs
    have hres24 : resolvesTo app { p with ModeList := [2, 4] } code := hres
    rw [getIdpNodes_group c app param24 _ code g hp24 hs24 hres24 hg, hidps]
    have hbody : getIdpNodesGroupBody c app { p with ModeList := [2, 4] } assoc = none := by
      cases hb : getIdpNodesGroupBody c app { p with ModeList := [2, 4] } assoc with
      | none => rfl
      | some e =>
        obtain ⟨_, _, _, hassoc, _⟩ := (getIdpNodesGroupBody_eq_some c app _ assoc e).1 hb
        have hcount : [2, 4].length ≤ supportedModeCount assoc.Mode [2, 4] :=
          hassoc.2.2 (by simp)
        rw [hassmode] at hcount
        exact absurd hcount (by decide)
    simp only [List.filterMap_cons, hbody, List.filterMap_nil]
    simp [getIdpNodesFinish, ABCIApplication.ReturnQuery]

theorem scenario_single_association_mode_list_witness :
    getIdpNodes demoCodec demoApp "group g1, mode 2" =
      { Value := some (.json { Node := [.withModeList
          { ID := "idp1", Name := demoIdp1.NodeName, MaxIal := demoIdp1.MaxIal,
            MaxAal := demoIdp1.MaxAal, Ial := 2.3, ModeList := [2, 3],
            SupportedRequestMessageDataUrlTypeList :=
              demoIdp1.SupportedRequestMessageDataUrlTypeList }] }),
        Log := "success", Height := demoApp.state.Height } ∧
    getIdpNodes demoCodec demoApp "group g1, modes 2 4" =
      { Value := some (.json { Node := [] }), Log := "not found",
        Height := demoApp.state.Height } :=
  scenario_single_association_mode_list demoCodec demoApp "group g1, mode 2"
    "group g1, modes 2 4" "g1" { demoParam 2 with ReferenceGroupCode := "g1", ModeList := [2] }
    demoGroup demoAssociation demoIdp1 rfl rfl rfl (by norm_num [demoParam]) rfl rfl
    (by unfold identityScoped; decide) (Or.inl ⟨by decide, rfl⟩)
    ⟨"bytes-g1", by decide, rfl⟩ rfl rfl rfl rfl rfl ⟨"bytes-idp1", by decide, rfl⟩ rfl
    (by norm_num [demoParam, demoIdp1]) (by norm_num [demoParam, demoIdp1])

/-- C5: for every identity-scoped IdP-discovery query, by `getIdpNodes` as by
`getIdpNodesInfo`, every returned candidate is the node of an association of
the reference group the query resolves to, and that association is active and
has an IAL of at least the requested `MinIal`. -/
theorem scoped_candidates_have_active_association (c : Codec) (app : ABCIApplication)
    (param : String) (p : GetIdpNodesParam)
    (hp : c.unmarshalGetIdpNodesParam param = .ok p) (hs : identityScoped p) :
    (∀ r, (getIdpNodes c app param).Value = some (.json r) → ∀ e ∈ r.Node,
      ∃ code g idp, resolvesTo app p code ∧ groupRecord c app code g ∧ idp ∈ g.Idps ∧
        idp.NodeId = e.ID ∧ idp.Active = true ∧ idp.Ial ≥ p.MinIal) ∧
    (∀ r, (getIdpNodesInfo c app param).Value = some (.json r) → ∀ e ∈ r.Node,
      ∃ code g idp, resolvesTo app p code ∧ groupRecord c app code g ∧ idp ∈ g.Idps ∧
        idp.NodeId = e.NodeID ∧ idp.Active = true ∧ idp.Ial ≥ p.MinIal) := by
  constructor
  · intro r hr e he
    obtain ⟨nd, _, _, ⟨hns, _⟩ | ⟨_, code, g, idp, hres, hg, hmem, hid, hassoc, _⟩⟩ :=
      getIdpNodes_entry c app param p r e hp hr he
    · exact absurd hs hns
    · exact ⟨code, g, idp, hres, hg, hmem, hid, hassoc.1, hassoc.2.1⟩
  · intro r hr e he
    obtain ⟨nd, _, _, hscoped⟩ := getIdpNodesInfo_entry c app param p r e hp hr he
    obtain ⟨code, g, idp, hres, hg, hmem, hid, hassoc⟩ := hscoped hs
    exact ⟨code, g, idp, hres, hg, hmem, hid, hassoc.1, hassoc.2.1⟩

theorem scoped_candidates_have_active_association_witness :
    demoCodec.unmarshalGetIdpNodesParam "group g1, mode 2" =
      .ok { demoParam 2 with ReferenceGroupCode := "g1", ModeList := [2] } ∧
    identityScoped { demoParam 2 with ReferenceGroupCode := "g1", ModeList := [2] } ∧
    ((∀ r, (getIdpNodes demoCodec demoApp "group g1, mode 2").Value = some (.json r) →
      ∀ e ∈ r.Node, ∃ code g idp,
        resolvesTo demoApp { demoParam 2 with ReferenceGroupCode := "g1", ModeList := [2] } code ∧
        groupRecord demoCodec demoApp code g ∧ idp ∈ g.Idps ∧
        idp.NodeId = e.ID ∧ idp.Active = true ∧ idp.Ial ≥ (2 : ℚ)) ∧
    (∀ r, (getIdpNodesInfo demoCodec demoApp "group g1, mode 2").Value = some (.json r) →
      ∀ e ∈ r.Node, ∃ code g idp,
        resolvesTo demoApp { demoParam 2 with ReferenceGroupCode := "g1", ModeList := [2] } code ∧
        groupRecord demoCodec demoApp code g ∧ idp ∈ g.Idps ∧
        idp.NodeId = e.NodeID ∧ idp.Active = true ∧ idp.Ial ≥ (2 : ℚ))) :=
  ⟨rfl, by unfold identityScoped; decide,
    scoped_candidates_have_active_association demoCodec demoApp "group g1, mode 2"
      { demoParam 2 with ReferenceGroupCode := "g1", ModeList := [2] } rfl
      (by unfold identityScoped; decide)⟩

/-- C6: for every IdP-discovery query with a non-empty node-ID allow list,
every candidate returned by `getIdpNodes` or by `getIdpNodesInfo` has its node
ID in the allow list; and the allow list does nothing else: the node list a
handler returns for a non-empty allow list `L` is the node list it returns for
the empty allow list, other parameters equal, restricted to the candidates
whose ID is in `L`, so that the empty allow list excludes no candidate. -/
theorem allow_list_restricts_candidates (c : Codec) (app : ABCIApplication)
    (param : String) (p : GetIdpNodesParam)
    (hp : c.unmarshalGetIdpNodesParam param = .ok p) (hne : p.NodeIDList ≠ []) :
    (∀ r, (getIdpNodes c app param).Value = some (.json r) → ∀ e ∈ r.Node,
      e.ID ∈ p.NodeIDList) ∧
    (∀ r, (getIdpNodesInfo c app param).Value = some (.json r) → ∀ e ∈ r.Node,
      e.NodeID ∈ p.NodeIDList) ∧
    (∀ param0 r r0, c.unmarshalGetIdpNodesParam param0 = .ok { p with NodeIDList := [] } →
      (getIdpNodes c app param).Value = some (.json r) →
      (getIdpNodes c app param0).Value = some (.json r0) →
      r.Node = r0.Node.filter (fun e => decide (e.ID ∈ p.NodeIDList))) ∧
    (∀ param0 r r0, c.unmarshalGetIdpNodesParam param0 = .ok { p with NodeIDList := [] } →
      (getIdpNodesInfo c app param).Value = some (.json r) →
      (getIdpNodesInfo c app param0).Value = some (.json r0) →
      r.Node = r0.Node.filter (fun e => decide (e.NodeID ∈ p.NodeIDList))) := by
  refine ⟨?_, ?_, ?_, ?_⟩
  · intro r hr e he
    obtain ⟨nd, _, hpass, _⟩ := getIdpNodes_entry c app param p r e hp hr he
    exact hpass.2.2.2.1 hne
  · intro r hr e he
    obtain ⟨nd, _, hpass, _⟩ := getIdpNodesInfo_entry c app param p r e hp hr he
    exact hpass.2.2.2.1 hne
  · intro param0 r r0 hp0 hr hr0
    rcases getIdpNodes_json c app param p r hp hr with
      ⟨hs, ids, hd, hn⟩ | ⟨hs, code, g, hres, hg, hn⟩
    · rcases getIdpNodes_json c app param0 _ r0 hp0 hr0 with
        ⟨_, ids0, hd0, hn0⟩ | ⟨hs0, _⟩
      · rw [hn, hn0, ← idpDirectory_unique c app ids ids0 hd hd0, List.filter_filterMap]
        congr 1
        funext idp
        rw [← getIdpNodesDirectoryBody_allowList c app p p.NodeIDList hne idp]
      · exact absurd hs0 hs
    · rcases getIdpNodes_json c app param0 _ r0 hp0 hr0 with
        ⟨hs0, _⟩ | ⟨_, code0, g0, hres0, hg0, hn0⟩
      · exact absurd hs hs0
      · have hcode : code = code0 := resolvesTo_unique app p code code0 hres hres0
        subst hcode
        rw [hn, hn0, ← groupRecord_unique c app code g g0 hg hg0, List.filter_filterMap]
        congr 1
        funext idp
        rw [← getIdpNodesGroupBody_allowList c app p p.NodeIDList hne idp]
  · intro param0 r r0 hp0 hr hr0
    rcases getIdpNodesInfo_json c app param p r hp hr with
      ⟨hs, ids, hd, hn⟩ | ⟨hs, code, g, hres, hg, hn⟩
    · rcases getIdpNodesInfo_json c app param0 _ r0 hp0 hr0 with
        ⟨_, ids0, hd0, hn0⟩ | ⟨hs0, _⟩
      · rw [forRange_ok _ _ _ _ hn, forRange_ok _ _ _ _ hn0,
          ← idpDirectory_unique c app ids ids0 hd hd0, List.nil_append, List.nil_append]
        exact appended_allowList p.NodeIDList (fun i => i) _ _
          (getIdpNodesInfoDirectoryBody_id c app _)
          (getIdpNodesInfoDirectoryBody_allowList c app p p.NodeIDList hne) ids
      · exact absurd hs0 hs
    · rcases getIdpNodesInfo_json c app param0 _ r0 hp0 hr0 with
        ⟨hs0, _⟩ | ⟨_, code0, g0, hres0, hg0, hn0⟩
      · exact absurd hs hs0
      · have hcode : code = code0 := resolvesTo_unique app p code code0 hres hres0
        subst hcode
        rw [forRange_ok _ _ _ _ hn, forRange_ok _ _ _ _ hn0,
          ← groupRecord_unique c app code g g0 hg hg0, List.nil_append, List.nil_append]
        exact appended_allowList p.NodeIDList (fun i => i.NodeId) _ _
          (getIdpNodesInfoGroupBody_id c app _)
          (getIdpNodesInfoGroupBody_allowList c app p p.NodeIDList hne) g.Idps

theorem allow_list_restricts_candidates_witness :
    demoCodec.unmarshalGetIdpNodesParam "only idp1" =
      .ok { demoParam 1 with NodeIDList := ["idp1"] } ∧
    ((∀ r, (getIdpNodes demoCodec demoApp "only idp1").Value = some (.json r) →
      ∀ e ∈ r.Node, e.ID ∈ ["idp1"]) ∧
    (∀ r, (getIdpNodesInfo demoCodec demoApp "only idp1").Value = some (.json r) →
      ∀ e ∈ r.Node, e.NodeID ∈ ["idp1"]) ∧
    (∀ param0 r r0,
      demoCodec.unmarshalGetIdpNodesParam param0 = .ok (demoParam 1) →
      (getIdpNodes demoCodec demoApp "only idp1").Value = some (.json r) →
      (getIdpNodes demoCodec demoApp param0).Value = some (.json r0) →
      r.Node = r0.Node.filter (fun e => decide (e.ID ∈ ["idp1"]))) ∧
    (∀ param0 r r0,
      demoCodec.unmarshalGetIdpNodesParam param0 = .ok (demoParam 1) →
      (getIdpNodesInfo demoCodec demoApp "only idp1").Value = some (.json r) →
      (getIdpNodesInfo demoCodec demoApp param0).Value = some (.json r0) →
      r.Node = r0.Node.filter (fun e => decide (e.NodeID ∈ ["idp1"])))) :=
  ⟨rfl, allow_list_restricts_candidates demoCodec demoApp "only idp1"
    { demoParam 1 with NodeIDList := ["idp1"] } rfl (by decide)⟩

/-- C7: on the small ledger the identity-scoped `getIdpNodes` query for the
reference group code `g0`, which has no group record, decodes and yields no
candidates; its status is `not found`, but the `return` of line 259 gives it
an absent (nil) body, not the result with an empty node list that the end of
the handler encodes. -/
theorem getIdpNodes_unresolved_group_nil_body :
    demoCodec.unmarshalGetIdpNodesParam "group g0" =
      .ok { demoParam 1 with ReferenceGroupCode := "g0" } ∧
    (getIdpNodes demoCodec demoApp "group g0").Log = "not found" ∧
    (getIdpNodes demoCodec demoApp "group g0").Value = none ∧
    (getIdpNodes demoCodec demoApp "group g0").Value ≠ some (.json { Node := [] }) := by
  refine ⟨rfl, by decide, by decide, by decide⟩

/-- What `getIdpNodes` answers when it keeps no candidate: for every query
whose parameters decode, the status is `not found`. When the candidate loop
ran and every iteration continued (the directory branch with an absent or
decodable directory, or an identity filter that resolves to a decodable
group), the body is the result with an empty node list. When the identity
filter resolves to no reference group (no reverse-index entry, or no group
record under the code), the body is absent (nil). -/
theorem getIdpNodes_no_candidates_not_found (c : Codec) (app : ABCIApplication)
    (param : String) (p : GetIdpNodesParam)
    (hp : c.unmarshalGetIdpNodesParam param = .ok p) :
    (∀ ids, ¬ identityScoped p → idpDirectory c app ids →
      (∀ idp ∈ ids, getIdpNodesDirectoryBody c app p idp = none) →
      getIdpNodes c app param =
        { Value := some (.json { Node := [] }), Log := "not found",
          Height := app.state.Height }) ∧
    (∀ code g, identityScoped p → resolvesTo app p code → groupRecord c app code g →
      (∀ idp ∈ g.Idps, getIdpNodesGroupBody c app p idp = none) →
      getIdpNodes c app param =
        { Value := some (.json { Node := [] }), Log := "not found",
          Height := app.state.Height }) ∧
    (identityScoped p →
      (∀ code, resolvesTo app p code →
        app.state.Get (refGroupCodeKeyPrefix ++ keySeparator ++ code) true = none) →
      getIdpNodes c app param =
        { Value := none, Log := "not found", Height := app.state.Height }) := by
  refine ⟨?_, ?_, ?_⟩
  · intro ids hs hd hnone
    rw [getIdpNodes_directory c app param p ids hp hs hd,
      filterMap_eq_nil_of_forall_none _ _ hnone, getIdpNodesFinish_nil]
  · intro code g hs hres hg hnone
    rw [getIdpNodes_group c app param p code g hp hs hres hg,
      filterMap_eq_nil_of_forall_none _ _ hnone, getIdpNodesFinish_nil]
  · intro hs hno
    exact getIdpNodes_unresolved c app param p hp hs hno

theorem getIdpNodes_no_candidates_not_found_witness :
    demoCodec.unmarshalGetIdpNodesParam "group g1, modes 2 4" =
      .ok { demoParam 2 with ReferenceGroupCode := "g1", ModeList := [2, 4] } ∧
    getIdpNodes demoCodec demoApp "group g1, modes 2 4" =
      { Value := some (.json { Node := [] }), Log := "not found",
        Height := demoApp.state.Height } :=
  ⟨rfl, (getIdpNodes_no_candidates_not_found demoCodec demoApp "group g1, modes 2 4"
      { demoParam 2 with ReferenceGroupCode := "g1", ModeList := [2, 4] } rfl).2.1
    "g1" demoGroup (by unfold identityScoped; decide) (Or.inl ⟨by decide, rfl⟩)
    ⟨"bytes-g1", by decide, rfl⟩ (by
      intro idp hidp
      have hidp0 : idp = demoAssociation := by simpa [demoGroup] using hidp
      subst hidp0
      cases hb : getIdpNodesGroupBody demoCodec demoApp
          { demoParam 2 with ReferenceGroupCode := "g1", ModeList := [2, 4] }
          demoAssociation with
      | none => rfl
      | some e =>
        obtain ⟨_, _, _, hassoc, _⟩ :=
          (getIdpNodesGroupBody_eq_some demoCodec demoApp _ demoAssociation e).1 hb
        have hcount : [2, 4].length ≤ supportedModeCount demoAssociation.Mode [2, 4] :=
          hassoc.2.2 (by simp)
        exact absurd hcount (by decide))⟩

/-- C8: in `getIdpNodesInfo`, on a ledger whose stored node records decode, if
some candidate that passes all filters has a non-empty `ProxyNodeId` whose
`NodeDetail` record is absent, the whole query returns the status `not found`
with the body `{}`, so with no candidates at all, whatever the candidates
before it contributed. This holds in the directory branch and in the
identity-scoped branch. -/
theorem getIdpNodesInfo_missing_proxy_aborts (c : Codec) (app : ABCIApplication)
    (param : String) (p : GetIdpNodesParam)
    (hp : c.unmarshalGetIdpNodesParam param = .ok p)
    (hwf : ∀ id v, app.state.Get (nodeIDKeyPrefix ++ keySeparator ++ id) true = some v →
      ∃ nd, c.unmarshalNodeDetail v = .ok nd) :
    (∀ ids idp nd, ¬ identityScoped p → idpDirectory c app ids → idp ∈ ids →
      nodeRecord c app idp nd → passesNode p idp nd → nd.ProxyNodeId ≠ "" →
      app.state.Get (nodeIDKeyPrefix ++ keySeparator ++ nd.ProxyNodeId) true = none →
      getIdpNodesInfo c app param =
        { Value := some (.raw "{}"), Log := "not found", Height := app.state.Height }) ∧
    (∀ code g idp nd, identityScoped p → resolvesTo app p code → groupRecord c app code g →
      idp ∈ g.Idps → nodeRecord c app idp.NodeId nd → passesNode p idp.NodeId nd →
      passesAssoc p idp → nd.ProxyNodeId ≠ "" →
      app.state.Get (nodeIDKeyPrefix ++ keySeparator ++ nd.ProxyNodeId) true = none →
      getIdpNodesInfo c app param =
        { Value := some (.raw "{}"), Log := "not found", Height := app.state.Height }) := by
  have hret : ∀ (nd : NodeDetail) (own : IdpNodesInfoEntry)
      (proxied : NodeDetail → IdpNodesInfoEntry) (r0 : ResponseQuery GetIdpNodesInfoResult),
      proxyOutcome c app nd own proxied = .ret r0 → r0 = proxyMissingResponse app := by
    intro nd own proxied r0 h0
    obtain ⟨_, ⟨_, h1⟩ | ⟨v, err, hget, hdec, _⟩⟩ := proxyOutcome_ret c app nd own proxied r0 h0
    · exact h1
    · obtain ⟨nd0, hdec0⟩ := hwf _ v hget
      rw [hdec] at hdec0
      cases hdec0
  constructor
  · intro ids idp nd hs hd hmem hrec hpass hpx hget
    rw [getIdpNodesInfo_directory c app param p ids hp hs hd]
    rw [forRange_ret (getIdpNodesInfoDirectoryBody c app p) ids [] (proxyMissingResponse app)
      (fun i _ r0 h0 => by
        obtain ⟨nd0, _, _, hbody⟩ :=
          getIdpNodesInfoDirectoryBody_cases c app p i (by rw [h0]; simp)
        rw [hbody] at h0
        exact hret nd0 _ _ r0 h0)
      ⟨idp, hmem, by
        rw [getIdpNodesInfoDirectoryBody_passes c app p idp nd hrec hpass]
        exact proxyOutcome_missing c app nd _ _ hpx hget⟩]
    rfl
  · intro code g idp nd hs hres hg hmem hrec hpass hassoc hpx hget
    rw [getIdpNodesInfo_group c app param p code g hp hs hres hg]
    rw [forRange_ret (getIdpNodesInfoGroupBody c app p) g.Idps [] (proxyMissingResponse app)
      (fun i _ r0 h0 => by
        obtain ⟨nd0, _, _, _, hbody⟩ :=
          getIdpNodesInfoGroupBody_cases c app p i (by rw [h0]; simp)
        rw [hbody] at h0
        exact hret nd0 _ _ r0 h0)
      ⟨idp, hmem, by
        rw [getIdpNodesInfoGroupBody_passes c app p idp nd hrec hpass hassoc]
        exact proxyOutcome_missing c app nd _ _ hpx hget⟩]
    rfl

theorem getIdpNodesInfo_missing_proxy_aborts_witness :
    demoCodec.unmarshalGetIdpNodesParam "all" = .ok (demoParam 1) ∧
    nodeRecord demoCodec demoApp "idp2" demoIdp2 ∧ demoIdp2.ProxyNodeId = "proxy9" ∧
    demoApp.state.Get (nodeIDKeyPrefix ++ keySeparator ++ "proxy9") true = none ∧
    getIdpNodesInfo demoCodec demoApp "all" =
      { Value := some (.raw "{}"), Log := "not found", Height := demoApp.state.Height } :=
  ⟨rfl, ⟨"bytes-idp2", by decide, rfl⟩, rfl, by decide,
    (getIdpNodesInfo_missing_proxy_aborts demoCodec demoApp "all" (demoParam 1) rfl
      demoLedger_node_records_decode).1 ["idp1", "idp2", "idp3"] "idp2" demoIdp2
      (by unfold identityScoped; decide)
      (Or.inr ⟨"bytes-directory", { NodeId := ["idp1", "idp2", "idp3"] }, by decide, rfl, rfl⟩)
      (by decide) ⟨"bytes-idp2", by decide, rfl⟩ (by unfold passesNode; decide) (by decide)
      (by decide)⟩

/-- C9 as stated fails: on the small ledger `idp2` has the non-empty
`ProxyNodeId` `proxy9`, and `proxy9` has no record; `getIdpNodes` still returns
`idp2`, and the status of the query is `success`. -/
theorem getIdpNodes_returns_node_with_missing_proxy :
    demoCodec.unmarshalGetIdpNodesParam "all" = .ok (demoParam 1) ∧
    nodeRecord demoCodec demoApp "idp2" demoIdp2 ∧ demoIdp2.ProxyNodeId = "proxy9" ∧
    demoApp.state.Get (nodeIDKeyPrefix ++ keySeparator ++ "proxy9") true = none ∧
    (getIdpNodes demoCodec demoApp "all").Log = "success" ∧
    ∃ r, (getIdpNodes demoCodec demoApp "all").Value = some (.json r) ∧
      "idp2" ∈ r.Node.map IdpNodesEntry.ID :=
  ⟨rfl, ⟨"bytes-idp2", by decide, rfl⟩, rfl, by decide, by decide,
    ⟨{ Node := [plainEntry "idp1" demoIdp1, plainEntry "idp2" demoIdp2,
        plainEntry "idp3" demoIdp3] }, by decide, by decide⟩⟩

/-- C9, amended: `getIdpNodes` does not read proxy records. A candidate that
passes the filters of its branch is returned, and the status is `success`,
whether or not its `ProxyNodeId` is empty and whether or not the proxy's
`NodeDetail` record is fetchable; a missing proxy record does not fail the
query. -/
theorem getIdpNodes_returns_passing_candidate (c : Codec) (app : ABCIApplication)
    (param : String) (p : GetIdpNodesParam)
    (hp : c.unmarshalGetIdpNodesParam param = .ok p) :
    (∀ ids idp nd, ¬ identityScoped p → idpDirectory c app ids → idp ∈ ids →
      nodeRecord c app idp nd → passesNode p idp nd →
      (getIdpNodes c app param).Log = "success" ∧
      ∃ r, (getIdpNodes c app param).Value = some (.json r) ∧
        IdpNodesEntry.plain
          { ID := idp, Name := nd.NodeName, MaxIal := nd.MaxIal, MaxAal := nd.MaxAal,
            SupportedRequestMessageDataUrlTypeList :=
              nd.SupportedRequestMessageDataUrlTypeList } ∈ r.Node) ∧
    (∀ code g idp nd, identityScoped p → resolvesTo app p code → groupRecord c app code g →
      idp ∈ g.Idps → nodeRecord c app idp.NodeId nd → passesNode p idp.NodeId nd →
      passesAssoc p idp →
      (getIdpNodes c app param).Log = "success" ∧
      ∃ r, (getIdpNodes c app param).Value = some (.json r) ∧
        IdpNodesEntry.withModeList
          { ID := idp.NodeId, Name := nd.NodeName, MaxIal := nd.MaxIal, MaxAal := nd.MaxAal,
            Ial := idp.Ial, ModeList := idp.Mode,
            SupportedRequestMessageDataUrlTypeList :=
              nd.SupportedRequestMessageDataUrlTypeList } ∈ r.Node) := by
  constructor
  · intro ids idp nd hs hd hmem hrec hpass
    have he : plainEntry idp nd ∈ ids.filterMap (getIdpNodesDirectoryBody c app p) :=
      List.mem_filterMap.2 ⟨idp, hmem,
        (getIdpNodesDirectoryBody_eq_some c app p idp _).2 ⟨nd, hrec, hpass, rfl⟩⟩
    rw [getIdpNodes_directory c app param p ids hp hs hd,
      getIdpNodesFinish_of_mem app _ _ he]
    exact ⟨rfl, _, rfl, he⟩
  · intro code g idp nd hs hres hg hmem hrec hpass hassoc
    have he : modeListEntry idp nd ∈ g.Idps.filterMap (getIdpNodesGroupBody c app p) :=
      List.mem_filterMap.2 ⟨idp, hmem,
        (getIdpNodesGroupBody_eq_some c app p idp _).2 ⟨nd, hrec, hpass, hassoc, rfl⟩⟩
    rw [getIdpNodes_group c app param p code g hp hs hres hg,
      getIdpNodesFinish_of_mem app _ _ he]
    exact ⟨rfl, _, rfl, he⟩

theorem getIdpNodes_returns_passing_candidate_witness :
    demoCodec.unmarshalGetIdpNodesParam "all" = .ok (demoParam 1) ∧
    demoIdp2.ProxyNodeId ≠ "" ∧
    demoApp.state.Get (nodeIDKeyPrefix ++ keySeparator ++ demoIdp2.ProxyNodeId) true = none ∧
    (getIdpNodes demoCodec demoApp "all").Log = "success" ∧
    ∃ r, (getIdpNodes demoCodec demoApp "all").Value = some (.json r) ∧
      IdpNodesEntry.plain
        { ID := "idp2", Name := demoIdp2.NodeName, MaxIal := demoIdp2.MaxIal,
          MaxAal := demoIdp2.MaxAal,
          SupportedRequestMessageDataUrlTypeList :=
            demoIdp2.SupportedRequestMessageDataUrlTypeList } ∈ r.Node :=
  ⟨rfl, by decide, by decide,
    (getIdpNodes_returns_passing_candidate demoCodec demoApp "all" (demoParam 1) rfl).1
      ["idp1", "idp2", "idp3"] "idp2" demoIdp2 (by unfold identityScoped; decide)
      (Or.inr ⟨"bytes-directory", { NodeId := ["idp1", "idp2", "idp3"] }, by decide, rfl, rfl⟩)
      (by decide) ⟨"bytes-idp2", by decide, rfl⟩ (by unfold passesNode; decide)⟩

/-- C10 as stated fails: on the small ledger `rp1` is behind `proxy1`, whose
record exists, and the public key and the master public key `getNodeInfo`
reports at the top level of the result are those of `rp1` itself, not those of
`proxy1`. -/
theorem getNodeInfo_reports_own_keys_behind_proxy :
    demoCodec.unmarshalGetNodeInfoParam "rp1" = .ok { NodeID := "rp1" } ∧
    nodeRecord demoCodec demoApp "rp1" demoRp1 ∧ demoRp1.ProxyNodeId = "proxy1" ∧
    nodeRecord demoCodec demoApp "proxy1" demoProxy1 ∧
    ∃ info, (getNodeInfo demoCodec demoApp "rp1").Value = some (.json info) ∧
      info.PublicKey = demoRp1.PublicKey ∧ info.PublicKey ≠ demoProxy1.PublicKey ∧
      info.MasterPublicKey = demoRp1.MasterPublicKey ∧
      info.MasterPublicKey ≠ demoProxy1.MasterPublicKey :=
  ⟨rfl, ⟨"bytes-rp1", by decide, rfl⟩, rfl, ⟨"bytes-proxy1", by decide, rfl⟩,
    ⟨.behindProxy
      { PublicKey := "pk-rp1", MasterPublicKey := "mpk-rp1", NodeName := "RP 1", Role := "RP",
        Proxy :=
          { NodeID := "proxy1", NodeName := "Proxy 1", PublicKey := "pk-proxy1",
            MasterPublicKey := "mpk-proxy1", Mq := some [{ IP := "10.0.0.9", Port := 9000 }],
            Config := "KEY_ONLY" },
        Active := true },
      by decide, by decide, by decide, by decide, by decide⟩⟩

/-- C10, amended: for every node N whose stored `ProxyNodeId` is non-empty and
whose proxy record exists, `getNodeInfo` succeeds with a behind-proxy result.
Its `proxy` part carries the proxy's node name, public key, master public key
and messaging addresses (a nil list when the proxy has none), and N's own
addresses are not reported; the top-level public key and master public key
are N's own. -/
theorem getNodeInfo_behind_proxy (c : Codec) (app : ABCIApplication) (param : String)
    (p : GetNodeInfoParam) (nd proxyNode : NodeDetail)
    (hp : c.unmarshalGetNodeInfoParam param = .ok p)
    (hrec : nodeRecord c app p.NodeID nd) (hpx : nd.ProxyNodeId ≠ "")
    (hproxy : nodeRecord c app nd.ProxyNodeId proxyNode) :
    (getNodeInfo c app param).Log = "success" ∧
    ∃ info, (getNodeInfo c app param).Value = some (.json info) ∧
      info.Proxy = some
        { NodeID := nd.ProxyNodeId
          NodeName := proxyNode.NodeName
          PublicKey := proxyNode.PublicKey
          MasterPublicKey := proxyNode.MasterPublicKey
          Mq := if proxyNode.Mq.isEmpty then none else some (proxyNode.Mq.map toMsqAddress)
          Config := nd.ProxyConfig } ∧
      info.PublicKey = nd.PublicKey ∧ info.MasterPublicKey = nd.MasterPublicKey := by
  obtain ⟨v, hget, hdec⟩ := hrec
  obtain ⟨pv, hpget, hpdec⟩ := hproxy
  unfold getNodeInfo
  simp only [hp, hget, hdec]
  rw [if_pos hpx]
  simp only [hpget, hpdec, appendEach_none]
  by_cases hrole : nd.Role = "IdP"
  · rw [if_pos hrole]
    exact ⟨rfl, _, rfl, rfl, rfl, rfl⟩
  · rw [if_neg hrole]
    exact ⟨rfl, _, rfl, rfl, rfl, rfl⟩

theorem getNodeInfo_behind_proxy_witness :
    demoCodec.unmarshalGetNodeInfoParam "rp1" = .ok { NodeID := "rp1" } ∧
    demoRp1.ProxyNodeId ≠ "" ∧
    (getNodeInfo demoCodec demoApp "rp1").Log = "success" ∧
    ∃ info, (getNodeInfo demoCodec demoApp "rp1").Value = some (.json info) ∧
      info.Proxy = some
        { NodeID := demoRp1.ProxyNodeId
          NodeName := demoProxy1.NodeName
          PublicKey := demoProxy1.PublicKey
          MasterPublicKey := demoProxy1.MasterPublicKey
          Mq := if demoProxy1.Mq.isEmpty then none else some (demoProxy1.Mq.map toMsqAddress)
          Config := demoRp1.ProxyConfig } ∧
      info.PublicKey = demoRp1.PublicKey ∧ info.MasterPublicKey = demoRp1.MasterPublicKey :=
  ⟨rfl, by decide,
    getNodeInfo_behind_proxy demoCodec demoApp "rp1" { NodeID := "rp1" } demoRp1 demoProxy1
      rfl ⟨"bytes-rp1", by decide, rfl⟩ (by decide) ⟨"bytes-proxy1", by decide, rfl⟩⟩

/-! ## Go maps: lookup after assignment -/

theorem GoMap.get?_set {β : Type} (m : GoMap β) (key : String) (value : β) (k : String) :
    (m.set key value).get? k = if k = key then some value else m.get? k := by
  unfold GoMap.set GoMap.get?
  by_cases h : k = key
  · subst h
    simp [List.find?_cons]
  · have h0 : ¬ key = k := fun h0 => h h0.symm
    simp only [List.find?_cons, h0, decide_False, List.find?_filter, if_neg h]
    congr 2
    funext e
    by_cases he : e.1 = k
    · simp [he, h]
    · simp [he]

theorem GoMap.get?_empty {β : Type} (k : String) : (GoMap.empty : GoMap β).get? k = none := by
  simp [GoMap.empty, GoMap.get?]

theorem makeMapNodeIDList_index (nodeIDList : List String) (id : String) :
    (makeMapNodeIDList nodeIDList).index id = true ↔ id ∈ nodeIDList := by
  unfold makeMapNodeIDList
  suffices h : ∀ (m : GoMap Bool),
      (nodeIDList.foldl (fun mapNodeIDList nodeID => mapNodeIDList.set nodeID true) m).index id
        = true ↔ (id ∈ nodeIDList ∨ m.index id = true) by
    rw [h]
    simp [GoMap.index, GoMap.get?_empty]
  induction nodeIDList with
  | nil => intro m; simp
  | cons x rest ih =>
    intro m
    rw [List.foldl_cons, ih]
    simp only [GoMap.index, GoMap.get?_set, List.mem_cons]
    by_cases hx : id = x
    · simp [hx]
    · simp [hx]

theorem makeMapNodeIDList_len (nodeIDList : List String) :
    (makeMapNodeIDList nodeIDList).len > 0 ↔ nodeIDList ≠ [] := by
  unfold makeMapNodeIDList
  cases nodeIDList with
  | nil => simp [GoMap.len, GoMap.empty]
  | cons x rest =>
    simp only [ne_eq, reduceCtorEq, not_false_eq_true, iff_true]
    suffices h : ∀ (l : List String) (m : GoMap Bool), m.len > 0 →
        (l.foldl (fun mapNodeIDList nodeID => mapNodeIDList.set nodeID true) m).len > 0 by
      rw [List.foldl_cons]
      exact h rest _ (by simp [GoMap.set, GoMap.len])
    intro l
    induction l with
    | nil => intro m hm; exact hm
    | cons y more ih =>
      intro m _
      rw [List.foldl_cons]
      exact ih _ (by simp [GoMap.set, GoMap.len])

/-! ## Proxy resolution of a candidate -/

theorem proxyStep_append {α ε : Type} (c : Codec) (app : ABCIApplication) (nd : NodeDetail)
    (own : ε) (proxied : NodeDetail → ε) (e : ε)
    (h : (proxyStep c app nd own proxied : LoopStep (ResponseQuery α) ε) = .append e) :
    (nd.ProxyNodeId = "" ∧ e = own) ∨
    (nd.ProxyNodeId ≠ "" ∧ ∃ proxyNode, nodeRecord c app nd.ProxyNodeId proxyNode ∧
      proxyNode.Active = true ∧ e = proxied proxyNode) := by
  unfold proxyStep at h
  by_cases hpx : nd.ProxyNodeId = ""
  · left
    rw [if_neg (not_not.2 hpx)] at h
    cases h
    exact ⟨hpx, rfl⟩
  · right
    rw [if_pos hpx] at h
    refine ⟨hpx, ?_⟩
    cases hget : app.state.Get (nodeIDKeyPrefix ++ keySeparator ++ nd.ProxyNodeId) true with
    | none => simp [hget] at h
    | some v =>
      cases hdec : c.unmarshalNodeDetail v with
      | error err => simp [hget, hdec] at h
      | ok proxyNode =>
        simp only [hget, hdec] at h
        by_cases ha : proxyNode.Active = true
        · simp [ha] at h
          exact ⟨proxyNode, ⟨v, hget, hdec⟩, ha, h.symm⟩
        · simp [ha] at h

theorem proxyStep_ret {α ε : Type} (c : Codec) (app : ABCIApplication) (nd : NodeDetail)
    (own : ε) (proxied : NodeDetail → ε) (r : ResponseQuery α)
    (h : (proxyStep c app nd own proxied : LoopStep (ResponseQuery α) ε) = .ret r) :
    nd.ProxyNodeId ≠ "" ∧
    ((app.state.Get (nodeIDKeyPrefix ++ keySeparator ++ nd.ProxyNodeId) true = none ∧
        r = { Value := some (.raw "{}"), Log := "not found", Height := app.state.Height }) ∨
      ∃ v err, app.state.Get (nodeIDKeyPrefix ++ keySeparator ++ nd.ProxyNodeId) true = some v ∧
        c.unmarshalNodeDetail v = .error err ∧
        r = { Value := none, Log := err, Height := app.state.Height }) := by
  unfold proxyStep at h
  by_cases hpx : nd.ProxyNodeId = ""
  · rw [if_neg (not_not.2 hpx)] at h
    cases h
  · rw [if_pos hpx] at h
    refine ⟨hpx, ?_⟩
    cases hget : app.state.Get (nodeIDKeyPrefix ++ keySeparator ++ nd.ProxyNodeId) true with
    | none =>
      simp [hget] at h
      exact Or.inl ⟨rfl, h.symm⟩
    | some v =>
      cases hdec : c.unmarshalNodeDetail v with
      | error err =>
        simp [hget, hdec] at h
        exact Or.inr ⟨v, err, rfl, hdec, h.symm⟩
      | ok proxyNode =>
        simp only [hget, hdec] at h
        by_cases ha : proxyNode.Active = true
        · simp [ha] at h
        · simp [ha] at h

/-! ## The loop bodies of AS discovery -/

theorem getAsNodesByServiceIdBody_eq_some (c : Codec) (app : ABCIApplication)
    (p : GetAsNodesByServiceIdParam) (node : data.ASNode) (row : ASNodeResult) :
    getAsNodesByServiceIdBody c app p node = some row ↔
      ∃ nd, passesDestination c app p.ServiceID node nd ∧
        row = { ID := node.NodeId, Name := nd.NodeName, MinIal := node.MinIal,
                MinAal := node.MinAal,
                SupportedNamespaceList := node.SupportedNamespaceList } := by
  unfold getAsNodesByServiceIdBody passesDestination approvalRecord nodeRecord
  by_cases hact : node.Active = true
  swap
  · simp [hact]
  simp only [hact, Bool.not_true, Bool.false_eq_true, if_false, true_and]
  cases hget : app.state.Get (approvedServiceKeyPrefix ++ keySeparator ++ p.ServiceID ++
      keySeparator ++ node.NodeId) true with
  | none => simp
  | some av =>
    cases hdec : c.unmarshalApproveService av with
    | error err => simp [hdec]
    | ok a =>
      simp only [hdec, Option.some.injEq, exists_eq_left', Except.ok.injEq]
      by_cases hap : a.Active = true
      swap
      · simp [hap]
      simp only [hap, Bool.not_true, Bool.false_eq_true, if_false, exists_eq_left, true_and]
      cases hnget : app.state.Get (nodeIDKeyPrefix ++ keySeparator ++ node.NodeId) true with
      | none => simp
      | some nv =>
        cases hndec : c.unmarshalNodeDetail nv with
        | error err => simp [hndec]
        | ok nd =>
          simp only [hndec, Option.some.injEq, exists_eq_left', Except.ok.injEq]
          by_cases hnact : nd.Active = true
          · simp only [hnact, Bool.not_true, Bool.false_eq_true, if_false, true_and,
              Option.some.injEq]
            constructor
            · intro h
              exact ⟨nd, ⟨rfl, hnact⟩, h.symm⟩
            · rintro ⟨nd0, ⟨rfl, _⟩, h⟩
              exact h.symm
          · simp only [hnact, Bool.not_false, if_true, reduceCtorEq, false_iff, not_exists,
              not_and]
            rintro nd0 ⟨rfl, h0⟩
            exact absurd h0 hnact

theorem getAsNodesInfoByServiceIdBody_cases (c : Codec) (app : ABCIApplication)
    (p : GetAsNodesByServiceIdParam) (m : GoMap Bool) (node : data.ASNode)
    (h : getAsNodesInfoByServiceIdBody c app p m node ≠ .skip) :
    (m.len > 0 → m.index node.NodeId = true) ∧
    ∃ nd, passesDestination c app p.ServiceID node nd ∧
      getAsNodesInfoByServiceIdBody c app p m node =
        proxyStep c app nd (asNodeEntry node nd) (asBehindProxyEntry node nd) := by
  unfold getAsNodesInfoByServiceIdBody at h ⊢
  unfold passesDestination approvalRecord nodeRecord
  by_cases hallow : m.len > 0 ∧ m.index node.NodeId = false
  · rw [if_pos hallow] at h; exact absurd rfl h
  rw [if_neg hallow] at h ⊢
  have hallow0 : m.len > 0 → m.index node.NodeId = true := by
    intro hlen
    cases hidx : m.index node.NodeId with
    | true => rfl
    | false => exact absurd ⟨hlen, hidx⟩ hallow
  refine ⟨hallow0, ?_⟩
  by_cases hact : node.Active = true
  swap
  · simp [hact] at h
  simp only [hact, Bool.not_true, Bool.false_eq_true, if_false, true_and] at h ⊢
  cases hget : app.state.Get (approvedServiceKeyPrefix ++ keySeparator ++ p.ServiceID ++
      keySeparator ++ node.NodeId) true with
  | none => simp [hget] at h
  | some av =>
    cases hdec : c.unmarshalApproveService av with
    | error err => simp [hget, hdec] at h
    | ok a =>
      simp only [hget, hdec] at h ⊢
      by_cases hap : a.Active = true
      swap
      · simp [hap] at h
      simp only [hap, Bool.not_true, Bool.false_eq_true, if_false] at h ⊢
      cases hnget : app.state.Get (nodeIDKeyPrefix ++ keySeparator ++ node.NodeId) true with
      | none => simp [hnget] at h
      | some nv =>
        cases hndec : c.unmarshalNodeDetail nv with
        | error err => simp [hnget, hndec] at h
        | ok nd =>
          simp only [hnget, hndec] at h ⊢
          by_cases hnact : nd.Active = true
          swap
          · simp [hnact] at h
          simp only [hnact, Bool.not_true, Bool.false_eq_true, if_false] at h ⊢
          exact ⟨nd, ⟨⟨a, ⟨av, rfl, hdec⟩, hap⟩, ⟨nv, rfl, hndec⟩, hnact⟩, rfl⟩

/-! ## The handlers of AS discovery, branch by branch -/

theorem destinationList_unique (c : Codec) (app : ABCIApplication) (serviceID : String)
    (l l0 : List data.ASNode) (h : destinationList c app serviceID l)
    (h0 : destinationList c app serviceID l0) : l = l0 := by
  obtain ⟨v, d, hget, hdec, rfl⟩ := h
  obtain ⟨v0, d0, hget0, hdec0, rfl⟩ := h0
  rw [hget] at hget0
  cases hget0
  rw [hdec] at hdec0
  cases hdec0
  rfl

theorem getAsNodesByServiceId_inactive (c : Codec) (app : ABCIApplication) (param : String)
    (p : GetAsNodesByServiceIdParam) (s : ServiceDetail)
    (hp : c.unmarshalGetAsNodesByServiceIdParam param = .ok p)
    (hs : serviceRecord c app p.ServiceID s) (hact : s.Active = false) :
    getAsNodesByServiceId c app param =
      { Value := some (.json (.basic { Node := [] })),
        Log := if app.state.Get (serviceDestinationKeyPrefix ++ keySeparator ++ p.ServiceID)
            true = none then "not found" else "service is not active",
        Height := app.state.Height } := by
  obtain ⟨sv, hsget, hsdec⟩ := hs
  unfold getAsNodesByServiceId
  simp only [hp]
  cases hget : app.state.Get (serviceDestinationKeyPrefix ++ keySeparator ++ p.ServiceID)
      true with
  | none => simp [ABCIApplication.ReturnQuery]
  | some v => simp [hsget, hsdec, hact, ABCIApplication.ReturnQuery]

theorem getAsNodesInfoByServiceId_inactive (c : Codec) (app : ABCIApplication)
    (param : String) (p : GetAsNodesByServiceIdParam) (s : ServiceDetail)
    (hp : c.unmarshalGetAsNodesByServiceIdParam param = .ok p)
    (hs : serviceRecord c app p.ServiceID s) (hact : s.Active = false) :
    getAsNodesInfoByServiceId c app param =
      if app.state.Get (serviceDestinationKeyPrefix ++ keySeparator ++ p.ServiceID)
          true = none then
        { Value := some (.json (.info { Node := [] })), Log := "not found",
          Height := app.state.Height }
      else
        { Value := some (.json (.basic { Node := [] })), Log := "service is not active",
          Height := app.state.Height } := by
  obtain ⟨sv, hsget, hsdec⟩ := hs
  unfold getAsNodesInfoByServiceId
  simp only [hp]
  cases hget : app.state.Get (serviceDestinationKeyPrefix ++ keySeparator ++ p.ServiceID)
      true with
  | none => simp [ABCIApplication.ReturnQuery]
  | some v => simp [hsget, hsdec, hact, ABCIApplication.ReturnQuery]

theorem getAsNodesByServiceId_json (c : Codec) (app : ABCIApplication) (param : String)
    (p : GetAsNodesByServiceIdParam) (body : AsNodesBody)
    (hp : c.unmarshalGetAsNodesByServiceIdParam param = .ok p)
    (hr : (getAsNodesByServiceId c app param).Value = some (.json body)) :
    body = .basic { Node := [] } ∨
    ∃ l s, destinationList c app p.ServiceID l ∧ serviceRecord c app p.ServiceID s ∧
      s.Active = true ∧
      body = .withName { Node := l.filterMap (getAsNodesByServiceIdBody c app p) } := by
  unfold getAsNodesByServiceId at hr
  simp only [hp] at hr
  cases hget : app.state.Get (serviceDestinationKeyPrefix ++ keySeparator ++ p.ServiceID)
      true with
  | none =>
    simp [hget, ABCIApplication.ReturnQuery] at hr
    exact Or.inl hr.symm
  | some v =>
    simp only [hget] at hr
    cases hsget : app.state.Get (serviceKeyPrefix ++ keySeparator ++ p.ServiceID) true with
    | none =>
      simp [hsget, ABCIApplication.ReturnQuery] at hr
      exact Or.inl hr.symm
    | some sv =>
      simp only [hsget] at hr
      cases hsdec : c.unmarshalServiceDetail sv with
      | error err => simp [hsdec, ABCIApplication.ReturnQuery] at hr
      | ok s =>
        simp only [hsdec] at hr
        by_cases hact : s.Active = false
        · simp [hact, ABCIApplication.ReturnQuery] at hr
          exact Or.inl hr.symm
        · rw [if_neg hact] at hr
          cases hdec : c.unmarshalServiceDesList v with
          | error err => simp [hdec, ABCIApplication.ReturnQuery] at hr
          | ok d =>
            simp only [hdec, rangeAppend_eq, List.nil_append] at hr
            right
            refine ⟨d.Node, s, ⟨v, d, hget, hdec, rfl⟩, ⟨sv, hsget, hsdec⟩, by simpa using hact,
              ?_⟩
            split_ifs at hr <;> simpa [ABCIApplication.ReturnQuery, eq_comm] using hr

theorem getAsNodesInfoByServiceId_json (c : Codec) (app : ABCIApplication) (param : String)
    (p : GetAsNodesByServiceIdParam) (body : AsNodesInfoBody)
    (hp : c.unmarshalGetAsNodesByServiceIdParam param = .ok p)
    (hr : (getAsNodesInfoByServiceId c app param).Value = some (.json body)) :
    body = .info { Node := [] } ∨ body = .basic { Node := [] } ∨
    ∃ l s nodes, destinationList c app p.ServiceID l ∧ serviceRecord c app p.ServiceID s ∧
      s.Active = true ∧
      forRange (getAsNodesInfoByServiceIdBody c app p (makeMapNodeIDList p.NodeIDList))
        l [] = .ok nodes ∧
      body = .info { Node := nodes } := by
  unfold getAsNodesInfoByServiceId at hr
  simp only [hp] at hr
  cases hget : app.state.Get (serviceDestinationKeyPrefix ++ keySeparator ++ p.ServiceID)
      true with
  | none =>
    simp [hget, ABCIApplication.ReturnQuery] at hr
    exact Or.inl hr.symm
  | some v =>
    simp only [hget] at hr
    cases hsget : app.state.Get (serviceKeyPrefix ++ keySeparator ++ p.ServiceID) true with
    | none =>
      simp [hsget, ABCIApplication.ReturnQuery] at hr
      exact Or.inr (Or.inl hr.symm)
    | some sv =>
      simp only [hsget] at hr
      cases hsdec : c.unmarshalServiceDetail sv with
      | error err => simp [hsdec, ABCIApplication.ReturnQuery] at hr
      | ok s =>
        simp only [hsdec] at hr
        by_cases hact : s.Active = false
        · simp [hact, ABCIApplication.ReturnQuery] at hr
          exact Or.inr (Or.inl hr.symm)
        · rw [if_neg hact] at hr
          cases hdec : c.unmarshalServiceDesList v with
          | error err => simp [hdec, ABCIApplication.ReturnQuery] at hr
          | ok d =>
            simp only [hdec] at hr
            cases hloop : forRange (getAsNodesInfoByServiceIdBody c app p
                (makeMapNodeIDList p.NodeIDList)) d.Node [] with
            | error r0 =>
              rw [hloop] at hr
              obtain ⟨i, _, hi⟩ := forRange_error _ _ _ _ hloop
              obtain ⟨_, nd, _, hbody⟩ :=
                getAsNodesInfoByServiceIdBody_cases c app p _ i (by rw [hi]; simp)
              rw [hbody] at hi
              obtain ⟨_, ⟨_, rfl⟩ | ⟨_, _, _, _, rfl⟩⟩ := proxyStep_ret c app nd _ _ r0 hi
              · simp at hr
              · simp at hr
            | ok nodes =>
              rw [hloop] at hr
              simp [ABCIApplication.ReturnQuery] at hr
              exact Or.inr (Or.inr ⟨d.Node, s, nodes, ⟨v, d, hget, hdec, rfl⟩,
                ⟨sv, hsget, hsdec⟩, by simpa using hact, hloop, hr.symm⟩)

/-! ## The candidates of AS discovery -/

theorem getAsNodesByServiceId_entry (c : Codec) (app : ABCIApplication) (param : String)
    (p : GetAsNodesByServiceIdParam) (body : AsNodesBody) (id : String)
    (hp : c.unmarshalGetAsNodesByServiceIdParam param = .ok p)
    (hr : (getAsNodesByServiceId c app param).Value = some (.json body))
    (hid : id ∈ body.nodeIDs) :
    ∃ l node nd, destinationList c app p.ServiceID l ∧ node ∈ l ∧ node.NodeId = id ∧
      passesDestination c app p.ServiceID node nd := by
  rcases getAsNodesByServiceId_json c app param p body hp hr with rfl | ⟨l, s, hl, _, _, rfl⟩
  · simp [AsNodesBody.nodeIDs] at hid
  · simp only [AsNodesBody.nodeIDs, List.mem_map, List.mem_filterMap] at hid
    obtain ⟨row, ⟨node, hmem, hbody⟩, hrow⟩ := hid
    obtain ⟨nd, hpass, rfl⟩ := (getAsNodesByServiceIdBody_eq_some c app p node row).1 hbody
    exact ⟨l, node, nd, hl, hmem, hrow, hpass⟩

theorem getAsNodesInfoByServiceIdBody_append (c : Codec) (app : ABCIApplication)
    (p : GetAsNodesByServiceIdParam) (m : GoMap Bool) (node : data.ASNode)
    (e : AsNodesInfoEntry)
    (h : (getAsNodesInfoByServiceIdBody c app p m node).appended = some e) :
    e.NodeID = node.NodeId ∧ (m.len > 0 → m.index node.NodeId = true) ∧
    ∃ nd, passesDestination c app p.ServiceID node nd ∧
      ((nd.ProxyNodeId = "" ∧ e = asNodeEntry node nd) ∨
        (nd.ProxyNodeId ≠ "" ∧ ∃ proxyNode, nodeRecord c app nd.ProxyNodeId proxyNode ∧
          proxyNode.Active = true ∧ e = asBehindProxyEntry node nd proxyNode)) := by
  have happ : getAsNodesInfoByServiceIdBody c app p m node = .append e := by
    cases hbody : getAsNodesInfoByServiceIdBody c app p m node <;>
      simp [hbody, LoopStep.appended] at h
    rw [h]
  obtain ⟨hallow, nd, hpass, hbody⟩ :=
    getAsNodesInfoByServiceIdBody_cases c app p m node (by rw [happ]; simp)
  rw [hbody] at happ
  have hcases := proxyStep_append c app nd (asNodeEntry node nd) (asBehindProxyEntry node nd)
    e happ
  refine ⟨?_, hallow, nd, hpass, hcases⟩
  rcases hcases with ⟨_, rfl⟩ | ⟨_, pn, _, _, rfl⟩ <;> rfl

theorem getAsNodesInfoByServiceId_entry (c : Codec) (app : ABCIApplication) (param : String)
    (p : GetAsNodesByServiceIdParam) (body : AsNodesInfoBody) (id : String)
    (hp : c.unmarshalGetAsNodesByServiceIdParam param = .ok p)
    (hr : (getAsNodesInfoByServiceId c app param).Value = some (.json body))
    (hid : id ∈ body.nodeIDs) :
    (p.NodeIDList ≠ [] → id ∈ p.NodeIDList) ∧
    ∃ l node nd, destinationList c app p.ServiceID l ∧ node ∈ l ∧ node.NodeId = id ∧
      passesDestination c app p.ServiceID node nd := by
  rcases getAsNodesInfoByServiceId_json c app param p body hp hr with
    rfl | rfl | ⟨l, s, nodes, hl, _, _, hloop, rfl⟩
  · simp [AsNodesInfoBody.nodeIDs] at hid
  · simp [AsNodesInfoBody.nodeIDs] at hid
  · have hnodes := forRange_ok _ _ _ _ hloop
    simp only [AsNodesInfoBody.nodeIDs, hnodes, List.nil_append, List.mem_map,
      List.mem_filterMap] at hid
    obtain ⟨e, ⟨node, hmem, happ⟩, he⟩ := hid
    obtain ⟨hnode, hallow, nd, hpass, _⟩ :=
      getAsNodesInfoByServiceIdBody_append c app p _ node e happ
    have hidn : node.NodeId = id := by rw [← hnode, he]
    refine ⟨fun hne => ?_, l, node, nd, hl, hmem, hidn, hpass⟩
    have := hallow ((makeMapNodeIDList_len p.NodeIDList).2 hne)
    rw [makeMapNodeIDList_index, hidn] at this
    exact this

/-! ## The claims on the node descriptor and on AS discovery -/

/-- C11: for every node whose stored `ProxyNodeId` is non-empty and whose
proxy has no `NodeDetail` record, `getNodeInfo` returns the status `not found`
with the body `{}`, not a descriptor. -/
theorem getNodeInfo_missing_proxy_not_found (c : Codec) (app : ABCIApplication)
    (param : String) (p : GetNodeInfoParam) (nd : NodeDetail)
    (hp : c.unmarshalGetNodeInfoParam param = .ok p)
    (hrec : nodeRecord c app p.NodeID nd) (hpx : nd.ProxyNodeId ≠ "")
    (hmissing : app.state.Get (nodeIDKeyPrefix ++ keySeparator ++ nd.ProxyNodeId) true = none) :
    getNodeInfo c app param =
      { Value := some (.raw "{}"), Log := "not found", Height := app.state.Height } := by
  obtain ⟨v, hget, hdec⟩ := hrec
  unfold getNodeInfo
  simp only [hp, hget, hdec]
  rw [if_pos hpx]
  simp only [hmissing]
  rfl

theorem getNodeInfo_missing_proxy_not_found_witness :
    demoCodec.unmarshalGetNodeInfoParam "idp2" = .ok { NodeID := "idp2" } ∧
    nodeRecord demoCodec demoApp "idp2" demoIdp2 ∧ demoIdp2.ProxyNodeId ≠ "" ∧
    demoApp.state.Get (nodeIDKeyPrefix ++ keySeparator ++ demoIdp2.ProxyNodeId) true = none ∧
    getNodeInfo demoCodec demoApp "idp2" =
      { Value := some (.raw "{}"), Log := "not found", Height := demoApp.state.Height } :=
  ⟨rfl, ⟨"bytes-idp2", by decide, rfl⟩, by decide, by decide,
    getNodeInfo_missing_proxy_not_found demoCodec demoApp "idp2" { NodeID := "idp2" } demoIdp2
      rfl ⟨"bytes-idp2", by decide, rfl⟩ (by decide) (by decide)⟩

/-- C12: for every service ID, every AS returned by `getAsNodesByServiceId`
and by `getAsNodesInfoByServiceId` is the node of an entry of the service's
destination list that is active, for which the approval record keyed by
(service ID, node ID) is stored, decodes and is active, and whose own
`NodeDetail` record is stored, decodes and is active. In particular a node
whose destination entries are all inactive is returned by neither, whatever
its approval. -/
theorem as_discovery_candidates_active_and_approved (c : Codec) (app : ABCIApplication)
    (param : String) (p : GetAsNodesByServiceIdParam)
    (hp : c.unmarshalGetAsNodesByServiceIdParam param = .ok p) :
    (∀ body, (getAsNodesByServiceId c app param).Value = some (.json body) →
      ∀ id ∈ body.nodeIDs, ∃ l node nd, destinationList c app p.ServiceID l ∧ node ∈ l ∧
        node.NodeId = id ∧ node.Active = true ∧
        (∃ a, approvalRecord c app p.ServiceID id a ∧ a.Active = true) ∧
        nodeRecord c app id nd ∧ nd.Active = true) ∧
    (∀ body, (getAsNodesInfoByServiceId c app param).Value = some (.json body) →
      ∀ id ∈ body.nodeIDs, ∃ l node nd, destinationList c app p.ServiceID l ∧ node ∈ l ∧
        node.NodeId = id ∧ node.Active = true ∧
        (∃ a, approvalRecord c app p.ServiceID id a ∧ a.Active = true) ∧
        nodeRecord c app id nd ∧ nd.Active = true) ∧
    (∀ l id, destinationList c app p.ServiceID l →
      (∀ node ∈ l, node.NodeId = id → node.Active = false) →
      (∀ body, (getAsNodesByServiceId c app param).Value = some (.json body) →
        id ∉ body.nodeIDs) ∧
      (∀ body, (getAsNodesInfoByServiceId c app param).Value = some (.json body) →
        id ∉ body.nodeIDs)) := by
  refine ⟨?_, ?_, ?_⟩
  · intro body hr id hid
    obtain ⟨l, node, nd, hl, hmem, rfl, hact, happ, hrec, hnact⟩ :=
      getAsNodesByServiceId_entry c app param p body id hp hr hid
    exact ⟨l, node, nd, hl, hmem, rfl, hact, happ, hrec, hnact⟩
  · intro body hr id hid
    obtain ⟨_, l, node, nd, hl, hmem, rfl, hact, happ, hrec, hnact⟩ :=
      getAsNodesInfoByServiceId_entry c app param p body id hp hr hid
    exact ⟨l, node, nd, hl, hmem, rfl, hact, happ, hrec, hnact⟩
  · intro l id hl hinactive
    constructor
    · intro body hr hid
      obtain ⟨l0, node, nd, hl0, hmem, hnode, hact, _⟩ :=
        getAsNodesByServiceId_entry c app param p body id hp hr hid
      rw [destinationList_unique c app p.ServiceID l0 l hl0 hl] at hmem
      rw [hinactive node hmem hnode] at hact
      cases hact
    · intro body hr hid
      obtain ⟨_, l0, node, nd, hl0, hmem, hnode, hact, _⟩ :=
        getAsNodesInfoByServiceId_entry c app param p body id hp hr hid
      rw [destinationList_unique c app p.ServiceID l0 l hl0 hl] at hmem
      rw [hinactive node hmem hnode] at hact
      cases hact

theorem as_discovery_candidates_active_and_approved_witness :
    demoCodec.unmarshalGetAsNodesByServiceIdParam "svc1" =
      .ok { ServiceID := "svc1", NodeIDList := [] } ∧
    destinationList demoCodec demoServiceApp "svc1" demoDestinations ∧
    approvalRecord demoCodec demoServiceApp "svc1" "as3" { Active := true } ∧
    (∀ node ∈ demoDestinations, node.NodeId = "as3" → node.Active = false) ∧
    (getAsNodesByServiceId demoCodec demoServiceApp "svc1").Value =
      some (.json (.withName { Node :=
        [{ ID := "as1", Name := "AS 1", MinIal := 1, MinAal := 1,
           SupportedNamespaceList := ["citizen_id"] },
         { ID := "as2", Name := "AS 2", MinIal := 2, MinAal := 2,
           SupportedNamespaceList := ["citizen_id"] }] })) ∧
    (∀ body, (getAsNodesByServiceId demoCodec demoServiceApp "svc1").Value = some (.json body) →
      "as3" ∉ body.nodeIDs) ∧
    (∀ body, (getAsNodesInfoByServiceId demoCodec demoServiceApp "svc1").Value =
        some (.json body) → "as3" ∉ body.nodeIDs) :=
  ⟨rfl, ⟨"bytes-destinations-svc1", { Node := demoDestinations }, by decide, rfl, rfl⟩,
    ⟨"bytes-approved", by decide, rfl⟩, by decide, by decide,
    (as_discovery_candidates_active_and_approved demoCodec demoServiceApp "svc1"
      { ServiceID := "svc1", NodeIDList := [] } rfl).2.2 demoDestinations "as3"
      ⟨"bytes-destinations-svc1", { Node := demoDestinations }, by decide, rfl, rfl⟩
      (by decide)⟩

/-- C13: for every service whose `ServiceDetail` record has `Active = false`,
`getAsNodesByServiceId` and `getAsNodesInfoByServiceId` return a body with an
empty node list, whatever the destination list, the approvals and the node
records hold. The status is `service is not active` when a destination list
is stored, and `not found` when none is. -/
theorem inactive_service_returns_no_nodes (c : Codec) (app : ABCIApplication)
    (param : String) (p : GetAsNodesByServiceIdParam) (s : ServiceDetail)
    (hp : c.unmarshalGetAsNodesByServiceIdParam param = .ok p)
    (hs : serviceRecord c app p.ServiceID s) (hact : s.Active = false) :
    (∃ body, (getAsNodesByServiceId c app param).Value = some (.json body) ∧
      body.nodeIDs = []) ∧
    (∃ body, (getAsNodesInfoByServiceId c app param).Value = some (.json body) ∧
      body.nodeIDs = []) ∧
    (app.state.Get (serviceDestinationKeyPrefix ++ keySeparator ++ p.ServiceID) true ≠ none →
      (getAsNodesByServiceId c app param).Log = "service is not active" ∧
      (getAsNodesInfoByServiceId c app param).Log = "service is not active") ∧
    (app.state.Get (serviceDestinationKeyPrefix ++ keySeparator ++ p.ServiceID) true = none →
      (getAsNodesByServiceId c app param).Log = "not found" ∧
      (getAsNodesInfoByServiceId c app param).Log = "not found") := by
  rw [getAsNodesByServiceId_inactive c app param p s hp hs hact,
    getAsNodesInfoByServiceId_inactive c app param p s hp hs hact]
  refine ⟨⟨_, rfl, rfl⟩, ?_, ?_, ?_⟩
  · by_cases h : app.state.Get (serviceDestinationKeyPrefix ++ keySeparator ++ p.ServiceID)
        true = none
    · rw [if_pos h]; exact ⟨_, rfl, rfl⟩
    · rw [if_neg h]; exact ⟨_, rfl, rfl⟩
  · intro h
    simp [h]
  · intro h
    simp [h]

theorem inactive_service_returns_no_nodes_witness :
    demoCodec.unmarshalGetAsNodesByServiceIdParam "svc2" =
      .ok { ServiceID := "svc2", NodeIDList := [] } ∧
    serviceRecord demoCodec demoServiceApp "svc2"
      { ServiceId := "svc2", ServiceName := "Service 2", Active := false } ∧
    destinationList demoCodec demoServiceApp "svc2" demoDestinations ∧
    (∃ body, (getAsNodesByServiceId demoCodec demoServiceApp "svc2").Value =
        some (.json body) ∧ body.nodeIDs = []) ∧
    (∃ body, (getAsNodesInfoByServiceId demoCodec demoServiceApp "svc2").Value =
        some (.json body) ∧ body.nodeIDs = []) :=
  ⟨rfl, ⟨"bytes-svc2", by decide, rfl⟩,
    ⟨"bytes-destinations-svc1", { Node := demoDestinations }, by decide, rfl, rfl⟩,
    (inactive_service_returns_no_nodes demoCodec demoServiceApp "svc2"
      { ServiceID := "svc2", NodeIDList := [] }
      { ServiceId := "svc2", ServiceName := "Service 2", Active := false } rfl
      ⟨"bytes-svc2", by decide, rfl⟩ rfl).1,
    (inactive_service_returns_no_nodes demoCodec demoServiceApp "svc2"
      { ServiceID := "svc2", NodeIDList := [] }
      { ServiceId := "svc2", ServiceName := "Service 2", Active := false } rfl
      ⟨"bytes-svc2", by decide, rfl⟩ rfl).2.1⟩

/-- C14: `getAsNodesByServiceId` decodes the node-ID list of its parameter and
never reads it. On the second small ledger the query for the service `svc1`
with the node-ID list `[as1]` returns `as1` and `as2`; `getAsNodesInfoByServiceId`
returns `as1` alone for the same parameter. -/
theorem getAsNodesByServiceId_ignores_node_id_list :
    demoCodec.unmarshalGetAsNodesByServiceIdParam "svc1, only as1" =
      .ok { ServiceID := "svc1", NodeIDList := ["as1"] } ∧
    getAsNodesByServiceId demoCodec demoServiceApp "svc1, only as1" =
      { Value := some (.json (.withName { Node :=
          [{ ID := "as1", Name := "AS 1", MinIal := 1, MinAal := 1,
             SupportedNamespaceList := ["citizen_id"] },
           { ID := "as2", Name := "AS 2", MinIal := 2, MinAal := 2,
             SupportedNamespaceList := ["citizen_id"] }] })),
        Log := "success", Height := 9 } ∧
    "as2" ∉ ["as1"] ∧
    (∃ body, (getAsNodesInfoByServiceId demoCodec demoServiceApp "svc1, only as1").Value =
        some (.json body) ∧ body.nodeIDs = ["as1"]) := by
  refine ⟨rfl, by decide, by decide, ?_⟩
  exact ⟨.info { Node := [asNodeEntry
    { NodeId := "as1", MinIal := 1, MinAal := 1, SupportedNamespaceList := ["citizen_id"],
      Active := true } demoAs1] }, by decide, by decide⟩

/-- Where `getAsNodesInfoByServiceId` stands on the node-ID list: with a
non-empty list, every AS it returns has its node ID in the list. -/
theorem getAsNodesInfoByServiceId_respects_node_id_list (c : Codec) (app : ABCIApplication)
    (param : String) (p : GetAsNodesByServiceIdParam)
    (hp : c.unmarshalGetAsNodesByServiceIdParam param = .ok p) (hne : p.NodeIDList ≠ []) :
    ∀ body, (getAsNodesInfoByServiceId c app param).Value = some (.json body) →
      ∀ id ∈ body.nodeIDs, id ∈ p.NodeIDList := by
  intro body hr id hid
  exact (getAsNodesInfoByServiceId_entry c app param p body id hp hr hid).1 hne

/-! ## The service catalog of an AS -/

theorem getServicesByAsIDBody_append (c : Codec) (app : ABCIApplication)
    (p : GetServicesByAsIDParam) (nd : NodeDetail) (ps : data.Service) (row : Service)
    (h : getServicesByAsIDBody c app p nd ps = .append row) :
    row.ServiceID = ps.ServiceId ∧ row.Active = ps.Active ∧ nd.Active = true ∧
    (∃ s, serviceRecord c app ps.ServiceId s ∧ s.Active = true) ∧
    ∃ bytes, app.state.Get (approvedServiceKeyPrefix ++ keySeparator ++ ps.ServiceId ++
        keySeparator ++ p.AsID) true = some bytes ∧
      (∀ a, c.unmarshalApproveService bytes = .ok a → row.Suspended = !a.Active) ∧
      (∀ err, c.unmarshalApproveService bytes = .error err →
        row.Suspended = ps.Suspended) := by
  unfold getServicesByAsIDBody at h
  unfold serviceRecord
  cases hsget : app.state.Get (serviceKeyPrefix ++ keySeparator ++ ps.ServiceId) true with
  | none => simp [hsget] at h
  | some sv =>
    cases hsdec : c.unmarshalServiceDetail sv with
    | error err => simp [hsget, hsdec] at h
    | ok s =>
      simp only [hsget, hsdec] at h
      by_cases hact : nd.Active = true ∧ s.Active = true
      swap
      · rw [if_neg hact] at h; cases h
      rw [if_pos hact] at h
      cases haget : app.state.Get (approvedServiceKeyPrefix ++ keySeparator ++ ps.ServiceId ++
          keySeparator ++ p.AsID) true with
      | none => simp [haget] at h
      | some av =>
        simp only [haget, LoopStep.append.injEq] at h
        cases hadec : c.unmarshalApproveService av with
        | error err =>
          simp only [hadec] at h
          subst h
          exact ⟨rfl, rfl, hact.1, ⟨s, ⟨sv, rfl, hsdec⟩, hact.2⟩, av, rfl,
            fun a ha => (by rw [hadec] at ha; cases ha), fun _ _ => rfl⟩
        | ok a =>
          simp only [hadec] at h
          subst h
          exact ⟨rfl, rfl, hact.1, ⟨s, ⟨sv, rfl, hsdec⟩, hact.2⟩, av, rfl,
            fun a0 ha => (by rw [hadec] at ha; cases ha; rfl),
            fun _ he => (by rw [hadec] at he; cases he)⟩

theorem getServicesByAsIDBody_ret (c : Codec) (app : ABCIApplication)
    (p : GetServicesByAsIDParam) (nd : NodeDetail) (ps : data.Service)
    (r : ResponseQuery GetServicesByAsIDResult)
    (h : getServicesByAsIDBody c app p nd ps = .ret r) : r.Value = none := by
  unfold getServicesByAsIDBody at h
  cases hsget : app.state.Get (serviceKeyPrefix ++ keySeparator ++ ps.ServiceId) true with
  | none => simp [hsget] at h
  | some sv =>
    cases hsdec : c.unmarshalServiceDetail sv with
    | error err =>
      simp [hsget, hsdec, ABCIApplication.ReturnQuery] at h
      rw [← h]
    | ok s =>
      simp only [hsget, hsdec] at h
      by_cases hact : nd.Active = true ∧ s.Active = true
      swap
      · rw [if_neg hact] at h; cases h
      rw [if_pos hact] at h
      cases haget : app.state.Get (approvedServiceKeyPrefix ++ keySeparator ++ ps.ServiceId ++
          keySeparator ++ p.AsID) true with
      | none => simp [haget] at h
      | some av => simp [haget] at h

theorem getServicesByAsID_json (c : Codec) (app : ABCIApplication) (param : String)
    (p : GetServicesByAsIDParam) (r : GetServicesByAsIDResult)
    (hp : c.unmarshalGetServicesByAsIDParam param = .ok p)
    (hr : (getServicesByAsID c app param).Value = some (.json r)) :
    r.Services = [] ∨
    ∃ l nd, providedServices c app p.AsID l ∧ nodeRecord c app p.AsID nd ∧
      forRange (getServicesByAsIDBody c app p nd) l [] = .ok r.Services := by
  unfold getServicesByAsID at hr
  simp only [hp] at hr
  cases hget : app.state.Get (providedServicesKeyPrefix ++ keySeparator ++ p.AsID) true with
  | none =>
    simp [hget, ABCIApplication.ReturnQuery] at hr
    left; rw [← hr]
  | some v =>
    simp only [hget] at hr
    cases hdec : c.unmarshalServiceList v with
    | error err => simp [hdec, ABCIApplication.ReturnQuery] at hr
    | ok l =>
      simp only [hdec] at hr
      cases hnget : app.state.Get (nodeIDKeyPrefix ++ keySeparator ++ p.AsID) true with
      | none =>
        simp [hnget, ABCIApplication.ReturnQuery] at hr
        left; rw [← hr]
      | some nv =>
        simp only [hnget] at hr
        cases hndec : c.unmarshalNodeDetail nv with
        | error err => simp [hndec, ABCIApplication.ReturnQuery] at hr
        | ok nd =>
          simp only [hndec] at hr
          right
          refine ⟨l.Services, nd, ⟨v, l, hget, hdec, rfl⟩, ⟨nv, hnget, hndec⟩, ?_⟩
          cases hloop : forRange (getServicesByAsIDBody c app p nd) l.Services [] with
          | error r0 =>
            rw [hloop] at hr
            obtain ⟨i, _, hi⟩ := forRange_error _ _ _ _ hloop
            rw [getServicesByAsIDBody_ret c app p nd i r0 hi] at hr
            cases hr
          | ok rows =>
            rw [hloop] at hr
            simp only at hr
            split_ifs at hr <;> simp [ABCIApplication.ReturnQuery] at hr <;> rw [← hr]

/-- C15: for every service row `getServicesByAsID` returns, the row is that of
a service the AS provides, an approval record keyed by (service ID, AS ID) is
stored, and, when that record decodes, the row's `Suspended` flag is the
negation of the record's `Active` flag, while the row's own `Active` flag is
the one of the provided service. A provided service with no approval record
gives no row. -/
theorem getServicesByAsID_suspended_from_approval (c : Codec) (app : ABCIApplication)
    (param : String) (p : GetServicesByAsIDParam)
    (hp : c.unmarshalGetServicesByAsIDParam param = .ok p) :
    (∀ r, (getServicesByAsID c app param).Value = some (.json r) → ∀ row ∈ r.Services,
      ∃ l ps bytes, providedServices c app p.AsID l ∧ ps ∈ l ∧
        ps.ServiceId = row.ServiceID ∧ row.Active = ps.Active ∧
        app.state.Get (approvedServiceKeyPrefix ++ keySeparator ++ row.ServiceID ++
          keySeparator ++ p.AsID) true = some bytes ∧
        (∀ a, c.unmarshalApproveService bytes = .ok a → row.Suspended = !a.Active)) ∧
    (∀ r id, (getServicesByAsID c app param).Value = some (.json r) →
      app.state.Get (approvedServiceKeyPrefix ++ keySeparator ++ id ++ keySeparator ++
        p.AsID) true = none →
      id ∉ r.Services.map (fun row => row.ServiceID)) := by
  have key : ∀ r, (getServicesByAsID c app param).Value = some (.json r) → ∀ row ∈ r.Services,
      ∃ l ps bytes, providedServices c app p.AsID l ∧ ps ∈ l ∧
        ps.ServiceId = row.ServiceID ∧ row.Active = ps.Active ∧
        app.state.Get (approvedServiceKeyPrefix ++ keySeparator ++ row.ServiceID ++
          keySeparator ++ p.AsID) true = some bytes ∧
        (∀ a, c.unmarshalApproveService bytes = .ok a → row.Suspended = !a.Active) := by
    intro r hr row hrow
    rcases getServicesByAsID_json c app param p r hp hr with hnil | ⟨l, nd, hl, _, hloop⟩
    · rw [hnil] at hrow; cases hrow
    · have hrows := forRange_ok _ _ _ _ hloop
      rw [hrows, List.nil_append] at hrow
      obtain ⟨ps, hmem, hb⟩ := List.mem_filterMap.1 hrow
      have happ : getServicesByAsIDBody c app p nd ps = .append row := by
        cases hbody : getServicesByAsIDBody c app p nd ps <;>
          simp [hbody, LoopStep.appended] at hb
        rw [hb]
      obtain ⟨hid, hactive, _, _, bytes, hget, hok, _⟩ :=
        getServicesByAsIDBody_append c app p nd ps row happ
      exact ⟨l, ps, bytes, hl, hmem, hid.symm, hactive, by rw [hid]; exact hget, hok⟩
  refine ⟨key, ?_⟩
  intro r id hr hnone hmem
  obtain ⟨row, hrow, rfl⟩ := List.mem_map.1 hmem
  obtain ⟨_, _, bytes, _, _, _, _, hget, _⟩ := key r hr row hrow
  rw [hnone] at hget
  cases hget

theorem getServicesByAsID_suspended_from_approval_witness :
    demoCodec.unmarshalGetServicesByAsIDParam "as1" = .ok { AsID := "as1" } ∧
    getServicesByAsID demoCodec demoServiceApp "as1" =
      { Value := some (.json { Services :=
          [{ Active := true, MinAal := 1, MinIal := 1, ServiceID := "svc1", Suspended := false,
             SupportedNamespaceList := ["citizen_id"] },
           { Active := true, MinAal := 1, MinIal := 1, ServiceID := "svc3", Suspended := true,
             SupportedNamespaceList := [] }] }),
        Log := "success", Height := 9 } ∧
    demoServiceApp.state.Get (approvedServiceKeyPrefix ++ keySeparator ++ "svc4" ++
      keySeparator ++ "as1") true = none ∧
    (∀ r, (getServicesByAsID demoCodec demoServiceApp "as1").Value = some (.json r) →
      "svc4" ∉ r.Services.map (fun row => row.ServiceID)) :=
  ⟨rfl, by decide, by decide, fun r hr =>
    (getServicesByAsID_suspended_from_approval demoCodec demoServiceApp "as1" { AsID := "as1" }
      rfl).2 r "svc4" hr (by decide)⟩

/-! ## Policy lookups -/

theorem modeFunctionMap_index (purpose : String) :
    modeFunctionMap.index purpose = true ↔
      purpose ∈ ["RegisterIdentity", "AddIdentity", "AddAccessor", "RevokeAccessor",
        "RevokeIdentityAssociation", "UpdateIdentityModeList", "RevokeAndAddAccessor"] := by
  unfold modeFunctionMap GoMap.index GoMap.get?
  simp only [List.find?_cons, List.find?_nil, List.mem_cons, List.mem_singleton]
  by_cases h1 : "RegisterIdentity" = purpose
  · simp [h1.symm]
  by_cases h2 : "AddIdentity" = purpose
  · simp [h2.symm]
  by_cases h3 : "AddAccessor" = purpose
  · simp [h3.symm]
  by_cases h4 : "RevokeAccessor" = purpose
  · simp [h4.symm]
  by_cases h5 : "RevokeIdentityAssociation" = purpose
  · simp [h5.symm]
  by_cases h6 : "UpdateIdentityModeList" = purpose
  · simp [h6.symm]
  by_cases h7 : "RevokeAndAddAccessor" = purpose
  · simp [h7.symm]
  have e1 : ¬ purpose = "RegisterIdentity" := fun h => h1 h.symm
  have e2 : ¬ purpose = "AddIdentity" := fun h => h2 h.symm
  have e3 : ¬ purpose = "AddAccessor" := fun h => h3 h.symm
  have e4 : ¬ purpose = "RevokeAccessor" := fun h => h4 h.symm
  have e5 : ¬ purpose = "RevokeIdentityAssociation" := fun h => h5 h.symm
  have e6 : ¬ purpose = "UpdateIdentityModeList" := fun h => h6 h.symm
  have e7 : ¬ purpose = "RevokeAndAddAccessor" := fun h => h7 h.symm
  simp [h1, h2, h3, h4, h5, h6, h7, e1, e2, e3, e4, e5, e6, e7]

/-- C16: for every purpose with no stored `AllowedModeList` record,
`GetAllowedModeFromStateDB` returns `[2, 3]` if the purpose is one of the seven
operation names of `modeFunctionMap` and `[1, 2, 3]` otherwise; when a record
is stored and decodes, it returns exactly the stored mode list. -/
theorem allowed_modes_default_and_stored (c : Codec) (app : ABCIApplication)
    (purpose : String) (committedState : Bool) :
    (app.state.Get ("AllowedModeList" ++ keySeparator ++ purpose) committedState = none →
      (purpose ∈ ["RegisterIdentity", "AddIdentity", "AddAccessor", "RevokeAccessor",
          "RevokeIdentityAssociation", "UpdateIdentityModeList", "RevokeAndAddAccessor"] →
        GetAllowedModeFromStateDB c app purpose committedState = [2, 3]) ∧
      (purpose ∉ ["RegisterIdentity", "AddIdentity", "AddAccessor", "RevokeAccessor",
          "RevokeIdentityAssociation", "UpdateIdentityModeList", "RevokeAndAddAccessor"] →
        GetAllowedModeFromStateDB c app purpose committedState = [1, 2, 3])) ∧
    (∀ v l, app.state.Get ("AllowedModeList" ++ keySeparator ++ purpose) committedState
        = some v →
      c.unmarshalAllowedModeList v = .ok l →
      GetAllowedModeFromStateDB c app purpose committedState = l.Mode) := by
  constructor
  · intro hnone
    unfold GetAllowedModeFromStateDB
    simp only [hnone]
    constructor
    · intro hmem
      have := (modeFunctionMap_index purpose).2 hmem
      simp [this]
    · intro hmem
      have : modeFunctionMap.index purpose = false := by
        cases h : modeFunctionMap.index purpose with
        | false => rfl
        | true => exact absurd ((modeFunctionMap_index purpose).1 h) hmem
      simp [this]
  · intro v l hget hdec
    unfold GetAllowedModeFromStateDB
    simp only [hget, hdec]

theorem allowed_modes_default_and_stored_witness :
    demoServiceApp.state.Get ("AllowedModeList" ++ keySeparator ++ "AddAccessor") true = none ∧
    GetAllowedModeFromStateDB demoCodec demoServiceApp "AddAccessor" true = [2, 3] ∧
    demoServiceApp.state.Get ("AllowedModeList" ++ keySeparator ++ "CreateRequest") true
      = none ∧
    GetAllowedModeFromStateDB demoCodec demoServiceApp "CreateRequest" true = [1, 2, 3] ∧
    GetAllowedModeFromStateDB demoCodec demoServiceApp "custom" true = [3] :=
  ⟨by decide,
    ((allowed_modes_default_and_stored demoCodec demoServiceApp "AddAccessor" true).1
      (by decide)).1 (by decide),
    by decide,
    ((allowed_modes_default_and_stored demoCodec demoServiceApp "CreateRequest" true).1
      (by decide)).2 (by decide),
    (allowed_modes_default_and_stored demoCodec demoServiceApp "custom" true).2
      "bytes-modes-3" { Mode := [3] } (by decide) rfl⟩

theorem countMapStep_get? (result : GoMap Int) (ns : Namespace) (name : String) :
    (countMapStep result ns).get? name =
      if ns.Active = true ∧ ns.Namespace = name then
        some (if ns.AllowedIdentifierCountInReferenceGroup = -1 then 0
          else ns.AllowedIdentifierCountInReferenceGroup)
      else result.get? name := by
  unfold countMapStep
  by_cases hact : ns.Active = true
  · by_cases hname : ns.Namespace = name
    · subst hname
      by_cases hc : ns.AllowedIdentifierCountInReferenceGroup = -1
      · simp [hact, hc, GoMap.get?_set]
      · simp [hact, hc, GoMap.get?_set]
    · have hname0 : ¬ name = ns.Namespace := fun h => hname h.symm
      by_cases hc : ns.AllowedIdentifierCountInReferenceGroup = -1
      · simp [hact, hc, hname, hname0, GoMap.get?_set]
      · simp [hact, hc, hname, hname0, GoMap.get?_set]
  · simp [hact]

theorem countMap_fold_agree (l : List Namespace) (name : String) (x : Int)
    (hagree : ∀ r ∈ l, r.Active = true → r.Namespace = name →
      (if r.AllowedIdentifierCountInReferenceGroup = -1 then 0
        else r.AllowedIdentifierCountInReferenceGroup) = x) :
    ∀ m : GoMap Int,
      ((∃ r ∈ l, r.Active = true ∧ r.Namespace = name) ∨ m.get? name = some x) →
      (l.foldl countMapStep m).get? name = some x := by
  induction l with
  | nil =>
    intro m h
    rcases h with ⟨r, hr, _⟩ | h
    · cases hr
    · exact h
  | cons ns rest ih =>
    intro m h
    rw [List.foldl_cons]
    apply ih (fun r hr => hagree r (List.mem_cons_of_mem _ hr))
    by_cases hns : ns.Active = true ∧ ns.Namespace = name
    · right
      rw [countMapStep_get?, if_pos hns, hagree ns (List.mem_cons_self _ _) hns.1 hns.2]
    · rcases h with ⟨r, hr, hact, hname⟩ | h
      · rcases List.mem_cons.1 hr with rfl | hr0
        · exact absurd ⟨hact, hname⟩ hns
        · exact Or.inl ⟨r, hr0, hact, hname⟩
      · right
        rw [countMapStep_get?, if_neg hns]
        exact h

theorem countMap_fold_absent (l : List Namespace) (name : String)
    (habsent : ∀ r ∈ l, r.Namespace = name → r.Active = false) :
    ∀ m : GoMap Int, (l.foldl countMapStep m).get? name = m.get? name := by
  induction l with
  | nil => intro m; rfl
  | cons ns rest ih =>
    intro m
    rw [List.foldl_cons, ih (fun r hr => habsent r (List.mem_cons_of_mem _ hr)),
      countMapStep_get?]
    have : ¬ (ns.Active = true ∧ ns.Namespace = name) := by
      rintro ⟨hact, hname⟩
      rw [habsent ns (List.mem_cons_self _ _) hname] at hact
      cases hact
    rw [if_neg this]

theorem GetNamespaceAllowedIdentifierCountMap_eq (c : Codec) (app : ABCIApplication)
    (committedState : Bool) (v : String) (namespaces : NamespaceList)
    (hget : app.state.Get allNamespaceKeyBytes committedState = some v)
    (hdec : c.unmarshalNamespaceList v = .ok namespaces) :
    GetNamespaceAllowedIdentifierCountMap c app committedState =
      namespaces.Namespaces.foldl countMapStep GoMap.empty := by
  unfold GetNamespaceAllowedIdentifierCountMap
  simp only [hget, hdec]
  rfl

/-- C17: for every stored namespace list, the map
`GetNamespaceAllowedIdentifierCountMap` builds sends an active namespace whose
stored `AllowedIdentifierCountInReferenceGroup` is -1 to 0 and every other
active namespace to its stored count, and has no entry for a name without an
active record. A name is taken to have one stored count: the active records
of the name agree on it. -/
theorem namespace_count_map_sentinel (c : Codec) (app : ABCIApplication)
    (committedState : Bool) (v : String) (namespaces : NamespaceList)
    (hget : app.state.Get allNamespaceKeyBytes committedState = some v)
    (hdec : c.unmarshalNamespaceList v = .ok namespaces) :
    (∀ r ∈ namespaces.Namespaces, r.Active = true →
      (∀ r0 ∈ namespaces.Namespaces, r0.Active = true → r0.Namespace = r.Namespace →
        r0.AllowedIdentifierCountInReferenceGroup = r.AllowedIdentifierCountInReferenceGroup) →
      (r.AllowedIdentifierCountInReferenceGroup = -1 →
        (GetNamespaceAllowedIdentifierCountMap c app committedState).get? r.Namespace
          = some 0) ∧
      (r.AllowedIdentifierCountInReferenceGroup ≠ -1 →
        (GetNamespaceAllowedIdentifierCountMap c app committedState).get? r.Namespace
          = some r.AllowedIdentifierCountInReferenceGroup)) ∧
    (∀ name, (∀ r ∈ namespaces.Namespaces, r.Namespace = name → r.Active = false) →
      (GetNamespaceAllowedIdentifierCountMap c app committedState).get? name = none) := by
  rw [GetNamespaceAllowedIdentifierCountMap_eq c app committedState v namespaces hget hdec]
  constructor
  · intro r hr hact hagree
    have hfold := countMap_fold_agree namespaces.Namespaces r.Namespace
      (if r.AllowedIdentifierCountInReferenceGroup = -1 then 0
        else r.AllowedIdentifierCountInReferenceGroup)
      (fun r0 hr0 hact0 hname0 => by rw [hagree r0 hr0 hact0 hname0])
      GoMap.empty (Or.inl ⟨r, hr, hact, rfl⟩)
    constructor
    · intro hc
      rw [hfold, if_pos hc]
    · intro hc
      rw [hfold, if_neg hc]
  · intro name habsent
    rw [countMap_fold_absent namespaces.Namespaces name habsent, GoMap.get?_empty]

theorem namespace_count_map_sentinel_witness :
    demoServiceApp.state.Get allNamespaceKeyBytes true = some "bytes-namespaces" ∧
    demoCodec.unmarshalNamespaceList "bytes-namespaces" = .ok { Namespaces := demoNamespaces } ∧
    (GetNamespaceAllowedIdentifierCountMap demoCodec demoServiceApp true).get? "citizen_id"
      = some 0 ∧
    (GetNamespaceAllowedIdentifierCountMap demoCodec demoServiceApp true).get? "old_id"
      = none :=
  ⟨by decide, rfl,
    ((namespace_count_map_sentinel demoCodec demoServiceApp true "bytes-namespaces"
      { Namespaces := demoNamespaces } (by decide) rfl).1
      { Namespace := "citizen_id", Active := true, AllowedIdentifierCountInReferenceGroup := -1 }
      (by decide) rfl (by decide)).1 rfl,
    (namespace_count_map_sentinel demoCodec demoServiceApp true "bytes-namespaces"
      { Namespaces := demoNamespaces } (by decide) rfl).2 "old_id" (by decide)⟩

/-! ## Request detail -/

theorem validFlag_values :
    validFlag "" = none ∧ validFlag "true" = some true ∧ validFlag "false" = some false := by
  decide

theorem getRequestDetail_found (c : Codec) (app : ABCIApplication) (param : String)
    (height : Int) (committedState : Bool) (p : GetRequestParam) (v : String)
    (request : data.Request)
    (hp : c.unmarshalGetRequestParam param = .ok p)
    (hget : app.state.GetVersioned (requestKeyPrefix ++ keySeparator ++ p.RequestID) height
      committedState = some v)
    (hdec : c.unmarshalRequest v = .ok request) :
    ∃ result, getRequestDetail c app param height committedState =
        { Value := some (.json result), Log := "success", Height := app.state.Height } ∧
      result.Responses = appendEach responseRow request.ResponseList none ∧
      result.IdPIDList = orEmpty (ofRepeated request.IdpIdList) ∧
      result.DataRequestList =
        orEmpty (appendEach dataRequestRow request.DataRequestList none) := by
  unfold getRequestDetail
  simp only [hp, hget, hdec]
  exact ⟨_, rfl, rfl, rfl, rfl⟩

/-- C18: in `getRequestDetail`, the reported responses are the stored
responses in order, and for each of them the reported `ValidIal` is unset when
the stored string is empty, `true` when it is `"true"` and `false` when it is
`"false"`, and likewise for `ValidSignature`; the three reported states are
pairwise distinct. -/
theorem getRequestDetail_validity_tristate (c : Codec) (app : ABCIApplication)
    (param : String) (height : Int) (committedState : Bool) (p : GetRequestParam)
    (v : String) (request : data.Request)
    (hp : c.unmarshalGetRequestParam param = .ok p)
    (hget : app.state.GetVersioned (requestKeyPrefix ++ keySeparator ++ p.RequestID) height
      committedState = some v)
    (hdec : c.unmarshalRequest v = .ok request) :
    (∃ result, (getRequestDetail c app param height committedState).Value
        = some (.json result) ∧
      List.Forall₂ (fun (stored : data.Response) (row : Response) =>
          (stored.ValidIal = "" → row.ValidIal = none) ∧
          (stored.ValidIal = "true" → row.ValidIal = some true) ∧
          (stored.ValidIal = "false" → row.ValidIal = some false) ∧
          (stored.ValidSignature = "" → row.ValidSignature = none) ∧
          (stored.ValidSignature = "true" → row.ValidSignature = some true) ∧
          (stored.ValidSignature = "false" → row.ValidSignature = some false) ∧
          row.ValidIal = validFlag stored.ValidIal ∧
          row.ValidSignature = validFlag stored.ValidSignature)
        request.ResponseList (result.Responses.getD [])) ∧
    validFlag "" ≠ validFlag "true" ∧ validFlag "true" ≠ validFlag "false" ∧
    validFlag "" ≠ validFlag "false" := by
  refine ⟨?_, by decide, by decide, by decide⟩
  obtain ⟨result, hres, hresp, _⟩ :=
    getRequestDetail_found c app param height committedState p v request hp hget hdec
  refine ⟨result, by rw [hres], ?_⟩
  have hrows : result.Responses.getD [] = request.ResponseList.map responseRow := by
    rw [hresp, appendEach_none]
    cases request.ResponseList with
    | nil => rfl
    | cons x rest => rfl
  rw [hrows, List.forall₂_map_right_iff, List.forall₂_same]
  intro stored _
  refine ⟨?_, ?_, ?_, ?_, ?_, ?_, rfl, rfl⟩
  · intro h; simp [responseRow, validFlag, h]
  · intro h; simp [responseRow, validFlag, h]
  · intro h; simp [responseRow, validFlag, h]
  · intro h; simp [responseRow, validFlag, h]
  · intro h; simp [responseRow, validFlag, h]
  · intro h; simp [responseRow, validFlag, h]

theorem getRequestDetail_validity_tristate_witness :
    demoCodec.unmarshalGetRequestParam "request1" = .ok { RequestID := "request1" } ∧
    demoServiceApp.state.GetVersioned (requestKeyPrefix ++ keySeparator ++ "request1") 5 true
      = some "bytes-request1" ∧
    demoCodec.unmarshalRequest "bytes-request1" = .ok demoRequest ∧
    (∃ result, (getRequestDetail demoCodec demoServiceApp "request1" 5 true).Value
        = some (.json result) ∧
      (result.Responses.getD []).map (fun row => (row.ValidIal, row.ValidSignature)) =
        [(none, none), (some true, some true), (some false, some false)]) :=
  ⟨rfl, by decide, rfl, by
    obtain ⟨result, hvalue, hrows⟩ :=
      (getRequestDetail_validity_tristate demoCodec demoServiceApp "request1" 5 true
        { RequestID := "request1" } "bytes-request1" demoRequest rfl (by decide) rfl).1
    refine ⟨result, hvalue, ?_⟩
    generalize result.Responses.getD [] = rows at hrows
    simp only [demoRequest] at hrows
    cases hrows with
    | cons h1 t1 =>
      cases t1 with
      | cons h2 t2 =>
        cases t2 with
        | cons h3 t3 =>
          cases t3
          simp only [List.map_cons, List.map_nil]
          rw [h1.2.2.2.2.2.2.1, h1.2.2.2.2.2.2.2, h2.2.2.2.2.2.2.1, h2.2.2.2.2.2.2.2,
            h3.2.2.2.2.2.2.1, h3.2.2.2.2.2.2.2]
          rfl⟩

/-! ## The store after a write -/

theorem State.Get_Set (s : State) (key value k : String) :
    (s.Set key value).Get k false = if k = key then some value else s.Get k false := by
  unfold State.Set State.Get
  by_cases h : k = key
  · simp [h]
  · simp [h]

theorem State.Get_Set_committed (s : State) (key value k : String) :
    (s.Set key value).Get k true = s.Get k true := by
  simp [State.Set, State.Get]

theorem State.Set_Set (s : State) (key value : String) :
    (s.Set key value).Set key value = s.Set key value := by
  unfold State.Set
  congr 1
  funext k
  by_cases h : k = key
  · simp [h]
  · simp [h]

/-! ## `updateNode`, branch by branch -/

theorem patchNode_Role (p : UpdateNodeParam) (role : String) (nd : NodeDetail) :
    (patchNode p role nd).Role = nd.Role := by
  unfold patchNode
  cases p.SupportedRequestMessageDataUrlTypeList <;> simp only <;> split_ifs <;> rfl

theorem patchNode_idem (p : UpdateNodeParam) (role : String) (nd : NodeDetail) :
    patchNode p role (patchNode p role nd) = patchNode p role nd := by
  unfold patchNode
  cases p.SupportedRequestMessageDataUrlTypeList <;> simp only <;> split_ifs <;> rfl

theorem getRoleFromNodeID_of_record (c : Codec) (app : ABCIApplication) (nodeID v : String)
    (nd : NodeDetail)
    (hget : app.state.Get (nodeIDKeyPrefix ++ keySeparator ++ nodeID) false = some v)
    (hdec : c.unmarshalNodeDetail v = .ok nd) :
    app.getRoleFromNodeID c nodeID = nd.Role := by
  unfold ABCIApplication.getRoleFromNodeID
  simp only [hget, hdec]

theorem updateNode_of_record (c : Codec) (app : ABCIApplication) (param nodeID v : String)
    (p : UpdateNodeParam) (nd : NodeDetail)
    (hp : c.unmarshalUpdateNodeParam param = .ok p)
    (hget : app.state.Get (nodeIDKeyPrefix ++ keySeparator ++ nodeID) false = some v)
    (hdec : c.unmarshalNodeDetail v = .ok nd) :
    updateNode c app param nodeID =
      match c.marshalNodeDetail (patchNode p nd.Role nd) with
      | .error err => ({ Code := code.MarshalError, Log := err, Data := "" }, app)
      | .ok bytes =>
        ({ Code := code.OK, Log := "success", Data := "" },
          { app with state := app.state.Set (nodeIDKeyPrefix ++ keySeparator ++ nodeID) bytes }) := by
  unfold updateNode
  simp only [hp, hget, hdec, getRoleFromNodeID_of_record c app nodeID v nd hget hdec]
  rfl

/-- C20: for every node ID that has no stored `NodeDetail` record and every
decodable patch, `updateNode` returns the code `NodeIDNotFound` and leaves the
store as it was. -/
theorem updateNode_unknown_node (c : Codec) (app : ABCIApplication) (param nodeID : String)
    (p : UpdateNodeParam)
    (hp : c.unmarshalUpdateNodeParam param = .ok p)
    (hnone : app.state.Get (nodeIDKeyPrefix ++ keySeparator ++ nodeID) false = none) :
    updateNode c app param nodeID =
      ({ Code := code.NodeIDNotFound, Log := "Node ID not found", Data := "" }, app) := by
  unfold updateNode
  simp only [hp, hnone]
  rfl

theorem updateNode_unknown_node_witness :
    demoCodec.unmarshalUpdateNodeParam "new key" =
      .ok { MasterPublicKey := "", PublicKey := "pk-idp1-new",
            SupportedRequestMessageDataUrlTypeList := none } ∧
    demoApp.state.Get (nodeIDKeyPrefix ++ keySeparator ++ "idp9") false = none ∧
    updateNode demoCodec demoApp "new key" "idp9" =
      ({ Code := code.NodeIDNotFound, Log := "Node ID not found", Data := "" }, demoApp) :=
  ⟨rfl, by decide,
    updateNode_unknown_node demoCodec demoApp "new key" "idp9"
      { MasterPublicKey := "", PublicKey := "pk-idp1-new",
        SupportedRequestMessageDataUrlTypeList := none } rfl (by decide)⟩

/-- C19: for every state, node ID and patch, applying `updateNode` a second
time with the same patch returns the same code as the first time and leaves
the store, and so the stored node record, as the first application left it.
The encoder and the decoder of node records are taken to be inverse: what
`updateNode` writes decodes to the record it encoded. -/
theorem updateNode_idempotent (c : Codec) (app : ABCIApplication) (param nodeID : String)
    (hrt : ∀ nd bytes, c.marshalNodeDetail nd = .ok bytes →
      c.unmarshalNodeDetail bytes = .ok nd) :
    updateNode c (updateNode c app param nodeID).2 param nodeID =
      updateNode c app param nodeID := by
  cases hp : c.unmarshalUpdateNodeParam param with
  | error err =>
    have h1 : updateNode c app param nodeID =
        ({ Code := code.UnmarshalError, Log := err, Data := "" }, app) := by
      unfold updateNode; simp only [hp]; rfl
    rw [h1, h1]
  | ok p =>
    cases hget : app.state.Get (nodeIDKeyPrefix ++ keySeparator ++ nodeID) false with
    | none =>
      have h1 : updateNode c app param nodeID =
          ({ Code := code.NodeIDNotFound, Log := "Node ID not found", Data := "" }, app) := by
        unfold updateNode; simp only [hp, hget]; rfl
      rw [h1, h1]
    | some v =>
      cases hdec : c.unmarshalNodeDetail v with
      | error err =>
        have h1 : updateNode c app param nodeID =
            ({ Code := code.UnmarshalError, Log := err, Data := "" }, app) := by
          unfold updateNode; simp only [hp, hget, hdec]; rfl
        rw [h1, h1]
      | ok nd =>
        have h1 := updateNode_of_record c app param nodeID v p nd hp hget hdec
        cases hmar : c.marshalNodeDetail (patchNode p nd.Role nd) with
        | error err =>
          rw [hmar] at h1
          rw [h1, h1]
        | ok bytes =>
          rw [hmar] at h1
          rw [h1]
          have hget2 : (app.state.Set (nodeIDKeyPrefix ++ keySeparator ++ nodeID) bytes).Get
              (nodeIDKeyPrefix ++ keySeparator ++ nodeID) false = some bytes := by
            simp [State.Get_Set]
          have h2 := updateNode_of_record c
            { app with state := app.state.Set (nodeIDKeyPrefix ++ keySeparator ++ nodeID) bytes }
            param nodeID bytes p _ hp hget2 (hrt _ _ hmar)
          rw [patchNode_Role, patchNode_idem, hmar] at h2
          rw [h2]
          simp only [State.Set_Set]

theorem demoCodec_round_trip (nd : NodeDetail) (bytes : String)
    (h : demoCodec.marshalNodeDetail nd = .ok bytes) :
    demoCodec.unmarshalNodeDetail bytes = .ok nd := by
  unfold demoCodec at h
  simp only at h
  by_cases h1 : nd = demoIdp1
  · rw [if_pos h1] at h; cases h; rw [h1]; rfl
  rw [if_neg h1] at h
  by_cases h2 : nd = demoIdp2
  · rw [if_pos h2] at h; cases h; rw [h2]; rfl
  rw [if_neg h2] at h
  by_cases h3 : nd = demoIdp3
  · rw [if_pos h3] at h; cases h; rw [h3]; rfl
  rw [if_neg h3] at h
  by_cases h4 : nd = demoRp1
  · rw [if_pos h4] at h; cases h; rw [h4]; rfl
  rw [if_neg h4] at h
  by_cases h5 : nd = demoProxy1
  · rw [if_pos h5] at h; cases h; rw [h5]; rfl
  rw [if_neg h5] at h
  by_cases h6 : nd = demoAs1
  · rw [if_pos h6] at h; cases h; rw [h6]; rfl
  rw [if_neg h6] at h
  by_cases h7 : nd = demoAs2
  · rw [if_pos h7] at h; cases h; rw [h7]; rfl
  rw [if_neg h7] at h
  by_cases h8 : nd = demoIdp1NewKey
  · rw [if_pos h8] at h; cases h; rw [h8]; rfl
  rw [if_neg h8] at h
  by_cases h9 : nd = demoIdp1NewMq
  · rw [if_pos h9] at h; cases h; rw [h9]; rfl
  rw [if_neg h9] at h
  by_cases h10 : nd = demoRp2
  · rw [if_pos h10] at h; cases h; rw [h10]; rfl
  rw [if_neg h10] at h
  by_cases h11 : nd = demoMqOnly
  · rw [if_pos h11] at h; cases h; rw [h11]; rfl
  rw [if_neg h11] at h
  by_cases h12 : nd = zeroNodeDetail
  · rw [if_pos h12] at h; cases h; rw [h12]; rfl
  rw [if_neg h12] at h
  cases h

theorem updateNode_idempotent_witness :
    (∀ nd bytes, demoCodec.marshalNodeDetail nd = .ok bytes →
      demoCodec.unmarshalNodeDetail bytes = .ok nd) ∧
    (updateNode demoCodec demoApp "new key" "idp1").1 =
      { Code := code.OK, Log := "success", Data := "" } ∧
    (updateNode demoCodec demoApp "new key" "idp1").2.state.Get
      (nodeIDKeyPrefix ++ keySeparator ++ "idp1") false = some "bytes-idp1-new" ∧
    updateNode demoCodec (updateNode demoCodec demoApp "new key" "idp1").2 "new key" "idp1" =
      updateNode demoCodec demoApp "new key" "idp1" :=
  ⟨demoCodec_round_trip, by decide, by decide,
    updateNode_idempotent demoCodec demoApp "new key" "idp1" demoCodec_round_trip⟩

/-! ## The two mutations, branch by branch -/

theorem rangeAppend_some (α β : Type) (f : α → β) (l : List α) :
    rangeAppend (fun a => some (f a)) l [] = l.map f := by
  rw [rangeAppend_eq]
  induction l with
  | nil => rfl
  | cons a rest ih =>
    simp only [List.nil_append] at ih
    simp [List.filterMap_cons, ih]

theorem State.Get_Set_of_ne (s : State) (key value k : String) (committed : Bool)
    (h : k ≠ key) : (s.Set key value).Get k committed = s.Get k committed := by
  cases committed with
  | true => exact State.Get_Set_committed s key value k
  | false => rw [State.Get_Set, if_neg h]

theorem State.Get_Set_self (s : State) (key value : String) :
    (s.Set key value).Get key false = some value := by
  rw [State.Get_Set, if_pos rfl]

theorem patchNode_fields (p : UpdateNodeParam) (role : String) (nd : NodeDetail) :
    (patchNode p role nd).MasterPublicKey =
      (if p.MasterPublicKey ≠ "" then p.MasterPublicKey else nd.MasterPublicKey) ∧
    (patchNode p role nd).PublicKey =
      (if p.PublicKey ≠ "" then p.PublicKey else nd.PublicKey) ∧
    (patchNode p role nd).SupportedRequestMessageDataUrlTypeList =
      (match p.SupportedRequestMessageDataUrlTypeList with
       | some typeList =>
         if role = "IdP" then typeList else nd.SupportedRequestMessageDataUrlTypeList
       | none => nd.SupportedRequestMessageDataUrlTypeList) ∧
    (patchNode p role nd).Role = nd.Role ∧ (patchNode p role nd).Active = nd.Active ∧
    (patchNode p role nd).NodeName = nd.NodeName ∧ (patchNode p role nd).Mq = nd.Mq ∧
    (patchNode p role nd).MaxIal = nd.MaxIal ∧ (patchNode p role nd).MaxAal = nd.MaxAal ∧
    (patchNode p role nd).ProxyNodeId = nd.ProxyNodeId ∧
    (patchNode p role nd).ProxyConfig = nd.ProxyConfig := by
  unfold patchNode
  cases p.SupportedRequestMessageDataUrlTypeList <;> simp only <;> split_ifs <;>
    exact ⟨rfl, rfl, rfl, rfl, rfl, rfl, rfl, rfl, rfl, rfl, rfl⟩

theorem setMqAddresses_of_decoded (c : Codec) (app : ABCIApplication) (param nodeID : String)
    (p : SetMqAddressesParam) (nd : NodeDetail)
    (hp : c.unmarshalSetMqAddressesParam param = .ok p)
    (hdec : c.unmarshalNodeDetail
      (bytesOf (app.state.Get (nodeIDKeyPrefix ++ keySeparator ++ nodeID) false)) = .ok nd) :
    setMqAddresses c app param nodeID =
      match c.marshalNodeDetail { nd with Mq := p.Addresses.map toMQ } with
      | .error err => ({ Code := code.MarshalError, Log := err, Data := "" }, app)
      | .ok bytes =>
        ({ Code := code.OK, Log := "success", Data := "" },
          { app with state := app.state.Set (nodeIDKeyPrefix ++ keySeparator ++ nodeID) bytes }) := by
  unfold setMqAddresses
  simp only [hp, hdec, rangeAppend_some]
  rfl

theorem setMqAddresses_of_undecoded (c : Codec) (app : ABCIApplication)
    (param nodeID err : String) (p : SetMqAddressesParam)
    (hp : c.unmarshalSetMqAddressesParam param = .ok p)
    (hdec : c.unmarshalNodeDetail
      (bytesOf (app.state.Get (nodeIDKeyPrefix ++ keySeparator ++ nodeID) false)) = .error err) :
    setMqAddresses c app param nodeID =
      ({ Code := code.UnmarshalError, Log := err, Data := "" }, app) := by
  unfold setMqAddresses
  simp only [hp, hdec]
  rfl

theorem updateNode_code_ok (c : Codec) (app : ABCIApplication) (param nodeID : String)
    (hok : (updateNode c app param nodeID).1.Code = code.OK) :
    ∃ p v nd bytes, c.unmarshalUpdateNodeParam param = .ok p ∧
      app.state.Get (nodeIDKeyPrefix ++ keySeparator ++ nodeID) false = some v ∧
      c.unmarshalNodeDetail v = .ok nd ∧
      c.marshalNodeDetail (patchNode p nd.Role nd) = .ok bytes ∧
      updateNode c app param nodeID =
        ({ Code := code.OK, Log := "success", Data := "" },
          { app with state :=
              app.state.Set (nodeIDKeyPrefix ++ keySeparator ++ nodeID) bytes }) := by
  cases hp : c.unmarshalUpdateNodeParam param with
  | error err =>
    have h1 : updateNode c app param nodeID =
        ({ Code := code.UnmarshalError, Log := err, Data := "" }, app) := by
      unfold updateNode; simp only [hp]; rfl
    rw [h1] at hok; cases hok
  | ok p =>
    cases hget : app.state.Get (nodeIDKeyPrefix ++ keySeparator ++ nodeID) false with
    | none =>
      have h1 : updateNode c app param nodeID =
          ({ Code := code.NodeIDNotFound, Log := "Node ID not found", Data := "" }, app) := by
        unfold updateNode; simp only [hp, hget]; rfl
      rw [h1] at hok; cases hok
    | some v =>
      cases hdec : c.unmarshalNodeDetail v with
      | error err =>
        have h1 : updateNode c app param nodeID =
            ({ Code := code.UnmarshalError, Log := err, Data := "" }, app) := by
          unfold updateNode; simp only [hp, hget, hdec]; rfl
        rw [h1] at hok; cases hok
      | ok nd =>
        have h1 := updateNode_of_record c app param nodeID v p nd hp hget hdec
        cases hmar : c.marshalNodeDetail (patchNode p nd.Role nd) with
        | error err =>
          rw [hmar] at h1
          rw [h1] at hok; cases hok
        | ok bytes =>
          rw [hmar] at h1
          exact ⟨p, v, nd, bytes, rfl, rfl, hdec, hmar, h1⟩

theorem setMqAddresses_code_ok (c : Codec) (app : ABCIApplication) (param nodeID : String)
    (hok : (setMqAddresses c app param nodeID).1.Code = code.OK) :
    ∃ p nd bytes, c.unmarshalSetMqAddressesParam param = .ok p ∧
      c.unmarshalNodeDetail
        (bytesOf (app.state.Get (nodeIDKeyPrefix ++ keySeparator ++ nodeID) false)) = .ok nd ∧
      c.marshalNodeDetail { nd with Mq := p.Addresses.map toMQ } = .ok bytes ∧
      setMqAddresses c app param nodeID =
        ({ Code := code.OK, Log := "success", Data := "" },
          { app with state :=
              app.state.Set (nodeIDKeyPrefix ++ keySeparator ++ nodeID) bytes }) := by
  cases hp : c.unmarshalSetMqAddressesParam param with
  | error err =>
    have h1 : setMqAddresses c app param nodeID =
        ({ Code := code.UnmarshalError, Log := err, Data := "" }, app) := by
      unfold setMqAddresses; simp only [hp]; rfl
    rw [h1] at hok; cases hok
  | ok p =>
    cases hdec : c.unmarshalNodeDetail
        (bytesOf (app.state.Get (nodeIDKeyPrefix ++ keySeparator ++ nodeID) false)) with
    | error err =>
      rw [setMqAddresses_of_undecoded c app param nodeID err p hp hdec] at hok
      cases hok
    | ok nd =>
      have h1 := setMqAddresses_of_decoded c app param nodeID p nd hp hdec
      cases hmar : c.marshalNodeDetail { nd with Mq := p.Addresses.map toMQ } with
      | error err =>
        rw [hmar] at h1
        rw [h1] at hok; cases hok
      | ok bytes =>
        rw [hmar] at h1
        exact ⟨p, nd, bytes, rfl, rfl, hmar, h1⟩

theorem updateNode_failure (c : Codec) (app : ABCIApplication) (param nodeID : String)
    (hne : (updateNode c app param nodeID).1.Code ≠ code.OK) :
    (updateNode c app param nodeID).2 = app := by
  cases hp : c.unmarshalUpdateNodeParam param with
  | error err =>
    have h1 : updateNode c app param nodeID =
        ({ Code := code.UnmarshalError, Log := err, Data := "" }, app) := by
      unfold updateNode; simp only [hp]; rfl
    rw [h1]
  | ok p =>
    cases hget : app.state.Get (nodeIDKeyPrefix ++ keySeparator ++ nodeID) false with
    | none =>
      have h1 : updateNode c app param nodeID =
          ({ Code := code.NodeIDNotFound, Log := "Node ID not found", Data := "" }, app) := by
        unfold updateNode; simp only [hp, hget]; rfl
      rw [h1]
    | some v =>
      cases hdec : c.unmarshalNodeDetail v with
      | error err =>
        have h1 : updateNode c app param nodeID =
            ({ Code := code.UnmarshalError, Log := err, Data := "" }, app) := by
          unfold updateNode; simp only [hp, hget, hdec]; rfl
        rw [h1]
      | ok nd =>
        have h1 := updateNode_of_record c app param nodeID v p nd hp hget hdec
        cases hmar : c.marshalNodeDetail (patchNode p nd.Role nd) with
        | error err =>
          rw [hmar] at h1
          rw [h1]
        | ok bytes =>
          rw [hmar] at h1
          rw [h1] at hne
          exact absurd rfl hne

theorem setMqAddresses_failure (c : Codec) (app : ABCIApplication) (param nodeID : String)
    (hne : (setMqAddresses c app param nodeID).1.Code ≠ code.OK) :
    (setMqAddresses c app param nodeID).2 = app := by
  cases hp : c.unmarshalSetMqAddressesParam param with
  | error err =>
    have h1 : setMqAddresses c app param nodeID =
        ({ Code := code.UnmarshalError, Log := err, Data := "" }, app) := by
      unfold setMqAddresses; simp only [hp]; rfl
    rw [h1]
  | ok p =>
    cases hdec : c.unmarshalNodeDetail
        (bytesOf (app.state.Get (nodeIDKeyPrefix ++ keySeparator ++ nodeID) false)) with
    | error err =>
      rw [setMqAddresses_of_undecoded c app param nodeID err p hp hdec]
    | ok nd =>
      have h1 := setMqAddresses_of_decoded c app param nodeID p nd hp hdec
      cases hmar : c.marshalNodeDetail { nd with Mq := p.Addresses.map toMQ } with
      | error err =>
        rw [hmar] at h1
        rw [h1]
      | ok bytes =>
        rw [hmar] at h1
        rw [h1] at hne
        exact absurd rfl hne

/-! ## The claims on the two mutations -/

/-- C21: for every existing node and patch, after a successful `updateNode`
the record written under the node's key is the encoding of a record whose
master public key is the patch's when that is non-empty and the stored one
otherwise, likewise for the public key, whose supported data-URL type list is
the patch's when the patch supplies one and the node's role is `IdP` and the
stored one otherwise, and whose other fields (role, active flag, name,
messaging addresses, maximum IAL and AAL, proxy fields) are the stored ones;
with a decoder that inverts the encoder this record is what the written bytes
decode to. Every other key of the store reads as before, and nothing is
committed. -/
theorem updateNode_overwrites_only_patched_fields (c : Codec) (app : ABCIApplication)
    (param nodeID v : String) (p : UpdateNodeParam) (nd : NodeDetail)
    (hp : c.unmarshalUpdateNodeParam param = .ok p)
    (hget : app.state.Get (nodeIDKeyPrefix ++ keySeparator ++ nodeID) false = some v)
    (hdec : c.unmarshalNodeDetail v = .ok nd)
    (hok : (updateNode c app param nodeID).1.Code = code.OK) :
    ∃ nd' bytes, c.marshalNodeDetail nd' = .ok bytes ∧
      (updateNode c app param nodeID).2.state =
        app.state.Set (nodeIDKeyPrefix ++ keySeparator ++ nodeID) bytes ∧
      (updateNode c app param nodeID).2.state.Get
        (nodeIDKeyPrefix ++ keySeparator ++ nodeID) false = some bytes ∧
      ((∀ r b, c.marshalNodeDetail r = .ok b → c.unmarshalNodeDetail b = .ok r) →
        c.unmarshalNodeDetail bytes = .ok nd') ∧
      nd'.MasterPublicKey =
        (if p.MasterPublicKey ≠ "" then p.MasterPublicKey else nd.MasterPublicKey) ∧
      nd'.PublicKey = (if p.PublicKey ≠ "" then p.PublicKey else nd.PublicKey) ∧
      nd'.SupportedRequestMessageDataUrlTypeList =
        (match p.SupportedRequestMessageDataUrlTypeList with
         | some typeList =>
           if nd.Role = "IdP" then typeList else nd.SupportedRequestMessageDataUrlTypeList
         | none => nd.SupportedRequestMessageDataUrlTypeList) ∧
      nd'.Role = nd.Role ∧ nd'.Active = nd.Active ∧ nd'.NodeName = nd.NodeName ∧
      nd'.Mq = nd.Mq ∧ nd'.MaxIal = nd.MaxIal ∧ nd'.MaxAal = nd.MaxAal ∧
      nd'.ProxyNodeId = nd.ProxyNodeId ∧ nd'.ProxyConfig = nd.ProxyConfig ∧
      (∀ k committed, k ≠ nodeIDKeyPrefix ++ keySeparator ++ nodeID →
        (updateNode c app param nodeID).2.state.Get k committed = app.state.Get k committed) ∧
      (∀ k, (updateNode c app param nodeID).2.state.Get k true = app.state.Get k true) := by
  obtain ⟨p0, v0, nd0, bytes, hp0, hget0, hdec0, hmar, heq⟩ :=
    updateNode_code_ok c app param nodeID hok
  rw [hp] at hp0; cases hp0
  rw [hget] at hget0; cases hget0
  rw [hdec] at hdec0; cases hdec0
  obtain ⟨f1, f2, f3, f4, f5, f6, f7, f8, f9, f10, f11⟩ := patchNode_fields p nd.Role nd
  rw [heq]
  exact ⟨patchNode p nd.Role nd, bytes, hmar, rfl, State.Get_Set_self _ _ _,
    fun hrt => hrt _ _ hmar, f1, f2, f3, f4, f5, f6, f7, f8, f9, f10, f11,
    fun k committed hk => State.Get_Set_of_ne _ _ _ k committed hk,
    fun k => State.Get_Set_committed _ _ _ k⟩

theorem updateNode_overwrites_only_patched_fields_witness :
    demoCodec.unmarshalUpdateNodeParam "new key" =
      .ok { MasterPublicKey := "", PublicKey := "pk-idp1-new",
            SupportedRequestMessageDataUrlTypeList := none } ∧
    demoApp.state.Get (nodeIDKeyPrefix ++ keySeparator ++ "idp1") false = some "bytes-idp1" ∧
    demoCodec.unmarshalNodeDetail "bytes-idp1" = .ok demoIdp1 ∧
    (updateNode demoCodec demoApp "new key" "idp1").1.Code = code.OK ∧
    ∃ nd' bytes, demoCodec.marshalNodeDetail nd' = .ok bytes ∧
      (updateNode demoCodec demoApp "new key" "idp1").2.state.Get
        (nodeIDKeyPrefix ++ keySeparator ++ "idp1") false = some bytes ∧
      nd'.PublicKey = "pk-idp1-new" ∧ nd'.MasterPublicKey = "mpk-idp1" ∧ nd'.Role = "IdP" := by
  refine ⟨rfl, by decide, rfl, by decide, ?_⟩
  obtain ⟨nd', bytes, hmar, _, hnew, _, hmpk, hpk, _, hrole, _⟩ :=
    updateNode_overwrites_only_patched_fields demoCodec demoApp "new key" "idp1" "bytes-idp1"
      { MasterPublicKey := "", PublicKey := "pk-idp1-new",
        SupportedRequestMessageDataUrlTypeList := none } demoIdp1 rfl (by decide) rfl
      (by decide)
  exact ⟨nd', bytes, hmar, hnew, by rw [hpk]; rfl, by rw [hmpk]; rfl, by rw [hrole]; rfl⟩

/-- C22 as stated fails: on the small ledger `rp1` has a record with the role
`RP`; `updateNode` called for `rp1` with a patch that holds a supported
data-URL type list returns the code `OK`. -/
theorem updateNode_accepts_types_for_rp :
    demoCodec.unmarshalUpdateNodeParam "types only" =
      .ok { MasterPublicKey := "", PublicKey := "",
            SupportedRequestMessageDataUrlTypeList := some ["text/plain"] } ∧
    demoApp.state.Get (nodeIDKeyPrefix ++ keySeparator ++ "rp1") false = some "bytes-rp1" ∧
    demoCodec.unmarshalNodeDetail "bytes-rp1" = .ok demoRp1 ∧
    demoRp1.Role = "RP" ∧
    (updateNode demoCodec demoApp "types only" "rp1").1 =
      { Code := code.OK, Log := "success", Data := "" } :=
  ⟨rfl, by decide, rfl, rfl, by decide⟩

/-- C22, amended: `updateNode` called with a supported data-URL type list in
the patch for an existing node whose role is not `IdP` does not fail for that
reason: it leaves the list out of the update. The record it encodes has the
stored type list and the keys as patched; the result is the code `OK` with the
encoded record written when the encoding succeeds, and the code
`MarshalError` with the store as it was when it does not. -/
theorem updateNode_ignores_types_for_other_roles (c : Codec) (app : ABCIApplication)
    (param nodeID v : String) (p : UpdateNodeParam) (nd : NodeDetail)
    (typeList : List String)
    (hp : c.unmarshalUpdateNodeParam param = .ok p)
    (hlist : p.SupportedRequestMessageDataUrlTypeList = some typeList)
    (hget : app.state.Get (nodeIDKeyPrefix ++ keySeparator ++ nodeID) false = some v)
    (hdec : c.unmarshalNodeDetail v = .ok nd)
    (hrole : nd.Role ≠ "IdP") :
    (patchNode p nd.Role nd).SupportedRequestMessageDataUrlTypeList =
      nd.SupportedRequestMessageDataUrlTypeList ∧
    patchNode p nd.Role nd =
      patchNode { p with SupportedRequestMessageDataUrlTypeList := none } nd.Role nd ∧
    (∀ bytes, c.marshalNodeDetail (patchNode p nd.Role nd) = .ok bytes →
      updateNode c app param nodeID =
        ({ Code := code.OK, Log := "success", Data := "" },
          { app with state :=
              app.state.Set (nodeIDKeyPrefix ++ keySeparator ++ nodeID) bytes })) ∧
    (∀ err, c.marshalNodeDetail (patchNode p nd.Role nd) = .error err →
      updateNode c app param nodeID =
        ({ Code := code.MarshalError, Log := err, Data := "" }, app)) := by
  have h1 := updateNode_of_record c app param nodeID v p nd hp hget hdec
  refine ⟨?_, ?_, ?_, ?_⟩
  · rw [(patchNode_fields p nd.Role nd).2.2.1, hlist]
    simp only [if_neg hrole]
  · unfold patchNode
    simp only [hlist, if_neg hrole]
  · intro bytes hmar
    rw [hmar] at h1
    exact h1
  · intro err hmar
    rw [hmar] at h1
    exact h1

theorem updateNode_ignores_types_for_other_roles_witness :
    demoCodec.unmarshalUpdateNodeParam "types only" =
      .ok { MasterPublicKey := "", PublicKey := "",
            SupportedRequestMessageDataUrlTypeList := some ["text/plain"] } ∧
    demoApp.state.Get (nodeIDKeyPrefix ++ keySeparator ++ "rp1") false = some "bytes-rp1" ∧
    demoCodec.unmarshalNodeDetail "bytes-rp1" = .ok demoRp1 ∧ demoRp1.Role ≠ "IdP" ∧
    (patchNode { MasterPublicKey := "", PublicKey := "",
                 SupportedRequestMessageDataUrlTypeList := some ["text/plain"] }
      demoRp1.Role demoRp1).SupportedRequestMessageDataUrlTypeList =
      demoRp1.SupportedRequestMessageDataUrlTypeList :=
  ⟨rfl, by decide, rfl, by decide,
    (updateNode_ignores_types_for_other_roles demoCodec demoApp "types only" "rp1" "bytes-rp1"
      { MasterPublicKey := "", PublicKey := "",
        SupportedRequestMessageDataUrlTypeList := some ["text/plain"] } demoRp1 ["text/plain"]
      rfl rfl (by decide) rfl (by decide)).1⟩

/-- C23: for every existing node and address list, after a successful
`setMqAddresses` the record written under the node's key is the encoding of
the stored record with its address list replaced by the supplied list, pair
by pair and in order, and with every other field as stored; with a decoder
that inverts the encoder this record is what the written bytes decode to.
Every other key of the store reads as before, and nothing is committed. -/
theorem setMqAddresses_replaces_address_list (c : Codec) (app : ABCIApplication)
    (param nodeID v : String) (p : SetMqAddressesParam) (nd : NodeDetail)
    (hp : c.unmarshalSetMqAddressesParam param = .ok p)
    (hget : app.state.Get (nodeIDKeyPrefix ++ keySeparator ++ nodeID) false = some v)
    (hdec : c.unmarshalNodeDetail v = .ok nd)
    (hok : (setMqAddresses c app param nodeID).1.Code = code.OK) :
    ∃ bytes,
      c.marshalNodeDetail
        { nd with Mq := p.Addresses.map (fun a => { Ip := a.IP, Port := a.Port }) } = .ok bytes ∧
      (setMqAddresses c app param nodeID).2.state =
        app.state.Set (nodeIDKeyPrefix ++ keySeparator ++ nodeID) bytes ∧
      (setMqAddresses c app param nodeID).2.state.Get
        (nodeIDKeyPrefix ++ keySeparator ++ nodeID) false = some bytes ∧
      ((∀ r b, c.marshalNodeDetail r = .ok b → c.unmarshalNodeDetail b = .ok r) →
        c.unmarshalNodeDetail bytes =
          .ok { nd with Mq := p.Addresses.map (fun a => { Ip := a.IP, Port := a.Port }) }) ∧
      (∀ k committed, k ≠ nodeIDKeyPrefix ++ keySeparator ++ nodeID →
        (setMqAddresses c app param nodeID).2.state.Get k committed =
          app.state.Get k committed) ∧
      (∀ k, (setMqAddresses c app param nodeID).2.state.Get k true = app.state.Get k true) := by
  obtain ⟨p0, nd0, bytes, hp0, hdec0, hmar, heq⟩ :=
    setMqAddresses_code_ok c app param nodeID hok
  rw [hp] at hp0; cases hp0
  rw [hget] at hdec0
  change c.unmarshalNodeDetail v = .ok nd0 at hdec0
  rw [hdec] at hdec0; cases hdec0
  rw [heq]
  exact ⟨bytes, hmar, rfl, State.Get_Set_self _ _ _, fun hrt => hrt _ _ hmar,
    fun k committed hk => State.Get_Set_of_ne _ _ _ k committed hk,
    fun k => State.Get_Set_committed _ _ _ k⟩

theorem setMqAddresses_replaces_address_list_witness :
    demoCodec.unmarshalSetMqAddressesParam "one address" =
      .ok { Addresses := [{ IP := "10.9.9.9", Port := 1234 }] } ∧
    demoApp.state.Get (nodeIDKeyPrefix ++ keySeparator ++ "idp1") false = some "bytes-idp1" ∧
    demoCodec.unmarshalNodeDetail "bytes-idp1" = .ok demoIdp1 ∧
    demoIdp1.Mq = [{ Ip := "10.0.0.1", Port := 5555 }] ∧
    (setMqAddresses demoCodec demoApp "one address" "idp1").1.Code = code.OK ∧
    ∃ bytes,
      demoCodec.marshalNodeDetail
        { demoIdp1 with Mq := [{ Ip := "10.9.9.9", Port := 1234 }] } = .ok bytes ∧
      (setMqAddresses demoCodec demoApp "one address" "idp1").2.state.Get
        (nodeIDKeyPrefix ++ keySeparator ++ "idp1") false = some bytes := by
  refine ⟨rfl, by decide, rfl, rfl, by decide, ?_⟩
  obtain ⟨bytes, hmar, _, hnew, _⟩ :=
    setMqAddresses_replaces_address_list demoCodec demoApp "one address" "idp1" "bytes-idp1"
      { Addresses := [{ IP := "10.9.9.9", Port := 1234 }] } demoIdp1 rfl (by decide) rfl
      (by decide)
  exact ⟨bytes, hmar, hnew⟩

/-- What `setMqAddresses` does for a node ID with no stored record: the nil
value is handed to the decoder as the input of length zero. When the decoder
rejects that input the result is the code `UnmarshalError` and the store is
as it was; when the decoder accepts it, the record it yields is given the
supplied addresses, encoded and written under the node's key, and the result
is the code `OK`. -/
theorem setMqAddresses_unknown_node (c : Codec) (app : ABCIApplication)
    (param nodeID : String) (p : SetMqAddressesParam)
    (hp : c.unmarshalSetMqAddressesParam param = .ok p)
    (hnone : app.state.Get (nodeIDKeyPrefix ++ keySeparator ++ nodeID) false = none) :
    (∀ err, c.unmarshalNodeDetail "" = .error err →
      setMqAddresses c app param nodeID =
        ({ Code := code.UnmarshalError, Log := err, Data := "" }, app)) ∧
    (∀ nd bytes, c.unmarshalNodeDetail "" = .ok nd →
      c.marshalNodeDetail { nd with Mq := p.Addresses.map toMQ } = .ok bytes →
      setMqAddresses c app param nodeID =
        ({ Code := code.OK, Log := "success", Data := "" },
          { app with state :=
              app.state.Set (nodeIDKeyPrefix ++ keySeparator ++ nodeID) bytes })) := by
  constructor
  · intro err hdec
    exact setMqAddresses_of_undecoded c app param nodeID err p hp (by rw [hnone]; exact hdec)
  · intro nd bytes hdec hmar
    have h1 := setMqAddresses_of_decoded c app param nodeID p nd hp (by rw [hnone]; exact hdec)
    rw [hmar] at h1
    exact h1

/-- C24 as stated fails on a proto3 decoder: on the small ledger the node ID
`ghost` has no record, the decoder makes the zero record of the input of
length zero, and `setMqAddresses` for `ghost` with one address returns the
code `OK` and writes, under the key of `ghost`, a record that holds the
address and nothing else. -/
theorem setMqAddresses_creates_record_for_unknown_node :
    demoCodec.unmarshalSetMqAddressesParam "one address" =
      .ok { Addresses := [{ IP := "10.9.9.9", Port := 1234 }] } ∧
    demoApp.state.Get (nodeIDKeyPrefix ++ keySeparator ++ "ghost") false = none ∧
    demoCodec.unmarshalNodeDetail (bytesOf none) = .ok zeroNodeDetail ∧
    (setMqAddresses demoCodec demoApp "one address" "ghost").1 =
      { Code := code.OK, Log := "success", Data := "" } ∧
    (setMqAddresses demoCodec demoApp "one address" "ghost").2.state.Get
      (nodeIDKeyPrefix ++ keySeparator ++ "ghost") false = some "bytes-mq-only" ∧
    demoCodec.unmarshalNodeDetail "bytes-mq-only" =
      .ok { zeroNodeDetail with Mq := [{ Ip := "10.9.9.9", Port := 1234 }] } :=
  ⟨rfl, by decide, rfl, by decide, by decide, rfl⟩

/-- C25: for `updateNode` and `setMqAddresses`, on every input for which the
returned code is not `OK` the application, and with it the store, is the one
before the call; and on every input for which the code is `OK` the store
differs from the one before the call by the one write of the encoded record
under the node's key, made after the patch and the stored record were decoded
and the new record was encoded. -/
theorem mutations_write_only_on_success (c : Codec) (app : ABCIApplication)
    (param nodeID : String) :
    ((updateNode c app param nodeID).1.Code ≠ code.OK →
      (updateNode c app param nodeID).2 = app) ∧
    ((setMqAddresses c app param nodeID).1.Code ≠ code.OK →
      (setMqAddresses c app param nodeID).2 = app) ∧
    ((updateNode c app param nodeID).1.Code = code.OK →
      ∃ p v nd bytes, c.unmarshalUpdateNodeParam param = .ok p ∧
        app.state.Get (nodeIDKeyPrefix ++ keySeparator ++ nodeID) false = some v ∧
        c.unmarshalNodeDetail v = .ok nd ∧
        c.marshalNodeDetail (patchNode p nd.Role nd) = .ok bytes ∧
        (updateNode c app param nodeID).2.state =
          app.state.Set (nodeIDKeyPrefix ++ keySeparator ++ nodeID) bytes) ∧
    ((setMqAddresses c app param nodeID).1.Code = code.OK →
      ∃ p nd bytes, c.unmarshalSetMqAddressesParam param = .ok p ∧
        c.unmarshalNodeDetail
          (bytesOf (app.state.Get (nodeIDKeyPrefix ++ keySeparator ++ nodeID) false)) = .ok nd ∧
        c.marshalNodeDetail { nd with Mq := p.Addresses.map toMQ } = .ok bytes ∧
        (setMqAddresses c app param nodeID).2.state =
          app.state.Set (nodeIDKeyPrefix ++ keySeparator ++ nodeID) bytes) := by
  refine ⟨updateNode_failure c app param nodeID, setMqAddresses_failure c app param nodeID,
    ?_, ?_⟩
  · intro hok
    obtain ⟨p, v, nd, bytes, hp, hget, hdec, hmar, heq⟩ :=
      updateNode_code_ok c app param nodeID hok
    exact ⟨p, v, nd, bytes, hp, hget, hdec, hmar, by rw [heq]⟩
  · intro hok
    obtain ⟨p, nd, bytes, hp, hdec, hmar, heq⟩ := setMqAddresses_code_ok c app param nodeID hok
    exact ⟨p, nd, bytes, hp, hdec, hmar, by rw [heq]⟩

theorem mutations_write_only_on_success_witness :
    (updateNode demoCodec demoApp "new key" "idp9").1.Code ≠ code.OK ∧
    (updateNode demoCodec demoApp "new key" "idp9").2 = demoApp ∧
    (setMqAddresses demoCodec demoApp "no addresses" "idp1").1.Code ≠ code.OK ∧
    (setMqAddresses demoCodec demoApp "no addresses" "idp1").2 = demoApp :=
  ⟨by decide,
    (mutations_write_only_on_success demoCodec demoApp "new key" "idp9").1 (by decide),
    by decide,
    (mutations_write_only_on_success demoCodec demoApp "no addresses" "idp1").2.1 (by decide)⟩

/-! ## The role directories -/

theorem isActiveNode_iff (c : Codec) (app : ABCIApplication) (id : String) :
    isActiveNode c app id = true ↔ ∃ nd, nodeRecord c app id nd ∧ nd.Active = true := by
  unfold isActiveNode nodeRecord
  cases hget : app.state.Get (nodeIDKeyPrefix ++ keySeparator ++ id) true with
  | none => simp
  | some v =>
    cases hdec : c.unmarshalNodeDetail v with
    | error err => simp [hdec]
    | ok nd => simp [hdec]

theorem getNodeIDListBody_eq (c : Codec) (app : ABCIApplication) (id : String) :
    getNodeIDListBody c app id = if isActiveNode c app id = true then some id else none := by
  unfold getNodeIDListBody isActiveNode
  cases app.state.Get (nodeIDKeyPrefix ++ keySeparator ++ id) true with
  | none => simp
  | some v =>
    cases hdec : c.unmarshalNodeDetail v with
    | error err => simp [hdec]
    | ok nd => simp [hdec]

theorem getNodeIDList_loop (c : Codec) (app : ABCIApplication) (ids : List String) :
    rangeAppend (getNodeIDListBody c app) ids [] = ids.filter (isActiveNode c app) := by
  rw [rangeAppend_eq, List.nil_append]
  induction ids with
  | nil => rfl
  | cons id rest ih =>
    rw [List.filterMap_cons, List.filter_cons, getNodeIDListBody_eq, ih]
    by_cases h : isActiveNode c app id = true
    · simp [h]
    · simp [h]

theorem getNodeIDList_of_directory (c : Codec) (app : ABCIApplication) (param : String)
    (p : GetNodeIDListParam) (hp : c.unmarshalGetNodeIDListParam param = .ok p) :
    getNodeIDList c app param =
      match roleDirectory c app p.Role with
      | .error err => { Value := none, Log := err, Height := app.state.Height }
      | .ok ids =>
        getNodeIDListFinish app { NodeIDList := ids.filter (isActiveNode c app) } := by
  unfold getNodeIDList roleDirectory directoryIDs
  simp only [hp, getNodeIDList_loop, idpListKeyBytes]
  by_cases h1 : c.ToLower p.Role = "rp"
  · simp only [if_pos h1]
    cases app.state.Get "rpList" true with
    | none => rfl
    | some v =>
      cases hdec : c.unmarshalRPList v with
      | error err => simp only [hdec]; rfl
      | ok l => simp only [hdec]
  · simp only [if_neg h1]
    by_cases h2 : c.ToLower p.Role = "idp"
    · simp only [if_pos h2]
      cases app.state.Get "IdPList" true with
      | none => rfl
      | some v =>
        cases hdec : c.unmarshalIdPList v with
        | error err => simp only [hdec]; rfl
        | ok l => simp only [hdec]
    · simp only [if_neg h2]
      by_cases h3 : c.ToLower p.Role = "as"
      · simp only [if_pos h3]
        cases app.state.Get "asList" true with
        | none => rfl
        | some v =>
          cases hdec : c.unmarshalASList v with
          | error err => simp only [hdec]; rfl
          | ok l => simp only [hdec]
      · simp only [if_neg h3]
        cases app.state.Get "allList" true with
        | none => rfl
        | some v =>
          cases hdec : c.unmarshalAllList v with
          | error err => simp only [hdec]; rfl
          | ok l => simp only [hdec]

/-- C26: for every role value, `getNodeIDList` returns the node IDs of the
role directory the value selects (the RP, IdP or AS directory for a role that
is `rp`, `idp` or `as` once lowered, the directory of all nodes otherwise;
an absent directory has no node), in directory order, whose `NodeDetail`
record is stored, decodes and is active. The status is `not found` exactly
when that list is empty, and the body is then the result record with the
empty list. On a ledger with no IdP directory the role `idp` gives
`not found` with the empty list. -/
theorem getNodeIDList_active_nodes_of_role (c : Codec) (app : ABCIApplication)
    (param : String) (p : GetNodeIDListParam) (ids : List String)
    (hp : c.unmarshalGetNodeIDListParam param = .ok p)
    (hdir : roleDirectory c app p.Role = .ok ids) :
    (getNodeIDList c app param).Value =
      some (.json { NodeIDList := ids.filter (isActiveNode c app) }) ∧
    (∀ id, id ∈ ids.filter (isActiveNode c app) ↔
      id ∈ ids ∧ ∃ nd, nodeRecord c app id nd ∧ nd.Active = true) ∧
    (ids.filter (isActiveNode c app)).Sublist ids ∧
    ((getNodeIDList c app param).Log = "not found" ↔ ids.filter (isActiveNode c app) = []) ∧
    (ids.filter (isActiveNode c app) ≠ [] → (getNodeIDList c app param).Log = "success") ∧
    (getNodeIDList c app param).Height = app.state.Height ∧
    (c.ToLower p.Role = "idp" → app.state.Get idpListKeyBytes true = none →
      getNodeIDList c app param =
        { Value := some (.json { NodeIDList := [] }), Log := "not found",
          Height := app.state.Height }) := by
  have h := getNodeIDList_of_directory c app param p hp
  have hidp : c.ToLower p.Role = "idp" → app.state.Get idpListKeyBytes true = none →
      ids = [] := by
    intro hrole hnone
    unfold roleDirectory directoryIDs at hdir
    have hrp : c.ToLower p.Role ≠ "rp" := by rw [hrole]; decide
    rw [if_neg hrp, if_pos hrole] at hdir
    unfold idpListKeyBytes at hnone
    simp only [hnone] at hdir
    cases hdir
    rfl
  rw [hdir] at h
  simp only at h
  rw [h]
  unfold getNodeIDListFinish ABCIApplication.ReturnQuery
  refine ⟨?_, ?_, List.filter_sublist _, ?_, ?_, ?_, ?_⟩
  · split_ifs <;> rfl
  · intro id
    rw [List.mem_filter, isActiveNode_iff]
  · by_cases he : ids.filter (isActiveNode c app) = []
    · simp [he]
    · have : ¬ (ids.filter (isActiveNode c app)).length = 0 := by
        intro h0; exact he (List.length_eq_zero.mp h0)
      simp [he, this]
  · intro he
    have : ¬ (ids.filter (isActiveNode c app)).length = 0 := by
      intro h0; exact he (List.length_eq_zero.mp h0)
    simp [this]
  · split_ifs <;> rfl
  · intro hrole hnone
    rw [hidp hrole hnone]
    rfl

theorem getNodeIDList_active_nodes_of_role_witness :
    demoCodec.unmarshalGetNodeIDListParam "role RP" = .ok { Role := "RP" } ∧
    roleDirectory demoCodec demoIdentityApp "RP" = .ok ["rp1", "rp2", "rp3"] ∧
    (getNodeIDList demoCodec demoIdentityApp "role RP").Value =
      some (.json { NodeIDList := ["rp1"] }) ∧
    (getNodeIDList demoCodec demoIdentityApp "role RP").Log = "success" ∧
    demoCodec.unmarshalGetNodeIDListParam "role idp" = .ok { Role := "idp" } ∧
    roleDirectory demoCodec emptyApp "idp" = .ok [] ∧
    getNodeIDList demoCodec emptyApp "role idp" =
      { Value := some (.json { NodeIDList := [] }), Log := "not found", Height := 0 } :=
  ⟨rfl, rfl,
    (getNodeIDList_active_nodes_of_role demoCodec demoIdentityApp "role RP" { Role := "RP" }
      ["rp1", "rp2", "rp3"] rfl rfl).1,
    by decide, rfl, rfl,
    (getNodeIDList_active_nodes_of_role demoCodec emptyApp "role idp" { Role := "idp" } []
      rfl rfl).2.2.2.2.2.2 (by decide) (by decide)⟩

/-! ## The claims on identities and accessors -/

/-- C27: when a reference group code, a namespace and an identifier hash
are all supplied non-empty, `checkExistingIdentity` and `getIdentityInfo`
return the message `Found reference group code and identity detail in
parameter` with the default body (`Exist = false`; level 0 and no mode list),
whatever the ledger holds: another application with the same height gets the
same response. The message is neither `not found` nor `success` nor
`Reference group not found`. -/
theorem identity_queries_report_code_with_identity (c : Codec) (app : ABCIApplication)
    (refGroupCode identityNamespace identityIdentifierHash : String)
    (h1 : refGroupCode ≠ "") (h2 : identityNamespace ≠ "") (h3 : identityIdentifierHash ≠ "") :
    (∀ param, c.unmarshalCheckExistingIdentityParam param =
        .ok { ReferenceGroupCode := refGroupCode, IdentityNamespace := identityNamespace,
              IdentityIdentifierHash := identityIdentifierHash } →
      checkExistingIdentity c app param =
        { Value := some (.json { Exist := false }),
          Log := "Found reference group code and identity detail in parameter",
          Height := app.state.Height } ∧
      ∀ app0 : ABCIApplication, app0.state.Height = app.state.Height →
        checkExistingIdentity c app0 param = checkExistingIdentity c app param) ∧
    (∀ param nodeID, c.unmarshalGetIdentityInfoParam param =
        .ok { ReferenceGroupCode := refGroupCode, IdentityNamespace := identityNamespace,
              IdentityIdentifierHash := identityIdentifierHash, NodeID := nodeID } →
      getIdentityInfo c app param =
        { Value := some (.json { Ial := 0, ModeList := none }),
          Log := "Found reference group code and identity detail in parameter",
          Height := app.state.Height } ∧
      ∀ app0 : ABCIApplication, app0.state.Height = app.state.Height →
        getIdentityInfo c app0 param = getIdentityInfo c app param) ∧
    "Found reference group code and identity detail in parameter" ≠ "not found" ∧
    "Found reference group code and identity detail in parameter" ≠ "success" ∧
    "Found reference group code and identity detail in parameter" ≠
      "Reference group not found" := by
  refine ⟨?_, ?_, by decide, by decide, by decide⟩
  · intro param hp
    have key : ∀ a : ABCIApplication, checkExistingIdentity c a param =
        { Value := some (.json { Exist := false }),
          Log := "Found reference group code and identity detail in parameter",
          Height := a.state.Height } := by
      intro a
      unfold checkExistingIdentity
      simp only [hp]
      rw [if_pos ⟨h1, h2, h3⟩]
      rfl
    refine ⟨key app, ?_⟩
    intro app0 hh
    rw [key app0, key app, hh]
  · intro param nodeID hp
    have key : ∀ a : ABCIApplication, getIdentityInfo c a param =
        { Value := some (.json { Ial := 0, ModeList := none }),
          Log := "Found reference group code and identity detail in parameter",
          Height := a.state.Height } := by
      intro a
      unfold getIdentityInfo
      simp only [hp]
      rw [if_pos ⟨h1, h2, h3⟩]
      rfl
    refine ⟨key app, ?_⟩
    intro app0 hh
    rw [key app0, key app, hh]

theorem identity_queries_report_code_with_identity_witness :
    demoCodec.unmarshalCheckExistingIdentityParam "group g1 and identity h2" =
      .ok { ReferenceGroupCode := "g1", IdentityNamespace := "citizen_id",
            IdentityIdentifierHash := "h2" } ∧
    checkExistingIdentity demoCodec demoApp "group g1 and identity h2" =
      { Value := some (.json { Exist := false }),
        Log := "Found reference group code and identity detail in parameter",
        Height := 7 } ∧
    getIdentityInfo demoCodec demoApp "group g1 and identity h2" =
      { Value := some (.json { Ial := 0, ModeList := none }),
        Log := "Found reference group code and identity detail in parameter",
        Height := 7 } :=
  ⟨rfl,
    ((identity_queries_report_code_with_identity demoCodec demoApp "g1" "citizen_id" "h2"
      (by decide) (by decide) (by decide)).1 "group g1 and identity h2" rfl).1,
    ((identity_queries_report_code_with_identity demoCodec demoApp "g1" "citizen_id" "h2"
      (by decide) (by decide) (by decide)).2.1 "group g1 and identity h2" "idp1" rfl).1⟩

theorem accessorGroup_unreadable (c : Codec) (app : ABCIApplication)
    (accessorID code : String) (hidx : accessorIndex app accessorID code)
    (hgroup : groupUnreadable c app code) : accessorGroup c app accessorID = none := by
  unfold accessorIndex at hidx
  unfold accessorGroup
  simp only [hidx]
  rcases hgroup with hnone | ⟨v, err, hget, hdec⟩
  · simp only [hnone]
  · simp only [hget, hdec]

theorem accessorGroup_of_record (c : Codec) (app : ABCIApplication)
    (accessorID code : String) (g : ReferenceGroup) (hidx : accessorIndex app accessorID code)
    (hgroup : groupRecord c app code g) : accessorGroup c app accessorID = some g := by
  unfold accessorIndex at hidx
  obtain ⟨v, hget, hdec⟩ := hgroup
  unfold accessorGroup
  simp only [hidx, hget, hdec]

/-- C28: for `getAccessorKey`, `getAccessorOwner` and
`checkExistingAccessorID`, when the reverse index of the accessor names a
group whose record is absent, or is stored and does not decode, the response
is the body `{}` with the status `not found`. -/
theorem accessor_queries_dangling_index_not_found (c : Codec) (app : ABCIApplication)
    (accessorID code : String) (hidx : accessorIndex app accessorID code)
    (hgroup : groupUnreadable c app code) :
    (∀ param, c.unmarshalGetAccessorKeyParam param = .ok { AccessorID := accessorID } →
      getAccessorKey c app param = notFoundResponse app) ∧
    (∀ param, c.unmarshalGetAccessorOwnerParam param = .ok { AccessorID := accessorID } →
      getAccessorOwner c app param = notFoundResponse app) ∧
    (∀ param, c.unmarshalCheckExistingAccessorIDParam param = .ok { AccessorID := accessorID } →
      checkExistingAccessorID c app param = notFoundResponse app) := by
  have hg := accessorGroup_unreadable c app accessorID code hidx hgroup
  refine ⟨?_, ?_, ?_⟩
  · intro param hp
    unfold getAccessorKey
    simp only [hp, hg]
    rfl
  · intro param hp
    unfold getAccessorOwner
    simp only [hp, hg]
    rfl
  · intro param hp
    unfold checkExistingAccessorID
    simp only [hp, hg]
    rfl

theorem accessor_queries_dangling_index_not_found_witness :
    accessorIndex demoIdentityApp "acc9" "g9" ∧ groupUnreadable demoCodec demoIdentityApp "g9" ∧
    getAccessorKey demoCodec demoIdentityApp "acc9" =
      { Value := some (.raw "{}"), Log := "not found", Height := 11 } ∧
    accessorIndex demoIdentityApp "acc8" "g8" ∧ groupUnreadable demoCodec demoIdentityApp "g8" ∧
    getAccessorOwner demoCodec demoIdentityApp "acc8" =
      { Value := some (.raw "{}"), Log := "not found", Height := 11 } :=
  ⟨by unfold accessorIndex; decide, Or.inl (by decide),
    (accessor_queries_dangling_index_not_found demoCodec demoIdentityApp "acc9" "g9"
      (by unfold accessorIndex; decide) (Or.inl (by decide))).1 "acc9" rfl,
    by unfold accessorIndex; decide,
    Or.inr ⟨"not a reference group", "proto: cannot parse invalid wire-format data",
      by decide, rfl⟩,
    (accessor_queries_dangling_index_not_found demoCodec demoIdentityApp "acc8" "g8"
      (by unfold accessorIndex; decide)
      (Or.inr ⟨"not a reference group", "proto: cannot parse invalid wire-format data",
        by decide, rfl⟩)).2.1 "acc8" rfl⟩

theorem findAccessor_none (accessorID : String) (idp : IdPInRefGroup)
    (h : ∀ a ∈ idp.Accessors, a.AccessorId ≠ accessorID) :
    findAccessor accessorID idp = none := by
  unfold findAccessor
  rw [List.find?_eq_none]
  intro a ha
  simpa using h a ha

theorem findAccessor_some (accessorID : String) (idp : IdPInRefGroup) (a : Accessor)
    (h : findAccessor accessorID idp = some a) :
    a ∈ idp.Accessors ∧ a.AccessorId = accessorID := by
  unfold findAccessor at h
  exact ⟨List.mem_of_find?_eq_some h, by simpa using List.find?_some h⟩

theorem findAccessor_unique (accessorID : String) (idp : IdPInRefGroup) (a : Accessor)
    (hmem : a ∈ idp.Accessors) (hid : a.AccessorId = accessorID)
    (hone : ∀ a0 ∈ idp.Accessors, a0.AccessorId = accessorID → a0 = a) :
    findAccessor accessorID idp = some a := by
  cases h : findAccessor accessorID idp with
  | none =>
    unfold findAccessor at h
    rw [List.find?_eq_none] at h
    have := h a hmem
    simp [hid] at this
  | some a0 =>
    obtain ⟨hm, hi⟩ := findAccessor_some accessorID idp a0 h
    rw [hone a0 hm hi]

theorem foldl_single_hit {ρ ι : Type} (f : ρ → ι → ρ) (pre post : List ι) (x : ι) (r : ρ)
    (hpre : ∀ y ∈ pre, ∀ r, f r y = r) (hpost : ∀ y ∈ post, ∀ r, f r y = r) :
    (pre ++ x :: post).foldl f r = f r x := by
  have hskip : ∀ (l : List ι), (∀ y ∈ l, ∀ r, f r y = r) → ∀ r, l.foldl f r = r := by
    intro l
    induction l with
    | nil => intro _ r; rfl
    | cons y rest ih =>
      intro h r
      rw [List.foldl_cons, h y (List.mem_cons_self _ _)]
      exact ih (fun z hz => h z (List.mem_cons_of_mem _ hz)) r
  rw [List.foldl_append, List.foldl_cons, hskip pre hpre r, hskip post hpost]

/-- C29: when the reverse index of an accessor names a group whose record
decodes, and the accessor ID occurs in the accessor list of exactly one
association of that group (and there as one accessor), `getAccessorOwner`
returns the status `success` with the node ID of that association, and
`getAccessorKey` returns the status `success` with the public key and the
active flag of that accessor. -/
theorem accessor_queries_single_owner (c : Codec) (app : ABCIApplication)
    (accessorID code : String) (g : ReferenceGroup) (pre post : List IdPInRefGroup)
    (idp : IdPInRefGroup) (a : Accessor)
    (hidx : accessorIndex app accessorID code) (hgroup : groupRecord c app code g)
    (hsplit : g.Idps = pre ++ idp :: post)
    (hmem : a ∈ idp.Accessors) (hid : a.AccessorId = accessorID)
    (hone : ∀ a0 ∈ idp.Accessors, a0.AccessorId = accessorID → a0 = a)
    (hothers : ∀ idp0 ∈ pre ++ post, ∀ a0 ∈ idp0.Accessors, a0.AccessorId ≠ accessorID) :
    (∀ param, c.unmarshalGetAccessorOwnerParam param = .ok { AccessorID := accessorID } →
      getAccessorOwner c app param =
        { Value := some (.json { NodeID := idp.NodeId }), Log := "success",
          Height := app.state.Height }) ∧
    (∀ param, c.unmarshalGetAccessorKeyParam param = .ok { AccessorID := accessorID } →
      getAccessorKey c app param =
        { Value := some (.json { AccessorPublicKey := a.AccessorPublicKey,
                                 Active := a.Active }),
          Log := "success", Height := app.state.Height }) := by
  have hg := accessorGroup_of_record c app accessorID code g hidx hgroup
  have hhit := findAccessor_unique accessorID idp a hmem hid hone
  have hpre : ∀ y ∈ pre, findAccessor accessorID y = none := fun y hy =>
    findAccessor_none accessorID y (hothers y (List.mem_append_left _ hy))
  have hpost : ∀ y ∈ post, findAccessor accessorID y = none := fun y hy =>
    findAccessor_none accessorID y (hothers y (List.mem_append_right _ hy))
  constructor
  · intro param hp
    unfold getAccessorOwner
    simp only [hp, hg, hsplit]
    rw [foldl_single_hit _ pre post idp _
      (fun y hy r => by simp only [hpre y hy]) (fun y hy r => by simp only [hpost y hy])]
    simp only [hhit]
    rfl
  · intro param hp
    unfold getAccessorKey
    simp only [hp, hg, hsplit]
    rw [foldl_single_hit _ pre post idp _
      (fun y hy r => by simp only [hpre y hy]) (fun y hy r => by simp only [hpost y hy])]
    simp only [hhit]
    rfl

theorem accessor_queries_single_owner_witness :
    accessorIndex demoIdentityApp "acc3" "g2" ∧
    groupRecord demoCodec demoIdentityApp "g2" demoGroup2 ∧
    getAccessorOwner demoCodec demoIdentityApp "acc3" =
      { Value := some (.json { NodeID := "idp3" }), Log := "success", Height := 11 } ∧
    getAccessorKey demoCodec demoIdentityApp "acc3" =
      { Value := some (.json { AccessorPublicKey := "pk-acc3", Active := false }),
        Log := "success", Height := 11 } :=
  ⟨by unfold accessorIndex; decide, ⟨"bytes-g2", by decide, rfl⟩,
    (accessor_queries_single_owner demoCodec demoIdentityApp "acc3" "g2" demoGroup2
      [{ NodeId := "idp1", Mode := [2],
         Accessors := [{ AccessorId := "acc1", AccessorPublicKey := "pk-acc1", Active := true }],
         Ial := 2, Active := true }]
      []
      { NodeId := "idp3", Mode := [3],
        Accessors := [{ AccessorId := "acc3", AccessorPublicKey := "pk-acc3", Active := false }],
        Ial := 3, Active := true }
      { AccessorId := "acc3", AccessorPublicKey := "pk-acc3", Active := false }
      (by unfold accessorIndex; decide) ⟨"bytes-g2", by decide, rfl⟩ rfl (by decide) rfl
      (by decide) (by decide)).1 "acc3" rfl,
    (accessor_queries_single_owner demoCodec demoIdentityApp "acc3" "g2" demoGroup2
      [{ NodeId := "idp1", Mode := [2],
         Accessors := [{ AccessorId := "acc1", AccessorPublicKey := "pk-acc1", Active := true }],
         Ial := 2, Active := true }]
      []
      { NodeId := "idp3", Mode := [3],
        Accessors := [{ AccessorId := "acc3", AccessorPublicKey := "pk-acc3", Active := false }],
        Ial := 3, Active := true }
      { AccessorId := "acc3", AccessorPublicKey := "pk-acc3", Active := false }
      (by unfold accessorIndex; decide) ⟨"bytes-g2", by decide, rfl⟩ rfl (by decide) rfl
      (by decide) (by decide)).2 "acc3" rfl⟩

/-! ## Queries and pending writes -/

theorem sameCommitted_cases (app₁ app₂ : ABCIApplication) (h : sameCommitted app₁ app₂) :
    ∃ cm p₁ p₂ H vs,
      app₁ = { state := { committed := cm, pending := p₁, Height := H, versions := vs } } ∧
      app₂ = { state := { committed := cm, pending := p₂, Height := H, versions := vs } } := by
  obtain ⟨⟨cm₁, p₁, H₁, vs₁⟩⟩ := app₁
  obtain ⟨⟨cm₂, p₂, H₂, vs₂⟩⟩ := app₂
  obtain ⟨hc, hv, hh⟩ := h
  simp only at hc hv hh
  subst hc hv hh
  exact ⟨cm₁, p₁, p₂, H₁, vs₁, rfl, rfl⟩

/-- C30 as stated fails: `getRequestDetail` is a query handler with an
argument `committedState`, which it hands to the store. The second small
ledger and the same ledger in the middle of a unit of work that has rewritten
`request1` agree on the finalized state at every height; `getRequestDetail`
for `request1` with `committedState = false` answers `success` on the first
and reports the pending bytes as undecodable on the second. -/
theorem getRequestDetail_observes_pending_writes :
    sameCommitted demoServiceApp demoPendingApp ∧
    demoCodec.unmarshalGetRequestParam "request1" = .ok { RequestID := "request1" } ∧
    (getRequestDetail demoCodec demoServiceApp "request1" 5 false).Log = "success" ∧
    (getRequestDetail demoCodec demoPendingApp "request1" 5 false).Log =
      "proto: cannot parse invalid wire-format data" ∧
    (getRequestDetail demoCodec demoPendingApp "request1" 5 false).Value = some (.raw "") ∧
    (getRequestDetail demoCodec demoServiceApp "request1" 5 false).Value ≠ some (.raw "") :=
  ⟨⟨rfl, rfl, rfl⟩, rfl, by decide, by decide, by decide, by decide⟩

/-- C30, amended: for any two applications that agree on the finalized
state, at the last block and at every height, and on the ledger height, and
differ in their pending writes at most, every query handler of `common.go`
other than `getRequestDetail` returns the same response on both for every
parameter (and height, for `getRequest`): each reads the store with
`committedState = true` only. `getRequestDetail` reads the store in the mode
its argument `committedState` selects; called with `committedState = true` it
too returns the same response on both. -/
theorem queries_read_committed_state (c : Codec) (app₁ app₂ : ABCIApplication)
    (h : sameCommitted app₁ app₂) :
    (∀ param, getNodeMasterPublicKey c app₁ param = getNodeMasterPublicKey c app₂ param) ∧
    (∀ param, getNodePublicKey c app₁ param = getNodePublicKey c app₂ param) ∧
    (∀ param, getIdpNodes c app₁ param = getIdpNodes c app₂ param) ∧
    (∀ param, getAsNodesByServiceId c app₁ param = getAsNodesByServiceId c app₂ param) ∧
    (∀ param, getMqAddresses c app₁ param = getMqAddresses c app₂ param) ∧
    (∀ param, getNamespaceList c app₁ param = getNamespaceList c app₂ param) ∧
    (∀ param, getServiceDetail c app₁ param = getServiceDetail c app₂ param) ∧
    (∀ param, checkExistingIdentity c app₁ param = checkExistingIdentity c app₂ param) ∧
    (∀ param, getAccessorKey c app₁ param = getAccessorKey c app₂ param) ∧
    (∀ param, getServiceList c app₁ param = getServiceList c app₂ param) ∧
    (∀ param, checkExistingAccessorID c app₁ param = checkExistingAccessorID c app₂ param) ∧
    (∀ param, getNodeInfo c app₁ param = getNodeInfo c app₂ param) ∧
    (∀ param, getIdentityInfo c app₁ param = getIdentityInfo c app₂ param) ∧
    (∀ param, getDataSignature c app₁ param = getDataSignature c app₂ param) ∧
    (∀ param, getServicesByAsID c app₁ param = getServicesByAsID c app₂ param) ∧
    (∀ param, getIdpNodesInfo c app₁ param = getIdpNodesInfo c app₂ param) ∧
    (∀ param, getAsNodesInfoByServiceId c app₁ param = getAsNodesInfoByServiceId c app₂ param) ∧
    (∀ param, getNodesBehindProxyNode c app₁ param = getNodesBehindProxyNode c app₂ param) ∧
    (∀ param, getNodeIDList c app₁ param = getNodeIDList c app₂ param) ∧
    (∀ param, getAccessorOwner c app₁ param = getAccessorOwner c app₂ param) ∧
    (∀ param, isInitEnded app₁ param = isInitEnded app₂ param) ∧
    (∀ param, getChainHistory app₁ param = getChainHistory app₂ param) ∧
    (∀ param, GetReferenceGroupCode c app₁ param = GetReferenceGroupCode c app₂ param) ∧
    (∀ param, GetReferenceGroupCodeByAccessorID c app₁ param = GetReferenceGroupCodeByAccessorID c app₂ param) ∧
    (∀ param, GetAllowedModeList c app₁ param = GetAllowedModeList c app₂ param) ∧
    (∀ param, GetAllowedMinIalForRegisterIdentityAtFirstIdp c app₁ param = GetAllowedMinIalForRegisterIdentityAtFirstIdp c app₂ param) ∧
    (∀ param height, getRequest c app₁ param height = getRequest c app₂ param height) ∧
    (∀ param height,
      getRequestDetail c app₁ param height true = getRequestDetail c app₂ param height true) := by
  obtain ⟨cm, p₁, p₂, H, vs, rfl, rfl⟩ := sameCommitted_cases app₁ app₂ h
  exact ⟨fun _ => rfl, fun _ => rfl, fun _ => rfl, fun _ => rfl, fun _ => rfl, fun _ => rfl, fun _ => rfl, fun _ => rfl, fun _ => rfl, fun _ => rfl, fun _ => rfl, fun _ => rfl, fun _ => rfl, fun _ => rfl, fun _ => rfl, fun _ => rfl, fun _ => rfl, fun _ => rfl, fun _ => rfl, fun _ => rfl, fun _ => rfl, fun _ => rfl, fun _ => rfl, fun _ => rfl, fun _ => rfl, fun _ => rfl, fun _ _ => rfl, fun _ _ => rfl⟩

theorem queries_read_committed_state_witness :
    sameCommitted demoServiceApp demoPendingApp ∧
    (∃ k, demoServiceApp.state.pending k ≠ demoPendingApp.state.pending k) ∧
    getRequest demoCodec demoServiceApp "request1" 5 =
      getRequest demoCodec demoPendingApp "request1" 5 ∧
    getRequestDetail demoCodec demoServiceApp "request1" 5 true =
      getRequestDetail demoCodec demoPendingApp "request1" 5 true ∧
    getAsNodesByServiceId demoCodec demoServiceApp "svc1" =
      getAsNodesByServiceId demoCodec demoPendingApp "svc1" :=
  ⟨⟨rfl, rfl, rfl⟩, ⟨"Request|request1", by decide⟩,
    (queries_read_committed_state demoCodec demoServiceApp demoPendingApp
      ⟨rfl, rfl, rfl⟩).2.2.2.2.2.2.2.2.2.2.2.2.2.2.2.2.2.2.2.2.2.2.2.2.2.2.1 "request1" 5,
    (queries_read_committed_state demoCodec demoServiceApp demoPendingApp
      ⟨rfl, rfl, rfl⟩).2.2.2.2.2.2.2.2.2.2.2.2.2.2.2.2.2.2.2.2.2.2.2.2.2.2.2 "request1" 5,
    (queries_read_committed_state demoCodec demoServiceApp demoPendingApp
      ⟨rfl, rfl, rfl⟩).2.2.2.1 "svc1"⟩

/-! ## The list fields of a request detail and of an address list -/

theorem orEmpty_ne_none {α : Type} (s : Option (List α)) : orEmpty s ≠ none := by
  cases s <;> simp [orEmpty]

theorem orEmpty_ofRepeated_nil {α : Type} : orEmpty (ofRepeated ([] : List α)) = some [] := rfl

/-- The list fields of the result `getRequestDetail` builds for an existing
request: the IdP ID list, the data-request list and the three lists of each
data request are never nil; the response list is nil exactly when the stored
request has no response. -/
theorem getRequestDetail_list_fields (c : Codec) (app : ABCIApplication) (param : String)
    (height : Int) (committedState : Bool) (p : GetRequestParam) (v : String)
    (request : data.Request)
    (hp : c.unmarshalGetRequestParam param = .ok p)
    (hget : app.state.GetVersioned (requestKeyPrefix ++ keySeparator ++ p.RequestID) height
      committedState = some v)
    (hdec : c.unmarshalRequest v = .ok request) :
    ∃ result, (getRequestDetail c app param height committedState).Value =
        some (.json result) ∧
      result.IdPIDList ≠ none ∧ result.DataRequestList ≠ none ∧
      (∀ row ∈ result.DataRequestList.getD [],
        row.As ≠ none ∧ row.AnsweredAsIdList ≠ none ∧ row.ReceivedDataFromList ≠ none) ∧
      (result.Responses = none ↔ request.ResponseList = []) := by
  obtain ⟨result, hres, hresp, hidp, hdr⟩ :=
    getRequestDetail_found c app param height committedState p v request hp hget hdec
  refine ⟨result, by rw [hres], ?_, ?_, ?_, ?_⟩
  · rw [hidp]; exact orEmpty_ne_none _
  · rw [hdr]; exact orEmpty_ne_none _
  · intro row hrow
    rw [hdr, appendEach_none] at hrow
    have hmem : row ∈ request.DataRequestList.map dataRequestRow := by
      cases hl : request.DataRequestList with
      | nil => rw [hl] at hrow; simp [orEmpty] at hrow
      | cons x rest => rw [hl] at hrow; simpa [orEmpty] using hrow
    obtain ⟨d, _, rfl⟩ := List.mem_map.1 hmem
    exact ⟨orEmpty_ne_none _, orEmpty_ne_none _, orEmpty_ne_none _⟩
  · rw [hresp, appendEach_none]
    cases request.ResponseList with
    | nil => simp
    | cons x rest => simp

/-- C31: `getRequestDetail` leaves the response list of its result nil when
the stored request has no response. On the fourth small ledger the request
`request2` has no IdP, one data request with empty lists and no response: the
result has the empty IdP ID list, the data request with three empty lists, and
a nil response list, which JSON writes as `null`. -/
theorem getRequestDetail_nil_response_list :
    demoCodec.unmarshalGetRequestParam "request2" = .ok { RequestID := "request2" } ∧
    demoLateApp.state.GetVersioned (requestKeyPrefix ++ keySeparator ++ "request2") 13 true =
      some "bytes-request2" ∧
    demoCodec.unmarshalRequest "bytes-request2" = .ok demoRequestFresh ∧
    demoRequestFresh.ResponseList = [] ∧
    (getRequestDetail demoCodec demoLateApp "request2" 13 true).Log = "success" ∧
    ∃ result, (getRequestDetail demoCodec demoLateApp "request2" 13 true).Value =
        some (.json result) ∧
      result.Responses = none ∧ result.IdPIDList = some [] ∧
      result.DataRequestList =
        some [{ ServiceID := "svc1", As := some [], Count := 1, AnsweredAsIdList := some [],
                ReceivedDataFromList := some [], RequestParamsHash := "params-hash" }] :=
  ⟨rfl, by decide, rfl, rfl, by decide, _, rfl, rfl, rfl, rfl⟩

/-! ## `getMqAddresses`, branch by branch -/

theorem getMqAddresses_of_record (c : Codec) (app : ABCIApplication) (param v : String)
    (p : GetMqAddressesParam) (nd : NodeDetail)
    (hp : c.unmarshalGetMqAddressesParam param = .ok p)
    (hget : app.state.Get (nodeIDKeyPrefix ++ keySeparator ++ p.NodeID) true = some v)
    (hdec : c.unmarshalNodeDetail v = .ok nd) :
    getMqAddresses c app param =
      if nd.Mq = [] then
        { Value := some (.json none), Log := "not found", Height := app.state.Height }
      else
        { Value := some (.json (some (nd.Mq.map toMsqAddress))), Log := "success",
          Height := app.state.Height } := by
  unfold getMqAddresses
  simp only [hp, hget, bytesOf, Option.getD_some, hdec, appendEach_none]
  cases hmq : nd.Mq with
  | nil => rfl
  | cons x rest => rfl

theorem getMqAddresses_absent (c : Codec) (app : ABCIApplication) (param : String)
    (p : GetMqAddressesParam)
    (hp : c.unmarshalGetMqAddressesParam param = .ok p)
    (hget : app.state.Get (nodeIDKeyPrefix ++ keySeparator ++ p.NodeID) true = none) :
    getMqAddresses c app param =
      match c.unmarshalNodeDetail "" with
      | .error err => { Value := none, Log := err, Height := app.state.Height }
      | .ok _ => { Value := some (.raw "[]"), Log := "not found", Height := app.state.Height } := by
  unfold getMqAddresses
  simp only [hp, hget, bytesOf, Option.getD_none]
  cases c.unmarshalNodeDetail "" <;> rfl

/-- C32: `getMqAddresses` for a node whose record is stored and has no
messaging address ends with the status `not found` and the encoding of a nil
slice, which JSON writes as `null`. On the first small ledger `idp2` is such a
node; for the node ID `ghost`, which has no record, the body is `[]`. -/
theorem getMqAddresses_no_address_null_body :
    demoCodec.unmarshalGetMqAddressesParam "idp2" = .ok { NodeID := "idp2" } ∧
    nodeRecord demoCodec demoApp "idp2" demoIdp2 ∧ demoIdp2.Mq = [] ∧
    getMqAddresses demoCodec demoApp "idp2" =
      { Value := some (.json none), Log := "not found", Height := 7 } ∧
    demoApp.state.Get (nodeIDKeyPrefix ++ keySeparator ++ "ghost") true = none ∧
    getMqAddresses demoCodec demoApp "ghost" =
      { Value := some (.raw "[]"), Log := "not found", Height := 7 } :=
  ⟨rfl, ⟨"bytes-idp2", by decide, rfl⟩, rfl, by decide, by decide, by decide⟩

/-! ## The group branch of IdP discovery -/

theorem getIdpNodesGroupBody_sameRecords (c : Codec) (app₁ app₂ : ABCIApplication)
    (p : GetIdpNodesParam) (h : sameRecords app₁ app₂) :
    getIdpNodesGroupBody c app₁ p = getIdpNodesGroupBody c app₂ p := by
  funext idp
  unfold getIdpNodesGroupBody
  simp only [h.1]

theorem getIdpNodesInfoGroupBody_sameRecords (c : Codec) (app₁ app₂ : ABCIApplication)
    (p : GetIdpNodesParam) (h : sameRecords app₁ app₂) :
    getIdpNodesInfoGroupBody c app₁ p = getIdpNodesInfoGroupBody c app₂ p := by
  funext idp
  unfold getIdpNodesInfoGroupBody ABCIApplication.ReturnQuery
  simp only [h.1, h.2.2.2]

theorem getIdpNodes_of_code (c : Codec) (app : ABCIApplication) (param : String)
    (p : GetIdpNodesParam) (hp : c.unmarshalGetIdpNodesParam param = .ok p)
    (hcode : p.ReferenceGroupCode ≠ "") :
    getIdpNodes c app param =
      match app.state.Get (refGroupCodeKeyPrefix ++ keySeparator ++ p.ReferenceGroupCode)
          true with
      | none => { Value := none, Log := "not found", Height := app.state.Height }
      | some refGroupValue =>
        match c.unmarshalReferenceGroup refGroupValue with
        | .error err => { Value := none, Log := err, Height := app.state.Height }
        | .ok refGroup =>
          getIdpNodesFinish app
            { Node := rangeAppend (getIdpNodesGroupBody c app p) refGroup.Idps [] } := by
  unfold getIdpNodes
  simp only [hp]
  rw [if_neg (fun h => hcode h.1), if_pos hcode]
  rfl

theorem getIdpNodesInfo_of_code (c : Codec) (app : ABCIApplication) (param : String)
    (p : GetIdpNodesParam) (hp : c.unmarshalGetIdpNodesParam param = .ok p)
    (hcode : p.ReferenceGroupCode ≠ "") :
    getIdpNodesInfo c app param =
      match app.state.Get (refGroupCodeKeyPrefix ++ keySeparator ++ p.ReferenceGroupCode)
          true with
      | none => { Value := none, Log := "not found", Height := app.state.Height }
      | some refGroupValue =>
        match c.unmarshalReferenceGroup refGroupValue with
        | .error err => { Value := none, Log := err, Height := app.state.Height }
        | .ok refGroup =>
          match forRange (getIdpNodesInfoGroupBody c app p) refGroup.Idps [] with
          | .error response => response
          | .ok nodes => getIdpNodesInfoFinish app { Node := nodes } := by
  unfold getIdpNodesInfo
  simp only [hp]
  rw [if_neg (fun h => hcode h.1), if_pos hcode]
  rfl

/-- C33: in `getIdpNodes` and `getIdpNodesInfo`, a non-empty reference group
code alone selects the group. The response is the same for every value of the
namespace and of the identifier hash in the parameter, and it is the same on
every ledger with the same node records, group records, IdP directory and
height, whatever the identity reverse index holds: the index is not read. -/
theorem group_code_alone_selects_group (c : Codec) (app : ABCIApplication) (param : String)
    (p : GetIdpNodesParam) (hp : c.unmarshalGetIdpNodesParam param = .ok p)
    (hcode : p.ReferenceGroupCode ≠ "") :
    (∀ param0 identityNamespace identityIdentifierHash,
      c.unmarshalGetIdpNodesParam param0 =
        .ok { p with IdentityNamespace := identityNamespace,
                     IdentityIdentifierHash := identityIdentifierHash } →
      getIdpNodes c app param0 = getIdpNodes c app param ∧
      getIdpNodesInfo c app param0 = getIdpNodesInfo c app param) ∧
    (∀ app0, sameRecords app app0 →
      getIdpNodes c app0 param = getIdpNodes c app param ∧
      getIdpNodesInfo c app0 param = getIdpNodesInfo c app param) := by
  constructor
  · intro param0 identityNamespace identityIdentifierHash hp0
    rw [getIdpNodes_of_code c app param0 _ hp0 hcode, getIdpNodes_of_code c app param p hp hcode,
      getIdpNodesInfo_of_code c app param0 _ hp0 hcode,
      getIdpNodesInfo_of_code c app param p hp hcode]
    exact ⟨rfl, rfl⟩
  · intro app0 hsame
    rw [getIdpNodes_of_code c app0 param p hp hcode, getIdpNodes_of_code c app param p hp hcode,
      getIdpNodesInfo_of_code c app0 param p hp hcode,
      getIdpNodesInfo_of_code c app param p hp hcode,
      ← getIdpNodesGroupBody_sameRecords c app app0 p hsame,
      ← getIdpNodesInfoGroupBody_sameRecords c app app0 p hsame,
      ← hsame.2.1 p.ReferenceGroupCode]
    unfold getIdpNodesFinish getIdpNodesInfoFinish ABCIApplication.ReturnQuery
    rw [← hsame.2.2.2]
    exact ⟨rfl, rfl⟩

theorem group_code_alone_selects_group_witness :
    demoCodec.unmarshalGetIdpNodesParam "group g1, mode 2" =
      .ok { demoParam 2 with ReferenceGroupCode := "g1", ModeList := [2] } ∧
    demoCodec.unmarshalGetIdpNodesParam "group g1, mode 2, identity h9" =
      .ok { demoParam 2 with ReferenceGroupCode := "g1", ModeList := [2],
                             IdentityNamespace := "citizen_id",
                             IdentityIdentifierHash := "h9" } ∧
    demoApp.state.Get (identityToRefCodeKey "citizen_id" "h9") true = none ∧
    getIdpNodes demoCodec demoApp "group g1, mode 2, identity h9" =
      getIdpNodes demoCodec demoApp "group g1, mode 2" ∧
    getIdpNodesInfo demoCodec demoApp "group g1, mode 2, identity h9" =
      getIdpNodesInfo demoCodec demoApp "group g1, mode 2" :=
  ⟨rfl, rfl, by decide,
    ((group_code_alone_selects_group demoCodec demoApp "group g1, mode 2"
      { demoParam 2 with ReferenceGroupCode := "g1", ModeList := [2] } rfl (by decide)).1
      "group g1, mode 2, identity h9" "citizen_id" "h9" rfl).1,
    ((group_code_alone_selects_group demoCodec demoApp "group g1, mode 2"
      { demoParam 2 with ReferenceGroupCode := "g1", ModeList := [2] } rfl (by decide)).1
      "group g1, mode 2, identity h9" "citizen_id" "h9" rfl).2⟩

/-! ## The owner of a shared accessor -/

theorem foldl_last_hit {ρ ι : Type} (f : ρ → ι → ρ) (pre post : List ι) (x : ι) (r v : ρ)
    (hx : ∀ r, f r x = v) (hpost : ∀ y ∈ post, ∀ r, f r y = r) :
    (pre ++ x :: post).foldl f r = v := by
  have hskip : ∀ (l : List ι), (∀ y ∈ l, ∀ r, f r y = r) → ∀ r, l.foldl f r = r := by
    intro l
    induction l with
    | nil => intro _ r; rfl
    | cons y rest ih =>
      intro h r
      rw [List.foldl_cons, h y (List.mem_cons_self _ _)]
      exact ih (fun z hz => h z (List.mem_cons_of_mem _ hz)) r
  rw [List.foldl_append, List.foldl_cons, hx, hskip post hpost]

theorem findAccessor_isSome (accessorID : String) (idp : IdPInRefGroup)
    (h : ∃ a ∈ idp.Accessors, a.AccessorId = accessorID) :
    ∃ a, findAccessor accessorID idp = some a := by
  obtain ⟨a, hmem, hid⟩ := h
  cases hf : findAccessor accessorID idp with
  | some a0 => exact ⟨a0, rfl⟩
  | none =>
    unfold findAccessor at hf
    rw [List.find?_eq_none] at hf
    have := hf a hmem
    simp [hid] at this

/-- C34: when the accessor ID occurs in the accessor lists of several
associations of the resolved group, `getAccessorOwner` returns the node ID of
the last of them in group order: for a group whose associations are `pre`,
then `idp`, then `post`, with the accessor in `idp` and in no association of
`post`, the result is the node ID of `idp`, whatever `pre` holds. -/
theorem getAccessorOwner_last_association (c : Codec) (app : ABCIApplication)
    (accessorID code : String) (g : ReferenceGroup) (pre post : List IdPInRefGroup)
    (idp : IdPInRefGroup)
    (hidx : accessorIndex app accessorID code) (hgroup : groupRecord c app code g)
    (hsplit : g.Idps = pre ++ idp :: post)
    (hin : ∃ a ∈ idp.Accessors, a.AccessorId = accessorID)
    (hpost : ∀ idp0 ∈ post, ∀ a0 ∈ idp0.Accessors, a0.AccessorId ≠ accessorID) :
    ∀ param, c.unmarshalGetAccessorOwnerParam param = .ok { AccessorID := accessorID } →
      getAccessorOwner c app param =
        { Value := some (.json { NodeID := idp.NodeId }), Log := "success",
          Height := app.state.Height } := by
  intro param hp
  have hg := accessorGroup_of_record c app accessorID code g hidx hgroup
  obtain ⟨a, hhit⟩ := findAccessor_isSome accessorID idp hin
  unfold getAccessorOwner
  simp only [hp, hg, hsplit]
  rw [foldl_last_hit _ pre post idp _ { NodeID := idp.NodeId }
    (fun r => by simp only [hhit])
    (fun y hy r => by simp only [findAccessor_none accessorID y (hpost y hy)])]
  rfl

theorem getAccessorOwner_last_association_witness :
    accessorIndex demoLateApp "acc5" "g3" ∧ groupRecord demoCodec demoLateApp "g3" demoGroup3 ∧
    demoGroup3.Idps.map (fun idp => (idp.NodeId, idp.Accessors.map (fun a => a.AccessorId))) =
      [("idp1", ["acc5"]), ("idp3", ["acc5"])] ∧
    getAccessorOwner demoCodec demoLateApp "acc5" =
      { Value := some (.json { NodeID := "idp3" }), Log := "success", Height := 13 } :=
  ⟨by unfold accessorIndex; decide, ⟨"bytes-g3", by decide, rfl⟩, by decide,
    getAccessorOwner_last_association demoCodec demoLateApp "acc5" "g3" demoGroup3
      [{ NodeId := "idp1", Mode := [2],
         Accessors := [{ AccessorId := "acc5", AccessorPublicKey := "pk-acc5", Active := true }],
         Ial := 2, Active := true }]
      []
      { NodeId := "idp3", Mode := [3],
        Accessors := [{ AccessorId := "acc5", AccessorPublicKey := "pk-acc5", Active := true }],
        Ial := 3, Active := true }
      (by unfold accessorIndex; decide) ⟨"bytes-g3", by decide, rfl⟩ rfl
      ⟨{ AccessorId := "acc5", AccessorPublicKey := "pk-acc5", Active := true }, by decide, rfl⟩
      (by decide) "acc5" rfl⟩

/-! ## Monotonicity of IdP discovery in the thresholds -/

theorem filterMap_sublist_of_imp {α β : Type} (f g : α → Option β) (l : List α)
    (h : ∀ x e, f x = some e → g x = some e) : (l.filterMap f).Sublist (l.filterMap g) := by
  induction l with
  | nil => exact List.Sublist.slnil
  | cons x rest ih =>
    rw [List.filterMap_cons, List.filterMap_cons]
    cases hf : f x with
    | none =>
      cases hg : g x with
      | none => exact ih
      | some e => exact List.Sublist.cons e ih
    | some e =>
      rw [h x e hf]
      exact List.Sublist.cons₂ e ih

theorem idpNodesIDs_finish (app : ABCIApplication) (n : GetIdpNodesResult) :
    idpNodesIDs (getIdpNodesFinish app n) = n.Node.map IdpNodesEntry.ID := by
  unfold idpNodesIDs getIdpNodesFinish ABCIApplication.ReturnQuery
  split_ifs <;> rfl

theorem idpNodesIDs_of_none (log : String) (height : Int) :
    idpNodesIDs { Value := none, Log := log, Height := height } = [] := rfl

theorem passesNode_of_higher (p : GetIdpNodesParam) (minIal minAal : ℚ) (id : String)
    (nd : NodeDetail) (hi : p.MinIal ≤ minIal) (ha : p.MinAal ≤ minAal)
    (h : passesNode { p with MinIal := minIal, MinAal := minAal } id nd) : passesNode p id nd :=
  ⟨h.1, le_trans hi h.2.1, le_trans ha h.2.2.1, h.2.2.2.1, h.2.2.2.2⟩

theorem passesAssoc_of_higher (p : GetIdpNodesParam) (minIal minAal : ℚ) (idp : IdPInRefGroup)
    (hi : p.MinIal ≤ minIal)
    (h : passesAssoc { p with MinIal := minIal, MinAal := minAal } idp) : passesAssoc p idp :=
  ⟨h.1, le_trans hi h.2.1, h.2.2⟩

/-- C35: IdP discovery is monotone in the thresholds. For a fixed ledger and
fixed other parameters, when the two levels of the second query are at least
those of the first, the node IDs `getIdpNodes` returns for the second query
are, in order, a subsequence of those it returns for the first. -/
theorem getIdpNodes_monotone_in_levels (c : Codec) (app : ABCIApplication)
    (param param0 : String) (p : GetIdpNodesParam) (minIal minAal : ℚ)
    (hp : c.unmarshalGetIdpNodesParam param = .ok p)
    (hp0 : c.unmarshalGetIdpNodesParam param0 =
      .ok { p with MinIal := minIal, MinAal := minAal })
    (hi : p.MinIal ≤ minIal) (ha : p.MinAal ≤ minAal) :
    (idpNodesIDs (getIdpNodes c app param0)).Sublist (idpNodesIDs (getIdpNodes c app param)) := by
  have hdir : ∀ l : List String,
      ((l.filterMap (getIdpNodesDirectoryBody c app
          { p with MinIal := minIal, MinAal := minAal })).map IdpNodesEntry.ID).Sublist
        ((l.filterMap (getIdpNodesDirectoryBody c app p)).map IdpNodesEntry.ID) := by
    intro l
    apply List.Sublist.map
    apply filterMap_sublist_of_imp
    intro x e he
    obtain ⟨nd, hrec, hpass, rfl⟩ := (getIdpNodesDirectoryBody_eq_some c app _ x e).1 he
    exact (getIdpNodesDirectoryBody_eq_some c app p x _).2
      ⟨nd, hrec, passesNode_of_higher p minIal minAal x nd hi ha hpass, rfl⟩
  have hgrp : ∀ l : List IdPInRefGroup,
      ((l.filterMap (getIdpNodesGroupBody c app
          { p with MinIal := minIal, MinAal := minAal })).map IdpNodesEntry.ID).Sublist
        ((l.filterMap (getIdpNodesGroupBody c app p)).map IdpNodesEntry.ID) := by
    intro l
    apply List.Sublist.map
    apply filterMap_sublist_of_imp
    intro x e he
    obtain ⟨nd, hrec, hpass, hassoc, rfl⟩ := (getIdpNodesGroupBody_eq_some c app _ x e).1 he
    exact (getIdpNodesGroupBody_eq_some c app p x _).2
      ⟨nd, hrec, passesNode_of_higher p minIal minAal x.NodeId nd hi ha hpass,
        passesAssoc_of_higher p minIal minAal x hi hassoc, rfl⟩
  unfold getIdpNodes
  simp only [hp, hp0, rangeAppend_eq, List.nil_append]
  by_cases hs : p.ReferenceGroupCode = "" ∧ p.IdentityNamespace = "" ∧
      p.IdentityIdentifierHash = ""
  · rw [if_pos hs, if_pos hs]
    cases app.state.Get idpListKeyBytes true with
    | none => exact List.Sublist.refl _
    | some v =>
      simp only
      cases c.unmarshalIdPList v with
      | error err => exact List.Sublist.refl _
      | ok l =>
        simp only [idpNodesIDs_finish]
        exact hdir l.NodeId
  · rw [if_neg hs, if_neg hs]
    cases (if p.ReferenceGroupCode ≠ "" then some p.ReferenceGroupCode
        else app.state.Get (identityToRefCodeKeyPrefix ++ keySeparator ++
          p.IdentityNamespace ++ keySeparator ++ p.IdentityIdentifierHash) true) with
    | none => exact List.Sublist.refl _
    | some code =>
      simp only
      cases app.state.Get (refGroupCodeKeyPrefix ++ keySeparator ++ code) true with
      | none => exact List.Sublist.refl _
      | some v =>
        simp only
        cases c.unmarshalReferenceGroup v with
        | error err => exact List.Sublist.refl _
        | ok g =>
          simp only [idpNodesIDs_finish]
          exact hgrp g.Idps

theorem getIdpNodes_monotone_in_levels_witness :
    demoCodec.unmarshalGetIdpNodesParam "all" = .ok (demoParam 1) ∧
    demoCodec.unmarshalGetIdpNodesParam "all, levels 4" =
      .ok { demoParam 1 with MinIal := 4, MinAal := 4 } ∧
    idpNodesIDs (getIdpNodes demoCodec demoApp "all") = ["idp1", "idp2", "idp3"] ∧
    idpNodesIDs (getIdpNodes demoCodec demoApp "all, levels 4") = [] ∧
    (idpNodesIDs (getIdpNodes demoCodec demoApp "all, levels 4")).Sublist
      (idpNodesIDs (getIdpNodes demoCodec demoApp "all")) :=
  ⟨rfl, rfl, by decide, by decide,
    getIdpNodes_monotone_in_levels demoCodec demoApp "all" "all, levels 4" (demoParam 1) 4 4
      rfl rfl (by decide) (by decide)⟩

/-! ## IdP discovery without proxies -/

theorem forRange_of_no_ret {ρ ε ι : Type} (body : ι → LoopStep ρ ε) (l : List ι) (acc : List ε)
    (h : ∀ i ∈ l, ∀ r, body i ≠ .ret r) :
    forRange body l acc = .ok (acc ++ l.filterMap (fun i => (body i).appended)) := by
  cases hloop : forRange body l acc with
  | error r =>
    obtain ⟨i, hi, hr⟩ := forRange_error body l acc r hloop
    exact absurd hr (h i hi r)
  | ok out => rw [forRange_ok body l acc out hloop]

theorem map_filterMap_congr {α β γ δ : Type} (f : α → Option β) (g : α → Option γ)
    (a : β → δ) (b : γ → δ) (l : List α) (h : ∀ x ∈ l, (f x).map a = (g x).map b) :
    (l.filterMap f).map a = (l.filterMap g).map b := by
  induction l with
  | nil => rfl
  | cons x rest ih =>
    have hx := h x (List.mem_cons_self _ _)
    have hrest := ih (fun y hy => h y (List.mem_cons_of_mem _ hy))
    rw [List.filterMap_cons, List.filterMap_cons]
    cases hf : f x with
    | none =>
      cases hg : g x with
      | none => simpa [hf, hg] using hrest
      | some e => rw [hf, hg] at hx; cases hx
    | some e =>
      cases hg : g x with
      | none => rw [hf, hg] at hx; cases hx
      | some e0 =>
        rw [hf, hg] at hx
        simp only [Option.map_some', Option.some.injEq] at hx
        simp only [List.map_cons, hx, hrest]

theorem proxyOutcome_of_no_proxy (c : Codec) (app : ABCIApplication) (nd : NodeDetail)
    (own : IdpNodesInfoEntry) (proxied : NodeDetail → IdpNodesInfoEntry)
    (h : nd.ProxyNodeId = "") : proxyOutcome c app nd own proxied = .append own := by
  unfold proxyOutcome
  rw [if_neg (not_not.2 h)]

theorem getIdpNodesInfoDirectoryBody_of_no_proxy (c : Codec) (app : ABCIApplication)
    (p : GetIdpNodesParam) (idp : String)
    (h : ∀ nd, nodeRecord c app idp nd → nd.ProxyNodeId = "") :
    (∀ r, getIdpNodesInfoDirectoryBody c app p idp ≠ .ret r) ∧
    (getIdpNodesInfoDirectoryBody c app p idp).appended.map IdpNodesInfoEntry.NodeID =
      (getIdpNodesDirectoryBody c app p idp).map IdpNodesEntry.ID := by
  by_cases hex : ∃ nd, nodeRecord c app idp nd ∧ passesNode p idp nd
  · obtain ⟨nd, hrec, hpass⟩ := hex
    rw [getIdpNodesInfoDirectoryBody_passes c app p idp nd hrec hpass,
      proxyOutcome_of_no_proxy c app nd _ _ (h nd hrec),
      (getIdpNodesDirectoryBody_eq_some c app p idp _).2 ⟨nd, hrec, hpass, rfl⟩]
    exact ⟨fun r hr => (by cases hr), rfl⟩
  · have hskip : getIdpNodesInfoDirectoryBody c app p idp = .skip := by
      by_contra hne
      obtain ⟨nd, hrec, hpass, _⟩ := getIdpNodesInfoDirectoryBody_cases c app p idp hne
      exact hex ⟨nd, hrec, hpass⟩
    have hnone : getIdpNodesDirectoryBody c app p idp = none := by
      cases hb : getIdpNodesDirectoryBody c app p idp with
      | none => rfl
      | some e =>
        obtain ⟨nd, hrec, hpass, _⟩ := (getIdpNodesDirectoryBody_eq_some c app p idp e).1 hb
        exact absurd ⟨nd, hrec, hpass⟩ hex
    rw [hskip, hnone]
    exact ⟨fun r hr => (by cases hr), rfl⟩

theorem getIdpNodesInfoGroupBody_of_no_proxy (c : Codec) (app : ABCIApplication)
    (p : GetIdpNodesParam) (idp : IdPInRefGroup)
    (h : ∀ nd, nodeRecord c app idp.NodeId nd → nd.ProxyNodeId = "") :
    (∀ r, getIdpNodesInfoGroupBody c app p idp ≠ .ret r) ∧
    (getIdpNodesInfoGroupBody c app p idp).appended.map IdpNodesInfoEntry.NodeID =
      (getIdpNodesGroupBody c app p idp).map IdpNodesEntry.ID := by
  by_cases hex : ∃ nd, nodeRecord c app idp.NodeId nd ∧ passesNode p idp.NodeId nd ∧
      passesAssoc p idp
  · obtain ⟨nd, hrec, hpass, hassoc⟩ := hex
    rw [getIdpNodesInfoGroupBody_passes c app p idp nd hrec hpass hassoc,
      proxyOutcome_of_no_proxy c app nd _ _ (h nd hrec),
      (getIdpNodesGroupBody_eq_some c app p idp _).2 ⟨nd, hrec, hpass, hassoc, rfl⟩]
    exact ⟨fun r hr => (by cases hr), rfl⟩
  · have hskip : getIdpNodesInfoGroupBody c app p idp = .skip := by
      by_contra hne
      obtain ⟨nd, hrec, hpass, hassoc, _⟩ := getIdpNodesInfoGroupBody_cases c app p idp hne
      exact hex ⟨nd, hrec, hpass, hassoc⟩
    have hnone : getIdpNodesGroupBody c app p idp = none := by
      cases hb : getIdpNodesGroupBody c app p idp with
      | none => rfl
      | some e =>
        obtain ⟨nd, hrec, hpass, hassoc, _⟩ :=
          (getIdpNodesGroupBody_eq_some c app p idp e).1 hb
        exact absurd ⟨nd, hrec, hpass, hassoc⟩ hex
    rw [hskip, hnone]
    exact ⟨fun r hr => (by cases hr), rfl⟩

theorem getIdpNodesFinish_Log (app : ABCIApplication) (n : GetIdpNodesResult) :
    (getIdpNodesFinish app n).Log =
      if n.Node.map IdpNodesEntry.ID = [] then "not found" else "success" := by
  unfold getIdpNodesFinish ABCIApplication.ReturnQuery
  cases n.Node with
  | nil => rfl
  | cons x rest => rfl

theorem getIdpNodesInfoFinish_Log (app : ABCIApplication) (n : GetIdpNodesInfoResult) :
    (getIdpNodesInfoFinish app n).Log =
      if n.Node.map IdpNodesInfoEntry.NodeID = [] then "not found" else "success" := by
  unfold getIdpNodesInfoFinish ABCIApplication.ReturnQuery
  cases n.Node with
  | nil => rfl
  | cons x rest => rfl

theorem idpNodesInfoIDs_finish (app : ABCIApplication) (n : GetIdpNodesInfoResult) :
    idpNodesInfoIDs (getIdpNodesInfoFinish app n) = n.Node.map IdpNodesInfoEntry.NodeID := by
  unfold idpNodesInfoIDs getIdpNodesInfoFinish ABCIApplication.ReturnQuery
  split_ifs <;> rfl

/-- C36: on every ledger in which no node that IdP discovery looks at (a node
of the IdP directory or of an association of a stored group) has a record with
a non-empty `ProxyNodeId`, `getIdpNodes` and `getIdpNodesInfo` return, for
every parameter, the same node IDs in the same order and the same status. -/
theorem discovery_variants_agree_without_proxies (c : Codec) (app : ABCIApplication)
    (hnoproxy : ∀ id nd, idpCandidate c app id → nodeRecord c app id nd →
      nd.ProxyNodeId = "")
    (param : String) :
    idpNodesIDs (getIdpNodes c app param) = idpNodesInfoIDs (getIdpNodesInfo c app param) ∧
    (getIdpNodes c app param).Log = (getIdpNodesInfo c app param).Log := by
  cases hp : c.unmarshalGetIdpNodesParam param with
  | error err =>
    unfold getIdpNodes getIdpNodesInfo
    simp only [hp]
    exact ⟨rfl, rfl⟩
  | ok p =>
    have hdirectory : ∀ ids, idpDirectory c app ids →
        idpNodesIDs (getIdpNodesFinish app
          { Node := ids.filterMap (getIdpNodesDirectoryBody c app p) }) =
        idpNodesInfoIDs (match forRange (getIdpNodesInfoDirectoryBody c app p) ids [] with
          | .error response => response
          | .ok nodes => getIdpNodesInfoFinish app { Node := nodes }) ∧
        (getIdpNodesFinish app
          { Node := ids.filterMap (getIdpNodesDirectoryBody c app p) }).Log =
        (match forRange (getIdpNodesInfoDirectoryBody c app p) ids [] with
          | .error response => response
          | .ok nodes => getIdpNodesInfoFinish app { Node := nodes }).Log := by
      intro ids hd
      have hbody : ∀ id ∈ ids, _ := fun id hid =>
        getIdpNodesInfoDirectoryBody_of_no_proxy c app p id
          (fun nd hrec => hnoproxy id nd (Or.inl ⟨ids, hd, hid⟩) hrec)
      rw [forRange_of_no_ret _ ids [] (fun i hi => (hbody i hi).1)]
      have hids := map_filterMap_congr
        (fun i => (getIdpNodesInfoDirectoryBody c app p i).appended)
        (getIdpNodesDirectoryBody c app p) IdpNodesInfoEntry.NodeID IdpNodesEntry.ID ids
        (fun i hi => (hbody i hi).2)
      refine ⟨?_, ?_⟩
      · rw [List.nil_append, idpNodesIDs_finish, idpNodesInfoIDs_finish]
        exact hids.symm
      · rw [List.nil_append, getIdpNodesFinish_Log, getIdpNodesInfoFinish_Log]
        exact congrArg (fun ids => if ids = [] then "not found" else "success") hids.symm
    have hgroup : ∀ code g, groupRecord c app code g →
        idpNodesIDs (getIdpNodesFinish app
          { Node := g.Idps.filterMap (getIdpNodesGroupBody c app p) }) =
        idpNodesInfoIDs (match forRange (getIdpNodesInfoGroupBody c app p) g.Idps [] with
          | .error response => response
          | .ok nodes => getIdpNodesInfoFinish app { Node := nodes }) ∧
        (getIdpNodesFinish app
          { Node := g.Idps.filterMap (getIdpNodesGroupBody c app p) }).Log =
        (match forRange (getIdpNodesInfoGroupBody c app p) g.Idps [] with
          | .error response => response
          | .ok nodes => getIdpNodesInfoFinish app { Node := nodes }).Log := by
      intro code g hg
      have hbody : ∀ idp ∈ g.Idps, _ := fun idp hidp =>
        getIdpNodesInfoGroupBody_of_no_proxy c app p idp
          (fun nd hrec => hnoproxy idp.NodeId nd (Or.inr ⟨code, g, idp, hg, hidp, rfl⟩) hrec)
      rw [forRange_of_no_ret _ g.Idps [] (fun i hi => (hbody i hi).1)]
      have hids := map_filterMap_congr
        (fun i => (getIdpNodesInfoGroupBody c app p i).appended)
        (getIdpNodesGroupBody c app p) IdpNodesInfoEntry.NodeID IdpNodesEntry.ID g.Idps
        (fun i hi => (hbody i hi).2)
      refine ⟨?_, ?_⟩
      · rw [List.nil_append, idpNodesIDs_finish, idpNodesInfoIDs_finish]
        exact hids.symm
      · rw [List.nil_append, getIdpNodesFinish_Log, getIdpNodesInfoFinish_Log]
        exact congrArg (fun ids => if ids = [] then "not found" else "success") hids.symm
    by_cases hs : identityScoped p
    · cases hcode : (if p.ReferenceGroupCode ≠ "" then some p.ReferenceGroupCode
          else app.state.Get (identityToRefCodeKeyPrefix ++ keySeparator ++
            p.IdentityNamespace ++ keySeparator ++ p.IdentityIdentifierHash) true) with
      | none =>
        have hno : ∀ code, resolvesTo app p code →
            app.state.Get (refGroupCodeKeyPrefix ++ keySeparator ++ code) true = none :=
          fun code hc => by rw [resolvesTo_iff, hcode] at hc; cases hc
        rw [getIdpNodes_unresolved c app param p hp hs hno,
          getIdpNodesInfo_unresolved c app param p hp hs hno]
        exact ⟨rfl, rfl⟩
      | some code =>
        have hres : resolvesTo app p code := (resolvesTo_iff app p code).2 hcode
        cases hget : app.state.Get (refGroupCodeKeyPrefix ++ keySeparator ++ code) true with
        | none =>
          have hno : ∀ code0, resolvesTo app p code0 →
              app.state.Get (refGroupCodeKeyPrefix ++ keySeparator ++ code0) true = none :=
            fun code0 hc => by rw [resolvesTo_unique app p code0 code hc hres]; exact hget
          rw [getIdpNodes_unresolved c app param p hp hs hno,
            getIdpNodesInfo_unresolved c app param p hp hs hno]
          exact ⟨rfl, rfl⟩
        | some v =>
          cases hdec : c.unmarshalReferenceGroup v with
          | error err =>
            unfold getIdpNodes getIdpNodesInfo
            simp only [hp]
            rw [if_neg hs, if_neg hs]
            simp only [hcode, hget, hdec]
            exact ⟨rfl, rfl⟩
          | ok g =>
            have hg : groupRecord c app code g := ⟨v, hget, hdec⟩
            rw [getIdpNodes_group c app param p code g hp hs hres hg,
              getIdpNodesInfo_group c app param p code g hp hs hres hg]
            exact hgroup code g hg
    · cases hget : app.state.Get idpListKeyBytes true with
      | none =>
        have hd : idpDirectory c app [] := Or.inl ⟨hget, rfl⟩
        rw [getIdpNodes_directory c app param p [] hp hs hd,
          getIdpNodesInfo_directory c app param p [] hp hs hd]
        exact hdirectory [] hd
      | some v =>
        cases hdec : c.unmarshalIdPList v with
        | error err =>
          unfold getIdpNodes getIdpNodesInfo
          simp only [hp]
          rw [if_pos (not_not.1 hs), if_pos (not_not.1 hs)]
          simp only [hget, hdec]
          exact ⟨rfl, rfl⟩
        | ok l =>
          have hd : idpDirectory c app l.NodeId := Or.inr ⟨v, l, hget, hdec, rfl⟩
          rw [getIdpNodes_directory c app param p _ hp hs hd,
            getIdpNodesInfo_directory c app param p _ hp hs hd]
          exact hdirectory _ hd

theorem some_of_ite_some {Q : Prop} (cond : Prop) [Decidable cond] (a v : String)
    (rest : Option String) (h : (if cond then some a else rest) = some v)
    (ha : a = v → Q) (hrest : rest = some v → Q) : Q := by
  by_cases hc : cond
  · rw [if_pos hc] at h
    exact ha (Option.some.inj h)
  · rw [if_neg hc] at h
    exact hrest h

theorem demoIdentityLedger_group (k v : String) (g : ReferenceGroup)
    (hget : demoIdentityLedger k = some v)
    (hdec : demoCodec.unmarshalReferenceGroup v = .ok g) : g = demoGroup2 := by
  unfold demoIdentityLedger at hget
  refine some_of_ite_some _ _ v _ hget (fun hv => ?_) (fun hget => ?_)
  · subst hv; cases hdec
  refine some_of_ite_some _ _ v _ hget (fun hv => ?_) (fun hget => ?_)
  · subst hv; cases hdec
  refine some_of_ite_some _ _ v _ hget (fun hv => ?_) (fun hget => ?_)
  · subst hv; cases hdec
  refine some_of_ite_some _ _ v _ hget (fun hv => ?_) (fun hget => ?_)
  · subst hv; cases hdec
  refine some_of_ite_some _ _ v _ hget (fun hv => ?_) (fun hget => ?_)
  · subst hv; cases hdec
  refine some_of_ite_some _ _ v _ hget (fun hv => ?_) (fun hget => ?_)
  · subst hv; cases hdec
  refine some_of_ite_some _ _ v _ hget (fun hv => ?_) (fun hget => ?_)
  · subst hv; cases hdec
  refine some_of_ite_some _ _ v _ hget (fun hv => ?_) (fun hget => ?_)
  · subst hv; cases hdec
  refine some_of_ite_some _ _ v _ hget (fun hv => ?_) (fun hget => ?_)
  · subst hv; cases hdec
  refine some_of_ite_some _ _ v _ hget (fun hv => ?_) (fun hget => ?_)
  · subst hv; cases hdec
  refine some_of_ite_some _ _ v _ hget (fun hv => ?_) (fun hget => ?_)
  · subst hv; cases hdec; rfl
  refine some_of_ite_some _ _ v _ hget (fun hv => ?_) (fun hget => ?_)
  · subst hv; cases hdec
  cases hget

theorem demoIdentityApp_groupRecord (code : String) (g : ReferenceGroup)
    (h : groupRecord demoCodec demoIdentityApp code g) : g = demoGroup2 := by
  obtain ⟨v, hget, hdec⟩ := h
  have hledger : demoIdentityLedger (refGroupCodeKeyPrefix ++ keySeparator ++ code) = some v :=
    hget
  exact demoIdentityLedger_group _ v g hledger hdec

theorem demoIdentityApp_no_proxy (id : String) (nd : NodeDetail)
    (hcand : idpCandidate demoCodec demoIdentityApp id)
    (hrec : nodeRecord demoCodec demoIdentityApp id nd) : nd.ProxyNodeId = "" := by
  have h1 : nodeRecord demoCodec demoIdentityApp "idp1" demoIdp1 := ⟨"bytes-idp1", rfl, rfl⟩
  have h3 : nodeRecord demoCodec demoIdentityApp "idp3" demoIdp3 := ⟨"bytes-idp3", rfl, rfl⟩
  have h2 : demoIdentityApp.state.Get (nodeIDKeyPrefix ++ keySeparator ++ "idp2") true = none :=
    rfl
  have hmem : id = "idp1" ∨ id = "idp2" ∨ id = "idp3" := by
    rcases hcand with ⟨ids, hd, hid⟩ | ⟨code, g, idp, hg, hidp, rfl⟩
    · have hd0 : idpDirectory demoCodec demoIdentityApp ["idp1", "idp2", "idp3"] :=
        Or.inr ⟨"bytes-directory", { NodeId := ["idp1", "idp2", "idp3"] }, rfl, rfl, rfl⟩
      rw [idpDirectory_unique demoCodec demoIdentityApp ids _ hd hd0] at hid
      simpa using hid
    · rw [demoIdentityApp_groupRecord code g hg] at hidp
      simp only [demoGroup2, List.mem_cons, List.mem_singleton, List.not_mem_nil,
        or_false] at hidp
      rcases hidp with rfl | rfl
      · exact Or.inl rfl
      · exact Or.inr (Or.inr rfl)
  rcases hmem with rfl | rfl | rfl
  · rw [nodeRecord_unique demoCodec demoIdentityApp "idp1" nd demoIdp1 hrec h1]; rfl
  · obtain ⟨v, hget, _⟩ := hrec
    rw [h2] at hget
    cases hget
  · rw [nodeRecord_unique demoCodec demoIdentityApp "idp3" nd demoIdp3 hrec h3]; rfl

theorem discovery_variants_agree_without_proxies_witness :
    (∀ id nd, idpCandidate demoCodec demoIdentityApp id →
      nodeRecord demoCodec demoIdentityApp id nd → nd.ProxyNodeId = "") ∧
    idpNodesIDs (getIdpNodes demoCodec demoIdentityApp "all") = ["idp1", "idp3"] ∧
    (getIdpNodes demoCodec demoIdentityApp "all").Log = "success" ∧
    idpNodesIDs (getIdpNodes demoCodec demoIdentityApp "all") =
      idpNodesInfoIDs (getIdpNodesInfo demoCodec demoIdentityApp "all") ∧
    (getIdpNodes demoCodec demoIdentityApp "all").Log =
      (getIdpNodesInfo demoCodec demoIdentityApp "all").Log :=
  ⟨demoIdentityApp_no_proxy, by decide, by decide,
    discovery_variants_agree_without_proxies demoCodec demoIdentityApp
      demoIdentityApp_no_proxy "all"⟩

/-! ## Candidates behind an inactive proxy -/

theorem forRange_skip {ρ ε ι : Type} (body : ι → LoopStep ρ ε) (pre post : List ι) (x : ι)
    (acc : List ε) (h : body x = .skip) :
    forRange body (pre ++ x :: post) acc = forRange body (pre ++ post) acc := by
  induction pre generalizing acc with
  | nil =>
    show forRange body (x :: post) acc = forRange body post acc
    rw [forRange, h]
  | cons y rest ih =>
    show forRange body (y :: (rest ++ x :: post)) acc = forRange body (y :: (rest ++ post)) acc
    rw [forRange, forRange]
    cases body y with
    | skip => exact ih acc
    | append e => exact ih (acc ++ [e])
    | ret r => rfl

theorem proxyOutcome_inactive (c : Codec) (app : ABCIApplication) (nd pn : NodeDetail)
    (own : IdpNodesInfoEntry) (proxied : NodeDetail → IdpNodesInfoEntry)
    (hproxy : nd.ProxyNodeId ≠ "") (hrec : nodeRecord c app nd.ProxyNodeId pn)
    (hpn : pn.Active = false) : proxyOutcome c app nd own proxied = .skip := by
  obtain ⟨v, hget, hdec⟩ := hrec
  unfold proxyOutcome
  rw [if_pos hproxy]
  simp only [hget, hdec, hpn]
  rfl

theorem proxyStep_inactive {α ε : Type} (c : Codec) (app : ABCIApplication) (nd pn : NodeDetail)
    (own : ε) (proxied : NodeDetail → ε)
    (hproxy : nd.ProxyNodeId ≠ "") (hrec : nodeRecord c app nd.ProxyNodeId pn)
    (hpn : pn.Active = false) :
    (proxyStep c app nd own proxied : LoopStep (ResponseQuery α) ε) = .skip := by
  obtain ⟨v, hget, hdec⟩ := hrec
  unfold proxyStep
  rw [if_pos hproxy]
  simp only [hget, hdec, hpn]
  rfl

theorem getIdpNodesInfoDirectoryBody_inactive_proxy (c : Codec) (app : ABCIApplication)
    (p : GetIdpNodesParam) (idp : String) (nd pn : NodeDetail)
    (hnd : nodeRecord c app idp nd) (hproxy : nd.ProxyNodeId ≠ "")
    (hrec : nodeRecord c app nd.ProxyNodeId pn) (hpn : pn.Active = false) :
    getIdpNodesInfoDirectoryBody c app p idp = .skip := by
  by_contra hne
  obtain ⟨nd0, hnd0, _, hbody⟩ := getIdpNodesInfoDirectoryBody_cases c app p idp hne
  rw [nodeRecord_unique c app idp nd0 nd hnd0 hnd] at hbody
  exact hne (hbody.trans (proxyOutcome_inactive c app nd pn _ _ hproxy hrec hpn))

theorem getIdpNodesInfoGroupBody_inactive_proxy (c : Codec) (app : ABCIApplication)
    (p : GetIdpNodesParam) (idp : IdPInRefGroup) (nd pn : NodeDetail)
    (hnd : nodeRecord c app idp.NodeId nd) (hproxy : nd.ProxyNodeId ≠ "")
    (hrec : nodeRecord c app nd.ProxyNodeId pn) (hpn : pn.Active = false) :
    getIdpNodesInfoGroupBody c app p idp = .skip := by
  by_contra hne
  obtain ⟨nd0, hnd0, _, _, hbody⟩ := getIdpNodesInfoGroupBody_cases c app p idp hne
  rw [nodeRecord_unique c app idp.NodeId nd0 nd hnd0 hnd] at hbody
  exact hne (hbody.trans (proxyOutcome_inactive c app nd pn _ _ hproxy hrec hpn))

theorem getAsNodesInfoByServiceIdBody_inactive_proxy (c : Codec) (app : ABCIApplication)
    (p : GetAsNodesByServiceIdParam) (m : GoMap Bool) (node : data.ASNode) (nd pn : NodeDetail)
    (hnd : nodeRecord c app node.NodeId nd) (hproxy : nd.ProxyNodeId ≠ "")
    (hrec : nodeRecord c app nd.ProxyNodeId pn) (hpn : pn.Active = false) :
    getAsNodesInfoByServiceIdBody c app p m node = .skip := by
  by_contra hne
  obtain ⟨_, nd0, hpass, hbody⟩ := getAsNodesInfoByServiceIdBody_cases c app p m node hne
  rw [nodeRecord_unique c app node.NodeId nd0 nd hpass.2.2.1 hnd] at hbody
  exact hne (hbody.trans (proxyStep_inactive c app nd pn _ _ hproxy hrec hpn))

theorem getAsNodesInfoByServiceId_of_list (c : Codec) (app : ABCIApplication) (param : String)
    (p : GetAsNodesByServiceIdParam) (l : List data.ASNode) (s : ServiceDetail)
    (hp : c.unmarshalGetAsNodesByServiceIdParam param = .ok p)
    (hl : destinationList c app p.ServiceID l) (hs : serviceRecord c app p.ServiceID s)
    (hactive : s.Active = true) :
    getAsNodesInfoByServiceId c app param =
      match forRange (getAsNodesInfoByServiceIdBody c app p (makeMapNodeIDList p.NodeIDList))
          l [] with
      | .error response => response
      | .ok nodes =>
        app.ReturnQuery (some (.json (.info { Node := nodes }))) "success" app.state.Height := by
  obtain ⟨v, d, hget, hdec, rfl⟩ := hl
  obtain ⟨sv, hsget, hsdec⟩ := hs
  unfold getAsNodesInfoByServiceId
  simp only [hp, hget, hsget, hsdec, hdec, hactive]
  rfl

theorem LoopStep.eq_append_of_appended {ρ ε : Type} (s : LoopStep ρ ε) (e : ε)
    (h : s.appended = some e) : s = .append e := by
  cases s with
  | skip => cases h
  | append e0 => cases h; rfl
  | ret r => cases h

theorem proxyOutcome_behind (c : Codec) (app : ABCIApplication) (nd : NodeDetail)
    (own : IdpNodesInfoEntry) (proxied : NodeDetail → IdpNodesInfoEntry)
    (e : IdpNodesInfoEntry) (proxyNodeID : String)
    (hown : ¬ own.behind proxyNodeID)
    (hproxied : ∀ pn, (proxied pn).behind proxyNodeID → nd.ProxyNodeId = proxyNodeID)
    (h : proxyOutcome c app nd own proxied = .append e) (he : e.behind proxyNodeID) :
    ∃ pn, nodeRecord c app proxyNodeID pn ∧ pn.Active = true := by
  rcases proxyOutcome_append c app nd own proxied e h with
    ⟨_, rfl⟩ | ⟨_, pn, hrec, hactive, rfl⟩
  · exact absurd he hown
  · rw [← hproxied pn he]
    exact ⟨pn, hrec, hactive⟩

theorem getIdpNodesInfo_proxied_entry (c : Codec) (app : ABCIApplication) (param : String)
    (p : GetIdpNodesParam) (r : GetIdpNodesInfoResult) (e : IdpNodesInfoEntry)
    (proxyNodeID : String)
    (hp : c.unmarshalGetIdpNodesParam param = .ok p)
    (hr : (getIdpNodesInfo c app param).Value = some (.json r)) (he : e ∈ r.Node)
    (hbehind : e.behind proxyNodeID) :
    ∃ pn, nodeRecord c app proxyNodeID pn ∧ pn.Active = true := by
  rcases getIdpNodesInfo_json c app param p r hp hr with
    ⟨_, ids, _, hn⟩ | ⟨_, code, g, _, _, hn⟩
  · have hnode := forRange_ok _ _ _ _ hn
    rw [hnode, List.nil_append] at he
    obtain ⟨idp, _, hb⟩ := List.mem_filterMap.1 he
    have happ := LoopStep.eq_append_of_appended _ e hb
    obtain ⟨nd, _, _, hbody⟩ :=
      getIdpNodesInfoDirectoryBody_cases c app p idp (by rw [happ]; simp)
    rw [hbody] at happ
    exact proxyOutcome_behind c app nd (infoNodeEntry idp nd) (infoBehindProxyEntry idp nd)
      e proxyNodeID (fun h => h) (fun _ h => h) happ hbehind
  · have hnode := forRange_ok _ _ _ _ hn
    rw [hnode, List.nil_append] at he
    obtain ⟨idp, _, hb⟩ := List.mem_filterMap.1 he
    have happ := LoopStep.eq_append_of_appended _ e hb
    obtain ⟨nd, _, _, _, hbody⟩ :=
      getIdpNodesInfoGroupBody_cases c app p idp (by rw [happ]; simp)
    rw [hbody] at happ
    exact proxyOutcome_behind c app nd (infoModeListEntry idp nd)
      (infoBehindProxyModeListEntry idp nd) e proxyNodeID (fun h => h) (fun _ h => h)
      happ hbehind

theorem getAsNodesInfoByServiceId_proxied_entry (c : Codec) (app : ABCIApplication)
    (param : String) (p : GetAsNodesByServiceIdParam) (r : GetAsNodesInfoByServiceIdResult)
    (e : AsNodesInfoEntry) (proxyNodeID : String)
    (hp : c.unmarshalGetAsNodesByServiceIdParam param = .ok p)
    (hr : (getAsNodesInfoByServiceId c app param).Value = some (.json (.info r)))
    (he : e ∈ r.Node) (hbehind : e.behind proxyNodeID) :
    ∃ pn, nodeRecord c app proxyNodeID pn ∧ pn.Active = true := by
  rcases getAsNodesInfoByServiceId_json c app param p _ hp hr with
    hnil | hbasic | ⟨l, s, nodes, _, _, _, hn, hbody⟩
  · cases hnil
    cases he
  · cases hbasic
  · cases hbody
    have hnode := forRange_ok _ _ _ _ hn
    rw [hnode, List.nil_append] at he
    obtain ⟨node, _, hb⟩ := List.mem_filterMap.1 he
    obtain ⟨_, _, nd, _, hcases⟩ :=
      getAsNodesInfoByServiceIdBody_append c app p _ node e hb
    rcases hcases with ⟨_, rfl⟩ | ⟨_, pn, hrec, hactive, rfl⟩
    · exact absurd hbehind (fun h => h)
    · have hid : nd.ProxyNodeId = proxyNodeID := hbehind
      rw [← hid]
      exact ⟨pn, hrec, hactive⟩

/-- C37: in `getIdpNodesInfo` (directory branch and identity-scoped branch) and
in `getAsNodesInfoByServiceId`, a candidate whose record names a proxy whose
record is stored, decodes and has `active = false` is left out and the loop
goes on: the response is the one the loop over the other candidates gives.
Every entry of a returned result that is behind a proxy has a stored, active
proxy record. -/
theorem inactive_proxy_candidate_is_skipped (c : Codec) (app : ABCIApplication)
    (nd pn : NodeDetail) (hproxy : nd.ProxyNodeId ≠ "")
    (hrec : nodeRecord c app nd.ProxyNodeId pn) (hpn : pn.Active = false) :
    (∀ param p pre idp post, c.unmarshalGetIdpNodesParam param = .ok p →
      ¬ identityScoped p → idpDirectory c app (pre ++ idp :: post) →
      nodeRecord c app idp nd →
      getIdpNodesInfo c app param =
        match forRange (getIdpNodesInfoDirectoryBody c app p) (pre ++ post) [] with
        | .error response => response
        | .ok nodes => getIdpNodesInfoFinish app { Node := nodes }) ∧
    (∀ param p code g pre idp post, c.unmarshalGetIdpNodesParam param = .ok p →
      identityScoped p → resolvesTo app p code → groupRecord c app code g →
      g.Idps = pre ++ idp :: post → nodeRecord c app idp.NodeId nd →
      getIdpNodesInfo c app param =
        match forRange (getIdpNodesInfoGroupBody c app p) (pre ++ post) [] with
        | .error response => response
        | .ok nodes => getIdpNodesInfoFinish app { Node := nodes }) ∧
    (∀ param p s pre node post, c.unmarshalGetAsNodesByServiceIdParam param = .ok p →
      destinationList c app p.ServiceID (pre ++ node :: post) →
      serviceRecord c app p.ServiceID s → s.Active = true →
      nodeRecord c app node.NodeId nd →
      getAsNodesInfoByServiceId c app param =
        match forRange (getAsNodesInfoByServiceIdBody c app p
            (makeMapNodeIDList p.NodeIDList)) (pre ++ post) [] with
        | .error response => response
        | .ok nodes =>
          app.ReturnQuery (some (.json (.info { Node := nodes }))) "success"
            app.state.Height) ∧
    (∀ param p r e proxyNodeID, c.unmarshalGetIdpNodesParam param = .ok p →
      (getIdpNodesInfo c app param).Value = some (.json r) → e ∈ r.Node →
      e.behind proxyNodeID → ∃ proxyNode, nodeRecord c app proxyNodeID proxyNode ∧
        proxyNode.Active = true) ∧
    (∀ param p r e proxyNodeID, c.unmarshalGetAsNodesByServiceIdParam param = .ok p →
      (getAsNodesInfoByServiceId c app param).Value = some (.json (.info r)) → e ∈ r.Node →
      e.behind proxyNodeID → ∃ proxyNode, nodeRecord c app proxyNodeID proxyNode ∧
        proxyNode.Active = true) := by
  refine ⟨?_, ?_, ?_, ?_, ?_⟩
  · intro param p pre idp post hp hs hd hnd
    rw [getIdpNodesInfo_directory c app param p _ hp hs hd,
      forRange_skip _ pre post idp []
        (getIdpNodesInfoDirectoryBody_inactive_proxy c app p idp nd pn hnd hproxy hrec hpn)]
  · intro param p code g pre idp post hp hs hres hg hsplit hnd
    rw [getIdpNodesInfo_group c app param p code g hp hs hres hg, hsplit,
      forRange_skip _ pre post idp []
        (getIdpNodesInfoGroupBody_inactive_proxy c app p idp nd pn hnd hproxy hrec hpn)]
  · intro param p s pre node post hp hl hs hactive hnd
    rw [getAsNodesInfoByServiceId_of_list c app param p _ s hp hl hs hactive,
      forRange_skip _ pre post node []
        (getAsNodesInfoByServiceIdBody_inactive_proxy c app p _ node nd pn hnd hproxy
          hrec hpn)]
  · intro param p r e proxyNodeID hp hr he hbehind
    exact getIdpNodesInfo_proxied_entry c app param p r e proxyNodeID hp hr he hbehind
  · intro param p r e proxyNodeID hp hr he hbehind
    exact getAsNodesInfoByServiceId_proxied_entry c app param p r e proxyNodeID hp hr he
      hbehind

theorem inactive_proxy_candidate_is_skipped_witness :
    demoIdp4.ProxyNodeId ≠ "" ∧
    nodeRecord demoCodec demoLateApp demoIdp4.ProxyNodeId demoProxy2 ∧
    demoProxy2.Active = false ∧
    demoCodec.unmarshalGetIdpNodesParam "all" = .ok (demoParam 1) ∧
    ¬ identityScoped (demoParam 1) ∧
    idpDirectory demoCodec demoLateApp ([] ++ "idp4" :: ["idp1"]) ∧
    nodeRecord demoCodec demoLateApp "idp4" demoIdp4 ∧
    idpNodesInfoIDs (getIdpNodesInfo demoCodec demoLateApp "all") = ["idp1"] ∧
    (getIdpNodesInfo demoCodec demoLateApp "all").Log = "success" ∧
    getIdpNodesInfo demoCodec demoLateApp "all" =
      match forRange (getIdpNodesInfoDirectoryBody demoCodec demoLateApp (demoParam 1))
          ([] ++ ["idp1"]) [] with
      | .error response => response
      | .ok nodes => getIdpNodesInfoFinish demoLateApp { Node := nodes } :=
  ⟨by decide, ⟨"bytes-proxy2", rfl, rfl⟩, rfl, rfl, fun h => h ⟨rfl, rfl, rfl⟩,
    Or.inr ⟨"bytes-directory-2", { NodeId := ["idp4", "idp1"] }, rfl, rfl, rfl⟩,
    ⟨"bytes-idp4", rfl, rfl⟩, by decide, by decide,
    (inactive_proxy_candidate_is_skipped demoCodec demoLateApp demoIdp4 demoProxy2
      (by decide) ⟨"bytes-proxy2", rfl, rfl⟩ rfl).1 "all" (demoParam 1) [] "idp4" ["idp1"]
      rfl (fun h => h ⟨rfl, rfl, rfl⟩)
      (Or.inr ⟨"bytes-directory-2", { NodeId := ["idp4", "idp1"] }, rfl, rfl, rfl⟩)
      ⟨"bytes-idp4", rfl, rfl⟩⟩

/-! ## The association `getIdentityInfo` reports -/

theorem find?_first {α : Type} (f : α → Bool) (pre post : List α) (x : α)
    (hpre : ∀ y ∈ pre, f y = false) (hx : f x = true) :
    (pre ++ x :: post).find? f = some x := by
  induction pre with
  | nil => simp [List.find?_cons, hx]
  | cons y rest ih =>
    have hy : f y = false := hpre y (List.mem_cons_self _ _)
    have hrest := ih (fun z hz => hpre z (List.mem_cons_of_mem _ hz))
    simp only [List.cons_append, List.find?_cons, hy]
    exact hrest

theorem getIdentityInfoLoop_first (p : GetIdentityInfoParam) (pre post : List IdPInRefGroup)
    (idp : IdPInRefGroup) (result : GetIdentityInfoResult)
    (hpre : ∀ x ∈ pre, ¬ (p.NodeID = x.NodeId ∧ x.Active = true))
    (hid : p.NodeID = idp.NodeId) (hactive : idp.Active = true) :
    getIdentityInfoLoop p (pre ++ idp :: post) result =
      { result with Ial := idp.Ial, ModeList := ofRepeated idp.Mode } := by
  unfold getIdentityInfoLoop
  rw [find?_first _ pre post idp (fun y hy => decide_eq_false (hpre y hy))
    (decide_eq_true ⟨hid, hactive⟩)]

theorem getIdentityInfoLoop_none (p : GetIdentityInfoParam) (idps : List IdPInRefGroup)
    (result : GetIdentityInfoResult)
    (h : ∀ x ∈ idps, ¬ (p.NodeID = x.NodeId ∧ x.Active = true)) :
    getIdentityInfoLoop p idps result = result := by
  unfold getIdentityInfoLoop
  rw [List.find?_eq_none.2 (fun x hx => by simpa using h x hx)]

theorem getIdentityInfo_of_group (c : Codec) (app : ABCIApplication) (param : String)
    (p : GetIdentityInfoParam) (code : String) (g : ReferenceGroup)
    (hp : c.unmarshalGetIdentityInfoParam param = .ok p)
    (hnot : ¬ (p.ReferenceGroupCode ≠ "" ∧ p.IdentityNamespace ≠ "" ∧
      p.IdentityIdentifierHash ≠ ""))
    (hres : identityInfoResolvesTo app p code) (hg : groupRecord c app code g) :
    getIdentityInfo c app param =
      if (getIdentityInfoLoop p g.Idps { Ial := 0, ModeList := none }).Ial ≤ 0 then
        notFoundResponse app
      else
        { Value := some (.json (getIdentityInfoLoop p g.Idps { Ial := 0, ModeList := none })),
          Log := "success", Height := app.state.Height } := by
  obtain ⟨v, hget, hdec⟩ := hg
  unfold getIdentityInfo
  simp only [hp]
  rw [if_neg hnot]
  rcases hres with ⟨hcode, rfl⟩ | ⟨hcode, hindex⟩
  · rw [if_pos hcode]
    simp only [hget, hdec]
    rfl
  · rw [if_neg (not_not.2 hcode)]
    simp only [hindex, hget, hdec]
    rfl

/-- C38: when the parameter decodes, does not supply all three of group code,
namespace and identifier hash, and resolves to a stored group that decodes,
`getIdentityInfo` looks at the first association in group order whose node ID
is the requested one and that is active: with a level above 0 it returns the
status `success` with that level and that mode list, with a level of 0 or
below it returns the body `{}` with the status `not found`; so it does when
the group has no such association. -/
theorem getIdentityInfo_first_active_association (c : Codec) (app : ABCIApplication)
    (param : String) (p : GetIdentityInfoParam) (code : String) (g : ReferenceGroup)
    (hp : c.unmarshalGetIdentityInfoParam param = .ok p)
    (hnot : ¬ (p.ReferenceGroupCode ≠ "" ∧ p.IdentityNamespace ≠ "" ∧
      p.IdentityIdentifierHash ≠ ""))
    (hres : identityInfoResolvesTo app p code) (hg : groupRecord c app code g) :
    (∀ pre idp post, g.Idps = pre ++ idp :: post →
      (∀ x ∈ pre, ¬ (p.NodeID = x.NodeId ∧ x.Active = true)) →
      p.NodeID = idp.NodeId → idp.Active = true →
      (0 < idp.Ial → getIdentityInfo c app param =
        { Value := some (.json { Ial := idp.Ial, ModeList := ofRepeated idp.Mode }),
          Log := "success", Height := app.state.Height }) ∧
      (idp.Ial ≤ 0 → getIdentityInfo c app param =
        { Value := some (.raw "{}"), Log := "not found", Height := app.state.Height })) ∧
    ((∀ x ∈ g.Idps, ¬ (p.NodeID = x.NodeId ∧ x.Active = true)) →
      getIdentityInfo c app param =
        { Value := some (.raw "{}"), Log := "not found", Height := app.state.Height }) := by
  have hgroup := getIdentityInfo_of_group c app param p code g hp hnot hres hg
  refine ⟨?_, ?_⟩
  · intro pre idp post hsplit hpre hid hactive
    rw [hsplit, getIdentityInfoLoop_first p pre post idp _ hpre hid hactive] at hgroup
    refine ⟨fun hpos => ?_, fun hle => ?_⟩
    · rw [hgroup, if_neg (not_le.2 hpos)]
    · rw [hgroup, if_pos hle]
      rfl
  · intro hnone
    rw [getIdentityInfoLoop_none p g.Idps _ hnone] at hgroup
    rw [hgroup, if_pos (le_refl (0 : ℚ))]
    rfl

theorem getIdentityInfo_first_active_association_witness :
    getIdentityInfo demoCodec demoIdentityApp "group g2, idp1" =
      { Value := some (.json { Ial := 2, ModeList := some [2] }), Log := "success",
        Height := 11 } :=
  ((getIdentityInfo_first_active_association demoCodec demoIdentityApp "group g2, idp1"
    { ReferenceGroupCode := "g2", IdentityNamespace := "", IdentityIdentifierHash := "",
      NodeID := "idp1" } "g2" demoGroup2 rfl (fun h => h.2.1 rfl) (Or.inl ⟨by decide, rfl⟩)
    ⟨"bytes-g2", rfl, rfl⟩).1 [] _ _ rfl (fun _ h => absurd h (List.not_mem_nil _)) rfl rfl).1
    (by norm_num)

/-! ## The keys of the identity reverse index -/

theorem append_cons_inj_of_not_mem {α : Type} (s : α) (a a0 b b0 : List α)
    (ha : s ∉ a) (ha0 : s ∉ a0) (h : a ++ s :: b = a0 ++ s :: b0) : a = a0 ∧ b = b0 := by
  induction a generalizing a0 with
  | nil =>
    cases a0 with
    | nil => exact ⟨rfl, (List.cons.inj h).2⟩
    | cons x xs =>
      have hx : s = x := (List.cons.inj h).1
      exact absurd (hx ▸ List.mem_cons_self _ _) ha0
  | cons y ys ih =>
    cases a0 with
    | nil =>
      have hy : y = s := (List.cons.inj h).1
      exact absurd (hy ▸ List.mem_cons_self _ _) ha
    | cons x xs =>
      obtain ⟨hyx, hrest⟩ := List.cons.inj h
      obtain ⟨hys, hb⟩ := ih xs (fun hm => ha (List.mem_cons_of_mem _ hm))
        (fun hm => ha0 (List.mem_cons_of_mem _ hm)) hrest
      exact ⟨by rw [hyx, hys], hb⟩

theorem identityToRefCodeKey_data (identityNamespace identityIdentifierHash : String) :
    (identityToRefCodeKey identityNamespace identityIdentifierHash).data =
      identityToRefCodeKeyPrefix.data ++ keySeparator.data ++
        (identityNamespace.data ++ '|' :: identityIdentifierHash.data) := by
  unfold identityToRefCodeKey
  simp only [String.data_append, List.append_assoc]
  rfl

/-- C39: the key of the identity reverse index, `identityToRefCodeKey` followed
by `|`, the namespace, `|` and the identifier hash, is injective on the pairs
whose namespace does not contain the character `|`: two such pairs that differ
have different keys. -/
theorem identityToRefCodeKey_injective (ns₁ hash₁ ns₂ hash₂ : String)
    (h₁ : '|' ∉ ns₁.data) (h₂ : '|' ∉ ns₂.data) (hne : (ns₁, hash₁) ≠ (ns₂, hash₂)) :
    identityToRefCodeKey ns₁ hash₁ ≠ identityToRefCodeKey ns₂ hash₂ := by
  intro heq
  apply hne
  have hdata := congrArg String.data heq
  rw [identityToRefCodeKey_data, identityToRefCodeKey_data] at hdata
  obtain ⟨hns, hhash⟩ := append_cons_inj_of_not_mem _ _ _ _ _ h₁ h₂
    (List.append_cancel_left hdata)
  rw [String.ext hns, String.ext hhash]

theorem identityToRefCodeKey_injective_witness :
    identityToRefCodeKey "citizen_id" "h1" ≠ identityToRefCodeKey "citizen_id" "h2" ∧
    identityToRefCodeKey "citizen_id" "h1" = "identityToRefCodeKey|citizen_id|h1" :=
  ⟨identityToRefCodeKey_injective "citizen_id" "h1" "citizen_id" "h2" (by decide) (by decide)
    (by decide), by decide⟩

/-- A namespace that contains the separator: the pairs `(a|b, c)` and
`(a, b|c)` differ and have the same key. -/
theorem identityToRefCodeKey_separator_in_namespace :
    (("a|b", "c") : String × String) ≠ ("a", "b|c") ∧
    identityToRefCodeKey "a|b" "c" = identityToRefCodeKey "a" "b|c" := by
  decide

/-! ## Addresses written, then read -/

theorem toMsqAddress_toMQ (addresses : List MsqAddress) :
    (addresses.map toMQ).map toMsqAddress = addresses := by
  induction addresses with
  | nil => rfl
  | cons a rest ih =>
    simp only [List.map_cons, ih]
    rfl

/-- C40: let `setMqAddresses` with a non-empty address list end with the code
`OK` for the node `nodeID`, let the decoder of node records invert their
encoder, and let `app0` be an application whose finalized state is what the
unit of work left. Then `getMqAddresses` for `nodeID` on `app0` returns the
status `success` and exactly the addresses of the parameter, in their order. -/
theorem mq_addresses_round_trip (c : Codec) (app app0 : ABCIApplication)
    (param nodeID qparam : String) (p : SetMqAddressesParam)
    (hp : c.unmarshalSetMqAddressesParam param = .ok p) (hne : p.Addresses ≠ [])
    (hok : (setMqAddresses c app param nodeID).1.Code = code.OK)
    (hrt : ∀ nd bytes, c.marshalNodeDetail nd = .ok bytes → c.unmarshalNodeDetail bytes = .ok nd)
    (hcommit : ∀ k, app0.state.Get k true =
      (setMqAddresses c app param nodeID).2.state.Get k false)
    (hq : c.unmarshalGetMqAddressesParam qparam = .ok { NodeID := nodeID }) :
    getMqAddresses c app0 qparam =
      { Value := some (.json (some p.Addresses)), Log := "success",
        Height := app0.state.Height } := by
  obtain ⟨p0, nd, bytes, hp0, _, hmarshal, hset⟩ := setMqAddresses_code_ok c app param nodeID hok
  rw [hp] at hp0
  cases hp0
  have hget : app0.state.Get (nodeIDKeyPrefix ++ keySeparator ++ nodeID) true = some bytes := by
    rw [hcommit, hset]
    exact State.Get_Set_self _ _ _
  rw [getMqAddresses_of_record c app0 qparam bytes { NodeID := nodeID } _ hq hget
    (hrt _ _ hmarshal)]
  have hmq : p.Addresses.map toMQ ≠ [] := fun h => hne (List.map_eq_nil_iff.1 h)
  rw [if_neg hmq, toMsqAddress_toMQ]

theorem mq_addresses_round_trip_witness :
    getMqAddresses demoCodec demoCommittedApp "idp1" =
      { Value := some (.json (some [{ IP := "10.9.9.9", Port := 1234 }])), Log := "success",
        Height := 8 } :=
  mq_addresses_round_trip demoCodec demoApp demoCommittedApp "one address" "idp1" "idp1"
    { Addresses := [{ IP := "10.9.9.9", Port := 1234 }] } rfl (by decide) rfl
    demoCodec_round_trip (fun _ => rfl) rfl

end NDID
